import Mathlib

/-!
# legitagent: generation and reverse parsing of client identities

A shallow embedding of the Go package `legitagent` (files `options.go`,
`profiles.go`, `parser.go`, `sorter.go`, `legitagent.go`, `bots.go`, `specs.go`,
`h2_settings.go`, `h2_randomizer.go`) together with theorems about it.

Conventions of the embedding

* A Go `string` is a Lean `String`. Every pattern and token the package looks for
  is ASCII, so matching on code points and matching on UTF-8 bytes agree.
* A Go `int` is an `Int`; no arithmetic is performed on versions except
  comparison, so no wrap-around can occur. `strconv.Atoi` is the one place where
  the 64-bit range matters, and it is modelled with its range check.
* A Go `map[K]V` is an association list `List (K × V)`; `m[k]` is `mapGet`,
  which yields the zero value of `V` for an absent key, `m[k] = v` is `mapSet`.
  A loop `for k := range m` that only looks for an extremum visits the list in
  list order (the theorems quantify over every list, hence over every iteration
  order); a loop that collects the keys into a slice receives them in an order
  taken from the random source (`rangeKeys`).
* The pseudo-random library `fastrand` is a stream of raw draws `Rng`, threaded
  through every function that draws.
* A function returning `(T, error)` returns `Except Err T`; a helper that can
  only fail by a run-time panic returns an `Option`.
-/

namespace Legitagent

/-! ## Errors (`parser.go`, lines 15-19, and the `fmt.Errorf` values) -/

/-- The error values of the package. The first three are the exported sentinel
errors of `parser.go`; `errorf` stands for an error built by `fmt.Errorf`, kept
with its format string. The last one, `panic`, is no Go error value: it marks a
run that ends in a run-time panic (an index out of range, a choice from an empty
slice) and so returns nothing at all. -/
inductive Err where
  | ErrUnsupportedBrowser
  | ErrUnsupportedOS
  | ErrUnsupportedVersion
  | errorf (format : String)
  | panic
  deriving DecidableEq, Repr

deriving instance DecidableEq for Except

/-! ## Basic types (`options.go`) -/

abbrev Browser := String
abbrev BrowserRandom : Browser := "random"
abbrev BrowserChrome : Browser := "chrome"
abbrev BrowserOpera : Browser := "opera"
abbrev BrowserEdge : Browser := "edge"
abbrev BrowserBrave : Browser := "brave"
abbrev BrowserFirefox : Browser := "firefox"
abbrev BrowserSafari : Browser := "safari"

abbrev Platform := String
abbrev PlatformRandom : Platform := "random"
abbrev PlatformDesktop : Platform := "desktop"
abbrev PlatformMobile : Platform := "mobile"

abbrev OperatingSystem := String
abbrev OSRandom : OperatingSystem := "random"
abbrev OSWindows : OperatingSystem := "windows"
abbrev OSWindows11 : OperatingSystem := "windows11"
abbrev OSLinux : OperatingSystem := "linux"
abbrev OSMac : OperatingSystem := "mac"
abbrev OSAndroid : OperatingSystem := "android"
abbrev OSiOS : OperatingSystem := "ios"
abbrev OSChromeOS : OperatingSystem := "chromeos"
abbrev osMacIntel : OperatingSystem := "mac_intel"
abbrev osMacAppleSilicon : OperatingSystem := "mac_apple_silicon"
abbrev osUbuntu : OperatingSystem := "ubuntu"
abbrev osFedora : OperatingSystem := "fedora"

abbrev RequestType := String
abbrev RequestTypeNavigate : RequestType := "navigate"
abbrev RequestTypeSubresource : RequestType := "subresource"
abbrev RequestTypeXHR : RequestType := "xhr"

/-! ## Go maps as association lists -/

/-- The keys of a map, in the order the association list stores them. -/
def mapKeys {κ ν : Type} (m : List (κ × ν)) : List κ := m.map Prod.fst

/-- Lookup `m[k]` with presence flag: `v, ok := m[k]`. -/
def mapFind {κ ν : Type} [DecidableEq κ] (m : List (κ × ν)) (k : κ) : Option ν :=
  match m with
  | [] => none
  | (k', v) :: rest => if k' = k then some v else mapFind rest k

/-- Lookup `m[k]`: the stored value, or the zero value of the value type. -/
def mapGet {κ ν : Type} [DecidableEq κ] [Inhabited ν] (m : List (κ × ν)) (k : κ) : ν :=
  (mapFind m k).getD default

/-! ## Profile records (`profiles.go`, lines 12-65) -/

/-- The type `utls.ClientHelloID` of the TLS library: the client name and the
version string (the seed and weights pointers are nil in every identity the
package uses). -/
structure ClientHelloID where
  Client : String
  Version : String
  deriving DecidableEq, Repr

/-- The zero value `utls.ClientHelloID{}`. -/
instance : Inhabited ClientHelloID := ⟨⟨"", ""⟩⟩

def HelloChrome_120 : ClientHelloID := ⟨"Chrome", "120"⟩
def HelloChrome_131 : ClientHelloID := ⟨"Chrome", "131"⟩
def HelloChrome_133 : ClientHelloID := ⟨"Chrome", "133"⟩
def HelloFirefox_120 : ClientHelloID := ⟨"Firefox", "120"⟩
def HelloSafari_16_0 : ClientHelloID := ⟨"Safari", "16.0"⟩
def HelloEdge_106 : ClientHelloID := ⟨"Edge", "106"⟩
def HelloGolang : ClientHelloID := ⟨"Golang", "0"⟩

/-- A finite Go `float64`, kept as the exact decimal fraction `mant / 10 ^ scale`
(every finite binary floating-point number is such a fraction). A literal of the
source such as `0.9` is kept as the decimal it denotes, `9 / 10 ^ 1`; the
`float64` nearest to it has the same sign and the same one-decimal rendering. -/
structure Float64 where
  mant : Int := 0
  scale : Nat := 0
  deriving DecidableEq, Repr

/-- The test `x > 0` on a `float64`. -/
def Float64.isPos (x : Float64) : Bool := decide (0 < x.mant)

/-- The call `strconv.FormatFloat(x, 'f', 1, 64)`: the value rounded to one
decimal place, ties to even, written with sign, integer part, point and one
digit. -/
def FormatFloat1 (x : Float64) : String :=
  let n := x.mant.natAbs * 10
  let d := 10 ^ x.scale
  let q := n / d
  let r := n % d
  let t := if 2 * r > d ∨ (2 * r = d ∧ q % 2 = 1) then q + 1 else q
  (if x.mant < 0 then "-" else "") ++ toString (t / 10) ++ "." ++ toString (t % 10)

/-- One part of an accept template (`AcceptHeaderPart`). -/
structure AcceptHeaderPart where
  Value : String
  Q : Float64 := {}
  Extras : List String := []
  deriving DecidableEq, Repr

abbrev BrowserFamily := String
abbrev Chromium : BrowserFamily := "Chromium"
abbrev Gecko : BrowserFamily := "Gecko"
abbrev WebKit : BrowserFamily := "WebKit"

/-- The record `tlsProfile`; its `ClientSpec` function field is nil in every
profile and is never called, so only `HelloID` is kept. -/
structure tlsProfile where
  HelloID : ClientHelloID := default
  deriving DecidableEq, Repr

structure versionProfile where
  BuildNumber : Int := 0
  AcceptHeaderPatterns : List (List AcceptHeaderPart) := []
  AcceptHeaderPatternsXHR : List (List AcceptHeaderPart) := []
  TLS : tlsProfile := {}
  GeckoRevision : String := ""
  WebKitVersion : String := ""
  MobileVersion : String := ""
  SafariVersion : String := ""
  SupportsH2 : Bool := false
  deriving DecidableEq, Repr

/-- The zero value `versionProfile{}`. -/
instance : Inhabited versionProfile := ⟨{}⟩

structure osProfile where
  Name : String := ""
  PlatformToken : String := ""
  Version : String := ""
  Arch : String := ""
  BitnessHint : String := ""
  IsMobile : Bool := false
  deriving DecidableEq, Repr

/-- The zero value `osProfile{}`. -/
instance : Inhabited osProfile := ⟨{}⟩

/-- The HTTP/2 setting identifiers of `golang.org/x/net/http2`. -/
abbrev SettingID := Nat
abbrev SettingHeaderTableSize : SettingID := 1
abbrev SettingEnablePush : SettingID := 2
abbrev SettingMaxConcurrentStreams : SettingID := 3
abbrev SettingInitialWindowSize : SettingID := 4
abbrev SettingMaxFrameSize : SettingID := 5
abbrev SettingMaxHeaderListSize : SettingID := 6

/-- The record `browserProfile`. The field `H2Settings` is a function without
arguments in the source; it is kept as the table that function returns. -/
structure browserProfile where
  Brand : String := ""
  Family : BrowserFamily := ""
  UASuffix : String := ""
  Versions : List (Int × versionProfile) := []
  ChromiumBased : Bool := false
  H2Settings : List (SettingID × Nat) := []
  deriving DecidableEq, Repr

/-- The zero value `browserProfile{}`. -/
instance : Inhabited browserProfile := ⟨{}⟩

/-! ## HTTP/2 settings tables (`h2_settings.go`) -/

def GetChromiumH2Settings : List (SettingID × Nat) :=
  [ (SettingHeaderTableSize, 65536), (SettingMaxConcurrentStreams, 1000),
    (SettingInitialWindowSize, 6291456), (SettingMaxHeaderListSize, 262144) ]

def GetGeckoH2Settings : List (SettingID × Nat) :=
  [ (SettingHeaderTableSize, 65536), (SettingMaxConcurrentStreams, 1000),
    (SettingInitialWindowSize, 131072), (SettingMaxHeaderListSize, 262144) ]

def GetWebKitH2Settings : List (SettingID × Nat) :=
  [ (SettingHeaderTableSize, 4096), (SettingMaxConcurrentStreams, 100),
    (SettingInitialWindowSize, 2097152), (SettingMaxHeaderListSize, 16384) ]

/-! ## Profile tables (`profiles.go`, lines 67-166) -/

def acceptHeaderPatternsChrome : List (List AcceptHeaderPart) :=
  [ [ { Value := "text/html" }, { Value := "application/xhtml+xml" },
      { Value := "application/xml", Q := ⟨9, 1⟩ }, { Value := "image/avif" },
      { Value := "image/webp" }, { Value := "image/apng" }, { Value := "*/*", Q := ⟨8, 1⟩ },
      { Value := "application/signed-exchange", Q := ⟨7, 1⟩, Extras := ["v=b3"] } ],
    [ { Value := "text/html" }, { Value := "application/xhtml+xml" },
      { Value := "application/xml", Q := ⟨9, 1⟩ }, { Value := "image/avif" },
      { Value := "image/webp" }, { Value := "image/apng" }, { Value := "*/*", Q := ⟨8, 1⟩ } ] ]

def acceptHeaderPatternsFirefox : List (List AcceptHeaderPart) :=
  [ [ { Value := "text/html" }, { Value := "application/xhtml+xml" },
      { Value := "application/xml", Q := ⟨9, 1⟩ }, { Value := "image/avif" },
      { Value := "image/webp" }, { Value := "*/*", Q := ⟨8, 1⟩ } ] ]

def acceptHeaderPatternsSafari : List (List AcceptHeaderPart) :=
  [ [ { Value := "text/html" }, { Value := "application/xhtml+xml" },
      { Value := "application/xml", Q := ⟨9, 1⟩ }, { Value := "*/*", Q := ⟨8, 1⟩ } ] ]

def acceptHeaderPatternsXHR : List (List AcceptHeaderPart) := [ [ { Value := "*/*" } ] ]

def tlsProfileChrome120 : tlsProfile := { HelloID := HelloChrome_120 }
def tlsProfileFirefox120 : tlsProfile := { HelloID := HelloFirefox_120 }
def tlsProfileSafari16 : tlsProfile := { HelloID := HelloSafari_16_0 }

/-- The shape shared by every entry of `chromeVersions` and `edgeVersions`. -/
def chromiumVersion (build : Int) : versionProfile :=
  { BuildNumber := build, AcceptHeaderPatterns := acceptHeaderPatternsChrome,
    AcceptHeaderPatternsXHR := acceptHeaderPatternsXHR, TLS := tlsProfileChrome120,
    SupportsH2 := true }

def chromeVersions : List (Int × versionProfile) :=
  [ (114, chromiumVersion 5735), (116, chromiumVersion 5845), (118, chromiumVersion 5993),
    (120, chromiumVersion 6099), (124, chromiumVersion 6367), (128, chromiumVersion 6636),
    (130, chromiumVersion 6735), (133, chromiumVersion 6912), (140, chromiumVersion 7255) ]

def edgeVersions : List (Int × versionProfile) :=
  [ (114, chromiumVersion 1823), (116, chromiumVersion 1938), (118, chromiumVersion 2088),
    (120, chromiumVersion 2210), (124, chromiumVersion 2478), (128, chromiumVersion 2739),
    (133, chromiumVersion 2988), (140, chromiumVersion 3265) ]

def braveVersions : List (Int × versionProfile) := chromeVersions

/-- The shape shared by every entry of the Firefox version table. -/
def firefoxVersion (rev : String) : versionProfile :=
  { GeckoRevision := rev, AcceptHeaderPatterns := acceptHeaderPatternsFirefox,
    AcceptHeaderPatternsXHR := acceptHeaderPatternsXHR, TLS := tlsProfileFirefox120,
    SupportsH2 := true }

/-- The shape shared by every entry of the Safari version table. -/
def safariVersion (mobile safari : String) : versionProfile :=
  { WebKitVersion := "605.1.15", MobileVersion := mobile, SafariVersion := safari,
    AcceptHeaderPatterns := acceptHeaderPatternsSafari,
    AcceptHeaderPatternsXHR := acceptHeaderPatternsXHR, TLS := tlsProfileSafari16,
    SupportsH2 := true }

def firefoxVersions : List (Int × versionProfile) :=
  [ (115, firefoxVersion "115.0"), (120, firefoxVersion "120.0"),
    (127, firefoxVersion "127.0"), (128, firefoxVersion "128.0") ]

def safariVersions : List (Int × versionProfile) :=
  [ (16, safariVersion "20F66" "16.5"), (17, safariVersion "15E148" "17.5") ]

def browserProfiles : List (Browser × browserProfile) :=
  [ (BrowserChrome,
      { Brand := "Google Chrome", Family := Chromium, UASuffix := "",
        ChromiumBased := true, Versions := chromeVersions, H2Settings := GetChromiumH2Settings }),
    (BrowserOpera,
      { Brand := "Opera", Family := Chromium, UASuffix := "OPR/%s",
        ChromiumBased := true, Versions := chromeVersions, H2Settings := GetChromiumH2Settings }),
    (BrowserEdge,
      { Brand := "Microsoft Edge", Family := Chromium, UASuffix := "Edg/%s",
        ChromiumBased := true, Versions := edgeVersions, H2Settings := GetChromiumH2Settings }),
    (BrowserBrave,
      { Brand := "Brave", Family := Chromium, UASuffix := "",
        ChromiumBased := true, Versions := braveVersions, H2Settings := GetChromiumH2Settings }),
    (BrowserFirefox,
      { Brand := "Firefox", Family := Gecko, ChromiumBased := false,
        Versions := firefoxVersions, H2Settings := GetGeckoH2Settings }),
    (BrowserSafari,
      { Brand := "Safari", Family := WebKit, ChromiumBased := false,
        Versions := safariVersions, H2Settings := GetWebKitH2Settings }) ]

def osProfiles : List (OperatingSystem × osProfile) :=
  [ (OSWindows,
      { Name := "Windows", PlatformToken := "Windows NT 10.0; Win64; x64",
        Version := "10.0.0", Arch := "x86", BitnessHint := "64", IsMobile := false }),
    (OSWindows11,
      { Name := "Windows", PlatformToken := "Windows NT 10.0; Win64; x64",
        Version := "15.0.0", Arch := "x86", BitnessHint := "64", IsMobile := false }),
    (osMacIntel,
      { Name := "macOS", PlatformToken := "Macintosh; Intel Mac OS X 10_15_7",
        Version := "14.5.0", Arch := "x86", BitnessHint := "64", IsMobile := false }),
    (osMacAppleSilicon,
      { Name := "macOS", PlatformToken := "Macintosh; ARM Mac OS X 10_15_7",
        Version := "14.5.0", Arch := "arm", BitnessHint := "64", IsMobile := false }),
    (OSLinux,
      { Name := "Linux", PlatformToken := "X11; Linux x86_64",
        Version := "", Arch := "x86", BitnessHint := "64", IsMobile := false }),
    (osUbuntu,
      { Name := "Linux", PlatformToken := "X11; Ubuntu; Linux x86_64",
        Version := "", Arch := "x86", BitnessHint := "64", IsMobile := false }),
    (osFedora,
      { Name := "Linux", PlatformToken := "X11; Fedora; Linux x86_64",
        Version := "", Arch := "x86", BitnessHint := "64", IsMobile := false }),
    (OSAndroid,
      { Name := "Android", PlatformToken := "Linux; Android 14; \x7bdevice_model\x7d",
        Version := "14.0.0", Arch := "arm", BitnessHint := "64", IsMobile := true }),
    (OSiOS,
      { Name := "iOS", PlatformToken := "iPhone; CPU iPhone OS 17_5_1 like Mac OS X",
        Version := "17.5.1", IsMobile := true }),
    (OSChromeOS,
      { Name := "Chrome OS", PlatformToken := "X11; CrOS x86_64 14541.0.0",
        Version := "14541.0.0", Arch := "x86", BitnessHint := "64", IsMobile := false }) ]

def greaseBrands : List String :=
  [ "\"Not/A)Brand\";v=\"8\"", "\"Not;A Brand\";v=\"99\"", "\"Not(A:Brand\";v=\"24\"",
    "\"Chromium\";v=\"99\"" ]

def androidDevices : List String :=
  [ "Pixel 7", "Pixel 8 Pro", "SM-S928B", "SM-G991U", "SM-F936U", "2201116SG", "V2109",
    "SM-A525F", "Pixel 6a", "SM-A536U", "Galaxy S23 Ultra" ]

def subresourceDests : List String := ["style", "script", "image", "font", "empty"]

/-! ## Version matcher (`parser.go`, lines 157-170) -/

/-- One iteration of the loop of `findClosestVersionProfile`:
`if v <= targetVersion && v > closestVersion { closestVersion = v }`. -/
def closestStep (targetVersion : Int) (closestVersion v : Int) : Int :=
  if v ≤ targetVersion ∧ v > closestVersion then v else closestVersion

/-- The function `findClosestVersionProfile` of `parser.go`. The Go function
returns `(versionProfile{}, 0, ErrUnsupportedVersion)` on failure and
`(versions[closestVersion], closestVersion, nil)` on success. -/
def findClosestVersionProfile (versions : List (Int × versionProfile)) (targetVersion : Int) :
    Except Err (versionProfile × Int) :=
  let closestVersion := (mapKeys versions).foldl (closestStep targetVersion) (-1)
  if closestVersion = -1 then
    .error .ErrUnsupportedVersion
  else
    .ok (mapGet versions closestVersion, closestVersion)

/-! ## Go strings (`strings`, `strconv`) -/

/-- The test `strings.Contains` on character lists: `sub` occurs in `s`. -/
def containsChars (sub : List Char) : List Char → Bool
  | [] => sub.isEmpty
  | c :: cs => sub.isPrefixOf (c :: cs) || containsChars sub cs

/-- The function `strings.Contains(s, substr)`. -/
def Contains (s substr : String) : Bool := containsChars substr.data s.data

/-- Remove the prefix `p` from `s` when `s` starts with it. -/
def dropPrefix : List Char → List Char → Option (List Char)
  | [], s => some s
  | _ :: _, [] => none
  | p :: ps, c :: cs => if p = c then dropPrefix ps cs else none

/-- The ASCII digits, the class `\d` of Go regular expressions. -/
def isDigit (c : Char) : Bool := decide ('0' ≤ c ∧ c ≤ '9')

/-- The numeric value of an ASCII digit. -/
def digitVal (c : Char) : Int := (c.toNat : Int) - 48

/-- The largest value of the Go type `int` on a 64-bit platform, `math.MaxInt`. -/
def MaxInt : Int := 9223372036854775807

/-- The value of a digit string read in base ten. -/
def decimalValue (ds : List Char) : Int := ds.foldl (fun acc c => acc * 10 + digitVal c) 0

/-- The function `strconv.Atoi` on an unsigned digit string, which is all the
package ever passes to it (the capture of `(\d+)`): the decimal value, or an
error when the string is empty, holds a character that is no digit, or denotes a
value above `math.MaxInt`. The error is `strconv.NumError`; only its
existence matters to the caller. -/
def Atoi (ds : List Char) : Option Int :=
  if ds.isEmpty || !ds.all isDigit then none
  else if decimalValue ds ≤ MaxInt then some (decimalValue ds) else none

/-- The function `strconv.Itoa` and the verb `%d` of `fmt.Sprintf`. -/
def Itoa (n : Int) : String := toString n

/-- Split `s` at the first occurrence of the non-empty separator `sep`:
the text before it and, when the separator occurs, the text after it. -/
def splitOnce (sep : List Char) : List Char → List Char × Option (List Char)
  | [] => ([], none)
  | c :: cs =>
    match dropPrefix sep (c :: cs) with
    | some rest => ([], some rest)
    | none => ((c :: (splitOnce sep cs).1), (splitOnce sep cs).2)

/-- The function `strings.Join`. -/
def Join (parts : List String) (sep : String) : String := sep.intercalate parts

/-! ## The regular expressions of `uaRegexes` (`parser.go`, lines 20-30)

The six patterns use only literal text, `\d+`, one capture group `(\d+)` and
`.*`. They are kept as token lists and run by a backtracking matcher that tries
start positions from the left and, at each repetition, the longest run first:
the leftmost-first semantics of Go's `regexp` package for this fragment. -/

/-- A token of a pattern. -/
inductive ReTok where
  | lit (text : String)
  | digitsCap
  | digits
  | anyStar
  deriving DecidableEq, Repr

/-- Greedy `x*` for a one-character class: consume one more character when
possible and continue, and fall back to stopping here when that fails. The
continuation receives the consumed characters (reversed) and the rest. -/
def starGreedy {ρ : Type} (cls : Char → Bool) (k : List Char → List Char → Option ρ) :
    List Char → List Char → Option ρ
  | acc, [] => k acc []
  | acc, c :: cs =>
    if cls c then
      match starGreedy cls k (c :: acc) cs with
      | some r => some r
      | none => k acc (c :: cs)
    else k acc (c :: cs)

/-- Greedy `x+` for a one-character class. -/
def plusGreedy {ρ : Type} (cls : Char → Bool) (k : List Char → List Char → Option ρ) :
    List Char → Option ρ
  | [] => none
  | c :: cs => if cls c then starGreedy cls k [c] cs else none

/-- Match a pattern at the start of `s`; the result is the text of the capture
group. `.` matches every character except the line feed. -/
def matchHere : List ReTok → List Char → List Char → Option (List Char)
  | [], cap, _ => some cap
  | .lit text :: rest, cap, s =>
    match dropPrefix text.data s with
    | some s' => matchHere rest cap s'
    | none => none
  | .digitsCap :: rest, _, s => plusGreedy isDigit (fun acc s' => matchHere rest acc.reverse s') s
  | .digits :: rest, cap, s => plusGreedy isDigit (fun _ s' => matchHere rest cap s') s
  | .anyStar :: rest, cap, s =>
    starGreedy (fun c => decide (c ≠ '\n')) (fun _ s' => matchHere rest cap s') [] s

/-- The call `re.FindStringSubmatch(s)` reduced to what the parser reads from it:
`none` when the pattern matches nowhere (the Go result is nil, of length 0),
otherwise the text of group 1 of the leftmost match (the Go result has length 2). -/
def FindStringSubmatch (re : List ReTok) : List Char → Option (List Char)
  | [] => matchHere re [] []
  | c :: cs =>
    match matchHere re [] (c :: cs) with
    | some cap => some cap
    | none => FindStringSubmatch re cs

/-- The table `uaRegexes`, in source order. -/
def uaRegexes : List (Browser × List ReTok) :=
  [ (BrowserSafari, [.lit "Version/", .digitsCap, .lit ".", .anyStar, .lit "Safari/"]),
    (BrowserEdge, [.lit "Edg/", .digitsCap, .lit ".", .digits]),
    (BrowserOpera, [.lit "OPR/", .digitsCap, .lit ".", .digits]),
    (BrowserBrave, [.lit "Brave/", .digitsCap, .lit ".", .digits]),
    (BrowserChrome, [.lit "Chrome/", .digitsCap, .lit ".", .digits]),
    (BrowserFirefox, [.lit "Firefox/", .digitsCap, .lit ".", .digits]) ]

/-! ## The reverse parser, classification (`parser.go`, lines 62-104) -/

structure parsedUA where
  Browser : Browser
  Version : Int
  OS : OperatingSystem
  deriving DecidableEq, Repr

/-- The loop of `parseUserAgentString` over `uaRegexes`: the first pattern that
matches sets browser and version and ends the loop; a version that `Atoi`
rejects ends the whole function with a wrapped error. When no pattern matches
the fields keep their zero values. -/
def parseBrowserLoop (ua : List Char) : List (Browser × List ReTok) → Except Err (Browser × Int)
  | [] => .ok ("", 0)
  | (browser, re) :: rest =>
    match FindStringSubmatch re ua with
    | some digits =>
      match Atoi digits with
      | some v => .ok (browser, v)
      | none => .error (.errorf "could not parse version from ua string: %w")
    | none => parseBrowserLoop ua rest

/-- The `switch` of `parseUserAgentString` on the operating-system tokens. -/
def parseOS (ua : String) : Option OperatingSystem :=
  if Contains ua "Windows NT 10.0" then some OSWindows11
  else if Contains ua "iPhone" || Contains ua "iPad" then some OSiOS
  else if Contains ua "Macintosh" then some osMacIntel
  else if Contains ua "Linux" then some OSLinux
  else if Contains ua "Android" then some OSAndroid
  else if Contains ua "CrOS" then some OSChromeOS
  else none

/-- The function `parseUserAgentString` of `parser.go`. -/
def parseUserAgentString (ua : String) : Except Err parsedUA :=
  match parseBrowserLoop ua.data uaRegexes with
  | .error e => .error e
  | .ok (browser, version) =>
    if browser = "" then .error .ErrUnsupportedBrowser
    else
      match parseOS ua with
      | some os => .ok { Browser := browser, Version := version, OS := os }
      | none => .error .ErrUnsupportedOS

/-! ## Map updates -/

/-- The assignment `m[k] = v`: overwrite the entry of `k`, or add one. -/
def mapSet {κ ν : Type} [DecidableEq κ] (m : List (κ × ν)) (k : κ) (v : ν) : List (κ × ν) :=
  match m with
  | [] => [(k, v)]
  | (k', v') :: rest => if k' = k then (k, v) :: rest else (k', v') :: mapSet rest k v

/-- The statement `delete(m, k)`. -/
def mapDelete {κ ν : Type} [DecidableEq κ] (m : List (κ × ν)) (k : κ) : List (κ × ν) :=
  m.filter (fun e => decide (e.1 ≠ k))

/-! ## The random source (package `fastrand`)

The package draws its random numbers from the external library `fastrand`. A run
of the generator is taken relative to the stream of raw draws it consumes:
`Rng` is that stream, and each library call takes what it needs from the front.
A statement "for every outcome of the random draws" quantifies over all
streams. -/

abbrev Rng := Nat → Nat

/-- The stream after one draw. -/
def Rng.advance (r : Rng) : Rng := fun i => r (i + 1)

/-- The call `fastrand.IntN(n)`: a number below `n`. -/
def IntN (n : Nat) (r : Rng) : Nat × Rng := (r 0 % n, r.advance)

/-- The call `fastrand.Bool()`. -/
def RandBool (r : Rng) : Bool × Rng := (r 0 % 2 == 1, r.advance)

/-- The call `fastrand.Choice(xs)`: one element of the slice; `none` stands for the
run-time panic on an empty slice. -/
def Choice {α : Type} (xs : List α) (r : Rng) : Option (α × Rng) :=
  match xs[r 0 % xs.length]? with
  | some x => some (x, r.advance)
  | none => none

/-- Exchange the entries at positions `i` and `j`, the `swap` callback the package
hands to `fastrand.Shuffle`. -/
def swapAt {α : Type} (xs : List α) (i j : Nat) : List α :=
  match xs[i]?, xs[j]? with
  | some a, some b => (xs.set i b).set j a
  | _, _ => xs

/-- The loop of `Shuffle`: for `i` from the top index down to `1`, exchange entry
`i` with an entry at a drawn position `j ≤ i`. -/
def shuffleLoop {α : Type} : Nat → List α → Rng → List α × Rng
  | 0, xs, r => (xs, r)
  | i + 1, xs, r => shuffleLoop i (swapAt xs (i + 1) (r 0 % (i + 2))) r.advance

/-- The call `fastrand.Shuffle(len(xs), swap)` with the exchanging callback: the
Fisher-Yates shuffle, which reaches every arrangement of the slice. -/
def Shuffle {α : Type} (xs : List α) (r : Rng) : List α × Rng :=
  shuffleLoop (xs.length - 1) xs r

/-- The loop `for k := range m` collecting the keys of a map: Go visits the
entries in an unspecified order, which is taken from the random source. -/
def rangeKeys {κ ν : Type} (m : List (κ × ν)) (r : Rng) : List κ × Rng :=
  Shuffle (mapKeys m) r

/-! ## Header ordering (`sorter.go`) -/

def headerPriority : List (String × Int) :=
  [ (":authority", 0), (":method", 1), (":path", 2), (":scheme", 3), (":status", 4),
    ("host", 10), ("connection", 11), ("upgrade", 12), ("upgrade-insecure-requests", 13),
    ("user-agent", 14),
    ("sec-ch-ua", 15), ("sec-ch-ua-arch", 16), ("sec-ch-ua-bitness", 17),
    ("sec-ch-ua-full-version", 18), ("sec-ch-ua-full-version-list", 19),
    ("sec-ch-ua-mobile", 20), ("sec-ch-ua-model", 21), ("sec-ch-ua-platform", 22),
    ("sec-ch-ua-platform-version", 23), ("sec-ch-ua-wow64", 24),
    ("authorization", 30), ("proxy-authorization", 31), ("cookie", 32), ("sec-gpc", 33),
    ("expect", 34), ("max-forwards", 35), ("from", 36),
    ("accept", 40), ("accept-charset", 41), ("accept-encoding", 42), ("accept-language", 43),
    ("te", 44),
    ("if-match", 50), ("if-none-match", 51), ("if-modified-since", 52),
    ("if-unmodified-since", 53), ("if-range", 54),
    ("range", 60),
    ("sec-fetch-site", 65), ("sec-fetch-mode", 66), ("sec-fetch-user", 67),
    ("sec-fetch-dest", 68),
    ("referer", 70),
    ("content-type", 80), ("content-length", 81), ("content-encoding", 82),
    ("content-language", 83), ("content-location", 84), ("content-md5", 85),
    ("content-range", 86), ("transfer-encoding", 87),
    ("date", 100), ("location", 101), ("retry-after", 102), ("set-cookie", 103),
    ("expires", 104), ("pragma", 105), ("cache-control", 106), ("etag", 107),
    ("last-modified", 108), ("age", 109), ("vary", 110), ("accept-ranges", 111),
    ("allow", 112), ("server", 113), ("via", 114), ("warning", 115),
    ("strict-transport-security", 120), ("content-security-policy", 121),
    ("permissions-policy", 123), ("cross-origin-opener-policy", 124),
    ("cross-origin-resource-policy", 125), ("cross-origin-embedder-policy", 126),
    ("x-frame-options", 127), ("x-content-type-options", 128), ("x-xss-protection", 129),
    ("report-to", 130), ("reporting-endpoints", 131),
    ("www-authenticate", 140), ("proxy-authenticate", 141),
    ("accept-ch", 150),
    ("alt-svc", 160),
    ("trailer", 170), ("x-ua-compatible", 171) ]

/-- Insert `a` into a list it originally preceded: `a` passes exactly the entries
that are strictly smaller than it. -/
def insertStable {α : Type} (less : α → α → Bool) (a : α) : List α → List α
  | [] => [a]
  | b :: l => if less b a then b :: insertStable less a l else a :: b :: l

/-- The call `sort.SliceStable(xs, less)`: a stable sort. For a `less` that is a
strict weak order the result of a stable sort is unique, so the algorithm Go
uses inside is immaterial; it is computed here by insertion. -/
def SliceStable {α : Type} (less : α → α → Bool) : List α → List α
  | [] => []
  | a :: l => insertStable less a (SliceStable less l)

/-- The priority the comparison of `PriorityHeaderSorter` gives a key: its entry
in `headerPriority`, or `math.MaxInt` when it has none. -/
def priorityOf (key : String) : Int :=
  match mapFind headerPriority key with
  | some p => p
  | none => MaxInt

/-- The comparison closure of `PriorityHeaderSorter`: `p1 < p2`. -/
def priorityLess (a b : String) : Bool := decide (priorityOf a < priorityOf b)

/-- The function `PriorityHeaderSorter` of `sorter.go`. -/
def PriorityHeaderSorter (keys : List String) : List String := SliceStable priorityLess keys

/-- The function `RandomHeaderSorter` of `sorter.go`. -/
def RandomHeaderSorter (keys : List String) (r : Rng) : List String × Rng := Shuffle keys r

/-- Shuffle the entries `keys[start : stop]` in place. -/
def shuffleRun (keys : List String) (start stop : Nat) (r : Rng) : List String × Rng :=
  let run := Shuffle ((keys.take stop).drop start) r
  (keys.take start ++ run.1 ++ keys.drop stop, run.2)

/-- The priority `ShuffledPriorityHeaderSorter` reads when it looks for the run
boundaries, `p, _ := headerPriority[key]`: the zero value `0` for an unknown key. -/
def runPriority (key : String) : Int := (mapFind headerPriority key).getD 0

/-- The `for` loop of `ShuffledPriorityHeaderSorter`, from index `i` on, with
`n` iterations left. It returns the keys, the value of `start` and the stream. -/
def shuffledLoop : Nat → Nat → Nat → List String → Rng → List String × Nat × Rng
  | 0, _, start, keys, r => (keys, start, r)
  | n + 1, i, start, keys, r =>
    if runPriority (keys.getD (i - 1) "") ≠ runPriority (keys.getD i "") then
      if i - start > 1 then
        shuffledLoop n (i + 1) i (shuffleRun keys start i r).1 (shuffleRun keys start i r).2
      else shuffledLoop n (i + 1) i keys r
    else shuffledLoop n (i + 1) start keys r

/-- The function `ShuffledPriorityHeaderSorter` of `sorter.go`. -/
def ShuffledPriorityHeaderSorter (keys : List String) (r : Rng) : List String × Rng :=
  let sorted := PriorityHeaderSorter keys
  let out := shuffledLoop (sorted.length - 1) 1 0 sorted r
  if out.1.length - out.2.1 > 1 then shuffleRun out.1 out.2.1 out.1.length out.2.2
  else (out.1, out.2.2)

/-- The type `HeaderSorter`, `func(keys []string)`: the slice after the call,
together with the random stream the call leaves. -/
abbrev HeaderSorter := List String → Rng → List String × Rng

/-- The sorter `PriorityHeaderSorter` as a value of type `HeaderSorter`. -/
def prioritySorter : HeaderSorter := fun keys r => (PriorityHeaderSorter keys, r)

/-! ## HTTP headers (`net/http`, `net/textproto`) -/

/-- The characters allowed in a header field name (the token characters of
RFC 7230), as in `textproto.validHeaderFieldByte`. -/
def validHeaderFieldByte (c : Char) : Bool :=
  c.isAlphanum || "!#$%&\x27*+-.^_\x60|~".data.contains c

/-- The letter-case pass of `textproto.canonicalMIMEHeaderKey`: the first letter
and every letter after a hyphen in upper case, all other letters in lower case.
The flag says whether the next letter starts a word. -/
def canonicalCase : Bool → List Char → List Char
  | _, [] => []
  | upper, c :: cs =>
    (if upper && c.isLower then c.toUpper else if !upper && c.isUpper then c.toLower else c) ::
      canonicalCase (c == '-') cs

/-- The function `http.CanonicalHeaderKey`: a name made only of token characters
is put in canonical letter case, any other string is returned unchanged. -/
def CanonicalHeaderKey (s : String) : String :=
  if s.data.all validHeaderFieldByte then String.mk (canonicalCase true s.data) else s

/-- The type `http.Header`, a map from canonical names to value lists. A nil map
and an empty map are both the empty list. -/
abbrev Header := List (String × List String)

/-- The method `Header.Set`. -/
def Header.Set (h : Header) (key value : String) : Header :=
  mapSet h (CanonicalHeaderKey key) [value]

/-- The method `Header.Get`: the first value stored under the canonical form of
the name, or the empty string. -/
def Header.Get (h : Header) (key : String) : String :=
  ((mapFind h (CanonicalHeaderKey key)).getD []).headD ""

/-! ## TLS handshake specification (`utls.ClientHelloSpec`) -/

/-- The extensions of the TLS library that `ChromeLatestSpec` lists, each with the
parameters the source gives it. -/
inductive TLSExtension where
  | SNIExtension
  | ExtendedMasterSecretExtension
  | RenegotiationInfoExtension (renegotiation : Nat)
  | SupportedCurvesExtension (curves : List Nat)
  | SupportedPointsExtension (points : List Nat)
  | SessionTicketExtension
  | ALPNExtension (protocols : List String)
  | StatusRequestExtension
  | SignatureAlgorithmsExtension (schemes : List Nat)
  | SCTExtension
  | KeyShareExtension (shares : List (Nat × List Nat))
  | PSKKeyExchangeModesExtension (modes : List Nat)
  | SupportedVersionsExtension (versions : List Nat)
  | UtlsCompressCertExtension (algorithms : List Nat)
  | UtlsGREASEExtension
  | UtlsPaddingExtension
  deriving DecidableEq, Repr

structure ClientHelloSpec where
  CipherSuites : List Nat
  CompressionMethods : List Nat
  Extensions : List TLSExtension
  deriving DecidableEq, Repr

/-! ## The generated record (`legitagent.go`, lines 15-22) -/

/-- The record `Agent`. A nil pointer is `none`; nil slices and nil maps are
empty lists. -/
structure Agent where
  UserAgent : String := ""
  Headers : Header := []
  HeaderOrder : List String := []
  ClientHelloSpec : Option ClientHelloSpec := none
  ClientHelloID : ClientHelloID := default
  H2Settings : List (SettingID × Nat) := []
  deriving DecidableEq, Repr

/-- The four pseudo-header names every header order starts with. -/
def pseudoHeaders : List String := [":method", ":authority", ":scheme", ":path"]

/-! ## Client hints (`legitagent.go`, lines 487-524) -/

/-- The function `buildSecChUa`. `none` stands for the panic of `parts[1]` on a
decoy brand without the text `;v=`. -/
def buildSecChUa (brand version : String) (isFull randomize : Bool) (r : Rng) :
    Option (String × Rng) :=
  match (if randomize then Choice greaseBrands r else some ("\"Not/A)Brand\";v=\"8\"", r)) with
  | none => none
  | some (greaseBrand, r1) =>
    let parts := splitOnce ";v=".data greaseBrand.data
    let greaseKey := String.mk parts.1
    match (if isFull then some "\"99.0.0.0\"" else parts.2.map String.mk) with
    | none => none
    | some greaseVersion =>
      let v := if isFull then version else String.mk (splitOnce ".".data version.data).1
      let brands :=
        [ "\"Chromium\";v=\"" ++ v ++ "\"",
          "\"" ++ brand ++ "\";v=\"" ++ v ++ "\"",
          greaseKey ++ ";v=" ++ greaseVersion ]
      if randomize then some (Join (Shuffle brands r1).1 ", ", (Shuffle brands r1).2)
      else some (Join brands ", ", r1)

/-! ## User-agent fragments (`profiles.go`, lines 18, 62-65, 168-256) -/

/-- The type `UAComponentGenerator`: a fragment of the user-agent string; the
random source is threaded through for the two generators that draw a device
model, and `none` stands for a panic. -/
abbrev UAComponentGenerator :=
  browserProfile → osProfile → versionProfile → String → Rng → Option (String × Rng)

structure platformProfile where
  MobileHint : String := ""
  ComponentGenerators : List (BrowserFamily × List UAComponentGenerator) := []

/-- The zero value `platformProfile{}`. -/
instance : Inhabited platformProfile := ⟨{}⟩

/-- The call `strings.Replace(s, old, new, 1)`: the first occurrence replaced. -/
def replaceFirst (s old new : String) : String :=
  match splitOnce old.data s.data with
  | (_, none) => s
  | (before, some after) => String.mk before ++ new ++ String.mk after

def MozillaGenerator : UAComponentGenerator := fun _ _ _ _ r => some ("Mozilla/5.0", r)
def KHTMLGenerator : UAComponentGenerator := fun _ _ _ _ r => some ("(KHTML, like Gecko)", r)
def ChromeGenerator : UAComponentGenerator := fun _ _ _ fv r => some ("Chrome/" ++ fv, r)
def SafariGenerator : UAComponentGenerator := fun _ _ _ _ r => some ("Safari/537.36", r)
def MobileSafariGenerator : UAComponentGenerator :=
  fun _ _ _ _ r => some ("Mobile Safari/537.36", r)
def GeckoTrailGenerator : UAComponentGenerator := fun _ _ _ _ r => some ("Gecko/20100101", r)

/-- The platform token of an OS profile, with the device placeholder of the
Android profile replaced by a drawn device model (shared first half of
`OSGenerator` and `FirefoxOSGenerator`). -/
def osToken (op : osProfile) (r : Rng) : Option (String × Rng) :=
  if op.Name = "Android" then
    match Choice androidDevices r with
    | none => none
    | some (device, r1) => some (replaceFirst op.PlatformToken "\x7bdevice_model\x7d" device, r1)
  else some (op.PlatformToken, r)

def OSGenerator : UAComponentGenerator := fun _ op _ _ r =>
  match osToken op r with
  | none => none
  | some (token, r1) => some ("(" ++ token ++ ")", r1)

def FirefoxOSGenerator : UAComponentGenerator := fun _ op vp _ r =>
  match osToken op r with
  | none => none
  | some (token, r1) => some ("(" ++ token ++ "; rv:" ++ vp.GeckoRevision ++ ")", r1)

def FirefoxVersionGenerator : UAComponentGenerator :=
  fun _ _ vp _ r => some ("Firefox/" ++ vp.GeckoRevision, r)
def WebKitGenerator : UAComponentGenerator := fun _ _ _ _ r => some ("AppleWebKit/537.36", r)
def SafariWebKitGenerator : UAComponentGenerator :=
  fun _ _ vp _ r => some ("AppleWebKit/" ++ vp.WebKitVersion, r)
def SafariVersionGenerator : UAComponentGenerator :=
  fun _ _ vp _ r => some ("Version/" ++ vp.SafariVersion, r)
def SafariMobileTokenGenerator : UAComponentGenerator :=
  fun _ _ vp _ r => some ("Mobile/" ++ vp.MobileVersion, r)
def SafariBrowserVersionGenerator : UAComponentGenerator := fun _ op vp _ r =>
  if op.IsMobile then some ("Safari/604.1", r) else some ("Safari/" ++ vp.WebKitVersion, r)

/-- The generator `BrowserSuffixGenerator`. The suffix formats of the table hold
the verb `%s` once, which `fmt.Sprintf` replaces by the major version. -/
def BrowserSuffixGenerator : UAComponentGenerator := fun bp _ _ fv r =>
  if bp.UASuffix = "" then some ("", r)
  else some (replaceFirst bp.UASuffix "%s" (String.mk (splitOnce ".".data fv.data).1), r)

def platformProfiles : List (Platform × platformProfile) :=
  [ (PlatformDesktop,
      { MobileHint := "?0",
        ComponentGenerators :=
          [ (Chromium, [MozillaGenerator, OSGenerator, WebKitGenerator, KHTMLGenerator,
              ChromeGenerator, SafariGenerator, BrowserSuffixGenerator]),
            (Gecko, [MozillaGenerator, FirefoxOSGenerator, GeckoTrailGenerator,
              FirefoxVersionGenerator]),
            (WebKit, [MozillaGenerator, OSGenerator, SafariWebKitGenerator, KHTMLGenerator,
              SafariVersionGenerator, SafariBrowserVersionGenerator]) ] }),
    (PlatformMobile,
      { MobileHint := "?1",
        ComponentGenerators :=
          [ (Chromium, [MozillaGenerator, OSGenerator, WebKitGenerator, KHTMLGenerator,
              ChromeGenerator, MobileSafariGenerator, BrowserSuffixGenerator]),
            (Gecko, [MozillaGenerator, FirefoxOSGenerator, GeckoTrailGenerator,
              FirefoxVersionGenerator]),
            (WebKit, [MozillaGenerator, OSGenerator, SafariWebKitGenerator, KHTMLGenerator,
              SafariVersionGenerator, SafariMobileTokenGenerator,
              SafariBrowserVersionGenerator]) ] }) ]

/-! ## The reverse parser, rebuilding the identity (`parser.go`, lines 33-60, 106-256) -/

def parserStableChromeProfiles : List (Int × ClientHelloID) :=
  [ (120, HelloChrome_120), (131, HelloChrome_131), (133, HelloChrome_133) ]

/-- The slice `parserStableChromeVersions` as `init` leaves it: the keys of
`parserStableChromeProfiles`, sorted by `sort.Ints`. -/
def parserStableChromeVersions : List Int :=
  SliceStable (fun a b => decide (a < b)) (mapKeys parserStableChromeProfiles)

/-- The function `findClosestChromeProfileForParser`. The last line reads
`parserStableChromeVersions[0]`; the slice is a non-empty constant. -/
def findClosestChromeProfileForParser (targetVersion : Int) : ClientHelloID :=
  let bestVersion := parserStableChromeVersions.foldl (closestStep targetVersion) (-1)
  if bestVersion ≠ -1 then mapGet parserStableChromeProfiles bestVersion
  else mapGet parserStableChromeProfiles (parserStableChromeVersions.headD 0)

/-- One part of the accept value written by the loop of `buildStaticHeaders`:
the value, each extra after `;`, and the weight after `;q=` when it is positive. -/
def staticAcceptPart (part : AcceptHeaderPart) : String :=
  part.Value ++ String.join (part.Extras.map (fun extra => ";" ++ extra)) ++
    (if part.Q.isPos then ";q=" ++ FormatFloat1 part.Q else "")

/-- The template `buildStaticHeaders` selects: entry 0 of the list that fits the
request type, or the nil template when that list is empty. -/
def staticAcceptTemplate (versionProf : versionProfile) (requestType : RequestType) :
    List AcceptHeaderPart :=
  if requestType = RequestTypeXHR then versionProf.AcceptHeaderPatternsXHR.headD []
  else versionProf.AcceptHeaderPatterns.headD []

/-- The run of assignments `headerMap[k] = v`, in program order. -/
def assignAll (m : List (String × String)) (kvs : List (String × String)) :
    List (String × String) :=
  kvs.foldl (fun acc kv => mapSet acc kv.1 kv.2) m

/-- The three guarded assignments of the platform version, architecture and
bitness hints, each made when the OS profile defines the field. -/
def osHintAssignments (os : osProfile) : List (String × String) :=
  (if os.Version ≠ "" then [("sec-ch-ua-platform-version", "\"" ++ os.Version ++ "\"")] else []) ++
  (if os.Arch ≠ "" then [("sec-ch-ua-arch", "\"" ++ os.Arch ++ "\"")] else []) ++
  (if os.BitnessHint ≠ "" then [("sec-ch-ua-bitness", "\"" ++ os.BitnessHint ++ "\"")] else [])

/-- The assignments `buildStaticHeaders` makes for a Chromium-derived browser. -/
def staticHintAssignments (browser : browserProfile) (os : osProfile)
    (platform : platformProfile) (version : Int) (fullVersion : String) (r : Rng) :
    Option (List (String × String)) :=
  if browser.ChromiumBased then
    match buildSecChUa browser.Brand (Itoa version) false false r,
        buildSecChUa browser.Brand fullVersion true false r with
    | some (ua, _), some (full, _) =>
      some ([ ("sec-ch-ua", ua), ("sec-ch-ua-mobile", platform.MobileHint),
              ("sec-ch-ua-platform", "\"" ++ os.Name ++ "\""),
              ("sec-ch-ua-full-version-list", full) ] ++ osHintAssignments os)
    | _, _ => none
  else some []

/-- The assignments of the second `switch` of `buildStaticHeaders`. -/
def staticFetchAssignments (requestType : RequestType) : List (String × String) :=
  if requestType = RequestTypeNavigate then
    [ ("sec-fetch-dest", "document"), ("sec-fetch-mode", "navigate"), ("sec-fetch-site", "none"),
      ("sec-fetch-user", "?1"), ("upgrade-insecure-requests", "1") ]
  else if requestType = RequestTypeXHR then
    [ ("sec-fetch-dest", "empty"), ("sec-fetch-mode", "cors"),
      ("sec-fetch-site", "same-origin") ]
  else []

/-- The map `headerMap` that `buildStaticHeaders` fills, before its keys are
collected. -/
def staticHeaderMap (browser : browserProfile) (os : osProfile) (platform : platformProfile)
    (version : Int) (fullVersion : String) (versionProf : versionProfile)
    (requestType : RequestType) (r : Rng) : Option (List (String × String)) :=
  match staticHintAssignments browser os platform version fullVersion r with
  | none => none
  | some hints =>
    some (assignAll []
      ([ ("accept",
            Join ((staticAcceptTemplate versionProf requestType).map staticAcceptPart) ","),
          ("accept-encoding", "gzip, deflate, br"),
          ("accept-language", "en-US,en;q=0.9") ] ++ hints ++
        staticFetchAssignments requestType))

/-- The last lines shared by `buildStaticHeaders`, `buildHeaders` and the bot
branch of `Generate`: the header set filled with `header.Set(k, headerMap[k])`
for the ordered keys, and the order with the four pseudo-headers in front. -/
def finishHeaders (headerMap : List (String × String)) (keys : List String) :
    Header × List String :=
  (keys.foldl (fun header k => Header.Set header k (mapGet headerMap k)) [],
    pseudoHeaders ++ keys)

/-- The function `buildStaticHeaders`. -/
def buildStaticHeaders (browser : browserProfile) (os : osProfile) (platform : platformProfile)
    (version : Int) (fullVersion : String) (versionProf : versionProfile)
    (requestType : RequestType) (r : Rng) : Option (Header × List String) :=
  match staticHeaderMap browser os platform version fullVersion versionProf requestType r with
  | none => none
  | some headerMap => some (finishHeaders headerMap (PriorityHeaderSorter (rangeKeys headerMap r).1))

/-- The function `FromUserAgentString`. The random source only fixes the order in
which Go happens to visit the intermediate header map. -/
def FromUserAgentString (userAgentString : String) (requestType : RequestType) (r : Rng) :
    Except Err Agent :=
  match parseUserAgentString userAgentString with
  | .error err => .error err
  | .ok ua =>
    match mapFind browserProfiles ua.Browser with
    | none => .error .ErrUnsupportedBrowser
    | some profile =>
      match mapFind osProfiles ua.OS with
      | none => .error .ErrUnsupportedOS
      | some osProf =>
        let platform := if ua.OS = OSAndroid ∨ ua.OS = OSiOS then PlatformMobile else PlatformDesktop
        match mapFind platformProfiles platform with
        | none => .error (.errorf "internal error: no platform profile for %s")
        | some platformProf =>
          match findClosestVersionProfile profile.Versions ua.Version with
          | .error err => .error err
          | .ok (versionProf, _) =>
            let fullVersion :=
              if profile.ChromiumBased then
                Itoa ua.Version ++ ".0." ++ Itoa versionProf.BuildNumber ++ ".0"
              else ""
            match buildStaticHeaders profile osProf platformProf ua.Version fullVersion
                versionProf requestType r with
            | none => .error .panic
            | some (headers, headerOrder) =>
              .ok { UserAgent := userAgentString
                    Headers := headers
                    HeaderOrder := headerOrder
                    ClientHelloSpec := none
                    ClientHelloID := findClosestChromeProfileForParser ua.Version
                    H2Settings := GetChromiumH2Settings }

/-! ## Sample inputs (`parser_test.go` and the examples of the specification) -/

/-- The version table with keys 114, 120 and 130 of the matcher example. -/
def sampleVersions : List (Int × versionProfile) :=
  [ (114, chromiumVersion 5735), (120, chromiumVersion 6099), (130, chromiumVersion 6735) ]

def uaChrome138 : String :=
  "Mozilla/5.0 (Windows NT 10.0; Win64; x64) AppleWebKit/537.36 (KHTML, like Gecko) Chrome/138.0.0.0 Safari/537.36"

def uaChrome125 : String :=
  "Mozilla/5.0 (Windows NT 10.0; Win64; x64) AppleWebKit/537.36 (KHTML, like Gecko) Chrome/125.0.0.0 Safari/537.36"

def uaFirefox128 : String :=
  "Mozilla/5.0 (Windows NT 10.0; Win64; x64; rv:128.0) Gecko/20100101 Firefox/128.0"

def uaSafari17 : String :=
  "Mozilla/5.0 (iPhone; CPU iPhone OS 17_5_1 like Mac OS X) AppleWebKit/605.1.15 (KHTML, like Gecko) Version/17.5 Mobile/15E148 Safari/604.1"

def uaCurl : String := "curl/7.64.1"

def uaChrome100 : String :=
  "Mozilla/5.0 (Windows NT 10.0; Win64; x64) AppleWebKit/537.36 (KHTML, like Gecko) Chrome/100.0.0.0 Safari/537.36"

/-- A user-agent of Edge: it carries a `Chrome/` token and an `Edg/` token. -/
def uaEdge121 : String :=
  "Mozilla/5.0 (Windows NT 10.0; Win64; x64) AppleWebKit/537.36 (KHTML, like Gecko) Chrome/120.0.0.0 Safari/537.36 Edg/121.0"

/-- A user-agent of Chrome on Android, with the platform token of the Android
profile. -/
def uaChromeAndroid : String :=
  "Mozilla/5.0 (Linux; Android 14; Pixel 7) AppleWebKit/537.36 (KHTML, like Gecko) Chrome/120.0.0.0 Mobile Safari/537.36"

/-- A user-agent of Chrome on Windows whose version digits exceed `math.MaxInt`. -/
def uaChromeHuge : String :=
  "Mozilla/5.0 (Windows NT 10.0; Win64; x64) AppleWebKit/537.36 (KHTML, like Gecko) Chrome/99999999999999999999.0 Safari/537.36"

/-- A random source whose every draw is zero. -/
def zeroRng : Rng := fun _ => 0

/-- The Agent of a successful call, and the empty record otherwise. -/
def agentOf (res : Except Err Agent) : Agent :=
  match res with
  | .ok a => a
  | .error _ => {}

/-! ## The bot catalogue (`bots.go`) -/

structure botProfile where
  UserAgent : String := ""
  HelloID : ClientHelloID := default
  Headers : List (String × String) := []
  deriving DecidableEq, Repr

/-- The zero value `botProfile{}`. -/
instance : Inhabited botProfile := ⟨{}⟩

abbrev BotAhrefs : String := "AhrefsBot"
abbrev BotApple : String := "AppleBot"
abbrev BotBaidu : String := "BaiduBot"
abbrev BotBing : String := "BingBot"
abbrev BotBytespider : String := "BytespiderBot"
abbrev BotCC : String := "CCBot"
abbrev BotChatGPT : String := "ChatGPTUser"
abbrev BotClaude : String := "ClaudeBot"
abbrev BotCohere : String := "CohereBot"
abbrev BotDiffbot : String := "Diffbot"
abbrev BotDuckDuckGo : String := "DuckDuckGoBot"
abbrev BotFacebook : String := "FacebookBot"
abbrev BotGPT : String := "GPTBot"
abbrev BotGoogle : String := "GoogleBot"
abbrev BotGoogleExtended : String := "GoogleExtended"
abbrev BotLinkedIn : String := "LinkedInBot"
abbrev BotMajestic : String := "MajesticBot"
abbrev BotMoz : String := "MozBot"
abbrev BotPerplexity : String := "PerplexityBot"
abbrev BotPetal : String := "PetalBot"
abbrev BotPinterest : String := "PinterestBot"
abbrev BotSemrush : String := "SemrushBot"
abbrev BotSogou : String := "SogouBot"
abbrev BotTwitter : String := "TwitterBot"
abbrev BotUptimeRobot : String := "UptimeRobot"
abbrev BotWhatsApp : String := "WhatsAppBot"
abbrev BotYahoo : String := "YahooBot"
abbrev BotYandex : String := "YandexBot"
abbrev BotYou : String := "YouBot"

def baseBotHeaders : List (String × String) :=
  [ ("accept", "text/html,application/xhtml+xml,application/xml;q=0.9,*/*;q=0.8"),
    ("accept-encoding", "gzip, deflate") ]

/-- The map `botProfileCategories` as `init` fills it. -/
def botProfileCategories : List (String × List botProfile) :=
  [
    (BotGoogle,
      [
        { UserAgent := "Mozilla/5.0 (compatible; Googlebot/2.1; +http://www.google.com/bot.html)",
          HelloID := HelloGolang,
          Headers :=
            [ ("accept", "text/html,application/xhtml+xml,application/xml;q=0.9,*/*;q=0.8"),
              ("accept-encoding", "gzip, deflate"),
              ("from", "googlebot@googlebot.com") ] },
        { UserAgent := "Mozilla/5.0 AppleWebKit/537.36 (KHTML, like Gecko; compatible; Googlebot/2.1; +http://www.google.com/bot.html) Chrome/120.0.0.0 Safari/537.36",
          HelloID := HelloChrome_120,
          Headers :=
            [ ("accept", "text/html,application/xhtml+xml,application/xml;q=0.9,image/avif,image/webp,image/apng,*/*;q=0.8,application/signed-exchange;v=b3;q=0.7"),
              ("accept-encoding", "gzip, deflate, br"),
              ("accept-language", "en-US,en;q=0.9"),
              ("upgrade-insecure-requests", "1"),
              ("sec-fetch-site", "none"),
              ("sec-fetch-mode", "navigate"),
              ("sec-fetch-user", "?1"),
              ("sec-fetch-dest", "document"),
              ("sec-ch-ua", "\"Not_A Brand\";v=\"8\", \"Chromium\";v=\"120\", \"Google Chrome\";v=\"120\""),
              ("sec-ch-ua-mobile", "?0"),
              ("sec-ch-ua-platform", "\"Linux\""),
              ("from", "googlebot@googlebot.com") ] },
        { UserAgent := "Mozilla/5.0 (Linux; Android 6.0.1; Nexus 5X Build/MMB29P) AppleWebKit/537.36 (KHTML, like Gecko) Chrome/120.0.0.0 Mobile Safari/537.36 (compatible; Googlebot/2.1; +http://www.google.com/bot.html)",
          HelloID := HelloChrome_120,
          Headers :=
            [ ("accept", "text/html,application/xhtml+xml,application/xml;q=0.9,image/avif,image/webp,image/apng,*/*;q=0.8,application/signed-exchange;v=b3;q=0.7"),
              ("accept-encoding", "gzip, deflate, br"),
              ("accept-language", "en-US,en;q=0.9"),
              ("upgrade-insecure-requests", "1"),
              ("sec-fetch-site", "none"),
              ("sec-fetch-mode", "navigate"),
              ("sec-fetch-user", "?1"),
              ("sec-fetch-dest", "document"),
              ("sec-ch-ua", "\"Not_A Brand\";v=\"8\", \"Chromium\";v=\"120\", \"Google Chrome\";v=\"120\""),
              ("sec-ch-ua-mobile", "?1"),
              ("sec-ch-ua-platform", "\"Android\""),
              ("from", "googlebot@googlebot.com") ] },
        { UserAgent := "Googlebot-Image/1.0",
          HelloID := HelloGolang,
          Headers :=
            [ ("accept", "image/*"),
              ("accept-encoding", "gzip, deflate"),
              ("from", "googlebot@googlebot.com") ] },
        { UserAgent := "Googlebot-News",
          HelloID := HelloGolang,
          Headers :=
            [ ("accept", "text/html,application/xhtml+xml,application/xml;q=0.9,*/*;q=0.8"),
              ("accept-encoding", "gzip, deflate"),
              ("from", "googlebot@googlebot.com") ] },
        { UserAgent := "Googlebot-Video/1.0",
          HelloID := HelloGolang,
          Headers :=
            [ ("accept", "video/*"),
              ("accept-encoding", "gzip, deflate"),
              ("from", "googlebot@googlebot.com") ] },
        { UserAgent := "Mediapartners-Google",
          HelloID := HelloGolang,
          Headers :=
            [ ("accept", "text/html,application/xhtml+xml,application/xml;q=0.9,*/*;q=0.8"),
              ("accept-encoding", "gzip, deflate"),
              ("from", "googlebot@googlebot.com") ] },
        { UserAgent := "AdsBot-Google (+http://www.google.com/adsbot.html)",
          HelloID := HelloGolang,
          Headers :=
            [ ("accept", "text/html,application/xhtml+xml,application/xml;q=0.9,*/*;q=0.8"),
              ("accept-encoding", "gzip, deflate"),
              ("from", "googlebot@googlebot.com") ] },
        { UserAgent := "FeedFetcher-Google; (+http://www.google.com/feedfetcher.html)",
          HelloID := HelloGolang,
          Headers :=
            [ ("accept", "application/atom+xml,application/rss+xml,application/xml;q=0.9,*/*;q=0.8"),
              ("accept-encoding", "gzip, deflate") ] } ]),
    (BotGoogleExtended,
      [
        { UserAgent := "Google-Extended",
          HelloID := HelloGolang,
          Headers :=
            baseBotHeaders } ]),
    (BotBing,
      [
        { UserAgent := "Mozilla/5.0 (compatible; Bingbot/2.0; +http://www.bing.com/bingbot.htm)",
          HelloID := HelloGolang,
          Headers :=
            [ ("accept", "text/html,application/xhtml+xml,application/xml;q=0.9,*/*;q=0.8"),
              ("accept-encoding", "gzip, deflate"),
              ("accept-language", "en-US,en;q=0.9") ] },
        { UserAgent := "Mozilla/5.0 (compatible; Bingbot/2.0; +http://www.bing.com/bingbot.htm)",
          HelloID := HelloEdge_106,
          Headers :=
            [ ("accept", "text/html,application/xhtml+xml,application/xml;q=0.9,image/avif,image/webp,image/apng,*/*;q=0.8,application/signed-exchange;v=b3;q=0.7"),
              ("accept-encoding", "gzip, deflate, br"),
              ("accept-language", "en-US,en;q=0.9"),
              ("upgrade-insecure-requests", "1"),
              ("sec-fetch-site", "none"),
              ("sec-fetch-mode", "navigate"),
              ("sec-fetch-user", "?1"),
              ("sec-fetch-dest", "document"),
              ("sec-ch-ua", "\"Microsoft Edge\";v=\"106\", \"Chromium\";v=\"106\", \"Not;A=Brand\";v=\"99\""),
              ("sec-ch-ua-mobile", "?0"),
              ("sec-ch-ua-platform", "\"Linux\"") ] },
        { UserAgent := "Mozilla/5.0 (Windows NT 6.1; WOW64) AppleWebKit/534+ (KHTML, like Gecko) BingPreview/1.0b",
          HelloID := HelloEdge_106,
          Headers :=
            [ ("accept", "text/html,application/xhtml+xml,application/xml;q=0.9,image/avif,image/webp,image/apng,*/*;q=0.8"),
              ("accept-encoding", "gzip, deflate, br"),
              ("accept-language", "en-US,en;q=0.9"),
              ("upgrade-insecure-requests", "1"),
              ("sec-fetch-site", "none"),
              ("sec-fetch-mode", "navigate"),
              ("sec-fetch-user", "?1"),
              ("sec-fetch-dest", "document"),
              ("sec-ch-ua", "\"Microsoft Edge\";v=\"106\", \"Chromium\";v=\"106\", \"Not;A=Brand\";v=\"99\""),
              ("sec-ch-ua-mobile", "?0"),
              ("sec-ch-ua-platform", "\"Windows\"") ] } ]),
    (BotDuckDuckGo,
      [
        { UserAgent := "Mozilla/5.0 (compatible; DuckDuckBot/1.0; +http://duckduckgo.com/duckduckbot.html)",
          HelloID := HelloGolang,
          Headers :=
            baseBotHeaders } ]),
    (BotBaidu,
      [
        { UserAgent := "Mozilla/5.0 (compatible; Baiduspider/2.0; +http://www.baidu.com/search/spider.html)",
          HelloID := HelloGolang,
          Headers :=
            [ ("accept", "text/html,application/xhtml+xml,application/xml;q=0.9,*/*;q=0.8"),
              ("accept-encoding", "gzip, deflate"),
              ("accept-language", "zh-CN,zh;q=0.8,en;q=0.6") ] } ]),
    (BotYandex,
      [
        { UserAgent := "Mozilla/5.0 (compatible; YandexBot/3.0; +http://yandex.com/bots)",
          HelloID := HelloGolang,
          Headers :=
            baseBotHeaders },
        { UserAgent := "Mozilla/5.0 (compatible; YandexImages/3.0; +http://yandex.com/bots)",
          HelloID := HelloGolang,
          Headers :=
            [ ("accept", "image/*,*/*;q=0.8"),
              ("accept-encoding", "gzip, deflate") ] } ]),
    (BotYahoo,
      [
        { UserAgent := "Mozilla/5.0 (compatible; Yahoo! Slurp; http://help.yahoo.com/help/us/ysearch/slurp)",
          HelloID := HelloGolang,
          Headers :=
            baseBotHeaders } ]),
    (BotSogou,
      [
        { UserAgent := "Sogou web spider/4.0(+http://www.sogou.com/docs/help/webmasters.htm#07)",
          HelloID := HelloGolang,
          Headers :=
            [ ("accept", "text/html,application/xhtml+xml,application/xml;q=0.9,*/*;q=0.8"),
              ("accept-encoding", "gzip, deflate"),
              ("accept-language", "zh-CN,zh;q=0.8") ] } ]),
    (BotAhrefs,
      [
        { UserAgent := "Mozilla/5.0 (compatible; AhrefsBot/7.0; +http://ahrefs.com/robot/)",
          HelloID := HelloGolang,
          Headers :=
            baseBotHeaders } ]),
    (BotSemrush,
      [
        { UserAgent := "SemrushBot/7~bl; +http://www.semrush.com/bot.html",
          HelloID := HelloGolang,
          Headers :=
            baseBotHeaders } ]),
    (BotMajestic,
      [
        { UserAgent := "Mozilla/5.0 (compatible; MJ12bot/v1.4.8; http://mj12bot.com/)",
          HelloID := HelloGolang,
          Headers :=
            baseBotHeaders } ]),
    (BotMoz,
      [
        { UserAgent := "Mozilla/5.0 (compatible; DotBot/1.1; http://www.opensiteexplorer.org/dotbot, help@moz.com)",
          HelloID := HelloGolang,
          Headers :=
            baseBotHeaders } ]),
    (BotGPT,
      [
        { UserAgent := "GPTBot/1.0 (+http://openai.com/gptbot)",
          HelloID := HelloGolang,
          Headers :=
            baseBotHeaders } ]),
    (BotChatGPT,
      [
        { UserAgent := "ChatGPT-User",
          HelloID := HelloGolang,
          Headers :=
            baseBotHeaders } ]),
    (BotClaude,
      [
        { UserAgent := "ClaudeBot/1.0 (+claudebot@anthropic.com)",
          HelloID := HelloGolang,
          Headers :=
            baseBotHeaders } ]),
    (BotCohere,
      [
        { UserAgent := "cohere-ai/1.0 (+https://cohere.com/bot)",
          HelloID := HelloGolang,
          Headers :=
            baseBotHeaders } ]),
    (BotPerplexity,
      [
        { UserAgent := "PerplexityBot/1.0 (+https://about.perplexity.ai/docs/perplexitybot)",
          HelloID := HelloGolang,
          Headers :=
            baseBotHeaders } ]),
    (BotYou,
      [
        { UserAgent := "Mozilla/5.0 (compatible; YouBot/1.0; +http://about.you.com/youbot)",
          HelloID := HelloGolang,
          Headers :=
            baseBotHeaders } ]),
    (BotDiffbot,
      [
        { UserAgent := "Diffbot/1.0 (+http://www.diffbot.com/our-bot/)",
          HelloID := HelloGolang,
          Headers :=
            baseBotHeaders } ]),
    (BotFacebook,
      [
        { UserAgent := "facebookexternalhit/1.1 (+http://www.facebook.com/externalhit_uatext.php)",
          HelloID := HelloGolang,
          Headers :=
            [ ("accept", "text/html,application/xhtml+xml,application/xml;q=0.9,*/*;q=0.8"),
              ("accept-encoding", "gzip, deflate") ] } ]),
    (BotTwitter,
      [
        { UserAgent := "Twitterbot/1.0",
          HelloID := HelloGolang,
          Headers :=
            [ ("accept", "text/html,application/xhtml+xml,application/xml;q=0.9,*/*;q=0.8"),
              ("accept-encoding", "gzip, deflate") ] } ]),
    (BotPinterest,
      [
        { UserAgent := "Pinterest/0.2 (+http://www.pinterest.com/bot.html)",
          HelloID := HelloGolang,
          Headers :=
            [ ("accept", "text/html,application/xhtml+xml,application/xml;q=0.9,image/*;q=0.8,*/*;q=0.7"),
              ("accept-encoding", "gzip, deflate") ] } ]),
    (BotLinkedIn,
      [
        { UserAgent := "LinkedInBot/1.0 (compatible; Mozilla/5.0; Apache-HttpClient +http://www.linkedin.com)",
          HelloID := HelloGolang,
          Headers :=
            [ ("accept", "text/html,application/xhtml+xml,application/xml;q=0.9,*/*;q=0.8"),
              ("accept-encoding", "gzip, deflate") ] } ]),
    (BotWhatsApp,
      [
        { UserAgent := "WhatsApp/2.21.18.17 A",
          HelloID := HelloGolang,
          Headers :=
            [ ("accept", "text/html,application/xhtml+xml,application/xml;q=0.9,*/*;q=0.8"),
              ("accept-encoding", "gzip, deflate") ] } ]),
    (BotApple,
      [
        { UserAgent := "Mozilla/5.0 (compatible; Applebot/1.0; +http://www.apple.com/go/applebot)",
          HelloID := HelloGolang,
          Headers :=
            baseBotHeaders } ]),
    (BotUptimeRobot,
      [
        { UserAgent := "Mozilla/5.0 (compatible; UptimeRobot/2.0; https://www.uptimerobot.com/)",
          HelloID := HelloGolang,
          Headers :=
            baseBotHeaders } ]),
    (BotPetal,
      [
        { UserAgent := "Mozilla/5.0 (compatible; PetalBot; +http://aspiegel.com/petalbot)",
          HelloID := HelloGolang,
          Headers :=
            baseBotHeaders } ]),
    (BotBytespider,
      [
        { UserAgent := "Mozilla/5.0 (compatible; Bytespider; +http://www.bytespider.com/)",
          HelloID := HelloGolang,
          Headers :=
            baseBotHeaders } ]),
    (BotCC,
      [
        { UserAgent := "CCBot/2.0 (+https://commoncrawl.org/commoncrawl/projects/bots)",
          HelloID := HelloGolang,
          Headers :=
            baseBotHeaders } ]) ]

/-- The slice `allBotProfiles` as `init` fills it: the profiles of all categories.
Go appends the categories in the unspecified order of a map iteration; the
order is immaterial to a uniform choice. -/
def allBotProfiles : List botProfile := (botProfileCategories.map Prod.snd).flatten

/-! ## Generator configuration (`options.go`, `legitagent.go` lines 24-127) -/

/-- The type `FingerprintProfile`. The source compares the field with
`FingerprintProfileMaximum` and with `FingerprintProfileExtreme`. -/
inductive FingerprintProfile where
  | Normal
  | Maximum
  | Extreme
  deriving DecidableEq, Repr

/-- The type `H2RandomizationProfile` read by `Generate` and
`randomizeH2Settings`. -/
inductive H2RandomizationProfile where
  | None
  | Normal
  | Maximum
  deriving DecidableEq, Repr

/-- The record `Generator`, without its object pool. -/
structure Generator where
  browsers : List Browser
  platforms : List Platform
  os : List OperatingSystem
  minVersion : Int
  maxVersion : Int
  languageProfiles : List (List AcceptHeaderPart)
  requestType : RequestType
  headerSorter : HeaderSorter
  fullFingerprint : Bool
  h2Only : Bool
  fingerprintProfile : FingerprintProfile
  h2RandomizationProfile : H2RandomizationProfile
  useBotAgents : Bool
  botAgentTypes : List String
  acceptEncodingEnabled : Bool
  acceptEnabled : Bool
  zeroHeader : Bool

def allRealOS : List OperatingSystem :=
  [OSWindows, OSWindows11, OSLinux, OSMac, OSAndroid, OSiOS, OSChromeOS, osUbuntu, osFedora]

def allRealBrowsers : List Browser :=
  [BrowserChrome, BrowserOpera, BrowserEdge, BrowserBrave, BrowserFirefox, BrowserSafari]

def allRealPlatforms : List Platform := [PlatformDesktop, PlatformMobile]

def macArchitectures : List OperatingSystem := [osMacIntel, osMacAppleSilicon]

/-- The language templates `NewGenerator` installs. -/
def defaultLanguages : List (List AcceptHeaderPart) :=
  [ [{ Value := "en-US" }, { Value := "en", Q := ⟨9, 1⟩ }],
    [{ Value := "de-DE" }, { Value := "de", Q := ⟨9, 1⟩ }],
    [{ Value := "fa-IR" }, { Value := "fa", Q := ⟨9, 1⟩ }],
    [{ Value := "fr-FR" }, { Value := "fr", Q := ⟨9, 1⟩ }],
    [{ Value := "es-ES" }, { Value := "es", Q := ⟨9, 1⟩ }],
    [{ Value := "ja-JP" }, { Value := "ja", Q := ⟨9, 1⟩ }],
    [{ Value := "ko-KR" }, { Value := "ko", Q := ⟨9, 1⟩ }],
    [{ Value := "pt-BR" }, { Value := "pt", Q := ⟨9, 1⟩ }],
    [{ Value := "ru-RU" }, { Value := "ru", Q := ⟨9, 1⟩ }],
    [{ Value := "tr-TR" }, { Value := "tr", Q := ⟨9, 1⟩ }],
    [{ Value := "it-IT" }, { Value := "it", Q := ⟨9, 1⟩ }],
    [{ Value := "pl-PL" }, { Value := "pl", Q := ⟨9, 1⟩ }],
    [{ Value := "nl-NL" }, { Value := "nl", Q := ⟨9, 1⟩ }],
    [{ Value := "sv-SE" }, { Value := "sv", Q := ⟨9, 1⟩ }],
    [{ Value := "ar-EG" }, { Value := "ar", Q := ⟨9, 1⟩ }],
    [{ Value := "cs-CZ" }, { Value := "cs", Q := ⟨9, 1⟩ }] ]

/-- The generator `NewGenerator()` builds when it is given no option. -/
def NewGenerator : Generator :=
  { browsers := [BrowserRandom]
    platforms := [PlatformRandom]
    os := [OSRandom]
    minVersion := 114
    maxVersion := 141
    languageProfiles := defaultLanguages
    requestType := RequestTypeNavigate
    headerSorter := prioritySorter
    fullFingerprint := false
    h2Only := true
    fingerprintProfile := .Normal
    h2RandomizationProfile := .None
    useBotAgents := false
    botAgentTypes := []
    acceptEncodingEnabled := false
    acceptEnabled := true
    zeroHeader := false }

/-! ## Resolution of browser, platform and OS (`legitagent.go`, lines 309-398) -/

/-- The method `resolveBrowser`. -/
def resolveBrowser (g : Generator) (r : Rng) : Except Err (Browser × Rng) :=
  let potentialBrowsers := if g.browsers.contains BrowserRandom then allRealBrowsers else g.browsers
  if potentialBrowsers.isEmpty then
    .error (.errorf "legitagent: no browsers configured for generation")
  else
    match Choice potentialBrowsers r with
    | none => .error .panic
    | some res => .ok res

/-- The test `isValidForBrowser` of `resolvePlatformAndOS`. -/
def isValidForBrowser (browser : Browser) (p : Platform) (concreteOS : OperatingSystem)
    (osProf : osProfile) : Bool :=
  if browser = BrowserSafari then
    decide ((p = PlatformMobile ∧ concreteOS = OSiOS) ∨
      (p = PlatformDesktop ∧ osProf.Name = "macOS"))
  else if browser = BrowserFirefox then
    decide ((p = PlatformMobile ∧ concreteOS = OSAndroid) ∨
      (p = PlatformDesktop ∧ concreteOS ≠ OSiOS ∧ concreteOS ≠ OSAndroid))
  else true

/-- The body of the innermost loop of `resolvePlatformAndOS`: the combination it
appends for one platform and one concrete OS, if any. -/
def comboFor (browser : Browser) (p : Platform) (concreteOS : OperatingSystem) :
    List (Platform × OperatingSystem) :=
  match mapFind osProfiles concreteOS with
  | none => []
  | some osProf =>
    if decide (p = PlatformMobile) ≠ osProf.IsMobile then []
    else if isValidForBrowser browser p concreteOS osProf then [(p, concreteOS)]
    else []

/-- The slice `validCombos` that the three nested loops of `resolvePlatformAndOS`
build. -/
def validCombos (g : Generator) (browser : Browser) : List (Platform × OperatingSystem) :=
  let userPlatforms := if g.platforms = [PlatformRandom] then allRealPlatforms else g.platforms
  let userOSes := if g.os = [OSRandom] then allRealOS else g.os
  userPlatforms.flatMap fun p =>
    userOSes.flatMap fun o =>
      (if o = OSMac then macArchitectures else [o]).flatMap fun concreteOS =>
        comboFor browser p concreteOS

/-- The method `resolvePlatformAndOS`. -/
def resolvePlatformAndOS (g : Generator) (browser : Browser) (r : Rng) :
    Except Err ((Platform × OperatingSystem) × Rng) :=
  if (validCombos g browser).isEmpty then
    .error (.errorf
      "no compatible platform/OS combination found for browser %s with the current settings")
  else
    match Choice (validCombos g browser) r with
    | none => .error .panic
    | some res => .ok res

/-! ## Content negotiation headers (`legitagent.go`, lines 526-571) -/

/-- The draw `fastrand.Float64()`, a number in `[0, 1)` with 53 binary digits,
written as a decimal fraction. -/
def RandFloat64 (r : Rng) : Float64 × Rng :=
  (⟨(r 0 % 2 ^ 53 : Nat) * 5 ^ 53, 53⟩, r.advance)

/-- The fraction `n / d` rounded to the nearest integer, ties to even. -/
def roundHalfEven (n d : Nat) : Nat :=
  let q := n / d
  let r := n % d
  if 2 * r > d ∨ (2 * r = d ∧ q % 2 = 1) then q + 1 else q

/-- The number of doublings after which `m` reaches `x`, counted up to `fuel`. -/
def normShift (m x : Nat) : Nat → Nat
  | 0 => 0
  | fuel + 1 => if x ≤ m then 0 else normShift (2 * m) x fuel + 1

/-- The `float64` nearest to the real number `x`, ties to even in the last binary
digit: the value a floating-point operation of the source returns when `x` is its
exact result. A non-zero `float64` is `q / 2 ^ a` or `q * 2 ^ b` with
`2 ^ 52 ≤ q ≤ 2 ^ 53`; below `2 ^ 53` the shift `a` is the number of doublings
that bring `x` to `2 ^ 52`, and `q` is `x * 2 ^ a` rounded to an integer. The
result is kept as the decimal fraction `q * 5 ^ a / 10 ^ a`. The limits of the
exponent (overflow, subnormal numbers) are not modelled; the values of
`buildAcceptHeader` lie between `2 ^ -57` and 1. -/
def Float64.round (x : Float64) : Float64 :=
  let m := x.mant.natAbs
  let d := 10 ^ x.scale
  if m = 0 then ⟨0, 0⟩
  else if d * 2 ^ 53 ≤ m then
    let b := Nat.log2 (m / d) - 52
    ⟨x.mant.sign * (roundHalfEven m (d * 2 ^ b) * 2 ^ b : Nat), 0⟩
  else
    let a := normShift m (d * 2 ^ 52) (4 * x.scale + 53)
    ⟨x.mant.sign * (roundHalfEven (m * 2 ^ a) d * 5 ^ a : Nat), a⟩

/-- The product `x * y` of two `float64`: the exact product, rounded. -/
def Float64.mul (x y : Float64) : Float64 :=
  Float64.round ⟨x.mant * y.mant, x.scale + y.scale⟩

/-- The difference `x - y` of two `float64`: the exact difference, rounded. -/
def Float64.sub (x y : Float64) : Float64 :=
  Float64.round
    ⟨x.mant * 10 ^ (max x.scale y.scale - x.scale) - y.mant * 10 ^ (max x.scale y.scale - y.scale),
      max x.scale y.scale⟩

/-- The comparison `x < y` of two `float64`. -/
def Float64.lt (x y : Float64) : Bool :=
  decide (x.mant * 10 ^ y.scale < y.mant * 10 ^ x.scale)

/-- The constant `0.1` of the source as a `float64`: the `float64` nearest to one
tenth, `3602879701896397 / 2 ^ 55`. -/
def tenth : Float64 := Float64.round ⟨1, 1⟩

/-- The update `currentQ -= x * 0.1` followed by the floor
`if currentQ < 0.1 { currentQ = 0.1 }`. The product and the difference are each
rounded to the nearest `float64`, as the compiler for amd64 evaluates the
statement (no fused multiply-add). -/
def nextQ (currentQ x : Float64) : Float64 :=
  let q := Float64.sub currentQ (Float64.mul x tenth)
  if Float64.lt q tenth then tenth else q

/-- The loop of `buildAcceptHeader` from one part on: the rendered parts, without
the separating commas. -/
def acceptParts : List AcceptHeaderPart → Float64 → Rng → List String × Rng
  | [], _, r => ([], r)
  | part :: rest, currentQ, r =>
    let head := part.Value ++ String.join (part.Extras.map (fun extra => ";" ++ extra))
    if part.Q.isPos then
      let q := nextQ currentQ (RandFloat64 r).1
      let tail := acceptParts rest q (RandFloat64 r).2
      ((head ++ ";q=" ++ FormatFloat1 q) :: tail.1, tail.2)
    else
      let tail := acceptParts rest currentQ r
      (head :: tail.1, tail.2)

/-- The function `buildAcceptHeader`. -/
def buildAcceptHeader (parts : List AcceptHeaderPart) (r : Rng) : String × Rng :=
  let out := acceptParts parts ⟨1, 0⟩ r
  (Join out.1 ",", out.2)

/-- The function `generateAcceptEncoding`. -/
def generateAcceptEncoding (r : Rng) : String × Rng :=
  let encodings := Shuffle ["gzip", "deflate", "br"] r
  let coin := IntN 2 encodings.2
  if coin.1 = 1 then (Join encodings.1 ", " ++ ", zstd", coin.2)
  else (Join encodings.1 ", ", coin.2)

/-! ## Header assembly (`legitagent.go`, lines 400-485) -/

/-- The assignments of `accept`, `accept-encoding` and `accept-language` in
`buildHeaders`, with the draws in program order: the language template, the
accept template and its weights, the encoding order, the language weights. -/
def negotiationAssignments (g : Generator) (versionProf : versionProfile) (r : Rng) :
    Option (List (String × String) × Rng) :=
  let acceptTemplate :=
    if g.requestType = RequestTypeXHR then versionProf.AcceptHeaderPatternsXHR
    else versionProf.AcceptHeaderPatterns
  match Choice g.languageProfiles r with
  | none => none
  | some (languageTemplate, r1) =>
    match (if g.acceptEnabled then
        match Choice acceptTemplate r1 with
        | none => none
        | some (template, r2) =>
          some ([("accept", (buildAcceptHeader template r2).1)], (buildAcceptHeader template r2).2)
      else some ([], r1)) with
    | none => none
    | some (accept, r3) =>
      let encoding : List (String × String) × Rng :=
        if g.acceptEncodingEnabled then
          ([("accept-encoding", (generateAcceptEncoding r3).1)], (generateAcceptEncoding r3).2)
        else ([], r3)
      let language := buildAcceptHeader languageTemplate encoding.2
      some (accept ++ encoding.1 ++ [("accept-language", language.1)], language.2)

/-- The client-hint assignments of `buildHeaders`. -/
def hintAssignments (g : Generator) (browser : browserProfile) (os : osProfile)
    (platform : platformProfile) (version : Int) (fullVersion : String) (r : Rng) :
    Option (List (String × String) × Rng) :=
  if browser.ChromiumBased then
    match buildSecChUa browser.Brand (Itoa version) false true r with
    | none => none
    | some (ua, r1) =>
      if g.fullFingerprint then
        match buildSecChUa browser.Brand fullVersion true true r1 with
        | none => none
        | some (full, r2) =>
          some ([ ("sec-ch-ua", ua), ("sec-ch-ua-mobile", platform.MobileHint),
                  ("sec-ch-ua-platform", "\"" ++ os.Name ++ "\""),
                  ("sec-ch-ua-full-version-list", full) ] ++ osHintAssignments os, r2)
      else
        some ([ ("sec-ch-ua", ua), ("sec-ch-ua-mobile", platform.MobileHint),
                ("sec-ch-ua-platform", "\"" ++ os.Name ++ "\"") ], r1)
  else some ([], r)

/-- The function `strings.HasPrefix`. -/
def HasPrefix (s pre : String) : Bool := pre.data.isPrefixOf s.data

/-- The loop of the extreme profile over the visited keys:
`if strings.HasPrefix(k, "sec-") && fastrand.Bool() { delete(headerMap, k) }`. -/
def dropLoop : List String → List (String × String) → Rng → List (String × String) × Rng
  | [], m, r => (m, r)
  | k :: ks, m, r =>
    if HasPrefix k "sec-" then
      if (RandBool r).1 then dropLoop ks (mapDelete m k) (RandBool r).2
      else dropLoop ks m (RandBool r).2
    else dropLoop ks m r

/-- The block of `buildHeaders` guarded by `FingerprintProfileExtreme`. -/
def extremeDrop (m : List (String × String)) (r : Rng) : List (String × String) × Rng :=
  dropLoop (rangeKeys m r).1 m (rangeKeys m r).2

/-- The assignments `buildHeaders` makes after the extreme block: `sec-gpc` for
Brave navigations and the fetch-metadata headers of the request type. -/
def fetchAssignments (g : Generator) (browser : browserProfile) (r : Rng) :
    Option (List (String × String) × Rng) :=
  let gpc : List (String × String) :=
    if g.requestType = RequestTypeNavigate ∧ browser.Brand = "Brave" then [("sec-gpc", "1")]
    else []
  if g.requestType = RequestTypeNavigate then
    some (gpc ++ [ ("sec-fetch-dest", "document"), ("sec-fetch-mode", "navigate"),
      ("sec-fetch-site", "none"), ("sec-fetch-user", "?1"),
      ("upgrade-insecure-requests", "1") ], r)
  else if g.requestType = RequestTypeSubresource then
    match Choice subresourceDests r with
    | none => none
    | some (dest, r1) =>
      some (gpc ++ [ ("sec-fetch-dest", dest), ("sec-fetch-mode", "no-cors"),
        ("sec-fetch-site", "same-origin") ], r1)
  else if g.requestType = RequestTypeXHR then
    some (gpc ++ [ ("sec-fetch-dest", "empty"), ("sec-fetch-mode", "cors"),
      ("sec-fetch-site", "same-origin") ], r)
  else some (gpc, r)

/-- The map `headerMap` of `buildHeaders` when its keys are collected. -/
def generatedHeaderMap (g : Generator) (browser : browserProfile) (os : osProfile)
    (platform : platformProfile) (version : Int) (fullVersion : String)
    (versionProf : versionProfile) (r : Rng) : Option (List (String × String) × Rng) :=
  match negotiationAssignments g versionProf r with
  | none => none
  | some (negotiation, r1) =>
    match hintAssignments g browser os platform version fullVersion r1 with
    | none => none
    | some (hints, r2) =>
      let dropped :=
        if g.fingerprintProfile = .Extreme then extremeDrop (assignAll [] (negotiation ++ hints)) r2
        else (assignAll [] (negotiation ++ hints), r2)
      match fetchAssignments g browser dropped.2 with
      | none => none
      | some (fetch, r3) => some (assignAll dropped.1 fetch, r3)

/-- The method `buildHeaders`. -/
def buildHeaders (g : Generator) (browser : browserProfile) (os : osProfile)
    (platform : platformProfile) (version : Int) (fullVersion : String)
    (versionProf : versionProfile) (sorter : HeaderSorter) (r : Rng) :
    Option ((Header × List String) × Rng) :=
  match generatedHeaderMap g browser os platform version fullVersion versionProf r with
  | none => none
  | some (headerMap, r1) =>
    some (finishHeaders headerMap (sorter (rangeKeys headerMap r1).1 (rangeKeys headerMap r1).2).1,
      (sorter (rangeKeys headerMap r1).1 (rangeKeys headerMap r1).2).2)

/-! ## TLS handshake synthesis (`specs.go`) -/

/-- The value `utls.GREASE_PLACEHOLDER`. -/
def GREASE_PLACEHOLDER : Nat := 0x0a0a

/-- The function `shuffleExtensions`. -/
def shuffleExtensions (extensions : List TLSExtension) (r : Rng) : List TLSExtension × Rng :=
  ([.UtlsGREASEExtension] ++ (Shuffle extensions r).1 ++
    [.UtlsGREASEExtension, .UtlsPaddingExtension], (Shuffle extensions r).2)

/-- The 14 base extensions of `ChromeLatestSpec`, with the numeric values of the
constants of the TLS library. -/
def chromeExtensions : List TLSExtension :=
  [ .SNIExtension, .ExtendedMasterSecretExtension, .RenegotiationInfoExtension 1,
    .SupportedCurvesExtension [GREASE_PLACEHOLDER, 29, 23, 24],
    .SupportedPointsExtension [0], .SessionTicketExtension,
    .ALPNExtension ["h2", "http/1.1"], .StatusRequestExtension,
    .SignatureAlgorithmsExtension
      [0x0403, 0x0804, 0x0401, 0x0503, 0x0805, 0x0501, 0x0806, 0x0601],
    .SCTExtension, .KeyShareExtension [(GREASE_PLACEHOLDER, [0]), (29, [])],
    .PSKKeyExchangeModesExtension [1],
    .SupportedVersionsExtension [GREASE_PLACEHOLDER, 0x0304, 0x0303],
    .UtlsCompressCertExtension [2] ]

/-- The 16 cipher suites of `ChromeLatestSpec`. -/
def chromeCipherSuites : List Nat :=
  [ GREASE_PLACEHOLDER, 0x1301, 0x1302, 0x1303, 0xc02b, 0xc02f, 0xc02c, 0xc030, 0xcca9,
    0xcca8, 0xc013, 0xc014, 0x009c, 0x009d, 0x002f, 0x0035 ]

/-- The function `ChromeLatestSpec`: the ciphers are shuffled first, then the
extensions. -/
def ChromeLatestSpec (r : Rng) : ClientHelloSpec × Rng :=
  let ciphers := Shuffle chromeCipherSuites r
  let extensions := shuffleExtensions chromeExtensions ciphers.2
  ({ CipherSuites := ciphers.1, CompressionMethods := [0], Extensions := extensions.1 },
    extensions.2)

/-! ## HTTP/2 jitter (`h2_randomizer.go`) -/

/-- The conversion `float64(n)` of a `uint32`: exact. -/
def Float64.ofUint32 (n : Nat) : Float64 := ⟨(n : Int), 0⟩

/-- The conversion `uint32(x)` of a `float64`: the integer part, for a value from
0 to `2 ^ 32` (not included), as in every call of the package. -/
def Float64.toUint32 (x : Float64) : Nat := (x.mant.toNat / 10 ^ x.scale) % 2 ^ 32

/-- The call `fastrand.Number(min, max)`: a number between the two bounds, both
included. With equal bounds the call returns the bound and makes no draw; with
`min > max` it panics, for which `none` stands. -/
def Number (min max : Nat) (r : Rng) : Option (Nat × Rng) :=
  if max < min then none
  else if min = max then some (min, r)
  else some (min + r 0 % (max - min + 1), r.advance)

/-- The function `randomizeValue`. The values are `uint32`: the sum
`base + delta` wraps at `2 ^ 32`, and the call of `fastrand.Number` then panics
because its upper bound lies below the lower one. -/
def randomizeValue (base : Nat) (percentage : Float64) (r : Rng) : Option (Nat × Rng) :=
  if base = 0 then some (0, r)
  else
    let delta := Float64.toUint32 (Float64.mul (Float64.ofUint32 base) percentage)
    let minX := if base < delta then 1 else base - delta
    let maxX := (base + delta) % 2 ^ 32
    Number minX maxX r

/-- One guarded update of the moderate profile:
`if val, ok := m[id]; ok { m[id] = randomizeValue(val, p) }`. -/
def jitterSetting (m : List (SettingID × Nat)) (id : SettingID) (percentage : Float64)
    (r : Rng) : Option (List (SettingID × Nat) × Rng) :=
  match mapFind m id with
  | some val =>
    match randomizeValue val percentage r with
    | some (v, r1) => some (mapSet m id v, r1)
    | none => none
  | none => some (m, r)

/-- The function `randomizeH2Settings`; `none` stands for a panic: that of
`fastrand.Number` inside `randomizeValue`, and that of the `default` case, which
`Generate` never reaches. The percentages are the `float64` nearest to the
literals `0.10`, `0.15` and `0.20` of the source. -/
def randomizeH2Settings (baseSettings : List (SettingID × Nat))
    (profile : H2RandomizationProfile) (r : Rng) : Option (List (SettingID × Nat) × Rng) :=
  match profile with
  | .Normal =>
    match jitterSetting baseSettings SettingHeaderTableSize (Float64.round ⟨10, 2⟩) r with
    | none => none
    | some (s1, r1) =>
      match jitterSetting s1 SettingInitialWindowSize (Float64.round ⟨15, 2⟩) r1 with
      | none => none
      | some (s2, r2) => jitterSetting s2 SettingMaxHeaderListSize (Float64.round ⟨10, 2⟩) r2
  | .Maximum =>
    match randomizeValue 4096 (Float64.round ⟨20, 2⟩) r with
    | none => none
    | some (v1, r1) =>
      match randomizeValue 65535 (Float64.round ⟨20, 2⟩) r1 with
      | none => none
      | some (v2, r2) =>
        match randomizeValue 16384 (Float64.round ⟨20, 2⟩) r2 with
        | none => none
        | some (v3, r3) =>
          let v4 := IntN 1024 r3
          some (mapSet (mapSet (mapSet (mapSet (mapSet baseSettings
            SettingHeaderTableSize v1) SettingEnablePush 0) SettingInitialWindowSize v2)
            SettingMaxFrameSize v3) SettingMaxConcurrentStreams ((2 ^ 32 - 1 - v4.1) % 2 ^ 32),
            v4.2)
  | .None => none

/-! ## Generation (`legitagent.go`, lines 129-290) -/

/-- The loop of `Generate` over the fragment generators: the non-empty fragments
in generator order. -/
def renderParts : List UAComponentGenerator → browserProfile → osProfile → versionProfile →
    String → Rng → Option (List String × Rng)
  | [], _, _, _, _, r => some ([], r)
  | gen :: rest, bp, op, vp, fv, r =>
    match gen bp op vp fv r with
    | none => none
    | some (part, r1) =>
      match renderParts rest bp op vp fv r1 with
      | none => none
      | some (parts, r2) => some (if part ≠ "" then part :: parts else parts, r2)

/-- The slice `eligibleBots` of the bot branch of `Generate`. -/
def eligibleBots (g : Generator) : List botProfile :=
  if g.botAgentTypes.isEmpty then allBotProfiles
  else g.botAgentTypes.flatMap fun botName => (mapFind botProfileCategories botName).getD []

/-- The bot branch of `Generate`. The pooled record it fills is empty apart from
the fields assigned here. -/
def generateBot (g : Generator) (r : Rng) : Except Err Agent :=
  if (eligibleBots g).isEmpty then
    .error (.errorf "legitagent: no bot profiles found for the specified types: %v")
  else
    match Choice (eligibleBots g) r with
    | none => .error .panic
    | some (chosenProfile, r1) =>
      let visited := rangeKeys chosenProfile.Headers r1
      let keys := rangeKeys chosenProfile.Headers visited.2
      .ok { UserAgent := chosenProfile.UserAgent
            ClientHelloID := chosenProfile.HelloID
            Headers := visited.1.foldl
              (fun header k => Header.Set header k (mapGet chosenProfile.Headers k)) []
            HeaderOrder := pseudoHeaders ++ PriorityHeaderSorter keys.1
            ClientHelloSpec := none
            H2Settings := if g.h2Only then GetChromiumH2Settings else [] }

/-- The slice `finalVersions` of `Generate`, from the version keys in the order
the map iteration delivered them. -/
def finalVersions (g : Generator) (profile : browserProfile) (allVersions : List Int) :
    List Int :=
  let possibleVersions :=
    if g.minVersion ≠ 114 ∨ g.maxVersion ≠ 141 then
      allVersions.filter fun v => decide (v ≥ g.minVersion ∧ v ≤ g.maxVersion)
    else allVersions
  if g.h2Only then possibleVersions.filter fun v => (mapGet profile.Versions v).SupportsH2
  else possibleVersions

/-- The browser branch of `Generate` once browser, platform, OS and version are
fixed: user-agent, headers, HTTP/2 settings and TLS selection. -/
def generateFor (g : Generator) (profile : browserProfile) (platformProf : platformProfile)
    (osProf : osProfile) (version : Int) (r : Rng) : Except Err Agent :=
  let versionProf := mapGet profile.Versions version
  let full : String × Rng :=
    if profile.ChromiumBased then
      (Itoa version ++ ".0." ++ Itoa versionProf.BuildNumber ++ "." ++ Itoa (IntN 999 r).1,
        (IntN 999 r).2)
    else ("", r)
  match renderParts (mapGet platformProf.ComponentGenerators profile.Family) profile osProf
      versionProf full.1 full.2 with
  | none => .error .panic
  | some (parts, r1) =>
    let headerSorter :=
      if g.fingerprintProfile = .Maximum then ShuffledPriorityHeaderSorter else g.headerSorter
    match (if !g.zeroHeader then
        buildHeaders g profile osProf platformProf version full.1 versionProf headerSorter r1
      else some (([], []), r1)) with
    | none => .error .panic
    | some ((headers, headerOrder), r2) =>
      match (if g.h2Only then
          if g.h2RandomizationProfile ≠ .None then
            randomizeH2Settings profile.H2Settings g.h2RandomizationProfile r2
          else some (profile.H2Settings, r2)
        else some ([], r2)) with
      | none => .error .panic
      | some (h2Settings, r3) =>
        .ok { UserAgent := Join parts " "
              Headers := headers
              HeaderOrder := headerOrder
              H2Settings := h2Settings
              ClientHelloSpec :=
                if g.fingerprintProfile = .Maximum then some (ChromeLatestSpec r3).1 else none
              ClientHelloID :=
                if g.fingerprintProfile = .Maximum then default else versionProf.TLS.HelloID }

/-- The method `Generate`. -/
def Generate (g : Generator) (r : Rng) : Except Err Agent :=
  if g.useBotAgents then generateBot g r
  else
    match resolveBrowser g r with
    | .error err => .error err
    | .ok (browser, r1) =>
      match resolvePlatformAndOS g browser r1 with
      | .error err => .error err
      | .ok ((chosenPlatform, chosenOS), r2) =>
        let profile := mapGet browserProfiles browser
        let allVersions := rangeKeys profile.Versions r2
        if (finalVersions g profile allVersions.1).isEmpty then
          .error (.errorf
            "legitagent: no available browser versions for %s that meet the specified criteria")
        else
          match Choice (finalVersions g profile allVersions.1) allVersions.2 with
          | none => .error .panic
          | some (version, r3) =>
            generateFor g profile (mapGet platformProfiles chosenPlatform)
              (mapGet osProfiles chosenOS) version r3

/-! ## The shape of a header order -/

/-- The header names `buildHeaders` and `buildStaticHeaders` can emit. -/
def emittedHeaderNames : List String :=
  [ "accept", "accept-encoding", "accept-language", "sec-ch-ua", "sec-ch-ua-mobile",
    "sec-ch-ua-platform", "sec-ch-ua-full-version-list", "sec-ch-ua-platform-version",
    "sec-ch-ua-arch", "sec-ch-ua-bitness", "sec-gpc", "sec-fetch-dest", "sec-fetch-mode",
    "sec-fetch-site", "sec-fetch-user", "upgrade-insecure-requests" ]

/-- The header order of an Agent starts with the four pseudo-headers, in order,
and goes on with names `ks`, each listed once, whose canonical forms are exactly
the keys of the header set (`http.Header` stores every name under its canonical
form), each key once. -/
def HeaderOrderWellFormed (a : Agent) : Prop :=
  ∃ ks, a.HeaderOrder = pseudoHeaders ++ ks ∧ ks.Nodup ∧
    (ks.map CanonicalHeaderKey).Perm (mapKeys a.Headers) ∧ (mapKeys a.Headers).Nodup

/-- The keys of a map are pairwise distinct and all lie in the list `names`. -/
def keysWithin (names : List String) (m : List (String × String)) : Prop :=
  (mapKeys m).Nodup ∧ ∀ x ∈ mapKeys m, x ∈ names

/-- The default generator with the zero-header switch set. -/
def zeroHeaderGenerator : Generator := { NewGenerator with zeroHeader := true }

/-- The default generator in bot mode. -/
def botGenerator : Generator := { NewGenerator with useBotAgents := true }

/-! ## Statements about a run of `Generate` -/

/-- The full-version string and the random stream `Generate` passes on after it:
`major.0.build.patch` with a drawn patch below 999 for a Chromium-derived
browser, the empty string otherwise. -/
def fullVersionOf (profile : browserProfile) (version : Int) (r : Rng) : String × Rng :=
  if profile.ChromiumBased then
    (Itoa version ++ ".0." ++ Itoa (mapGet profile.Versions version).BuildNumber ++ "." ++
      Itoa (IntN 999 r).1, (IntN 999 r).2)
  else ("", r)

/-- The filters of `Generate` on a version `v` of a browser profile: inside the
configured bounds unless these are the default pair, and flagged for HTTP/2 when
HTTP/2-only is set. -/
def versionPasses (g : Generator) (profile : browserProfile) (v : Int) : Prop :=
  ((g.minVersion ≠ 114 ∨ g.maxVersion ≠ 141) → g.minVersion ≤ v ∧ v ≤ g.maxVersion) ∧
  (g.h2Only = true → (mapGet profile.Versions v).SupportsH2 = true)

/-- A run of `Generate` in browser mode that resolved `browser`, `platform`, `os`
and `version` and returned the Agent `a`: the three resolution steps succeeded
with these values and the rest of `Generate` produced `a` from them. -/
def ResolvedRun (g : Generator) (r : Rng) (browser : Browser) (platform : Platform)
    (os : OperatingSystem) (version : Int) (r3 : Rng) (a : Agent) : Prop :=
  ∃ r1 r2, resolveBrowser g r = .ok (browser, r1) ∧
    resolvePlatformAndOS g browser r1 = .ok ((platform, os), r2) ∧
    Choice (finalVersions g (mapGet browserProfiles browser)
        (rangeKeys (mapGet browserProfiles browser).Versions r2).1)
      (rangeKeys (mapGet browserProfiles browser).Versions r2).2 = some (version, r3) ∧
    generateFor g (mapGet browserProfiles browser) (mapGet platformProfiles platform)
      (mapGet osProfiles os) version r3 = .ok a

/-- The default generator under the maximum fingerprint profile. -/
def maximumGenerator : Generator := { NewGenerator with fingerprintProfile := .Maximum }

/-- The generator of the test `SafariMobile`: Safari on the mobile platform. -/
def safariMobileGenerator : Generator :=
  { NewGenerator with browsers := [BrowserSafari], platforms := [PlatformMobile] }

/-- Safari restricted to Windows and Linux. -/
def safariWindowsGenerator : Generator :=
  { NewGenerator with browsers := [BrowserSafari], os := [OSWindows, OSLinux] }

/-- The generator of the test `FirefoxMobile`: Firefox 127 on the mobile platform. -/
def firefoxMobileGenerator : Generator :=
  { NewGenerator with
    browsers := [BrowserFirefox], platforms := [PlatformMobile], minVersion := 127,
    maxVersion := 127 }

/-- Firefox on the desktop platform, restricted to the generic macOS token. -/
def firefoxMacGenerator : Generator :=
  { NewGenerator with browsers := [BrowserFirefox], platforms := [PlatformDesktop], os := [OSMac] }

/-- Chrome with the platform list `[PlatformRandom, PlatformDesktop]`. -/
def mixedPlatformGenerator : Generator :=
  { NewGenerator with
    browsers := [BrowserChrome], platforms := [PlatformRandom, PlatformDesktop] }

/-- Chrome with the OS list `[OSRandom, OSWindows]`. -/
def mixedOSGenerator : Generator :=
  { NewGenerator with browsers := [BrowserChrome], os := [OSRandom, OSWindows] }

/-- Chrome with a version range that no Chrome version meets. -/
def chromeOutOfRangeGenerator : Generator :=
  { NewGenerator with browsers := [BrowserChrome], minVersion := 200, maxVersion := 300 }

/-- The generator of the test `Chrome`: Chrome 140 on Windows 11, desktop. -/
def chrome140Generator : Generator :=
  { NewGenerator with
    browsers := [BrowserChrome], minVersion := 140, maxVersion := 140, os := [OSWindows11],
    platforms := [PlatformDesktop] }

/-- The generator of the test `Opera`: Opera 128 on macOS, desktop. -/
def opera128Generator : Generator :=
  { NewGenerator with
    browsers := [BrowserOpera], minVersion := 128, maxVersion := 128, os := [OSMac],
    platforms := [PlatformDesktop] }

/-- The default generator with HTTP/2-only switched off. -/
def noH2Generator : Generator := { NewGenerator with h2Only := false }

/-! ## Release of a record (`legitagent.go`, lines 292-307) -/

/-- The record behind a pointer `*Agent` as Go stores it. The header set is a map,
a reference: the field holds nil (`none`) or the address of a map object, and
`delete` changes the object, not the field. The other fields of reference type
(slice, pointer, map) are only ever assigned as a whole by `ReleaseAgent`; they
hold nil (`none`) or their content. -/
structure AgentRecord where
  UserAgent : String := ""
  Headers : Option Nat := none
  HeaderOrder : Option (List String) := none
  ClientHelloSpec : Option ClientHelloSpec := none
  ClientHelloID : ClientHelloID := default
  H2Settings : Option (List (SettingID × Nat)) := none

/-- The memory `ReleaseAgent` works on: the Agent records and the header map
objects, each by address, and the pointers that `agentPool` holds. -/
structure Memory where
  agents : Nat → AgentRecord
  headerMaps : Nat → Header
  pool : List Nat

/-- The loop `for k := range m { delete(m, k) }` on a map object: the keys are
visited in the order the random source fixes and each is deleted from the map. -/
def deleteAll (m : Header) (r : Rng) : Header :=
  (rangeKeys m r).1.foldl (fun h k => mapDelete h k) m

/-- The method `ReleaseAgent` on the memory, for a pointer `a` (`none` is nil, for
which the method returns at once). The fields of the record at `a` are assigned
in place; the loop over `a.Headers` empties the map object the field refers to
(no iteration for a nil map) and leaves the field as it is; the pointer is then
put into the pool. -/
def ReleaseAgent (mem : Memory) (a : Option Nat) (r : Rng) : Memory :=
  match a with
  | none => mem
  | some p =>
    { agents := fun x =>
        if x = p then
          { UserAgent := ""
            Headers := (mem.agents p).Headers
            HeaderOrder := none
            ClientHelloSpec := none
            ClientHelloID := default
            H2Settings := none }
        else mem.agents x
      headerMaps :=
        match (mem.agents p).Headers with
        | none => mem.headerMaps
        | some h => fun x => if x = h then deleteAll (mem.headerMaps h) r else mem.headerMaps x
      pool := p :: mem.pool }

/-- A memory with two records that share one header map: the record at address 0,
in use, and the record at address 1, which holds the same map reference. -/
def sampleMemory : Memory :=
  { agents := fun x =>
      if x = 0 then
        { UserAgent := "Mozilla/5.0", Headers := some 7, HeaderOrder := some ["accept"],
          ClientHelloID := HelloChrome_120, H2Settings := some GetChromiumH2Settings }
      else if x = 1 then { Headers := some 7 }
      else {}
    headerMaps := fun x =>
      if x = 7 then [("Accept", ["*/*"]), ("User-Agent", ["Mozilla/5.0"])] else []
    pool := [] }

/-! ## Reading a header set -/

/-- The lookup `vs, ok := h[http.CanonicalHeaderKey(key)]` followed by the first
value, which is what `Header.Get` reads; `none` when the header set has no entry for
the name. -/
def Header.Lookup (h : Header) (key : String) : Option String :=
  (mapFind h (CanonicalHeaderKey key)).map fun vs => vs.headD ""

/-! ## Further sample inputs -/

/-- The generator of the test `TestBotAgentGenerationSpecific`: bot mode restricted
to the category `GoogleBot`. -/
def botGoogleGenerator : Generator :=
  { NewGenerator with useBotAgents := true, botAgentTypes := [BotGoogle] }

/-- The generator of the test `TestBotAgentGenerationInvalid`. -/
def botInvalidGenerator : Generator :=
  { NewGenerator with useBotAgents := true, botAgentTypes := ["NonExistentBot"] }

/-- The generator of the test `Bot Agent (Unaffected)`: bot mode restricted to
`GoogleBot` with the accept-encoding toggle off, here with the accept toggle off as
well. -/
def botTogglesOffGenerator : Generator :=
  { NewGenerator with
    useBotAgents := true, botAgentTypes := [BotGoogle], acceptEncodingEnabled := false,
    acceptEnabled := false }

/-- The generator of the test `TestAcceptHeaderOption/Disabled`. -/
def acceptOffGenerator : Generator := { NewGenerator with acceptEnabled := false }

/-- The generator of the test `TestAcceptEncodingOption/Enabled`. -/
def acceptEncodingGenerator : Generator := { NewGenerator with acceptEncodingEnabled := true }

/-- The generator of the test `TestFullFingerprintOption/Minimal`. -/
def chromeGenerator : Generator := { NewGenerator with browsers := [BrowserChrome] }

/-- The generator of the test `TestFullFingerprintOption/Full`: Chrome on Windows 11
with the full-fingerprint toggle on. -/
def fullFingerprintGenerator : Generator :=
  { NewGenerator with browsers := [BrowserChrome], fullFingerprint := true, os := [OSWindows11] }

/-- The generator of the test `TestFullFingerprintOption/Full` with the zero-header
switch set. -/
def zeroHeaderFullGenerator : Generator := { fullFingerprintGenerator with zeroHeader := true }

/-- Chrome on iOS with the full-fingerprint toggle on. -/
def fullFingerprintIOSGenerator : Generator :=
  { NewGenerator with browsers := [BrowserChrome], fullFingerprint := true, os := [OSiOS] }

/-- The default generator for subresource requests. -/
def subresourceGenerator : Generator := { NewGenerator with requestType := RequestTypeSubresource }

/-- The default generator for XHR requests. -/
def xhrGenerator : Generator := { NewGenerator with requestType := RequestTypeXHR }

/-- The user-agent of Opera 120, whose `Chrome/` token names Chromium 135. -/
def uaOpera120 : String :=
  "Mozilla/5.0 (Windows NT 10.0; Win64; x64) AppleWebKit/537.36 (KHTML, like Gecko) " ++
    "Chrome/135.0.0.0 Safari/537.36 OPR/120.0.0.0"

/-- A Chrome user-agent whose platform token names Android without `Linux`. -/
def uaChromeAndroidPlain : String :=
  "Mozilla/5.0 (Android 14; Pixel 7) AppleWebKit/537.36 (KHTML, like Gecko) " ++
    "Chrome/125.0.0.0 Mobile Safari/537.36"

/-- The fragments the generator steps of `Generate` return, in step order, the
empty ones included. -/
def stepFragments : List UAComponentGenerator → browserProfile → osProfile → versionProfile →
    String → Rng → Option (List String × Rng)
  | [], _, _, _, _, r => some ([], r)
  | gen :: rest, bp, op, vp, fv, r =>
    match gen bp op vp fv r with
    | none => none
    | some (part, r1) =>
      match stepFragments rest bp op vp fv r1 with
      | none => none
      | some (parts, r2) => some (part :: parts, r2)

/-- A text that does not begin with a space, does not end with one and holds no
two spaces in a row. -/
def singleSpaced (s : String) : Prop :=
  s.data.head? ≠ some ' ' ∧ s.data.getLast? ≠ some ' ' ∧ Contains s "  " = false

instance (s : String) : Decidable (singleSpaced s) := by
  unfold singleSpaced
  infer_instance

/-- Chrome with the maximum HTTP/2 jitter profile. -/
def maximumJitterGenerator : Generator :=
  { NewGenerator with browsers := [BrowserChrome], h2RandomizationProfile := .Maximum }

/-- A random source whose every draw is one. -/
def oneRng : Rng := fun _ => 1

/-- A random source whose every draw is `2 ^ 52`: each draw of `fastrand.Float64`
is then one half. -/
def halfRng : Rng := fun _ => 2 ^ 52

/-- The default generator under the extreme fingerprint profile. -/
def extremeGenerator : Generator := { NewGenerator with fingerprintProfile := .Extreme }

/-- Chrome under the extreme fingerprint profile. -/
def extremeChromeGenerator : Generator :=
  { NewGenerator with browsers := [BrowserChrome], fingerprintProfile := .Extreme }

/-! ## Quality values of an accept value -/

/-- The number of tenths that `strconv.FormatFloat(x, 'f', 1, 64)` writes for `x`:
the absolute value in tenths, rounded to the nearest, ties to even (the digits of
`FormatFloat1`). -/
def Float64.tenths (x : Float64) : Nat :=
  let n := x.mant.natAbs * 10
  let d := 10 ^ x.scale
  let q := n / d
  let r := n % d
  if 2 * r > d ∨ (2 * r = d ∧ q % 2 = 1) then q + 1 else q

/-- The values of `currentQ` that the loop of `buildAcceptHeader` writes, in order:
one for each part with a weight. -/
def acceptQualities : List AcceptHeaderPart → Float64 → Rng → List Float64
  | [], _, _ => []
  | part :: rest, currentQ, r =>
    if part.Q.isPos then
      nextQ currentQ (RandFloat64 r).1 ::
        acceptQualities rest (nextQ currentQ (RandFloat64 r).1) (RandFloat64 r).2
    else acceptQualities rest currentQ r

/-- The update of `nextQ` as a compiler that fuses the product and the difference
into one operation evaluates it, which the language allows and the compiler for
arm64 does: the exact value of `currentQ - x * 0.1` is rounded once. -/
def nextQFused (currentQ x : Float64) : Float64 :=
  let q := Float64.sub currentQ ⟨x.mant * tenth.mant, x.scale + tenth.scale⟩
  if Float64.lt q tenth then tenth else q

/-- The loop of `buildAcceptHeader` from one part on, with the fused update. -/
def acceptPartsFused : List AcceptHeaderPart → Float64 → Rng → List String × Rng
  | [], _, r => ([], r)
  | part :: rest, currentQ, r =>
    let head := part.Value ++ String.join (part.Extras.map (fun extra => ";" ++ extra))
    if part.Q.isPos then
      let q := nextQFused currentQ (RandFloat64 r).1
      let tail := acceptPartsFused rest q (RandFloat64 r).2
      ((head ++ ";q=" ++ FormatFloat1 q) :: tail.1, tail.2)
    else
      let tail := acceptPartsFused rest currentQ r
      (head :: tail.1, tail.2)

/-- The function `buildAcceptHeader` with the fused update. -/
def buildAcceptHeaderFused (parts : List AcceptHeaderPart) (r : Rng) : String × Rng :=
  let out := acceptPartsFused parts ⟨1, 0⟩ r
  (Join out.1 ",", out.2)

/-- The quality values of the weighted parts with the fused update, in the order
in which `buildAcceptHeader` writes them. -/
def acceptQualitiesFused : List AcceptHeaderPart → Float64 → Rng → List Float64
  | [], _, _ => []
  | part :: rest, currentQ, r =>
    if part.Q.isPos then
      let q := nextQFused currentQ (RandFloat64 r).1
      q :: acceptQualitiesFused rest q (RandFloat64 r).2
    else acceptQualitiesFused rest currentQ r

/-- The text of a quality value of `t` tenths, with one decimal place. -/
def qualityText (t : Nat) : String := toString (t / 10) ++ "." ++ toString (t % 10)

/-- The parts of an accept value for a template and the quality values, in tenths,
of its weighted parts: each part is its value, its extras each behind `;`, and
for a weighted part `;q=` with the next quality value. -/
def acceptPartsWith : List AcceptHeaderPart → List Nat → List String
  | [], _ => []
  | part :: rest, ts =>
    let head := part.Value ++ String.join (part.Extras.map (fun extra => ";" ++ extra))
    if part.Q.isPos then
      match ts with
      | t :: ts1 => (head ++ ";q=" ++ qualityText t) :: acceptPartsWith rest ts1
      | [] => head :: acceptPartsWith rest []
    else head :: acceptPartsWith rest ts

/-- The number `k / 2 ^ a` as a decimal fraction. -/
def dyadic (k a : Nat) : Float64 := ⟨((k * 5 ^ a : Nat) : Int), a⟩

/-- The values `currentQ` takes in the loop of `buildAcceptHeader`: a number
`kc / 2 ^ ac` that has 53 binary digits (it equals `k / 2 ^ a` for a `k` between
`2 ^ 52` and `2 ^ 53`) and lies between the `float64` of 0.1 and 1. -/
def qualityRange (c : Float64) : Prop :=
  ∃ kc ac k a, c = dyadic kc ac ∧ 2 ^ 52 ≤ k ∧ k ≤ 2 ^ 53 ∧ k * 2 ^ ac = kc * 2 ^ a ∧
    7205759403792794 * 2 ^ ac ≤ kc * 2 ^ 56 ∧ kc ≤ 2 ^ ac

/-! ## Scanning a text for a literal

Three tests on character lists that the lemmas on the patterns of `uaRegexes`
use to follow the search of a literal through a text of which only parts are
known. -/

/-- The literal differs from the text at a position both have: it is then no
prefix of the text, however the text continues. -/
def clash : List Char → List Char → Bool
  | p :: ps, c :: cs => p != c || clash ps cs
  | _, _ => false

/-- No occurrence of the literal starts inside the text `pre`, however the text
continues behind it. -/
def noStart (lit : List Char) : List Char → Bool
  | [] => true
  | c :: cs => clash lit (c :: cs) && noStart lit cs

/-- The text is not empty and its first character does not occur in the literal. -/
def headOutside (lit : List Char) : List Char → Bool
  | [] => false
  | c :: _ => !lit.contains c

/-- The default generator in bot mode under the maximum fingerprint profile. -/
def botMaximumGenerator : Generator :=
  { NewGenerator with useBotAgents := true, fingerprintProfile := .Maximum }

/-! # Theorems -/

/-! ## Lemmas on the version matcher -/

theorem closest_foldl_ge (target : Int) (ks : List Int) (c : Int) :
    c ≤ ks.foldl (closestStep target) c := by
  induction ks generalizing c with
  | nil => simp
  | cons v vs ih =>
    simp only [List.foldl_cons]
    refine le_trans ?_ (ih _)
    unfold closestStep
    split <;> omega

theorem closest_foldl_mem (target : Int) (ks : List Int) (c : Int) :
    ks.foldl (closestStep target) c = c ∨
      (ks.foldl (closestStep target) c ∈ ks ∧ ks.foldl (closestStep target) c ≤ target) := by
  induction ks generalizing c with
  | nil => simp
  | cons v vs ih =>
    simp only [List.foldl_cons, List.mem_cons]
    rcases ih (closestStep target c v) with h | ⟨h1, h2⟩
    · rw [h]
      unfold closestStep
      split
      · rename_i hv
        exact Or.inr ⟨Or.inl rfl, hv.1⟩
      · exact Or.inl rfl
    · exact Or.inr ⟨Or.inr h1, h2⟩

theorem closest_foldl_upper (target : Int) (ks : List Int) (c : Int) (v : Int)
    (hv : v ∈ ks) (hle : v ≤ target) : v ≤ ks.foldl (closestStep target) c := by
  induction ks generalizing c with
  | nil => simp at hv
  | cons w ws ih =>
    simp only [List.foldl_cons]
    rcases List.mem_cons.1 hv with h | h
    · subst h
      refine le_trans ?_ (closest_foldl_ge target ws _)
      unfold closestStep
      split <;> omega
    · exact ih _ h

/-- The loop of the matcher ends on `k` when `k` is the largest key not above the
target and the start value is below `k`. -/
theorem closest_foldl_eq (target : Int) (ks : List Int) (c k : Int) (hc : c < k)
    (hk : k ∈ ks) (hle : k ≤ target) (hmax : ∀ v ∈ ks, v ≤ target → v ≤ k) :
    ks.foldl (closestStep target) c = k := by
  have h1 := closest_foldl_upper target ks c k hk hle
  rcases closest_foldl_mem target ks c with h | ⟨h2, h3⟩
  · omega
  · have := hmax _ h2 h3
    omega

/-- The loop of the matcher keeps its start value when no key is at most the target. -/
theorem closest_foldl_none (target : Int) (ks : List Int) (c : Int)
    (h : ∀ v ∈ ks, target < v) : ks.foldl (closestStep target) c = c := by
  rcases closest_foldl_mem target ks c with h1 | ⟨h2, h3⟩
  · exact h1
  · have := h _ h2
    omega

/-! ## Theorems on the version matcher -/

/-- C1: for every version table with non-negative keys and every target with at
least one key not above it, `findClosestVersionProfile` succeeds and returns the
pair `(table[k], k)` where `k` is the largest key not above the target. -/
theorem findClosestVersionProfile_largest_le (versions : List (Int × versionProfile))
    (target k : Int) (hnn : ∀ v ∈ mapKeys versions, 0 ≤ v) (hk : k ∈ mapKeys versions)
    (hle : k ≤ target) (hmax : ∀ v ∈ mapKeys versions, v ≤ target → v ≤ k) :
    findClosestVersionProfile versions target = .ok (mapGet versions k, k) := by
  have h0 : (0 : Int) ≤ k := hnn k hk
  have hfold := closest_foldl_eq target (mapKeys versions) (-1) k (by omega) hk hle hmax
  unfold findClosestVersionProfile
  simp only [hfold]
  rw [if_neg (by omega)]

/-- C1 (witness): the table with keys 114, 120, 130 gives the profile of 120 for
target 125 and the profile of 130 for target 130. -/
theorem findClosestVersionProfile_largest_le_witness :
    findClosestVersionProfile sampleVersions 125 = .ok (chromiumVersion 6099, 120) ∧
    findClosestVersionProfile sampleVersions 130 = .ok (chromiumVersion 6735, 130) :=
  ⟨findClosestVersionProfile_largest_le sampleVersions 125 120 (by decide) (by decide)
      (by decide) (by decide),
    findClosestVersionProfile_largest_le sampleVersions 130 130 (by decide) (by decide)
      (by decide) (by decide)⟩

/-! ## Lemmas on the stable sort -/

theorem insertStable_perm {α : Type} (less : α → α → Bool) (a : α) (l : List α) :
    (insertStable less a l).Perm (a :: l) := by
  induction l with
  | nil => exact List.Perm.refl _
  | cons b l ih =>
    unfold insertStable
    split
    · exact (List.Perm.cons b ih).trans (List.Perm.swap a b l)
    · exact List.Perm.refl _

theorem SliceStable_perm {α : Type} (less : α → α → Bool) (l : List α) :
    (SliceStable less l).Perm l := by
  induction l with
  | nil => exact List.Perm.refl _
  | cons a l ih =>
    unfold SliceStable
    exact (insertStable_perm less a _).trans (List.Perm.cons a ih)

theorem insertStable_sorted (a : String) (l : List String)
    (h : l.Pairwise (fun x y => priorityOf x ≤ priorityOf y)) :
    (insertStable priorityLess a l).Pairwise (fun x y => priorityOf x ≤ priorityOf y) := by
  induction l with
  | nil => simp [insertStable]
  | cons b l ih =>
    unfold insertStable
    rw [List.pairwise_cons] at h
    split
    · rename_i hlt
      have hba : priorityOf b < priorityOf a := by simpa [priorityLess] using hlt
      rw [List.pairwise_cons]
      refine ⟨?_, ih h.2⟩
      intro c hc
      rcases List.mem_cons.1 ((insertStable_perm priorityLess a l).subset hc) with hc | hc
      · subst hc; omega
      · exact h.1 c hc
    · rename_i hlt
      have hab : priorityOf a ≤ priorityOf b := by
        have : ¬ priorityOf b < priorityOf a := by simpa [priorityLess] using hlt
        omega
      rw [List.pairwise_cons]
      refine ⟨?_, List.pairwise_cons.2 h⟩
      intro c hc
      rcases List.mem_cons.1 hc with hc | hc
      · subst hc; exact hab
      · have := h.1 c hc
        omega

theorem PriorityHeaderSorter_sorted (keys : List String) :
    (PriorityHeaderSorter keys).Pairwise (fun x y => priorityOf x ≤ priorityOf y) := by
  unfold PriorityHeaderSorter
  induction keys with
  | nil => simp [SliceStable]
  | cons a l ih =>
    unfold SliceStable
    exact insertStable_sorted a _ ih

theorem insertStable_filter (p : Int) (a : String) (l : List String) :
    (insertStable priorityLess a l).filter (fun k => decide (priorityOf k = p)) =
      (a :: l).filter (fun k => decide (priorityOf k = p)) := by
  induction l with
  | nil => simp [insertStable]
  | cons b l ih =>
    unfold insertStable
    split
    · rename_i hlt
      have hba : priorityOf b < priorityOf a := by simpa [priorityLess] using hlt
      rw [List.filter_cons, ih]
      by_cases hb : priorityOf b = p
      · have ha : priorityOf a ≠ p := by omega
        simp [List.filter_cons, hb, ha]
      · simp [List.filter_cons, hb]
    · rfl

theorem PriorityHeaderSorter_filter (p : Int) (keys : List String) :
    (PriorityHeaderSorter keys).filter (fun k => decide (priorityOf k = p)) =
      keys.filter (fun k => decide (priorityOf k = p)) := by
  unfold PriorityHeaderSorter
  induction keys with
  | nil => simp [SliceStable]
  | cons a l ih =>
    unfold SliceStable
    rw [insertStable_filter, List.filter_cons, ih, List.filter_cons]

theorem SliceStable_of_sorted (l : List String)
    (h : l.Pairwise (fun x y => priorityOf x ≤ priorityOf y)) :
    SliceStable priorityLess l = l := by
  induction l with
  | nil => rfl
  | cons a l ih =>
    rw [List.pairwise_cons] at h
    unfold SliceStable
    rw [ih h.2]
    cases l with
    | nil => rfl
    | cons b l =>
      unfold insertStable
      have hab := h.1 b (List.mem_cons_self b l)
      have : priorityLess b a = false := by
        simp only [priorityLess, decide_eq_false_iff_not]
        omega
      simp [this]

/-- Every priority stored in `headerPriority` is below `math.MaxInt`. -/
theorem headerPriority_lt_MaxInt : ∀ e ∈ headerPriority, e.2 < MaxInt := by
  decide

theorem mapFind_mem {κ ν : Type} [DecidableEq κ] (m : List (κ × ν)) (k : κ) (v : ν)
    (h : mapFind m k = some v) : (k, v) ∈ m := by
  induction m with
  | nil => simp [mapFind] at h
  | cons e m ih =>
    obtain ⟨k', v'⟩ := e
    unfold mapFind at h
    split at h
    · rename_i hk
      simp only [Option.some.injEq] at h
      subst hk; subst h
      exact List.mem_cons_self _ _
    · exact List.mem_cons_of_mem _ (ih h)

/-! ## Theorems on priority ordering -/

/-- C9: for every list of header names `PriorityHeaderSorter` yields a permutation
of the input that is non-decreasing in priority, where the priority of a name is
its entry in `headerPriority` and a name without an entry ranks strictly after
every name with one; the names of any one priority, and in particular the names
without an entry, keep their relative input order. -/
theorem PriorityHeaderSorter_stable_sort (keys : List String) :
    (PriorityHeaderSorter keys).Perm keys ∧
    (PriorityHeaderSorter keys).Pairwise (fun x y => priorityOf x ≤ priorityOf y) ∧
    (∀ k p, mapFind headerPriority k = some p → priorityOf k = p) ∧
    (∀ k u, (mapFind headerPriority k).isSome → mapFind headerPriority u = none →
      priorityOf k < priorityOf u) ∧
    (∀ p, (PriorityHeaderSorter keys).filter (fun k => decide (priorityOf k = p)) =
      keys.filter (fun k => decide (priorityOf k = p))) ∧
    (PriorityHeaderSorter keys).filter (fun k => (mapFind headerPriority k).isNone) =
      keys.filter (fun k => (mapFind headerPriority k).isNone) := by
  refine ⟨SliceStable_perm _ _, PriorityHeaderSorter_sorted keys, ?_, ?_,
    fun p => PriorityHeaderSorter_filter p keys, ?_⟩
  · intro k p h
    simp [priorityOf, h]
  · intro k u hk hu
    obtain ⟨p, hp⟩ := Option.isSome_iff_exists.1 hk
    have := headerPriority_lt_MaxInt (k, p) (mapFind_mem _ _ _ hp)
    simpa [priorityOf, hp, hu] using this
  · have hiff : ∀ k : String, (mapFind headerPriority k).isNone = decide (priorityOf k = MaxInt) := by
      intro k
      cases hk : mapFind headerPriority k with
      | none => simp [priorityOf, hk]
      | some p =>
        have := headerPriority_lt_MaxInt (k, p) (mapFind_mem _ _ _ hk)
        have hne : p ≠ MaxInt := by
          simp only at this
          omega
        simp [priorityOf, hk, hne]
    simp only [hiff]
    exact PriorityHeaderSorter_filter MaxInt keys

/-- C10: priority ordering is idempotent: sorting the result of
`PriorityHeaderSorter` again leaves it unchanged. -/
theorem PriorityHeaderSorter_idempotent (keys : List String) :
    PriorityHeaderSorter (PriorityHeaderSorter keys) = PriorityHeaderSorter keys := by
  exact SliceStable_of_sorted _ (PriorityHeaderSorter_sorted keys)

/-! ## Lemmas on the reverse parser -/

/-- What the loop over the patterns returns: the zero values when no pattern
matches, and otherwise the outcome of `Atoi` on the capture of the first pattern
that matches. -/
theorem parseBrowserLoop_spec (ua : List Char) (res : List (Browser × List ReTok)) :
    ((∀ e ∈ res, FindStringSubmatch e.2 ua = none) ∧ parseBrowserLoop ua res = .ok ("", 0)) ∨
    (∃ pre b re post digits, res = pre ++ (b, re) :: post ∧
      (∀ e ∈ pre, FindStringSubmatch e.2 ua = none) ∧
      FindStringSubmatch re ua = some digits ∧
      parseBrowserLoop ua res =
        match Atoi digits with
        | some v => .ok (b, v)
        | none => .error (.errorf "could not parse version from ua string: %w")) := by
  induction res with
  | nil => exact Or.inl ⟨by simp, rfl⟩
  | cons e res ih =>
    obtain ⟨b, re⟩ := e
    cases hm : FindStringSubmatch re ua with
    | some digits =>
      refine Or.inr ⟨[], b, re, res, digits, rfl, by simp, hm, ?_⟩
      simp only [parseBrowserLoop, hm]
    | none =>
      have hstep : parseBrowserLoop ua ((b, re) :: res) = parseBrowserLoop ua res := by
        simp only [parseBrowserLoop, hm]
      rcases ih with ⟨hnone, hres⟩ | ⟨pre, b', re', post, digits, hsplit, hpre, hfind, hres⟩
      · refine Or.inl ⟨?_, by rw [hstep, hres]⟩
        intro e he
        rcases List.mem_cons.1 he with h | h
        · subst h; exact hm
        · exact hnone e h
      · refine Or.inr ⟨(b, re) :: pre, b', re', post, digits, by simp [hsplit], ?_, hfind, ?_⟩
        · intro e he
          rcases List.mem_cons.1 he with h | h
          · subst h; exact hm
          · exact hpre e h
        · rw [hstep, hres]

/-- The six browser names of `uaRegexes`. -/
theorem uaRegexes_names :
    uaRegexes.map Prod.fst =
      [BrowserSafari, BrowserEdge, BrowserOpera, BrowserBrave, BrowserChrome, BrowserFirefox] := by
  rfl

theorem parseOS_mem (ua : String) (os : OperatingSystem) (h : parseOS ua = some os) :
    os ∈ [OSWindows11, OSiOS, osMacIntel, OSLinux, OSAndroid, OSChromeOS] := by
  unfold parseOS at h
  repeat' split at h
  all_goals first
    | (simp only [Option.some.injEq] at h; subst h; decide)
    | simp at h

/-- A successful classification names one of the six browsers and one of the six
operating systems, and comes from a successful run of the loop. -/
theorem parse_ok_inv (ua : String) (p : parsedUA) (h : parseUserAgentString ua = .ok p) :
    parseBrowserLoop ua.data uaRegexes = .ok (p.Browser, p.Version) ∧ p.Browser ≠ "" ∧
      parseOS ua = some p.OS ∧
      p.Browser ∈ uaRegexes.map Prod.fst ∧
      p.OS ∈ [OSWindows11, OSiOS, osMacIntel, OSLinux, OSAndroid, OSChromeOS] := by
  unfold parseUserAgentString at h
  split at h
  · simp at h
  · rename_i b v hloop
    split at h
    · simp at h
    · rename_i hb
      split at h
      · rename_i os hos
        simp only [Except.ok.injEq] at h
        subst h
        refine ⟨hloop, hb, hos, ?_, parseOS_mem ua os hos⟩
        rcases parseBrowserLoop_spec ua.data uaRegexes with ⟨_, h0⟩ |
          ⟨pre, b', re, post, digits, hsplit, _, _, hres⟩
        · rw [hloop] at h0
          simp only [Except.ok.injEq, Prod.mk.injEq] at h0
          exact absurd h0.1 hb
        · rw [hloop] at hres
          have hb' : b = b' := by
            cases hA : Atoi digits with
            | none => simp [hA] at hres
            | some v' =>
              simp only [hA, Except.ok.injEq, Prod.mk.injEq] at hres
              exact hres.1
          subst hb'
          rw [hsplit]
          simp
      · simp at h

theorem containsChars_iff (sub s : List Char) : containsChars sub s = true ↔ sub <:+: s := by
  induction s with
  | nil =>
    simp [containsChars, List.isEmpty_iff]
  | cons c cs ih =>
    unfold containsChars
    rw [Bool.or_eq_true, ih, List.infix_cons_iff, List.isPrefixOf_iff_prefix]

/-- The test `strings.Contains` holds exactly when the token occurs in the string
as a block of consecutive characters. -/
theorem Contains_iff (s tok : String) : Contains s tok = true ↔ tok.data <:+: s.data := by
  unfold Contains
  exact containsChars_iff _ _

theorem starGreedy_digits {ρ : Type} (k : List Char → List Char → Option ρ) (s acc : List Char)
    (res : ρ) (hacc : acc ≠ [] ∧ acc.all isDigit = true)
    (h : starGreedy isDigit k acc s = some res) :
    ∃ acc' s', (acc' ≠ [] ∧ acc'.all isDigit = true) ∧ k acc' s' = some res := by
  induction s generalizing acc with
  | nil => exact ⟨acc, [], hacc, by simpa [starGreedy] using h⟩
  | cons c cs ih =>
    unfold starGreedy at h
    split at h
    · rename_i hc
      split at h
      · rename_i r hr
        simp only [Option.some.injEq] at h
        subst h
        exact ih (c :: acc) ⟨by simp, by simp [hc, hacc.2]⟩ hr
      · exact ⟨acc, c :: cs, hacc, h⟩
    · exact ⟨acc, c :: cs, hacc, h⟩

theorem plusGreedy_digits {ρ : Type} (k : List Char → List Char → Option ρ) (s : List Char)
    (res : ρ) (h : plusGreedy isDigit k s = some res) :
    ∃ acc' s', (acc' ≠ [] ∧ acc'.all isDigit = true) ∧ k acc' s' = some res := by
  cases s with
  | nil => simp [plusGreedy] at h
  | cons c cs =>
    simp only [plusGreedy] at h
    split at h
    · rename_i hc
      exact starGreedy_digits k cs [c] res ⟨by simp, by simp [hc]⟩ h
    · simp at h

theorem starGreedy_any {ρ : Type} (cls : Char → Bool) (k : List Char → List Char → Option ρ)
    (s acc : List Char) (res : ρ) (h : starGreedy cls k acc s = some res) :
    ∃ acc' s', k acc' s' = some res := by
  induction s generalizing acc with
  | nil => exact ⟨acc, [], by simpa [starGreedy] using h⟩
  | cons c cs ih =>
    unfold starGreedy at h
    split at h
    · split at h
      · rename_i r hr
        simp only [Option.some.injEq] at h
        subst h
        exact ih (c :: acc) hr
      · exact ⟨acc, c :: cs, h⟩
    · exact ⟨acc, c :: cs, h⟩

theorem plusGreedy_any {ρ : Type} (cls : Char → Bool) (k : List Char → List Char → Option ρ)
    (s : List Char) (res : ρ) (h : plusGreedy cls k s = some res) :
    ∃ acc' s', k acc' s' = some res := by
  cases s with
  | nil => simp [plusGreedy] at h
  | cons c cs =>
    simp only [plusGreedy] at h
    split at h
    · exact starGreedy_any cls k cs [c] res h
    · simp at h

/-- The capture a match returns is the capture it started with when the pattern
has no group, and a non-empty string of digits when it has one. -/
theorem matchHere_capture (re : List ReTok) (cap s d : List Char)
    (h : matchHere re cap s = some d) :
    (ReTok.digitsCap ∉ re ∧ d = cap) ∨ (d ≠ [] ∧ d.all isDigit = true) := by
  induction re generalizing cap s with
  | nil =>
    simp only [matchHere, Option.some.injEq] at h
    exact Or.inl ⟨by simp, h.symm⟩
  | cons t re ih =>
    cases t with
    | lit text =>
      simp only [matchHere] at h
      split at h
      · rename_i s' _
        rcases ih cap s' h with ⟨h1, h2⟩ | h3
        · exact Or.inl ⟨by simp [h1], h2⟩
        · exact Or.inr h3
      · simp at h
    | digitsCap =>
      simp only [matchHere] at h
      obtain ⟨acc', s', ⟨hne, hall⟩, hk⟩ := plusGreedy_digits _ s d h
      rcases ih acc'.reverse s' hk with ⟨_, h2⟩ | h3
      · subst h2
        exact Or.inr ⟨by simpa using hne, by simpa using hall⟩
      · exact Or.inr h3
    | digits =>
      simp only [matchHere] at h
      obtain ⟨acc', s', hk⟩ := plusGreedy_any _ _ s d h
      rcases ih cap s' hk with ⟨h1, h2⟩ | h3
      · exact Or.inl ⟨by simp [h1], h2⟩
      · exact Or.inr h3
    | anyStar =>
      simp only [matchHere] at h
      obtain ⟨acc', s', hk⟩ := starGreedy_any _ _ s [] d h
      rcases ih cap s' hk with ⟨h1, h2⟩ | h3
      · exact Or.inl ⟨by simp [h1], h2⟩
      · exact Or.inr h3

theorem FindStringSubmatch_capture (re : List ReTok) (s d : List Char)
    (hre : ReTok.digitsCap ∈ re) (h : FindStringSubmatch re s = some d) :
    d ≠ [] ∧ d.all isDigit = true := by
  induction s with
  | nil =>
    simp only [FindStringSubmatch] at h
    rcases matchHere_capture re [] [] d h with ⟨h1, _⟩ | h3
    · exact absurd hre h1
    · exact h3
  | cons c cs ih =>
    simp only [FindStringSubmatch] at h
    split at h
    · rename_i cap hcap
      simp only [Option.some.injEq] at h
      subst h
      rcases matchHere_capture re [] (c :: cs) cap hcap with ⟨h1, _⟩ | h3
      · exact absurd hre h1
      · exact h3
    · exact ih h

/-- On the capture of a pattern, `Atoi` fails only by range. -/
theorem Atoi_digits (d : List Char) (hd : d ≠ [] ∧ d.all isDigit = true) :
    Atoi d = if decimalValue d ≤ MaxInt then some (decimalValue d) else none := by
  unfold Atoi
  have h1 : d.isEmpty = false := by
    cases d with
    | nil => exact absurd rfl hd.1
    | cons _ _ => rfl
  simp [h1, hd.2]

theorem uaRegexes_have_group : ∀ e ∈ uaRegexes, ReTok.digitsCap ∈ e.2 := by
  decide

theorem mapFind_eq_some_mapGet {κ ν : Type} [DecidableEq κ] [Inhabited ν] (m : List (κ × ν))
    (k : κ) (h : (mapFind m k).isSome = true) : mapFind m k = some (mapGet m k) := by
  obtain ⟨v, hv⟩ := Option.isSome_iff_exists.1 h
  simp [mapGet, hv]

theorem browserProfiles_known :
    ∀ b ∈ uaRegexes.map Prod.fst, (mapFind browserProfiles b).isSome = true := by
  decide

theorem osProfiles_known :
    ∀ o ∈ [OSWindows11, OSiOS, osMacIntel, OSLinux, OSAndroid, OSChromeOS],
      (mapFind osProfiles o).isSome = true := by
  decide

theorem platformProfiles_known (c : Prop) [Decidable c] :
    (mapFind platformProfiles (if c then PlatformMobile else PlatformDesktop)).isSome = true := by
  split <;> rfl

/-- Without randomisation `buildSecChUa` always returns and leaves the random
source untouched. -/
theorem buildSecChUa_static (brand version : String) (isFull : Bool) (r : Rng) :
    ∃ value, buildSecChUa brand version isFull false r = some (value, r) := by
  have hsplit : (splitOnce ";v=".data "\"Not/A)Brand\";v=\"8\"".data).2 = some "\"8\"".data := by
    decide
  unfold buildSecChUa
  cases isFull with
  | true => simp only [Bool.false_eq_true, if_false, if_true]; exact ⟨_, rfl⟩
  | false =>
    simp only [Bool.false_eq_true, if_false, hsplit, Option.map_some']
    exact ⟨_, rfl⟩

theorem staticHeaderMap_isSome (browser : browserProfile) (os : osProfile)
    (platform : platformProfile) (version : Int) (fullVersion : String)
    (versionProf : versionProfile) (requestType : RequestType) (r : Rng) :
    ∃ m, staticHeaderMap browser os platform version fullVersion versionProf requestType r =
      some m := by
  obtain ⟨v1, h1⟩ := buildSecChUa_static browser.Brand (Itoa version) false r
  obtain ⟨v2, h2⟩ := buildSecChUa_static browser.Brand fullVersion true r
  unfold staticHeaderMap staticHintAssignments
  simp only [h1, h2]
  cases browser.ChromiumBased <;> exact ⟨_, rfl⟩

/-- The version matcher has one error only. -/
theorem findClosestVersionProfile_error (versions : List (Int × versionProfile)) (target : Int)
    (e : Err) (h : findClosestVersionProfile versions target = .error e) :
    e = .ErrUnsupportedVersion := by
  simp only [findClosestVersionProfile] at h
  split at h
  · simp only [Except.error.injEq] at h
    exact h.symm
  · simp at h

/-- After a successful classification `FromUserAgentString` depends only on the
version lookup and the rebuilt headers. -/
theorem FromUserAgentString_of_parse (s : String) (rt : RequestType) (r : Rng) (p : parsedUA)
    (h : parseUserAgentString s = .ok p) :
    FromUserAgentString s rt r =
      match findClosestVersionProfile (mapGet browserProfiles p.Browser).Versions p.Version with
      | .error err => .error err
      | .ok (versionProf, _) =>
        match buildStaticHeaders (mapGet browserProfiles p.Browser) (mapGet osProfiles p.OS)
            (mapGet platformProfiles
              (if p.OS = OSAndroid ∨ p.OS = OSiOS then PlatformMobile else PlatformDesktop))
            p.Version
            (if (mapGet browserProfiles p.Browser).ChromiumBased then
              Itoa p.Version ++ ".0." ++ Itoa versionProf.BuildNumber ++ ".0"
            else "")
            versionProf rt r with
        | none => .error .panic
        | some (headers, headerOrder) =>
          .ok { UserAgent := s
                Headers := headers
                HeaderOrder := headerOrder
                ClientHelloSpec := none
                ClientHelloID := findClosestChromeProfileForParser p.Version
                H2Settings := GetChromiumH2Settings } := by
  obtain ⟨_, _, _, hb, ho⟩ := parse_ok_inv s p h
  have h1 := mapFind_eq_some_mapGet browserProfiles p.Browser (browserProfiles_known _ hb)
  have h2 := mapFind_eq_some_mapGet osProfiles p.OS (osProfiles_known _ ho)
  have h3 := mapFind_eq_some_mapGet platformProfiles _
    (platformProfiles_known (p.OS = OSAndroid ∨ p.OS = OSiOS))
  unfold FromUserAgentString
  simp only [h, h1, h2, h3]

/-- The rebuilt headers always exist: `buildStaticHeaders` cannot panic. -/
theorem buildStaticHeaders_isSome (browser : browserProfile) (os : osProfile)
    (platform : platformProfile) (version : Int) (fullVersion : String)
    (versionProf : versionProfile) (requestType : RequestType) (r : Rng) :
    ∃ m, staticHeaderMap browser os platform version fullVersion versionProf requestType r =
        some m ∧
      buildStaticHeaders browser os platform version fullVersion versionProf requestType r =
        some (finishHeaders m (PriorityHeaderSorter (rangeKeys m r).1)) := by
  obtain ⟨m, hm⟩ :=
    staticHeaderMap_isSome browser os platform version fullVersion versionProf requestType r
  exact ⟨m, hm, by simp only [buildStaticHeaders, hm]⟩

/-- The possible outcomes of `FromUserAgentString`: the error of the
classification, the error of the version lookup, or an Agent that carries the
input string, no handshake specification, the curated TLS identity of the parsed
version and the headers rebuilt from some header map. -/
theorem FromUserAgentString_cases (s : String) (rt : RequestType) (r : Rng) :
    (∃ e, parseUserAgentString s = .error e ∧ FromUserAgentString s rt r = .error e) ∨
    (∃ p, parseUserAgentString s = .ok p ∧
      findClosestVersionProfile (mapGet browserProfiles p.Browser).Versions p.Version =
        .error .ErrUnsupportedVersion ∧
      FromUserAgentString s rt r = .error .ErrUnsupportedVersion) ∨
    (∃ p vp k m, parseUserAgentString s = .ok p ∧
      findClosestVersionProfile (mapGet browserProfiles p.Browser).Versions p.Version =
        .ok (vp, k) ∧
      staticHeaderMap (mapGet browserProfiles p.Browser) (mapGet osProfiles p.OS)
        (mapGet platformProfiles
          (if p.OS = OSAndroid ∨ p.OS = OSiOS then PlatformMobile else PlatformDesktop))
        p.Version
        (if (mapGet browserProfiles p.Browser).ChromiumBased then
          Itoa p.Version ++ ".0." ++ Itoa vp.BuildNumber ++ ".0"
        else "")
        vp rt r = some m ∧
      FromUserAgentString s rt r =
        .ok { UserAgent := s
              Headers := (finishHeaders m (PriorityHeaderSorter (rangeKeys m r).1)).1
              HeaderOrder := (finishHeaders m (PriorityHeaderSorter (rangeKeys m r).1)).2
              ClientHelloSpec := none
              ClientHelloID := findClosestChromeProfileForParser p.Version
              H2Settings := GetChromiumH2Settings }) := by
  cases hp : parseUserAgentString s with
  | error e =>
    refine Or.inl ⟨e, rfl, ?_⟩
    simp only [FromUserAgentString, hp]
  | ok p =>
    right
    have hF := FromUserAgentString_of_parse s rt r p hp
    cases hv : findClosestVersionProfile (mapGet browserProfiles p.Browser).Versions p.Version with
    | error e =>
      have he : e = .ErrUnsupportedVersion := findClosestVersionProfile_error _ _ e hv
      subst he
      refine Or.inl ⟨p, rfl, hv, ?_⟩
      rw [hF, hv]
    | ok res =>
      obtain ⟨vp, k⟩ := res
      obtain ⟨m, hm, hb⟩ := buildStaticHeaders_isSome (mapGet browserProfiles p.Browser)
        (mapGet osProfiles p.OS)
        (mapGet platformProfiles
          (if p.OS = OSAndroid ∨ p.OS = OSiOS then PlatformMobile else PlatformDesktop))
        p.Version
        (if (mapGet browserProfiles p.Browser).ChromiumBased then
          Itoa p.Version ++ ".0." ++ Itoa vp.BuildNumber ++ ".0"
        else "")
        vp rt r
      refine Or.inr ⟨p, vp, k, m, rfl, hv, hm, ?_⟩
      rw [hF, hv]
      simp only [hb]

/-! ## Theorems on the reverse parser -/

/-- C2: on the reverse path the matcher does not fall back to the oldest
profile. For every version table with non-negative keys
`findClosestVersionProfile` returns `ErrUnsupportedVersion` exactly when no key
is at most the target; and `FromUserAgentString`, on a string whose browser and
OS are recognised and whose version is below every key of the version table of
that browser, fails with `ErrUnsupportedVersion` (and so returns no Agent). -/
theorem reverse_path_unsupported_version :
    (∀ (versions : List (Int × versionProfile)) (target : Int),
      (∀ v ∈ mapKeys versions, 0 ≤ v) →
      (findClosestVersionProfile versions target = .error .ErrUnsupportedVersion ↔
        ∀ v ∈ mapKeys versions, target < v)) ∧
    (∀ (s : String) (rt : RequestType) (r : Rng) (p : parsedUA),
      parseUserAgentString s = .ok p →
      (∀ v ∈ mapKeys (mapGet browserProfiles p.Browser).Versions, p.Version < v) →
      FromUserAgentString s rt r = .error .ErrUnsupportedVersion) := by
  have hnone : ∀ (versions : List (Int × versionProfile)) (target : Int),
      (∀ v ∈ mapKeys versions, target < v) →
      findClosestVersionProfile versions target = .error .ErrUnsupportedVersion := by
    intro versions target h
    simp only [findClosestVersionProfile, closest_foldl_none target _ (-1) h, if_true]
  refine ⟨?_, ?_⟩
  · intro versions target hnn
    refine ⟨?_, hnone versions target⟩
    intro herr v hv
    by_contra hle
    have h1 := closest_foldl_upper target (mapKeys versions) (-1) v hv (by omega)
    have h0 := hnn v hv
    simp only [findClosestVersionProfile] at herr
    split at herr
    · omega
    · simp at herr
  · intro s rt r p hp hlow
    rw [FromUserAgentString_of_parse s rt r p hp, hnone _ _ hlow]

/-- C2 (witness): the Chrome table has no key at or below 100, and the test input
with `Chrome/100` fails with `ErrUnsupportedVersion`. -/
theorem reverse_path_unsupported_version_witness :
    findClosestVersionProfile chromeVersions 100 = .error .ErrUnsupportedVersion ∧
    FromUserAgentString uaChrome100 RequestTypeNavigate zeroRng =
      .error .ErrUnsupportedVersion :=
  ⟨(reverse_path_unsupported_version.1 chromeVersions 100 (by decide)).2 (by decide),
    reverse_path_unsupported_version.2 uaChrome100 RequestTypeNavigate zeroRng
      ⟨BrowserChrome, 100, OSWindows11⟩ (by decide) (by decide)⟩

theorem parserStableChromeVersions_eq : parserStableChromeVersions = [120, 131, 133] := by
  decide

/-- The curated lookup, case by case. -/
theorem findClosestChromeProfileForParser_eq (target : Int) :
    findClosestChromeProfileForParser target =
      if 133 ≤ target then HelloChrome_133
      else if 131 ≤ target then HelloChrome_131
      else HelloChrome_120 := by
  simp only [findClosestChromeProfileForParser, parserStableChromeVersions_eq, List.foldl_cons,
    List.foldl_nil, closestStep]
  by_cases h133 : 133 ≤ target
  · have e1 : (120 ≤ target ∧ (120 : Int) > -1) := ⟨by omega, by omega⟩
    have e2 : (131 ≤ target ∧ (131 : Int) > 120) := ⟨by omega, by omega⟩
    have e3 : (133 ≤ target ∧ (133 : Int) > 131) := ⟨by omega, by omega⟩
    simp only [e1, e2, e3, and_self, if_true, h133]
    rfl
  · by_cases h131 : 131 ≤ target
    · have e1 : (120 ≤ target ∧ (120 : Int) > -1) := ⟨by omega, by omega⟩
      have e2 : (131 ≤ target ∧ (131 : Int) > 120) := ⟨by omega, by omega⟩
      have e3 : ¬ (133 ≤ target ∧ (133 : Int) > 131) := fun h => h133 h.1
      simp only [e1, e2, e3, and_self, if_true, if_false, h131, h133]
      rfl
    · by_cases h120 : 120 ≤ target
      · have e1 : (120 ≤ target ∧ (120 : Int) > -1) := ⟨by omega, by omega⟩
        have e2 : ¬ (131 ≤ target ∧ (131 : Int) > 120) := fun h => h131 h.1
        have e3 : ¬ (133 ≤ target ∧ (133 : Int) > 120) := fun h => h133 h.1
        simp only [e1, e2, e3, and_self, if_true, if_false, h131, h133]
        rfl
      · have e1 : ¬ (120 ≤ target ∧ (120 : Int) > -1) := fun h => h120 h.1
        have e2 : ¬ (131 ≤ target ∧ (131 : Int) > -1) := fun h => h131 h.1
        have e3 : ¬ (133 ≤ target ∧ (133 : Int) > -1) := fun h => h133 h.1
        simp only [e1, e2, e3, if_false, h131, h133]
        rfl

/-- C3: `findClosestChromeProfileForParser` is total; for every integer target it
returns the identity stored under the largest curated key (120, 131, 133) that is
at most the target, and `HelloChrome_120`, the oldest entry, when the target is
below 120. `FromUserAgentString` applies it to the parsed version whatever the
browser: version 138 gets `HelloChrome_133`, version 125 gets `HelloChrome_120`,
Firefox 128 and Safari 17 get `HelloChrome_120`. -/
theorem parser_tls_identity_closest :
    parserStableChromeProfiles =
      [(120, HelloChrome_120), (131, HelloChrome_131), (133, HelloChrome_133)] ∧
    (∀ target k : Int, k ∈ mapKeys parserStableChromeProfiles → k ≤ target →
      (∀ v ∈ mapKeys parserStableChromeProfiles, v ≤ target → v ≤ k) →
      findClosestChromeProfileForParser target = mapGet parserStableChromeProfiles k) ∧
    (∀ target : Int, target < 120 → findClosestChromeProfileForParser target = HelloChrome_120) ∧
    (∀ (s : String) (rt : RequestType) (r : Rng) (a : Agent),
      FromUserAgentString s rt r = .ok a →
      ∃ p, parseUserAgentString s = .ok p ∧
        a.ClientHelloID = findClosestChromeProfileForParser p.Version ∧
        (p.Version = 138 → a.ClientHelloID = HelloChrome_133) ∧
        (p.Version = 125 → a.ClientHelloID = HelloChrome_120) ∧
        (p.Browser = BrowserFirefox → p.Version = 128 → a.ClientHelloID = HelloChrome_120) ∧
        (p.Browser = BrowserSafari → p.Version = 17 → a.ClientHelloID = HelloChrome_120)) := by
  refine ⟨rfl, ?_, ?_, ?_⟩
  · intro target k hk hle hmax
    have h120 := hmax 120 (by decide)
    have h131 := hmax 131 (by decide)
    have h133 := hmax 133 (by decide)
    have hk' : k = 120 ∨ k = 131 ∨ k = 133 := by
      simpa [mapKeys, parserStableChromeProfiles] using hk
    rw [findClosestChromeProfileForParser_eq]
    rcases hk' with h | h | h <;> subst h
    · rw [if_neg (by omega), if_neg (by omega)]; rfl
    · rw [if_neg (by omega), if_pos (by omega)]; rfl
    · rw [if_pos (by omega)]; rfl
  · intro target h
    rw [findClosestChromeProfileForParser_eq, if_neg (by omega), if_neg (by omega)]
  · intro s rt r a h
    rcases FromUserAgentString_cases s rt r with ⟨e, _, he⟩ | ⟨p, _, _, he⟩ |
      ⟨p, vp, k, m, hp, _, _, hok⟩
    · rw [he] at h; simp at h
    · rw [he] at h; simp at h
    · rw [hok] at h
      simp only [Except.ok.injEq] at h
      subst h
      refine ⟨p, hp, rfl, ?_, ?_, ?_, ?_⟩
      · intro hv
        simp only [hv, findClosestChromeProfileForParser_eq]
        rfl
      · intro hv
        simp only [hv, findClosestChromeProfileForParser_eq]
        rfl
      · intro _ hv
        simp only [hv, findClosestChromeProfileForParser_eq]
        rfl
      · intro _ hv
        simp only [hv, findClosestChromeProfileForParser_eq]
        rfl

/-- C3 (witness): the four test inputs of `parser_test.go`. -/
theorem parser_tls_identity_closest_witness :
    (agentOf (FromUserAgentString uaChrome138 RequestTypeNavigate zeroRng)).ClientHelloID =
      HelloChrome_133 ∧
    (agentOf (FromUserAgentString uaChrome125 RequestTypeNavigate zeroRng)).ClientHelloID =
      HelloChrome_120 ∧
    (agentOf (FromUserAgentString uaFirefox128 RequestTypeNavigate zeroRng)).ClientHelloID =
      HelloChrome_120 ∧
    (agentOf (FromUserAgentString uaSafari17 RequestTypeNavigate zeroRng)).ClientHelloID =
      HelloChrome_120 ∧
    findClosestChromeProfileForParser 100 = HelloChrome_120 := by
  have h := parser_tls_identity_closest
  obtain ⟨p1, hp1, _, h1, _⟩ := h.2.2.2 uaChrome138 RequestTypeNavigate zeroRng
    (agentOf (FromUserAgentString uaChrome138 RequestTypeNavigate zeroRng)) (by decide)
  obtain ⟨p2, hp2, _, _, h2, _⟩ := h.2.2.2 uaChrome125 RequestTypeNavigate zeroRng
    (agentOf (FromUserAgentString uaChrome125 RequestTypeNavigate zeroRng)) (by decide)
  obtain ⟨p3, hp3, _, _, _, h3, _⟩ := h.2.2.2 uaFirefox128 RequestTypeNavigate zeroRng
    (agentOf (FromUserAgentString uaFirefox128 RequestTypeNavigate zeroRng)) (by decide)
  obtain ⟨p4, hp4, _, _, _, _, h4⟩ := h.2.2.2 uaSafari17 RequestTypeNavigate zeroRng
    (agentOf (FromUserAgentString uaSafari17 RequestTypeNavigate zeroRng)) (by decide)
  have e1 : parseUserAgentString uaChrome138 = .ok ⟨BrowserChrome, 138, OSWindows11⟩ := by decide
  have e2 : parseUserAgentString uaChrome125 = .ok ⟨BrowserChrome, 125, OSWindows11⟩ := by decide
  have e3 : parseUserAgentString uaFirefox128 = .ok ⟨BrowserFirefox, 128, OSWindows11⟩ := by decide
  have e4 : parseUserAgentString uaSafari17 = .ok ⟨BrowserSafari, 17, OSiOS⟩ := by decide
  rw [e1] at hp1; rw [e2] at hp2; rw [e3] at hp3; rw [e4] at hp4
  simp only [Except.ok.injEq] at hp1 hp2 hp3 hp4
  subst hp1; subst hp2; subst hp3; subst hp4
  exact ⟨h1 rfl, h2 rfl, h3 rfl rfl, h4 rfl rfl, h.2.2.1 100 (by decide)⟩

theorem uaRegexes_names_nonempty : ∀ b ∈ uaRegexes.map Prod.fst, b ≠ "" := by
  decide

/-- The errors of the classification: no pattern matches, or the first matching
pattern captured digits beyond `math.MaxInt`, or no OS token occurs. -/
theorem parse_error_inv (ua : String) (e : Err) (h : parseUserAgentString ua = .error e) :
    (e = .ErrUnsupportedBrowser ∧ ∀ x ∈ uaRegexes, FindStringSubmatch x.2 ua.data = none) ∨
    (e = .errorf "could not parse version from ua string: %w" ∧
      ∃ x ∈ uaRegexes, ∃ d, FindStringSubmatch x.2 ua.data = some d ∧ MaxInt < decimalValue d) ∨
    (e = .ErrUnsupportedOS ∧ parseOS ua = none ∧
      ∃ x ∈ uaRegexes, FindStringSubmatch x.2 ua.data ≠ none) := by
  rcases parseBrowserLoop_spec ua.data uaRegexes with ⟨hnone, h0⟩ |
    ⟨pre, b, re, post, digits, hsplit, _, hfind, hres⟩
  · left
    simp only [parseUserAgentString, h0, if_true, Except.error.injEq] at h
    exact ⟨h.symm, hnone⟩
  · right
    have hmem : (b, re) ∈ uaRegexes := by rw [hsplit]; simp
    have hdig := FindStringSubmatch_capture re ua.data digits (uaRegexes_have_group _ hmem) hfind
    rw [Atoi_digits digits hdig] at hres
    by_cases hrange : decimalValue digits ≤ MaxInt
    · right
      have hb : b ≠ "" := uaRegexes_names_nonempty b (List.mem_map_of_mem Prod.fst hmem)
      simp only [hrange, if_true] at hres
      simp only [parseUserAgentString, hres, hb, if_false] at h
      split at h
      · simp at h
      · rename_i hos
        simp only [Except.error.injEq] at h
        exact ⟨h.symm, hos, (b, re), hmem, by simp [hfind]⟩
    · left
      simp only [hrange, if_false] at hres
      simp only [parseUserAgentString, hres, Except.error.injEq] at h
      exact ⟨h.symm, (b, re), hmem, digits, hfind, by omega⟩

/-- When the classification succeeds, the browser is the first entry of
`uaRegexes` whose pattern matches and the version is the value of its capture. -/
theorem parse_first_match (ua : String) (p : parsedUA) (hp : parseUserAgentString ua = .ok p) :
    ∃ pre re post digits, uaRegexes = pre ++ (p.Browser, re) :: post ∧
      (∀ x ∈ pre, FindStringSubmatch x.2 ua.data = none) ∧
      FindStringSubmatch re ua.data = some digits ∧
      p.Version = decimalValue digits := by
  obtain ⟨hloop, hb, _, _, _⟩ := parse_ok_inv ua p hp
  rcases parseBrowserLoop_spec ua.data uaRegexes with ⟨_, h0⟩ |
    ⟨pre, b, re, post, digits, hsplit, hpre, hfind, hres⟩
  · rw [hloop] at h0
    simp only [Except.ok.injEq, Prod.mk.injEq] at h0
    exact absurd h0.1 hb
  · have hmem : (b, re) ∈ uaRegexes := by rw [hsplit]; simp
    have hdig := FindStringSubmatch_capture re ua.data digits (uaRegexes_have_group _ hmem) hfind
    rw [Atoi_digits digits hdig, hloop] at hres
    by_cases hrange : decimalValue digits ≤ MaxInt
    · simp only [hrange, if_true, Except.ok.injEq, Prod.mk.injEq] at hres
      refine ⟨pre, re, post, digits, ?_, hpre, hfind, hres.2⟩
      rw [hres.1]
      exact hsplit
    · simp [hrange] at hres

/-- C4: `parseUserAgentString` tries the patterns in the fixed order Safari, Edge,
Opera, Brave, Chrome, Firefox. It fails with `ErrUnsupportedBrowser` exactly when
none of the six patterns matches, whatever else the string contains; and when it
classifies, the browser is the first entry whose pattern matches and the version
is the integer captured by that pattern. In particular a classified string that
matches the `Edg/` pattern and not the Safari pattern is Edge with the number of
the `Edg/` token, whether or not the `Chrome/` pattern matches. The string
`curl/7.64.1` is rejected with `ErrUnsupportedBrowser`. -/
theorem parseUserAgentString_browser_order :
    uaRegexes.map Prod.fst =
      [BrowserSafari, BrowserEdge, BrowserOpera, BrowserBrave, BrowserChrome, BrowserFirefox] ∧
    (∀ ua : String, parseUserAgentString ua = .error .ErrUnsupportedBrowser ↔
      ∀ x ∈ uaRegexes, FindStringSubmatch x.2 ua.data = none) ∧
    (∀ (ua : String) (p : parsedUA), parseUserAgentString ua = .ok p →
      ∃ pre re post digits, uaRegexes = pre ++ (p.Browser, re) :: post ∧
        (∀ x ∈ pre, FindStringSubmatch x.2 ua.data = none) ∧
        FindStringSubmatch re ua.data = some digits ∧
        p.Version = decimalValue digits) ∧
    (∀ (ua : String) (p : parsedUA) (d : List Char), parseUserAgentString ua = .ok p →
      FindStringSubmatch [.lit "Version/", .digitsCap, .lit ".", .anyStar, .lit "Safari/"]
        ua.data = none →
      FindStringSubmatch [.lit "Edg/", .digitsCap, .lit ".", .digits] ua.data = some d →
      p.Browser = BrowserEdge ∧ p.Version = decimalValue d) ∧
    parseUserAgentString uaCurl = .error .ErrUnsupportedBrowser := by
  refine ⟨rfl, ?_, parse_first_match, ?_, by decide⟩
  · intro ua
    constructor
    · intro h
      rcases parse_error_inv ua _ h with ⟨_, hn⟩ | ⟨he, _⟩ | ⟨he, _⟩
      · exact hn
      · simp at he
      · simp at he
    · intro hnone
      rcases parseBrowserLoop_spec ua.data uaRegexes with ⟨_, h0⟩ |
        ⟨pre, b, re, post, digits, hsplit, _, hfind, _⟩
      · simp only [parseUserAgentString, h0, if_true]
      · have hmem : (b, re) ∈ uaRegexes := by rw [hsplit]; simp
        have := hnone _ hmem
        simp [hfind] at this
  · intro ua p d hp hsafari hedge
    obtain ⟨pre, re, post, digits, hsplit, hpre, hfind, hver⟩ := parse_first_match ua p hp
    unfold uaRegexes at hsplit
    rcases pre with _ | ⟨e1, _ | ⟨e2, pre'⟩⟩
    · simp only [List.nil_append, List.cons.injEq, Prod.mk.injEq] at hsplit
      rw [← hsplit.1.2, hsafari] at hfind
      simp at hfind
    · simp only [List.cons_append, List.nil_append, List.cons.injEq, Prod.mk.injEq] at hsplit
      rw [← hsplit.2.1.2, hedge] at hfind
      simp only [Option.some.injEq] at hfind
      exact ⟨hsplit.2.1.1.symm, by rw [hver, hfind]⟩
    · simp only [List.cons_append, List.cons.injEq] at hsplit
      have h2 := hpre e2 (by simp)
      rw [← hsplit.2.1] at h2
      simp only at h2
      rw [hedge] at h2
      simp at h2

/-- C4 (witness): a string with both an `Edg/` and a `Chrome/` token is Edge with
the number of the `Edg/` token, and `curl/7.64.1` matches no pattern. -/
theorem parseUserAgentString_browser_order_witness :
    parseUserAgentString uaEdge121 = .ok ⟨BrowserEdge, 121, OSWindows11⟩ ∧
    FindStringSubmatch [.lit "Chrome/", .digitsCap, .lit ".", .digits] uaEdge121.data =
      some "120".data ∧
    (∃ pre re post digits, uaRegexes = pre ++ (BrowserEdge, re) :: post ∧
      (∀ x ∈ pre, FindStringSubmatch x.2 uaEdge121.data = none) ∧
      FindStringSubmatch re uaEdge121.data = some digits ∧
      (121 : Int) = decimalValue digits) ∧
    (∀ x ∈ uaRegexes, FindStringSubmatch x.2 uaCurl.data = none) :=
  ⟨by decide, by decide,
    parseUserAgentString_browser_order.2.2.1 uaEdge121 ⟨BrowserEdge, 121, OSWindows11⟩
      (by decide),
    (parseUserAgentString_browser_order.2.1 uaCurl).1 (by decide)⟩

/-- C5: for every input whose browser is recognised (the pattern loop ended on a
browser `b` and a version `v`), `parseUserAgentString` classifies the OS by the
first test that succeeds in the fixed order `Windows NT 10.0` (Windows 11),
`iPhone` or `iPad` (iOS), `Macintosh` (macOS Intel), `Linux` (Linux), `Android`
(Android), `CrOS` (ChromeOS), and fails with `ErrUnsupportedOS` exactly when none
of these tokens occurs. A string that contains `Linux` and none of the earlier
tokens is Linux whether or not it contains `Android`. -/
theorem parseUserAgentString_os_order (ua : String) (b : Browser) (v : Int)
    (hloop : parseBrowserLoop ua.data uaRegexes = .ok (b, v)) (hb : b ≠ "") :
    ("Windows NT 10.0".data <:+: ua.data →
      parseUserAgentString ua = .ok ⟨b, v, OSWindows11⟩) ∧
    (¬ "Windows NT 10.0".data <:+: ua.data →
      ("iPhone".data <:+: ua.data ∨ "iPad".data <:+: ua.data) →
      parseUserAgentString ua = .ok ⟨b, v, OSiOS⟩) ∧
    (¬ "Windows NT 10.0".data <:+: ua.data → ¬ "iPhone".data <:+: ua.data →
      ¬ "iPad".data <:+: ua.data → "Macintosh".data <:+: ua.data →
      parseUserAgentString ua = .ok ⟨b, v, osMacIntel⟩) ∧
    (¬ "Windows NT 10.0".data <:+: ua.data → ¬ "iPhone".data <:+: ua.data →
      ¬ "iPad".data <:+: ua.data → ¬ "Macintosh".data <:+: ua.data →
      "Linux".data <:+: ua.data →
      parseUserAgentString ua = .ok ⟨b, v, OSLinux⟩) ∧
    (¬ "Windows NT 10.0".data <:+: ua.data → ¬ "iPhone".data <:+: ua.data →
      ¬ "iPad".data <:+: ua.data → ¬ "Macintosh".data <:+: ua.data →
      ¬ "Linux".data <:+: ua.data → "Android".data <:+: ua.data →
      parseUserAgentString ua = .ok ⟨b, v, OSAndroid⟩) ∧
    (¬ "Windows NT 10.0".data <:+: ua.data → ¬ "iPhone".data <:+: ua.data →
      ¬ "iPad".data <:+: ua.data → ¬ "Macintosh".data <:+: ua.data →
      ¬ "Linux".data <:+: ua.data → ¬ "Android".data <:+: ua.data →
      "CrOS".data <:+: ua.data →
      parseUserAgentString ua = .ok ⟨b, v, OSChromeOS⟩) ∧
    (parseUserAgentString ua = .error .ErrUnsupportedOS ↔
      ¬ "Windows NT 10.0".data <:+: ua.data ∧ ¬ "iPhone".data <:+: ua.data ∧
      ¬ "iPad".data <:+: ua.data ∧ ¬ "Macintosh".data <:+: ua.data ∧
      ¬ "Linux".data <:+: ua.data ∧ ¬ "Android".data <:+: ua.data ∧
      ¬ "CrOS".data <:+: ua.data) := by
  have hparse : parseUserAgentString ua =
      match parseOS ua with
      | some os => .ok { Browser := b, Version := v, OS := os }
      | none => .error .ErrUnsupportedOS := by
    simp only [parseUserAgentString, hloop, hb, if_false]
  have c1 := Contains_iff ua "Windows NT 10.0"
  have c2 := Contains_iff ua "iPhone"
  have c3 := Contains_iff ua "iPad"
  have c4 := Contains_iff ua "Macintosh"
  have c5 := Contains_iff ua "Linux"
  have c6 := Contains_iff ua "Android"
  have c7 := Contains_iff ua "CrOS"
  rw [hparse]
  unfold parseOS
  simp only [Bool.or_eq_true, c1, c2, c3, c4, c5, c6, c7]
  refine ⟨?_, ?_, ?_, ?_, ?_, ?_, ?_⟩
  · intro h1
    simp only [h1, if_true]
  · intro h1 h2
    simp only [h1, h2, if_true, if_false]
  · intro h1 h2 h3 h4
    simp only [h1, h2, h3, h4, or_self, if_true, if_false]
  · intro h1 h2 h3 h4 h5
    simp only [h1, h2, h3, h4, h5, or_self, if_true, if_false]
  · intro h1 h2 h3 h4 h5 h6
    simp only [h1, h2, h3, h4, h5, h6, or_self, if_true, if_false]
  · intro h1 h2 h3 h4 h5 h6 h7
    simp only [h1, h2, h3, h4, h5, h6, h7, or_self, if_true, if_false]
  · constructor
    · intro h
      by_cases h1 : "Windows NT 10.0".data <:+: ua.data
      · simp [h1] at h
      by_cases h2 : "iPhone".data <:+: ua.data
      · simp [h1, h2] at h
      by_cases h3 : "iPad".data <:+: ua.data
      · simp [h1, h2, h3] at h
      by_cases h4 : "Macintosh".data <:+: ua.data
      · simp [h1, h2, h3, h4] at h
      by_cases h5 : "Linux".data <:+: ua.data
      · simp [h1, h2, h3, h4, h5] at h
      by_cases h6 : "Android".data <:+: ua.data
      · simp [h1, h2, h3, h4, h5, h6] at h
      by_cases h7 : "CrOS".data <:+: ua.data
      · simp [h1, h2, h3, h4, h5, h6, h7] at h
      exact ⟨h1, h2, h3, h4, h5, h6, h7⟩
    · rintro ⟨h1, h2, h3, h4, h5, h6, h7⟩
      simp only [h1, h2, h3, h4, h5, h6, h7, or_self, if_false]

/-- C5 (witness): Chrome on Android, whose platform token is
`Linux; Android 14; Pixel 7`, is classified as Linux although `Android` occurs. -/
theorem parseUserAgentString_os_order_witness :
    parseUserAgentString uaChromeAndroid = .ok ⟨BrowserChrome, 120, OSLinux⟩ ∧
    "Android".data <:+: uaChromeAndroid.data :=
  ⟨(parseUserAgentString_os_order uaChromeAndroid BrowserChrome 120 (by decide)
      (by decide)).2.2.2.1
      (by rw [← Contains_iff]; decide) (by rw [← Contains_iff]; decide)
      (by rw [← Contains_iff]; decide) (by rw [← Contains_iff]; decide)
      (by rw [← Contains_iff]; decide),
    by rw [← Contains_iff]; decide⟩

/-- C6 (counterexample): on a Chrome-on-Windows string whose version digits exceed
`math.MaxInt` the call returns no Agent and an error that is none of the three
typed classification errors: it is the wrapped error of `strconv.Atoi`. -/
theorem FromUserAgentString_untyped_error :
    FromUserAgentString uaChromeHuge RequestTypeNavigate zeroRng =
      .error (.errorf "could not parse version from ua string: %w") ∧
    ¬ ((∃ a, FromUserAgentString uaChromeHuge RequestTypeNavigate zeroRng = .ok a) ∨
      FromUserAgentString uaChromeHuge RequestTypeNavigate zeroRng =
        .error .ErrUnsupportedBrowser ∨
      FromUserAgentString uaChromeHuge RequestTypeNavigate zeroRng = .error .ErrUnsupportedOS ∨
      FromUserAgentString uaChromeHuge RequestTypeNavigate zeroRng =
        .error .ErrUnsupportedVersion) := by
  have h : FromUserAgentString uaChromeHuge RequestTypeNavigate zeroRng =
      .error (.errorf "could not parse version from ua string: %w") := by decide
  refine ⟨h, ?_⟩
  rw [h]
  simp

/-- C6 (amended): for every input string, request type and iteration order,
`FromUserAgentString` either returns an Agent, or returns no Agent and one of the
three typed errors `ErrUnsupportedBrowser`, `ErrUnsupportedOS`,
`ErrUnsupportedVersion`, or returns no Agent and the wrapped `Atoi` error; the
last case arises only when a browser pattern matched digits whose value exceeds
`math.MaxInt`. It never panics. -/
theorem FromUserAgentString_outcomes (s : String) (rt : RequestType) (r : Rng) :
    (∃ a, FromUserAgentString s rt r = .ok a) ∨
    FromUserAgentString s rt r = .error .ErrUnsupportedBrowser ∨
    FromUserAgentString s rt r = .error .ErrUnsupportedOS ∨
    FromUserAgentString s rt r = .error .ErrUnsupportedVersion ∨
    (FromUserAgentString s rt r = .error (.errorf "could not parse version from ua string: %w") ∧
      ∃ x ∈ uaRegexes, ∃ d, FindStringSubmatch x.2 s.data = some d ∧ MaxInt < decimalValue d) := by
  rcases FromUserAgentString_cases s rt r with ⟨e, hp, he⟩ | ⟨p, _, _, he⟩ | ⟨p, vp, k, m, _, _, _, hok⟩
  · rcases parse_error_inv s e hp with ⟨h1, _⟩ | ⟨h1, h2⟩ | ⟨h1, _⟩
    · subst h1; exact Or.inr (Or.inl he)
    · subst h1; exact Or.inr (Or.inr (Or.inr (Or.inr ⟨he, h2⟩)))
    · subst h1; exact Or.inr (Or.inr (Or.inl he))
  · exact Or.inr (Or.inr (Or.inr (Or.inl he)))
  · exact Or.inl ⟨_, hok⟩

/-- C7: whenever `FromUserAgentString` succeeds, the `UserAgent` field of the
Agent is the input string itself and the Agent carries no handshake
specification. -/
theorem FromUserAgentString_verbatim (s : String) (rt : RequestType) (r : Rng) (a : Agent)
    (h : FromUserAgentString s rt r = .ok a) : a.UserAgent = s ∧ a.ClientHelloSpec = none := by
  rcases FromUserAgentString_cases s rt r with ⟨e, _, he⟩ | ⟨p, _, _, he⟩ | ⟨p, vp, k, m, _, _, _, hok⟩
  · rw [he] at h; simp at h
  · rw [he] at h; simp at h
  · rw [hok] at h
    simp only [Except.ok.injEq] at h
    subst h
    exact ⟨rfl, rfl⟩

/-- C7 (witness): the Chrome and the mobile Safari test inputs of
`parser_test.go` come back unchanged. -/
theorem FromUserAgentString_verbatim_witness :
    ((agentOf (FromUserAgentString uaChrome138 RequestTypeNavigate zeroRng)).UserAgent =
        uaChrome138 ∧
      (agentOf (FromUserAgentString uaChrome138 RequestTypeNavigate zeroRng)).ClientHelloSpec =
        none) ∧
    ((agentOf (FromUserAgentString uaSafari17 RequestTypeNavigate zeroRng)).UserAgent =
        uaSafari17 ∧
      (agentOf (FromUserAgentString uaSafari17 RequestTypeNavigate zeroRng)).ClientHelloSpec =
        none) :=
  ⟨FromUserAgentString_verbatim uaChrome138 RequestTypeNavigate zeroRng _ (by decide),
    FromUserAgentString_verbatim uaSafari17 RequestTypeNavigate zeroRng _ (by decide)⟩

/-! ## Lemmas on shuffling -/

theorem swapAt_perm {α : Type} [DecidableEq α] (xs : List α) (i j : Nat) :
    (swapAt xs i j).Perm xs := by
  unfold swapAt
  split
  · rename_i a b ha hb
    obtain ⟨hi, hia⟩ := List.getElem?_eq_some_iff.1 ha
    obtain ⟨hj, hjb⟩ := List.getElem?_eq_some_iff.1 hb
    rw [List.perm_iff_count]
    intro c
    have hj' : j < (xs.set i b).length := by simpa using hj
    rw [List.count_set _ _ _ _ hj', List.count_set _ _ _ _ hi]
    have hget : (xs.set i b)[j] = if i = j then b else b := by
      by_cases hij : i = j
      · subst hij; simp
      · simp [List.getElem_set, hij, hjb]
    simp only [hget, ite_self, hia]
    have hca : 0 < List.count a xs := List.count_pos_iff.2 (hia ▸ List.getElem_mem hi)
    have hcb : 0 < List.count b xs := List.count_pos_iff.2 (hjb ▸ List.getElem_mem hj)
    by_cases hac : a = c <;> by_cases hbc : b = c
    · subst hac; subst hbc; simp; omega
    · subst hac; simp [hbc]; omega
    · subst hbc; simp [hac]
    · simp [hac, hbc]
  · exact List.Perm.refl _

theorem shuffleLoop_perm {α : Type} [DecidableEq α] (n : Nat) (xs : List α) (r : Rng) :
    (shuffleLoop n xs r).1.Perm xs := by
  induction n generalizing xs r with
  | zero => exact List.Perm.refl _
  | succ n ih =>
    simp only [shuffleLoop]
    exact (ih _ _).trans (swapAt_perm xs _ _)

/-- A shuffle only rearranges the slice. -/
theorem Shuffle_perm {α : Type} [DecidableEq α] (xs : List α) (r : Rng) :
    (Shuffle xs r).1.Perm xs :=
  shuffleLoop_perm _ xs r

theorem rangeKeys_perm {κ ν : Type} [DecidableEq κ] (m : List (κ × ν)) (r : Rng) :
    (rangeKeys m r).1.Perm (mapKeys m) :=
  Shuffle_perm _ r

theorem shuffleRun_perm (keys : List String) (start stop : Nat) (r : Rng) (h : start ≤ stop) :
    (shuffleRun keys start stop r).1.Perm keys := by
  unfold shuffleRun
  have hsplit : keys = keys.take start ++ (keys.take stop).drop start ++ keys.drop stop := by
    have h1 : keys.take start = (keys.take stop).take start := by
      rw [List.take_take, Nat.min_eq_left h]
    rw [h1, List.take_append_drop, List.take_append_drop]
  have hp := Shuffle_perm ((keys.take stop).drop start) r
  have hq := List.Perm.append_right (keys.drop stop)
    (List.Perm.append_left (keys.take start) hp)
  rw [← hsplit] at hq
  exact hq

theorem shuffledLoop_perm (n i start : Nat) (keys : List String) (r : Rng) (h : start ≤ i) :
    (shuffledLoop n i start keys r).1.Perm keys ∧ (shuffledLoop n i start keys r).2.1 ≤ i + n := by
  induction n generalizing i start keys r with
  | zero => exact ⟨List.Perm.refl _, by simpa [shuffledLoop] using h⟩
  | succ n ih =>
    simp only [shuffledLoop]
    split
    · split
      · have := ih (i + 1) i (shuffleRun keys start i r).1 (shuffleRun keys start i r).2 (by omega)
        exact ⟨this.1.trans (shuffleRun_perm keys start i r h), by omega⟩
      · have := ih (i + 1) i keys r (by omega)
        exact ⟨this.1, by omega⟩
    · have := ih (i + 1) start keys r (by omega)
      exact ⟨this.1, by omega⟩

/-- The three ordering strategies of the package only rearrange the keys. -/
theorem provided_sorters_perm (keys : List String) (r : Rng) :
    (prioritySorter keys r).1.Perm keys ∧ (RandomHeaderSorter keys r).1.Perm keys ∧
      (ShuffledPriorityHeaderSorter keys r).1.Perm keys := by
  refine ⟨SliceStable_perm _ _, Shuffle_perm _ _, ?_⟩
  unfold ShuffledPriorityHeaderSorter
  have hsort : (PriorityHeaderSorter keys).Perm keys := SliceStable_perm _ _
  have hloop := shuffledLoop_perm ((PriorityHeaderSorter keys).length - 1) 1 0
    (PriorityHeaderSorter keys) r (by omega)
  simp only
  split
  · rename_i hlen
    exact (shuffleRun_perm _ _ _ _ (by omega)).trans (hloop.1.trans hsort)
  · exact hloop.1.trans hsort

/-! ## Lemmas on header maps -/

theorem mapKeys_mapSet {κ ν : Type} [DecidableEq κ] (m : List (κ × ν)) (k : κ) (v : ν) :
    mapKeys (mapSet m k v) = if k ∈ mapKeys m then mapKeys m else mapKeys m ++ [k] := by
  induction m with
  | nil => simp [mapSet, mapKeys]
  | cons e m ih =>
    obtain ⟨k', v'⟩ := e
    unfold mapSet
    by_cases hk : k' = k
    · subst hk
      simp [mapKeys]
    · have hk' : ¬ k = k' := fun h => hk h.symm
      simp only [hk, if_false]
      simp only [mapKeys, List.map_cons, List.mem_cons, hk', false_or] at ih ⊢
      rw [ih]
      split <;> simp

theorem keysWithin_mapSet (names : List String) (m : List (String × String)) (k v : String)
    (hm : keysWithin names m) (hk : k ∈ names) : keysWithin names (mapSet m k v) := by
  unfold keysWithin at hm ⊢
  rw [mapKeys_mapSet]
  split
  · exact hm
  · rename_i hnot
    refine ⟨?_, ?_⟩
    · rw [List.nodup_append]
      refine ⟨hm.1, List.nodup_singleton k, ?_⟩
      intro x hx hx'
      rw [List.mem_singleton] at hx'
      subst hx'
      exact hnot hx
    · intro x hx
      rcases List.mem_append.1 hx with h | h
      · exact hm.2 x h
      · rw [List.mem_singleton] at h
        subst h
        exact hk

theorem keysWithin_assignAll (names : List String) (kvs m : List (String × String))
    (hm : keysWithin names m) (hk : ∀ kv ∈ kvs, kv.1 ∈ names) :
    keysWithin names (assignAll m kvs) := by
  unfold assignAll
  induction kvs generalizing m with
  | nil => exact hm
  | cons kv kvs ih =>
    simp only [List.foldl_cons]
    exact ih _ (keysWithin_mapSet names m kv.1 kv.2 hm (hk kv (List.mem_cons_self _ _)))
      (fun x hx => hk x (List.mem_cons_of_mem _ hx))

theorem keysWithin_mapDelete (names : List String) (m : List (String × String)) (k : String)
    (hm : keysWithin names m) : keysWithin names (mapDelete m k) := by
  unfold keysWithin at hm ⊢
  have hsub : (mapKeys (mapDelete m k)).Sublist (mapKeys m) := by
    unfold mapKeys mapDelete
    exact List.Sublist.map _ (List.filter_sublist _)
  exact ⟨hm.1.sublist hsub, fun x hx => hm.2 x (hsub.subset hx)⟩

theorem keysWithin_dropLoop (names : List String) (ks : List String)
    (m : List (String × String)) (r : Rng) (hm : keysWithin names m) :
    keysWithin names (dropLoop ks m r).1 := by
  induction ks generalizing m r with
  | nil => exact hm
  | cons k ks ih =>
    simp only [dropLoop]
    split
    · split
      · exact ih _ _ (keysWithin_mapDelete names m k hm)
      · exact ih _ _ hm
    · exact ih _ _ hm

theorem keysWithin_nil (names : List String) : keysWithin names [] := by
  simp [keysWithin, mapKeys]

/-- The canonical form tells the emitted header names apart. -/
theorem canonical_injective_on_emitted :
    ∀ a ∈ emittedHeaderNames, ∀ b ∈ emittedHeaderNames,
      CanonicalHeaderKey a = CanonicalHeaderKey b → a = b := by
  decide

/-- Filling a header set key by key stores the canonical forms of the keys, in
order, when these forms are new and pairwise distinct. -/
theorem foldl_Set_keys (f : String → String) (ks : List String) (h : Header)
    (hnd : (mapKeys h ++ ks.map CanonicalHeaderKey).Nodup) :
    mapKeys (ks.foldl (fun header k => Header.Set header k (f k)) h) =
      mapKeys h ++ ks.map CanonicalHeaderKey := by
  induction ks generalizing h with
  | nil => simp
  | cons k ks ih =>
    simp only [List.foldl_cons, List.map_cons]
    have hnew : CanonicalHeaderKey k ∉ mapKeys h := by
      intro hmem
      rw [List.nodup_append] at hnd
      exact hnd.2.2 hmem (by simp)
    have hkeys : mapKeys (Header.Set h k (f k)) = mapKeys h ++ [CanonicalHeaderKey k] := by
      unfold Header.Set
      rw [mapKeys_mapSet, if_neg hnew]
    rw [ih]
    · rw [hkeys, List.append_assoc, List.singleton_append]
    · rw [hkeys, List.append_assoc, List.singleton_append]
      simpa using hnd

/-- The header set and order that `finishHeaders` returns are well formed
whenever the ordered keys are distinct and have distinct canonical forms. -/
theorem finishHeaders_wellFormed (m : List (String × String)) (keys : List String)
    (hnd : (keys.map CanonicalHeaderKey).Nodup) (a : Agent)
    (hH : a.Headers = (finishHeaders m keys).1) (hO : a.HeaderOrder = (finishHeaders m keys).2) :
    HeaderOrderWellFormed a := by
  have hkeys := foldl_Set_keys (fun k => mapGet m k) keys [] (by simpa [mapKeys] using hnd)
  refine ⟨keys, by rw [hO]; rfl, List.Nodup.of_map _ hnd, ?_, ?_⟩
  · rw [hH]
    simp only [finishHeaders]
    rw [hkeys]
    simp [mapKeys]
  · rw [hH]
    simp only [finishHeaders]
    rw [hkeys]
    simpa [mapKeys] using hnd

/-- Distinct keys within the emitted names have distinct canonical forms, also
after any rearrangement. -/
theorem canonical_nodup_of_keysWithin (m : List (String × String)) (keys : List String)
    (hm : keysWithin emittedHeaderNames m) (hp : keys.Perm (mapKeys m)) :
    (keys.map CanonicalHeaderKey).Nodup := by
  have hnd : keys.Nodup := hp.nodup_iff.2 hm.1
  refine List.Nodup.map_on ?_ hnd
  intro x hx y hy hxy
  exact canonical_injective_on_emitted x (hm.2 x (hp.subset hx)) y (hm.2 y (hp.subset hy)) hxy

theorem osHintAssignments_names (os : osProfile) :
    ∀ kv ∈ osHintAssignments os, kv.1 ∈ emittedHeaderNames := by
  intro kv hkv
  unfold osHintAssignments at hkv
  simp only [List.mem_append] at hkv
  rcases hkv with (h | h) | h <;> split at h <;>
    first
      | (rw [List.mem_singleton] at h; subst h; dsimp only; decide)
      | simp at h

theorem negotiationAssignments_names (g : Generator) (versionProf : versionProfile) (r : Rng)
    (kvs : List (String × String)) (r' : Rng)
    (h : negotiationAssignments g versionProf r = some (kvs, r')) :
    ∀ kv ∈ kvs, kv.1 ∈ emittedHeaderNames := by
  unfold negotiationAssignments at h
  simp only at h
  split at h
  · simp at h
  · split at h
    · simp at h
    · rename_i accept r3 haccept
      simp only [Option.some.injEq, Prod.mk.injEq] at h
      obtain ⟨h, _⟩ := h
      subst h
      have hacc : ∀ kv ∈ accept, kv.1 ∈ emittedHeaderNames := by
        split at haccept
        · split at haccept
          · simp at haccept
          · simp only [Option.some.injEq, Prod.mk.injEq] at haccept
            obtain ⟨ha, _⟩ := haccept
            subst ha
            intro kv hkv
            rw [List.mem_singleton] at hkv
            subst hkv
            (dsimp only; decide)
        · simp only [Option.some.injEq, Prod.mk.injEq] at haccept
          obtain ⟨ha, _⟩ := haccept
          subst ha
          simp
      intro kv hkv
      simp only [List.mem_append, List.mem_singleton] at hkv
      rcases hkv with (hk | hk) | hk
      · exact hacc kv hk
      · split at hk
        · rw [List.mem_singleton] at hk
          subst hk
          (dsimp only; decide)
        · simp at hk
      · subst hk
        (dsimp only; decide)

theorem hintAssignments_names (g : Generator) (browser : browserProfile) (os : osProfile)
    (platform : platformProfile) (version : Int) (fullVersion : String) (r : Rng)
    (kvs : List (String × String)) (r' : Rng)
    (h : hintAssignments g browser os platform version fullVersion r = some (kvs, r')) :
    ∀ kv ∈ kvs, kv.1 ∈ emittedHeaderNames := by
  unfold hintAssignments at h
  split at h
  · split at h
    · simp at h
    · split at h
      · split at h
        · simp at h
        · simp only [Option.some.injEq, Prod.mk.injEq] at h
          obtain ⟨h, _⟩ := h
          subst h
          intro kv hkv
          rcases List.mem_append.1 hkv with hk | hk
          · simp only [List.mem_cons, List.mem_singleton, List.not_mem_nil, or_false] at hk
            rcases hk with hk | hk | hk | hk <;> subst hk <;> (dsimp only; decide)
          · exact osHintAssignments_names os kv hk
      · simp only [Option.some.injEq, Prod.mk.injEq] at h
        obtain ⟨h, _⟩ := h
        subst h
        intro kv hk
        simp only [List.mem_cons, List.mem_singleton, List.not_mem_nil, or_false] at hk
        rcases hk with hk | hk | hk <;> subst hk <;> (dsimp only; decide)
  · simp only [Option.some.injEq, Prod.mk.injEq] at h
    obtain ⟨h, _⟩ := h
    subst h
    simp

theorem fetchAssignments_names (g : Generator) (browser : browserProfile) (r : Rng)
    (kvs : List (String × String)) (r' : Rng)
    (h : fetchAssignments g browser r = some (kvs, r')) :
    ∀ kv ∈ kvs, kv.1 ∈ emittedHeaderNames := by
  have hgpc : ∀ kv ∈ (if g.requestType = RequestTypeNavigate ∧ browser.Brand = "Brave" then
      [("sec-gpc", "1")] else ([] : List (String × String))), kv.1 ∈ emittedHeaderNames := by
    intro kv hkv
    split at hkv
    · rw [List.mem_singleton] at hkv
      subst hkv
      (dsimp only; decide)
    · simp at hkv
  unfold fetchAssignments at h
  simp only at h
  intro kv hkv
  split at h
  · simp only [Option.some.injEq, Prod.mk.injEq] at h
    obtain ⟨h, _⟩ := h
    subst h
    rcases List.mem_append.1 hkv with hk | hk
    · exact hgpc kv hk
    · simp only [List.mem_cons, List.mem_singleton, List.not_mem_nil, or_false] at hk
      rcases hk with hk | hk | hk | hk | hk <;> subst hk <;> (dsimp only; decide)
  · split at h
    · split at h
      · simp at h
      · simp only [Option.some.injEq, Prod.mk.injEq] at h
        obtain ⟨h, _⟩ := h
        subst h
        rcases List.mem_append.1 hkv with hk | hk
        · exact hgpc kv hk
        · simp only [List.mem_cons, List.mem_singleton, List.not_mem_nil, or_false] at hk
          rcases hk with hk | hk | hk <;> subst hk <;> (dsimp only; decide)
    · split at h
      · simp only [Option.some.injEq, Prod.mk.injEq] at h
        obtain ⟨h, _⟩ := h
        subst h
        rcases List.mem_append.1 hkv with hk | hk
        · exact hgpc kv hk
        · simp only [List.mem_cons, List.mem_singleton, List.not_mem_nil, or_false] at hk
          rcases hk with hk | hk | hk <;> subst hk <;> (dsimp only; decide)
      · simp only [Option.some.injEq, Prod.mk.injEq] at h
        obtain ⟨h, _⟩ := h
        subst h
        exact hgpc kv hkv

/-- The header map of `buildHeaders` has distinct keys among the emitted names. -/
theorem generatedHeaderMap_keysWithin (g : Generator) (browser : browserProfile)
    (os : osProfile) (platform : platformProfile) (version : Int) (fullVersion : String)
    (versionProf : versionProfile) (r : Rng) (m : List (String × String)) (r' : Rng)
    (h : generatedHeaderMap g browser os platform version fullVersion versionProf r =
      some (m, r')) : keysWithin emittedHeaderNames m := by
  unfold generatedHeaderMap at h
  split at h
  · simp at h
  · rename_i negotiation r1 hneg
    split at h
    · simp at h
    · rename_i hints r2 hhint
      simp only at h
      split at h
      · simp at h
      · rename_i fetch r3 hfetch
        simp only [Option.some.injEq, Prod.mk.injEq] at h
        obtain ⟨h, _⟩ := h
        subst h
        have h1 : keysWithin emittedHeaderNames (assignAll [] (negotiation ++ hints)) := by
          refine keysWithin_assignAll _ _ _ (keysWithin_nil _) ?_
          intro kv hkv
          rcases List.mem_append.1 hkv with hk | hk
          · exact negotiationAssignments_names g versionProf r negotiation r1 hneg kv hk
          · exact hintAssignments_names g browser os platform version fullVersion r1 hints r2
              hhint kv hk
        refine keysWithin_assignAll _ _ _ ?_
          (fetchAssignments_names g browser _ fetch r3 hfetch)
        split
        · exact keysWithin_dropLoop _ _ _ _ h1
        · exact h1

/-- The header map of `buildStaticHeaders` has distinct keys among the emitted
names. -/
theorem staticHeaderMap_keysWithin (browser : browserProfile) (os : osProfile)
    (platform : platformProfile) (version : Int) (fullVersion : String)
    (versionProf : versionProfile) (requestType : RequestType) (r : Rng)
    (m : List (String × String))
    (h : staticHeaderMap browser os platform version fullVersion versionProf requestType r =
      some m) : keysWithin emittedHeaderNames m := by
  unfold staticHeaderMap at h
  split at h
  · simp at h
  · rename_i hints hhint
    simp only [Option.some.injEq] at h
    subst h
    refine keysWithin_assignAll _ _ _ (keysWithin_nil _) ?_
    intro kv hkv
    simp only [List.mem_append, List.mem_cons, List.mem_singleton, List.not_mem_nil,
      or_false] at hkv
    rcases hkv with ((hk | hk | hk) | hk) | hk
    · subst hk; (dsimp only; decide)
    · subst hk; (dsimp only; decide)
    · subst hk; (dsimp only; decide)
    · unfold staticHintAssignments at hhint
      split at hhint
      · split at hhint
        · simp only [Option.some.injEq] at hhint
          subst hhint
          rcases List.mem_append.1 hk with hk | hk
          · simp only [List.mem_cons, List.mem_singleton, List.not_mem_nil, or_false] at hk
            rcases hk with hk | hk | hk | hk <;> subst hk <;> (dsimp only; decide)
          · exact osHintAssignments_names os kv hk
        · simp at hhint
      · simp only [Option.some.injEq] at hhint
        subst hhint
        simp at hk
    · unfold staticFetchAssignments at hk
      split at hk
      · simp only [List.mem_cons, List.mem_singleton, List.not_mem_nil, or_false] at hk
        rcases hk with hk | hk | hk | hk | hk <;> subst hk <;> (dsimp only; decide)
      · split at hk
        · simp only [List.mem_cons, List.mem_singleton, List.not_mem_nil, or_false] at hk
          rcases hk with hk | hk | hk <;> subst hk <;> (dsimp only; decide)
        · simp at hk

theorem Choice_mem {α : Type} (xs : List α) (r r' : Rng) (x : α)
    (h : Choice xs r = some (x, r')) : x ∈ xs := by
  unfold Choice at h
  split at h
  · rename_i y hy
    simp only [Option.some.injEq, Prod.mk.injEq] at h
    obtain ⟨h, _⟩ := h
    subst h
    exact List.getElem?_mem hy
  · simp at h

/-- Every profile the bot branch can choose is in the catalogue. -/
theorem eligibleBots_subset (g : Generator) : ∀ p ∈ eligibleBots g, p ∈ allBotProfiles := by
  intro p hp
  unfold eligibleBots at hp
  split at hp
  · exact hp
  · rw [List.mem_flatMap] at hp
    obtain ⟨name, _, hmem⟩ := hp
    cases hfind : mapFind botProfileCategories name with
    | none => simp [hfind] at hmem
    | some ps =>
      simp only [hfind, Option.getD_some] at hmem
      have := mapFind_mem _ _ _ hfind
      unfold allBotProfiles
      rw [List.mem_flatten]
      exact ⟨ps, List.mem_map.2 ⟨(name, ps), this, rfl⟩, hmem⟩

/-- In every profile of the catalogue the header names have pairwise distinct
canonical forms. -/
theorem bot_headers_canonical_nodup :
    ∀ p ∈ allBotProfiles, ((mapKeys p.Headers).map CanonicalHeaderKey).Nodup := by
  decide

theorem generateBot_wellFormed (g : Generator) (r : Rng) (a : Agent)
    (h : generateBot g r = .ok a) : HeaderOrderWellFormed a := by
  unfold generateBot at h
  split at h
  · simp at h
  · split at h
    · simp at h
    · rename_i chosen r1 hchoice
      simp only [Except.ok.injEq] at h
      subst h
      have hcat := eligibleBots_subset g chosen (Choice_mem _ _ _ _ hchoice)
      have hnd := bot_headers_canonical_nodup chosen hcat
      have hv := rangeKeys_perm chosen.Headers r1
      have hk := rangeKeys_perm chosen.Headers (rangeKeys chosen.Headers r1).2
      have hs : (PriorityHeaderSorter (rangeKeys chosen.Headers
          (rangeKeys chosen.Headers r1).2).1).Perm (mapKeys chosen.Headers) :=
        (SliceStable_perm _ _).trans hk
      have hvnd : ((rangeKeys chosen.Headers r1).1.map CanonicalHeaderKey).Nodup :=
        (hv.map _).nodup_iff.2 hnd
      have hkeys := foldl_Set_keys (fun k => mapGet chosen.Headers k)
        (rangeKeys chosen.Headers r1).1 [] (by simpa [mapKeys] using hvnd)
      refine ⟨_, rfl, ?_, ?_, ?_⟩
      · exact hs.nodup_iff.2 (List.Nodup.of_map _ hnd)
      · simp only
        rw [hkeys]
        simp only [mapKeys, List.map_nil, List.nil_append]
        exact (hs.map _).trans (hv.map _).symm
      · simp only
        rw [hkeys]
        simpa [mapKeys] using hvnd

theorem buildHeaders_wellFormed (g : Generator) (browser : browserProfile) (os : osProfile)
    (platform : platformProfile) (version : Int) (fullVersion : String)
    (versionProf : versionProfile) (sorter : HeaderSorter) (r r' : Rng)
    (headers : Header) (order : List String)
    (hs : ∀ ks r0, (sorter ks r0).1.Perm ks)
    (h : buildHeaders g browser os platform version fullVersion versionProf sorter r =
      some ((headers, order), r')) (a : Agent) (hH : a.Headers = headers)
    (hO : a.HeaderOrder = order) : HeaderOrderWellFormed a := by
  unfold buildHeaders at h
  split at h
  · simp at h
  · rename_i m r1 hm
    simp only [Option.some.injEq, Prod.mk.injEq] at h
    obtain ⟨h, _⟩ := h
    have hw := generatedHeaderMap_keysWithin g browser os platform version fullVersion
      versionProf r m r1 hm
    have hp : (sorter (rangeKeys m r1).1 (rangeKeys m r1).2).1.Perm (mapKeys m) :=
      (hs _ _).trans (rangeKeys_perm m r1)
    refine finishHeaders_wellFormed m _ (canonical_nodup_of_keysWithin m _ hw hp) a ?_ ?_
    · rw [hH, h]
    · rw [hO, h]

theorem generateFor_wellFormed (g : Generator) (profile : browserProfile)
    (platformProf : platformProfile) (osProf : osProfile) (version : Int) (r : Rng) (a : Agent)
    (hz : g.zeroHeader = false) (hs : ∀ ks r0, (g.headerSorter ks r0).1.Perm ks)
    (h : generateFor g profile platformProf osProf version r = .ok a) :
    HeaderOrderWellFormed a := by
  unfold generateFor at h
  simp only [hz, Bool.not_false, if_true] at h
  split at h
  · simp at h
  · split at h
    · simp at h
    · rename_i headers order r2 hb
      split at h
      · simp at h
      · simp only [Except.ok.injEq] at h
        subst h
        refine buildHeaders_wellFormed g _ _ _ _ _ _ _ _ _ headers order ?_ hb _ rfl rfl
        intro ks r0
        split
        · exact (provided_sorters_perm ks r0).2.2
        · exact hs ks r0

theorem generateFor_zeroHeader (g : Generator) (profile : browserProfile)
    (platformProf : platformProfile) (osProf : osProfile) (version : Int) (r : Rng) (a : Agent)
    (hz : g.zeroHeader = true) (h : generateFor g profile platformProf osProf version r = .ok a) :
    a.Headers = [] ∧ a.HeaderOrder = [] := by
  unfold generateFor at h
  simp only [hz, Bool.not_true, Bool.false_eq_true, if_false] at h
  split at h
  · simp at h
  · split at h
    · simp at h
    · simp only [Except.ok.injEq] at h
      subst h
      exact ⟨rfl, rfl⟩

theorem Generate_zeroHeader (g : Generator) (r : Rng) (a : Agent)
    (hbot : g.useBotAgents = false) (hz : g.zeroHeader = true) (h : Generate g r = .ok a) :
    a.Headers = [] ∧ a.HeaderOrder = [] := by
  unfold Generate at h
  simp only [hbot, Bool.false_eq_true, if_false] at h
  split at h
  · simp at h
  · split at h
    · simp at h
    · split at h
      · simp at h
      · split at h
        · simp at h
        · exact generateFor_zeroHeader g _ _ _ _ _ a hz h

theorem Generate_wellFormed (g : Generator) (r : Rng) (a : Agent)
    (hz : g.useBotAgents = true ∨ g.zeroHeader = false)
    (hs : ∀ ks r0, (g.headerSorter ks r0).1.Perm ks) (h : Generate g r = .ok a) :
    HeaderOrderWellFormed a := by
  unfold Generate at h
  split at h
  · exact generateBot_wellFormed g r a h
  · rename_i hbot
    have hz' : g.zeroHeader = false := by
      rcases hz with h1 | h1
      · exact absurd h1 hbot
      · exact h1
    split at h
    · simp at h
    · split at h
      · simp at h
      · simp only at h
        split at h
        · simp at h
        · split at h
          · simp at h
          · exact generateFor_wellFormed g _ _ _ _ _ a hz' hs h

/-! ## Theorems on the header order -/

set_option maxRecDepth 100000 in
/-- C8 (counterexample): with the zero-header switch set `Generate` returns an
Agent whose header order is empty, so it does not start with the four
pseudo-headers; and for the Chrome test input of `FromUserAgentString` the entry
`accept` of the header order is not a key of the header set, whose key is the
canonical form `Accept`. -/
theorem header_order_counterexample :
    (Generate zeroHeaderGenerator zeroRng = .ok (agentOf (Generate zeroHeaderGenerator zeroRng)) ∧
      (agentOf (Generate zeroHeaderGenerator zeroRng)).HeaderOrder = [] ∧
      ¬ pseudoHeaders <+: (agentOf (Generate zeroHeaderGenerator zeroRng)).HeaderOrder) ∧
    (FromUserAgentString uaChrome138 RequestTypeNavigate zeroRng =
        .ok (agentOf (FromUserAgentString uaChrome138 RequestTypeNavigate zeroRng)) ∧
      "accept" ∈ (agentOf (FromUserAgentString uaChrome138 RequestTypeNavigate zeroRng)).HeaderOrder ∧
      "accept" ∉
        mapKeys (agentOf (FromUserAgentString uaChrome138 RequestTypeNavigate zeroRng)).Headers ∧
      "Accept" ∈
        mapKeys (agentOf (FromUserAgentString uaChrome138 RequestTypeNavigate zeroRng)).Headers) := by
  decide

/-- C8 (amended): for every Agent returned without error by `Generate` in bot
mode, by `Generate` in browser mode with the zero-header switch off (under every
fingerprint profile and every ordering strategy that rearranges the keys, as
the three strategies of the package do), and by `FromUserAgentString`, the header
order begins with `:method`, `:authority`, `:scheme`, `:path` in that order, and
the remaining entries are pairwise distinct names whose canonical forms are
exactly the keys of the header set, each key once. In browser mode with the
zero-header switch on, the Agent has no headers and an empty header order. -/
theorem header_order_wellFormed :
    (∀ (g : Generator) (r : Rng) (a : Agent), Generate g r = .ok a →
      (g.useBotAgents = true ∨ g.zeroHeader = false) →
      (∀ ks r0, (g.headerSorter ks r0).1.Perm ks) →
      ∃ ks, a.HeaderOrder = [":method", ":authority", ":scheme", ":path"] ++ ks ∧ ks.Nodup ∧
        (ks.map CanonicalHeaderKey).Perm (mapKeys a.Headers) ∧ (mapKeys a.Headers).Nodup) ∧
    (∀ (ks : List String) (r0 : Rng), (prioritySorter ks r0).1.Perm ks ∧
      (RandomHeaderSorter ks r0).1.Perm ks ∧ (ShuffledPriorityHeaderSorter ks r0).1.Perm ks) ∧
    (∀ (s : String) (rt : RequestType) (r : Rng) (a : Agent),
      FromUserAgentString s rt r = .ok a →
      ∃ ks, a.HeaderOrder = [":method", ":authority", ":scheme", ":path"] ++ ks ∧ ks.Nodup ∧
        (ks.map CanonicalHeaderKey).Perm (mapKeys a.Headers) ∧ (mapKeys a.Headers).Nodup) ∧
    (∀ (g : Generator) (r : Rng) (a : Agent), Generate g r = .ok a →
      g.useBotAgents = false → g.zeroHeader = true → a.Headers = [] ∧ a.HeaderOrder = []) := by
  refine ⟨?_, provided_sorters_perm, ?_, ?_⟩
  rotate_left
  · intro s rt r a h
    rcases FromUserAgentString_cases s rt r with ⟨e, _, he⟩ | ⟨p, _, _, he⟩ |
      ⟨p, vp, k, m, _, _, hm, hok⟩
    · rw [he] at h; simp at h
    · rw [he] at h; simp at h
    · rw [hok] at h
      simp only [Except.ok.injEq] at h
      subst h
      have hw := staticHeaderMap_keysWithin _ _ _ _ _ _ _ _ m hm
      have hp : (PriorityHeaderSorter (rangeKeys m r).1).Perm (mapKeys m) :=
        (SliceStable_perm _ _).trans (rangeKeys_perm m r)
      exact finishHeaders_wellFormed m _ (canonical_nodup_of_keysWithin m _ hw hp) _ rfl rfl
  · intro g r a h hbot hz
    exact Generate_zeroHeader g r a hbot hz h
  · intro g r a h hz hs
    exact Generate_wellFormed g r a hz hs h

set_option maxRecDepth 100000 in
/-- C8 (witness): the default generator, the default generator in bot mode, the
Chrome test input of the reverse parser, and the default generator with the
zero-header switch on. -/
theorem header_order_wellFormed_witness :
    HeaderOrderWellFormed (agentOf (Generate NewGenerator zeroRng)) ∧
    HeaderOrderWellFormed (agentOf (Generate botGenerator zeroRng)) ∧
    HeaderOrderWellFormed
      (agentOf (FromUserAgentString uaChrome138 RequestTypeNavigate zeroRng)) ∧
    ((agentOf (Generate zeroHeaderGenerator zeroRng)).Headers = [] ∧
      (agentOf (Generate zeroHeaderGenerator zeroRng)).HeaderOrder = []) :=
  ⟨header_order_wellFormed.1 NewGenerator zeroRng _ (by decide) (Or.inr rfl)
      (fun ks r0 => (provided_sorters_perm ks r0).1),
    header_order_wellFormed.1 botGenerator zeroRng _ (by decide) (Or.inl rfl)
      (fun ks r0 => (provided_sorters_perm ks r0).1),
    header_order_wellFormed.2.2.1 uaChrome138 RequestTypeNavigate zeroRng _ (by decide),
    header_order_wellFormed.2.2.2 zeroHeaderGenerator zeroRng _ (by decide) rfl rfl⟩

/-! ## Lemmas on a run of `Generate` -/

/-- A successful run of `Generate` in browser mode resolved some browser,
platform, OS and version. -/
theorem Generate_browser_inv (g : Generator) (r : Rng) (a : Agent)
    (hbot : g.useBotAgents = false) (h : Generate g r = .ok a) :
    ∃ browser platform os version r3, ResolvedRun g r browser platform os version r3 a := by
  unfold Generate at h
  simp only [hbot, Bool.false_eq_true, if_false] at h
  split at h
  · simp at h
  · rename_i browser r1 hb
    split at h
    · simp at h
    · rename_i platform os r2 hp
      split at h
      · simp at h
      · split at h
        · simp at h
        · rename_i version r3 hv
          exact ⟨browser, platform, os, version, r3, r1, r2, hb, hp, hv, h⟩

/-- What `generateFor` returns, field by field. -/
theorem generateFor_inv (g : Generator) (profile : browserProfile)
    (platformProf : platformProfile) (osProf : osProfile) (version : Int) (r : Rng) (a : Agent)
    (h : generateFor g profile platformProf osProf version r = .ok a) :
    ∃ parts r1 r2 r3,
      renderParts (mapGet platformProf.ComponentGenerators profile.Family) profile osProf
        (mapGet profile.Versions version) (fullVersionOf profile version r).1
        (fullVersionOf profile version r).2 = some (parts, r1) ∧
      a.UserAgent = Join parts " " ∧
      (if !g.zeroHeader then
        buildHeaders g profile osProf platformProf version (fullVersionOf profile version r).1
          (mapGet profile.Versions version)
          (if g.fingerprintProfile = .Maximum then ShuffledPriorityHeaderSorter
            else g.headerSorter) r1
      else some (([], []), r1)) = some ((a.Headers, a.HeaderOrder), r2) ∧
      (if g.h2Only then
          if g.h2RandomizationProfile ≠ .None then
            randomizeH2Settings profile.H2Settings g.h2RandomizationProfile r2
          else some (profile.H2Settings, r2)
        else some ([], r2)) = some (a.H2Settings, r3) ∧
      a.ClientHelloSpec =
        (if g.fingerprintProfile = .Maximum then some (ChromeLatestSpec r3).1 else none) ∧
      a.ClientHelloID =
        (if g.fingerprintProfile = .Maximum then default
          else (mapGet profile.Versions version).TLS.HelloID) := by
  unfold generateFor at h
  simp only at h
  split at h
  · simp at h
  · rename_i parts r1 hparts
    split at h
    · simp at h
    · rename_i headers order r2 hh
      split at h
      · simp at h
      · rename_i h2 r3 h2eq
        simp only [Except.ok.injEq] at h
        subst h
        exact ⟨parts, r1, r2, r3, hparts, rfl, hh, h2eq, rfl, rfl⟩

theorem Choice_isSome {α : Type} (xs : List α) (r : Rng) (h : xs ≠ []) :
    ∃ x, Choice xs r = some (x, r.advance) := by
  unfold Choice
  have hlen : 0 < xs.length := List.length_pos.2 h
  have hlt : r 0 % xs.length < xs.length := Nat.mod_lt _ hlen
  rw [List.getElem?_eq_getElem hlt]
  exact ⟨_, rfl⟩

theorem mapGet_mem {κ ν : Type} [DecidableEq κ] [Inhabited ν] (m : List (κ × ν)) (k : κ)
    (h : k ∈ mapKeys m) : (k, mapGet m k) ∈ m := by
  have hsome : (mapFind m k).isSome = true := by
    induction m with
    | nil => simp [mapKeys] at h
    | cons e m ih =>
      obtain ⟨k', v'⟩ := e
      unfold mapFind
      by_cases hk : k' = k
      · simp [hk]
      · simp only [hk, if_false]
        apply ih
        simp only [mapKeys, List.map_cons, List.mem_cons] at h ⊢
        rcases h with h | h
        · exact absurd h.symm hk
        · exact h
  exact mapFind_mem m k _ (mapFind_eq_some_mapGet m k hsome)

/-- The chosen version passed the filters of `Generate` and is a key of the
version table. -/
theorem finalVersions_mem (g : Generator) (profile : browserProfile) (all : List Int) (v : Int) :
    v ∈ finalVersions g profile all ↔ v ∈ all ∧ versionPasses g profile v := by
  unfold finalVersions versionPasses
  by_cases hd : g.minVersion ≠ 114 ∨ g.maxVersion ≠ 141 <;> by_cases hh : g.h2Only = true <;>
    simp only [hd, hh, if_true, if_false, List.mem_filter, decide_eq_true_eq, ge_iff_le,
      true_implies, false_implies, and_true, Bool.false_eq_true] <;> tauto

/-! ## Lemmas on the resolution of platform and OS -/

/-- The combination the innermost loop appends, spelled out. -/
theorem comboFor_mem (browser : Browser) (p : Platform) (os : OperatingSystem)
    (c : Platform × OperatingSystem) :
    c ∈ comboFor browser p os ↔
      c = (p, os) ∧ ∃ prof, mapFind osProfiles os = some prof ∧
        decide (p = PlatformMobile) = prof.IsMobile ∧
        isValidForBrowser browser p os prof = true := by
  unfold comboFor
  cases hfind : mapFind osProfiles os with
  | none => simp
  | some prof =>
    simp only [Option.some.injEq, exists_eq_left']
    by_cases hm : decide (p = PlatformMobile) = prof.IsMobile
    · by_cases hv : isValidForBrowser browser p os prof = true
      · simp [hm, hv]
      · simp [hm, hv]
    · simp [hm]

/-- The members of `validCombos`: a platform of the (expanded) platform list, an
OS of the (expanded) OS list with the generic macOS token replaced by its two
variants, and a combination the innermost loop accepts. -/
theorem validCombos_mem (g : Generator) (browser : Browser) (c : Platform × OperatingSystem) :
    c ∈ validCombos g browser ↔
      ∃ p ∈ (if g.platforms = [PlatformRandom] then allRealPlatforms else g.platforms),
        ∃ o ∈ (if g.os = [OSRandom] then allRealOS else g.os),
          ∃ concreteOS ∈ (if o = OSMac then macArchitectures else [o]),
            c ∈ comboFor browser p concreteOS := by
  unfold validCombos
  simp only [List.mem_flatMap]

/-- The two outcomes of `resolvePlatformAndOS`: the error when no combination is
valid, and otherwise one of the valid combinations, with one draw consumed. -/
theorem resolvePlatformAndOS_cases (g : Generator) (browser : Browser) (r : Rng) :
    (validCombos g browser = [] ∧
      resolvePlatformAndOS g browser r = .error (.errorf
        "no compatible platform/OS combination found for browser %s with the current settings")) ∨
    (∃ c, c ∈ validCombos g browser ∧
      resolvePlatformAndOS g browser r = .ok (c, r.advance)) := by
  unfold resolvePlatformAndOS
  by_cases he : validCombos g browser = []
  · left
    simp [he]
  · right
    obtain ⟨c, hc⟩ := Choice_isSome (validCombos g browser) r he
    refine ⟨c, Choice_mem _ _ _ _ hc, ?_⟩
    have hne : (validCombos g browser).isEmpty = false := by
      cases hv : validCombos g browser with
      | nil => exact absurd hv he
      | cons _ _ => rfl
    simp only [hne, Bool.false_eq_true, if_false, hc]

/-- An OS with a profile is one of the ten keys of `osProfiles`. -/
theorem osProfiles_find (os : OperatingSystem) (prof : osProfile)
    (h : mapFind osProfiles os = some prof) :
    (os, prof) ∈ osProfiles :=
  mapFind_mem _ _ _ h

/-- The valid combinations for Safari. -/
theorem comboFor_safari (p : Platform) (os : OperatingSystem) (c : Platform × OperatingSystem)
    (h : c ∈ comboFor BrowserSafari p os) :
    c = (PlatformMobile, OSiOS) ∨ c = (PlatformDesktop, osMacIntel) ∨
      c = (PlatformDesktop, osMacAppleSilicon) := by
  rw [comboFor_mem] at h
  obtain ⟨hc, prof, hfind, hmob, hvalid⟩ := h
  subst hc
  have hmem := osProfiles_find os prof hfind
  simp only [isValidForBrowser, if_true, decide_eq_true_eq] at hvalid
  simp only [osProfiles, List.mem_cons, Prod.mk.injEq, List.mem_singleton, List.not_mem_nil,
    or_false] at hmem
  rcases hvalid with ⟨hp, hos⟩ | ⟨hp, hname⟩
  · subst hp; subst hos
    exact Or.inl rfl
  · subst hp
    rcases hmem with ⟨ho, hprof⟩ | ⟨ho, hprof⟩ | ⟨ho, hprof⟩ | ⟨ho, hprof⟩ | ⟨ho, hprof⟩ |
      ⟨ho, hprof⟩ | ⟨ho, hprof⟩ | ⟨ho, hprof⟩ | ⟨ho, hprof⟩ | ⟨ho, hprof⟩ <;>
      subst ho <;> subst hprof <;> first
        | exact Or.inr (Or.inl rfl)
        | exact Or.inr (Or.inr rfl)
        | (exfalso; revert hname; decide)

/-- The valid combinations for Firefox: Android on the mobile platform, and on
the desktop platform every OS with a desktop profile. -/
theorem comboFor_firefox (p : Platform) (os : OperatingSystem) (c : Platform × OperatingSystem)
    (h : c ∈ comboFor BrowserFirefox p os) :
    c = (PlatformMobile, OSAndroid) ∨
      (c = (PlatformDesktop, os) ∧
        os ∈ [OSWindows, OSWindows11, osMacIntel, osMacAppleSilicon, OSLinux, osUbuntu,
          osFedora, OSChromeOS]) := by
  rw [comboFor_mem] at h
  obtain ⟨hc, prof, hfind, hmob, hvalid⟩ := h
  subst hc
  have hmem := osProfiles_find os prof hfind
  have hff : BrowserFirefox ≠ BrowserSafari := by decide
  simp only [isValidForBrowser, hff, if_false, if_true, decide_eq_true_eq] at hvalid
  simp only [osProfiles, List.mem_cons, Prod.mk.injEq, List.mem_singleton, List.not_mem_nil,
    or_false] at hmem
  rcases hvalid with ⟨hp, hos⟩ | ⟨hp, hios, hand⟩
  · subst hp; subst hos
    exact Or.inl rfl
  · subst hp
    right
    refine ⟨rfl, ?_⟩
    rcases hmem with ⟨ho, _⟩ | ⟨ho, _⟩ | ⟨ho, _⟩ | ⟨ho, _⟩ | ⟨ho, _⟩ |
      ⟨ho, _⟩ | ⟨ho, _⟩ | ⟨ho, _⟩ | ⟨ho, _⟩ | ⟨ho, _⟩ <;> subst ho <;>
      first
        | decide
        | exact absurd rfl hios
        | exact absurd rfl hand

/-! ## Lemmas on the rendering of the user-agent -/

theorem append_ne_empty_left (a b : String) (h : a ≠ "") : a ++ b ≠ "" := by
  intro hab
  apply h
  have hd := congrArg String.data hab
  rw [String.data_append] at hd
  have : a.data = [] := (List.append_eq_nil.1 hd).1
  exact String.ext this

theorem append_ne_empty_right (a b : String) (h : b ≠ "") : a ++ b ≠ "" := by
  intro hab
  apply h
  have hd := congrArg String.data hab
  rw [String.data_append] at hd
  have : b.data = [] := (List.append_eq_nil.1 hd).2
  exact String.ext this

/-- The platform token `osToken` returns: for the Android profile name the token
with the first placeholder replaced by one of the listed devices (one draw), for
every other profile the token itself (no draw). -/
theorem osToken_cases (op : osProfile) (r : Rng) :
    (op.Name = "Android" ∧ ∃ device ∈ androidDevices,
      osToken op r =
        some (replaceFirst op.PlatformToken "\x7bdevice_model\x7d" device, r.advance)) ∨
    (op.Name ≠ "Android" ∧ osToken op r = some (op.PlatformToken, r)) := by
  unfold osToken
  by_cases h : op.Name = "Android"
  · left
    obtain ⟨device, hd⟩ := Choice_isSome androidDevices r (by decide)
    exact ⟨h, device, Choice_mem _ _ _ _ hd, by simp only [h, if_true, hd]⟩
  · right
    exact ⟨h, by simp only [h, if_false]⟩

theorem osToken_isSome (op : osProfile) (r : Rng) : ∃ token r1, osToken op r = some (token, r1) := by
  rcases osToken_cases op r with ⟨_, device, _, h⟩ | ⟨_, h⟩
  · exact ⟨_, _, h⟩
  · exact ⟨_, _, h⟩

/-- The fragments of a Chromium-derived browser on the desktop platform. -/
theorem renderParts_chromium_desktop (bp : browserProfile) (op : osProfile)
    (vp : versionProfile) (fv : String) (r r1 : Rng) (token : String)
    (h : osToken op r = some (token, r1)) :
    renderParts (mapGet (mapGet platformProfiles PlatformDesktop).ComponentGenerators Chromium)
        bp op vp fv r =
      some (["Mozilla/5.0", "(" ++ token ++ ")", "AppleWebKit/537.36", "(KHTML, like Gecko)",
          "Chrome/" ++ fv, "Safari/537.36"] ++
        (if bp.UASuffix = "" then []
          else if replaceFirst bp.UASuffix "%s" (String.mk (splitOnce ".".data fv.data).1) ≠ ""
            then [replaceFirst bp.UASuffix "%s" (String.mk (splitOnce ".".data fv.data).1)]
            else []), r1) := by
  have h1 : "(" ++ token ++ ")" ≠ "" := append_ne_empty_right _ _ (by decide)
  have h2 : "Chrome/" ++ fv ≠ "" := append_ne_empty_left _ _ (by decide)
  have hg : mapGet (mapGet platformProfiles PlatformDesktop).ComponentGenerators Chromium =
      [MozillaGenerator, OSGenerator, WebKitGenerator, KHTMLGenerator, ChromeGenerator,
        SafariGenerator, BrowserSuffixGenerator] := rfl
  rw [hg]
  simp only [renderParts, MozillaGenerator, OSGenerator, WebKitGenerator, KHTMLGenerator,
    ChromeGenerator, SafariGenerator, BrowserSuffixGenerator, h]
  by_cases hs : bp.UASuffix = ""
  · simp [hs, h1, h2]
  · by_cases hr : replaceFirst bp.UASuffix "%s" (String.mk (splitOnce ".".data fv.data).1) = ""
    · simp [hs, h1, h2, hr]
    · simp [hs, h1, h2, hr]

theorem intercalate_go_data (sep acc : String) (l : List String) :
    (String.intercalate.go acc sep l).data =
      acc.data ++ (l.map (fun a => sep.data ++ a.data)).flatten := by
  induction l generalizing acc with
  | nil => simp [String.intercalate.go]
  | cons a l ih =>
    simp only [String.intercalate.go, ih, String.data_append, List.map_cons, List.flatten_cons,
      List.append_assoc]

/-- The characters of a joined string: the first part, then each further part
behind the separator. -/
theorem Join_cons_data (a : String) (l : List String) (sep : String) :
    (Join (a :: l) sep).data = a.data ++ (l.map (fun b => sep.data ++ b.data)).flatten := by
  simp only [Join, String.intercalate, intercalate_go_data]

/-- A part of a joined string occurs in it. -/
theorem Join_infix_of_mem (parts : List String) (sep part : String) (h : part ∈ parts) :
    part.data <:+: (Join parts sep).data := by
  cases parts with
  | nil => simp at h
  | cons a l =>
    rw [Join_cons_data]
    rcases List.mem_cons.1 h with h | h
    · subst h
      exact (List.prefix_append _ _).isInfix
    · have h1 : (sep.data ++ part.data) ∈ l.map (fun b => sep.data ++ b.data) :=
        List.mem_map.2 ⟨part, h, rfl⟩
      have h2 := List.infix_of_mem_flatten h1
      have h3 : part.data <:+: sep.data ++ part.data := (List.suffix_append _ _).isInfix
      exact (h3.trans h2).trans (List.suffix_append _ _).isInfix

/-- What occurs in a part of a joined string occurs in the joined string. -/
theorem Contains_Join_of_mem (parts : List String) (sep part t : String) (h : part ∈ parts)
    (hc : Contains part t = true) : Contains (Join parts sep) t = true := by
  rw [Contains_iff] at hc ⊢
  exact hc.trans (Join_infix_of_mem parts sep part h)

/-- A character of a joined string is a character of the separator or of one of
the parts. -/
theorem Join_mem_data (parts : List String) (sep : String) (c : Char)
    (h : c ∈ (Join parts sep).data) : c ∈ sep.data ∨ ∃ part ∈ parts, c ∈ part.data := by
  cases parts with
  | nil => simp [Join, String.intercalate] at h
  | cons a l =>
    rw [Join_cons_data] at h
    rcases List.mem_append.1 h with h | h
    · exact Or.inr ⟨a, List.mem_cons_self _ _, h⟩
    · rw [List.mem_flatten] at h
      obtain ⟨x, hx, hcx⟩ := h
      obtain ⟨b, hb, rfl⟩ := List.mem_map.1 hx
      rcases List.mem_append.1 hcx with h | h
      · exact Or.inl h
      · exact Or.inr ⟨b, List.mem_cons_of_mem _ hb, h⟩

theorem Contains_append_left (a b t : String) (h : Contains a t = true) :
    Contains (a ++ b) t = true := by
  rw [Contains_iff] at h ⊢
  rw [String.data_append]
  exact h.trans (List.prefix_append _ _).isInfix

theorem Contains_append_right (a b t : String) (h : Contains b t = true) :
    Contains (a ++ b) t = true := by
  rw [Contains_iff] at h ⊢
  rw [String.data_append]
  exact h.trans (List.suffix_append _ _).isInfix

theorem Contains_self (t : String) : Contains t t = true := by
  rw [Contains_iff]

/-- An occurrence of a text is an occurrence of its first character. -/
theorem mem_of_Contains (s t : String) (c : Char) (hc : c ∈ t.data)
    (h : Contains s t = true) : c ∈ s.data := by
  rw [Contains_iff] at h
  exact h.subset hc

/-- The fragments of a Chromium-derived browser on the mobile platform. -/
theorem renderParts_chromium_mobile (bp : browserProfile) (op : osProfile)
    (vp : versionProfile) (fv : String) (r r1 : Rng) (token : String)
    (h : osToken op r = some (token, r1)) :
    renderParts (mapGet (mapGet platformProfiles PlatformMobile).ComponentGenerators Chromium)
        bp op vp fv r =
      some (["Mozilla/5.0", "(" ++ token ++ ")", "AppleWebKit/537.36", "(KHTML, like Gecko)",
          "Chrome/" ++ fv, "Mobile Safari/537.36"] ++
        (if bp.UASuffix = "" then []
          else if replaceFirst bp.UASuffix "%s" (String.mk (splitOnce ".".data fv.data).1) ≠ ""
            then [replaceFirst bp.UASuffix "%s" (String.mk (splitOnce ".".data fv.data).1)]
            else []), r1) := by
  have h1 : "(" ++ token ++ ")" ≠ "" := append_ne_empty_right _ _ (by decide)
  have h2 : "Chrome/" ++ fv ≠ "" := append_ne_empty_left _ _ (by decide)
  have hg : mapGet (mapGet platformProfiles PlatformMobile).ComponentGenerators Chromium =
      [MozillaGenerator, OSGenerator, WebKitGenerator, KHTMLGenerator, ChromeGenerator,
        MobileSafariGenerator, BrowserSuffixGenerator] := rfl
  rw [hg]
  simp only [renderParts, MozillaGenerator, OSGenerator, WebKitGenerator, KHTMLGenerator,
    ChromeGenerator, MobileSafariGenerator, BrowserSuffixGenerator, h]
  by_cases hs : bp.UASuffix = ""
  · simp [hs, h1, h2]
  · by_cases hr : replaceFirst bp.UASuffix "%s" (String.mk (splitOnce ".".data fv.data).1) = ""
    · simp [hs, h1, h2, hr]
    · simp [hs, h1, h2, hr]

/-- The fragments of a Gecko browser, on either platform. -/
theorem renderParts_gecko (p : Platform) (hp : p = PlatformDesktop ∨ p = PlatformMobile)
    (bp : browserProfile) (op : osProfile)
    (vp : versionProfile) (fv : String) (r r1 : Rng) (token : String)
    (h : osToken op r = some (token, r1)) :
    renderParts (mapGet (mapGet platformProfiles p).ComponentGenerators Gecko)
        bp op vp fv r =
      some (["Mozilla/5.0", "(" ++ token ++ "; rv:" ++ vp.GeckoRevision ++ ")",
        "Gecko/20100101", "Firefox/" ++ vp.GeckoRevision], r1) := by
  have h1 : "(" ++ token ++ "; rv:" ++ vp.GeckoRevision ++ ")" ≠ "" :=
    append_ne_empty_right _ _ (by decide)
  have h2 : "Firefox/" ++ vp.GeckoRevision ≠ "" := append_ne_empty_left _ _ (by decide)
  have hg : mapGet (mapGet platformProfiles p).ComponentGenerators Gecko =
      [MozillaGenerator, FirefoxOSGenerator, GeckoTrailGenerator, FirefoxVersionGenerator] := by
    rcases hp with hp | hp <;> subst hp <;> rfl
  rw [hg]
  simp only [renderParts, MozillaGenerator, FirefoxOSGenerator, GeckoTrailGenerator,
    FirefoxVersionGenerator, h]
  simp [h1, h2]

/-- The last fragment of a WebKit browser. -/
theorem SafariBrowserVersion_ne_empty (op : osProfile) (vp : versionProfile) :
    (if op.IsMobile then "Safari/604.1" else "Safari/" ++ vp.WebKitVersion) ≠ "" := by
  split
  · decide
  · exact append_ne_empty_left _ _ (by decide)

/-- The fragments of a WebKit browser on the desktop platform. -/
theorem renderParts_webkit_desktop (bp : browserProfile) (op : osProfile)
    (vp : versionProfile) (fv : String) (r r1 : Rng) (token : String)
    (h : osToken op r = some (token, r1)) :
    renderParts (mapGet (mapGet platformProfiles PlatformDesktop).ComponentGenerators WebKit)
        bp op vp fv r =
      some (["Mozilla/5.0", "(" ++ token ++ ")", "AppleWebKit/" ++ vp.WebKitVersion,
        "(KHTML, like Gecko)", "Version/" ++ vp.SafariVersion,
        if op.IsMobile then "Safari/604.1" else "Safari/" ++ vp.WebKitVersion], r1) := by
  have h1 : "(" ++ token ++ ")" ≠ "" := append_ne_empty_right _ _ (by decide)
  have h2 : "AppleWebKit/" ++ vp.WebKitVersion ≠ "" := append_ne_empty_left _ _ (by decide)
  have h3 : "Version/" ++ vp.SafariVersion ≠ "" := append_ne_empty_left _ _ (by decide)
  have h4 := SafariBrowserVersion_ne_empty op vp
  have hg : mapGet (mapGet platformProfiles PlatformDesktop).ComponentGenerators WebKit =
      [MozillaGenerator, OSGenerator, SafariWebKitGenerator, KHTMLGenerator,
        SafariVersionGenerator, SafariBrowserVersionGenerator] := rfl
  rw [hg]
  simp only [renderParts, MozillaGenerator, OSGenerator, SafariWebKitGenerator, KHTMLGenerator,
    SafariVersionGenerator, SafariBrowserVersionGenerator, h]
  cases hm : op.IsMobile <;> simp [hm] at h4 ⊢ <;> simp [h1, h2, h3, h4]

/-- The fragments of a WebKit browser on the mobile platform. -/
theorem renderParts_webkit_mobile (bp : browserProfile) (op : osProfile)
    (vp : versionProfile) (fv : String) (r r1 : Rng) (token : String)
    (h : osToken op r = some (token, r1)) :
    renderParts (mapGet (mapGet platformProfiles PlatformMobile).ComponentGenerators WebKit)
        bp op vp fv r =
      some (["Mozilla/5.0", "(" ++ token ++ ")", "AppleWebKit/" ++ vp.WebKitVersion,
        "(KHTML, like Gecko)", "Version/" ++ vp.SafariVersion, "Mobile/" ++ vp.MobileVersion,
        if op.IsMobile then "Safari/604.1" else "Safari/" ++ vp.WebKitVersion], r1) := by
  have h1 : "(" ++ token ++ ")" ≠ "" := append_ne_empty_right _ _ (by decide)
  have h2 : "AppleWebKit/" ++ vp.WebKitVersion ≠ "" := append_ne_empty_left _ _ (by decide)
  have h3 : "Version/" ++ vp.SafariVersion ≠ "" := append_ne_empty_left _ _ (by decide)
  have h5 : "Mobile/" ++ vp.MobileVersion ≠ "" := append_ne_empty_left _ _ (by decide)
  have h4 := SafariBrowserVersion_ne_empty op vp
  have hg : mapGet (mapGet platformProfiles PlatformMobile).ComponentGenerators WebKit =
      [MozillaGenerator, OSGenerator, SafariWebKitGenerator, KHTMLGenerator,
        SafariVersionGenerator, SafariMobileTokenGenerator, SafariBrowserVersionGenerator] := rfl
  rw [hg]
  simp only [renderParts, MozillaGenerator, OSGenerator, SafariWebKitGenerator, KHTMLGenerator,
    SafariVersionGenerator, SafariMobileTokenGenerator, SafariBrowserVersionGenerator, h]
  cases hm : op.IsMobile <;> simp [hm] at h4 ⊢ <;> simp [h1, h2, h3, h4, h5]

/-- A platform other than the two concrete ones has no profile, hence no fragment
generators: nothing is rendered and nothing is drawn. -/
theorem renderParts_unknown_platform (p : Platform) (hd : p ≠ PlatformDesktop)
    (hm : p ≠ PlatformMobile) (family : BrowserFamily) (bp : browserProfile) (op : osProfile)
    (vp : versionProfile) (fv : String) (r : Rng) :
    renderParts (mapGet (mapGet platformProfiles p).ComponentGenerators family)
      bp op vp fv r = some ([], r) := by
  have hd' : ¬ PlatformDesktop = p := fun h => hd h.symm
  have hm' : ¬ PlatformMobile = p := fun h => hm h.symm
  have hg : mapGet (mapGet platformProfiles p).ComponentGenerators family = [] := by
    simp [mapGet, mapFind, platformProfiles, hd', hm']
    rfl
  rw [hg]
  rfl

/-! ## Lemmas on the resolved values -/

/-- A browser whose version table has a key is one of the six browsers of
`browserProfiles`. -/
theorem browser_known_of_version (browser : Browser) (v : Int)
    (h : v ∈ mapKeys (mapGet browserProfiles browser).Versions) :
    (browser, mapGet browserProfiles browser) ∈ browserProfiles := by
  cases hfind : mapFind browserProfiles browser with
  | none =>
    have hd : mapGet browserProfiles browser = default := by simp [mapGet, hfind]
    have hv : (default : browserProfile).Versions = [] := rfl
    rw [hd, hv] at h
    simp [mapKeys] at h
  | some prof =>
    have hg : mapGet browserProfiles browser = prof := by simp [mapGet, hfind]
    rw [hg]
    exact mapFind_mem _ _ _ hfind

/-- The browser `resolveBrowser` returns is one of the candidates: all six real
browsers when the configured list holds the token `random`, the configured list
otherwise. -/
theorem resolveBrowser_mem (g : Generator) (r r1 : Rng) (browser : Browser)
    (h : resolveBrowser g r = .ok (browser, r1)) :
    browser ∈ (if g.browsers.contains BrowserRandom then allRealBrowsers else g.browsers) := by
  unfold resolveBrowser at h
  dsimp only at h
  generalize (if g.browsers.contains BrowserRandom then allRealBrowsers else g.browsers) = pot
    at h ⊢
  split at h
  · simp at h
  · split at h
    · simp at h
    · rename_i res hres
      simp only [Except.ok.injEq] at h
      subst h
      exact Choice_mem _ _ _ _ hres

/-- The values a run of `Generate` resolved: the browser is a candidate with a
profile, the combination is a valid one, and the version is a key of the version
table of the browser that passed the filters. -/
theorem ResolvedRun_facts (g : Generator) (r : Rng) (browser : Browser) (platform : Platform)
    (os : OperatingSystem) (version : Int) (r3 : Rng) (a : Agent)
    (h : ResolvedRun g r browser platform os version r3 a) :
    browser ∈ (if g.browsers.contains BrowserRandom then allRealBrowsers else g.browsers) ∧
    (browser, mapGet browserProfiles browser) ∈ browserProfiles ∧
    (platform, os) ∈ validCombos g browser ∧
    version ∈ mapKeys (mapGet browserProfiles browser).Versions ∧
    versionPasses g (mapGet browserProfiles browser) version := by
  obtain ⟨r1, r2, hb, hp, hv, _⟩ := h
  have hmem := (finalVersions_mem g _ _ version).1 (Choice_mem _ _ _ _ hv)
  have hkey : version ∈ mapKeys (mapGet browserProfiles browser).Versions :=
    (rangeKeys_perm _ r2).subset hmem.1
  refine ⟨resolveBrowser_mem g r r1 browser hb, browser_known_of_version browser version hkey,
    ?_, hkey, hmem.2⟩
  rcases resolvePlatformAndOS_cases g browser r1 with ⟨_, he⟩ | ⟨c, hc, hok⟩
  · rw [he] at hp; simp at hp
  · rw [hok] at hp
    simp only [Except.ok.injEq, Prod.mk.injEq] at hp
    rw [← hp.1]
    exact hc

/-- Every version profile of the tables records a TLS identity. -/
theorem version_tls_nonempty :
    ∀ e ∈ browserProfiles, ∀ ve ∈ e.2.Versions, ve.2.TLS.HelloID ≠ default := by
  decide

/-- Every profile of the bot catalogue records a TLS identity. -/
theorem bot_tls_nonempty : ∀ p ∈ allBotProfiles, p.HelloID ≠ default := by
  decide

/-! ## Theorems on the TLS selection -/

set_option maxRecDepth 100000 in
/-- C12 (counterexample): in bot mode under the maximum fingerprint profile the run
with draws all zero returns an Agent with a static identity, the one of the chosen
bot profile, and no custom spec: the exclusivity does not hold by profile there. -/
theorem bot_maximum_static_identity :
    botMaximumGenerator.useBotAgents = true ∧
    botMaximumGenerator.fingerprintProfile = .Maximum ∧
    ∃ a, Generate botMaximumGenerator zeroRng = .ok a ∧
      a.ClientHelloSpec = none ∧ a.ClientHelloID ≠ default ∧
      ∃ p ∈ allBotProfiles, a.ClientHelloID = p.HelloID :=
  ⟨rfl, rfl, agentOf (Generate botMaximumGenerator zeroRng), by decide, by decide, by decide,
    by decide⟩

/-- C12 (amended): every Agent returned by `Generate` (browser mode or bot mode) or by
`FromUserAgentString` carries exactly one TLS selection: a non-empty
`ClientHelloID` with no `ClientHelloSpec`, or a `ClientHelloSpec` with the zero
`ClientHelloID`. In browser mode, under every profile but the maximum one (the
normal profile in particular) it is the identity recorded on the profile of the
chosen version and no specification; under the maximum profile it is the
specification synthesized by `ChromeLatestSpec` and the zero identity. In bot mode,
under every fingerprint profile (the maximum one included), and in the reverse
parser it is always an identity and never a specification. -/
theorem tls_selection_exclusive :
    (∀ (g : Generator) (r : Rng) (a : Agent), Generate g r = .ok a →
      (a.ClientHelloID ≠ default ∧ a.ClientHelloSpec = none) ∨
      (a.ClientHelloSpec ≠ none ∧ a.ClientHelloID = default)) ∧
    (∀ (s : String) (rt : RequestType) (r : Rng) (a : Agent),
      FromUserAgentString s rt r = .ok a →
      a.ClientHelloID ≠ default ∧ a.ClientHelloSpec = none) ∧
    (∀ (g : Generator) (r : Rng) (a : Agent), g.useBotAgents = true → Generate g r = .ok a →
      a.ClientHelloID ≠ default ∧ a.ClientHelloSpec = none) ∧
    (∀ (g : Generator) (r : Rng) (a : Agent), g.useBotAgents = false → Generate g r = .ok a →
      ∃ browser platform os version r3, ResolvedRun g r browser platform os version r3 a ∧
        (g.fingerprintProfile ≠ .Maximum →
          a.ClientHelloSpec = none ∧ a.ClientHelloID ≠ default ∧
          a.ClientHelloID =
            (mapGet (mapGet browserProfiles browser).Versions version).TLS.HelloID) ∧
        (g.fingerprintProfile = .Maximum →
          a.ClientHelloID = default ∧ ∃ r', a.ClientHelloSpec = some (ChromeLatestSpec r').1)) := by
  have hbot : ∀ (g : Generator) (r : Rng) (a : Agent), g.useBotAgents = true →
      Generate g r = .ok a → a.ClientHelloID ≠ default ∧ a.ClientHelloSpec = none := by
    intro g r a hb h
    unfold Generate at h
    simp only [hb, if_true] at h
    unfold generateBot at h
    split at h
    · simp at h
    · split at h
      · simp at h
      · rename_i chosen r1 hchoice
        simp only [Except.ok.injEq] at h
        subst h
        exact ⟨bot_tls_nonempty chosen (eligibleBots_subset g chosen (Choice_mem _ _ _ _ hchoice)),
          rfl⟩
  have hbrowser : ∀ (g : Generator) (r : Rng) (a : Agent), g.useBotAgents = false →
      Generate g r = .ok a →
      ∃ browser platform os version r3, ResolvedRun g r browser platform os version r3 a ∧
        (g.fingerprintProfile ≠ .Maximum →
          a.ClientHelloSpec = none ∧ a.ClientHelloID ≠ default ∧
          a.ClientHelloID =
            (mapGet (mapGet browserProfiles browser).Versions version).TLS.HelloID) ∧
        (g.fingerprintProfile = .Maximum →
          a.ClientHelloID = default ∧ ∃ r', a.ClientHelloSpec = some (ChromeLatestSpec r').1) := by
    intro g r a hb h
    obtain ⟨browser, platform, os, version, r3, hrun⟩ := Generate_browser_inv g r a hb h
    refine ⟨browser, platform, os, version, r3, hrun, ?_, ?_⟩
    · intro hmax
      obtain ⟨_, hknown, _, hkey, _⟩ := ResolvedRun_facts _ _ _ _ _ _ _ _ hrun
      obtain ⟨_, _, _, _, _, hgen⟩ := hrun
      obtain ⟨_, _, _, r3', _, _, _, _, hspec, hid⟩ := generateFor_inv _ _ _ _ _ _ _ hgen
      simp only [hmax, if_false] at hspec hid
      refine ⟨hspec, ?_, hid⟩
      rw [hid]
      exact version_tls_nonempty _ hknown _ (mapGet_mem _ _ hkey)
    · intro hmax
      obtain ⟨_, _, _, _, _, hgen⟩ := hrun
      obtain ⟨_, _, _, r3', _, _, _, _, hspec, hid⟩ := generateFor_inv _ _ _ _ _ _ _ hgen
      simp only [hmax, if_true] at hspec hid
      exact ⟨hid, r3', hspec⟩
  refine ⟨?_, ?_, hbot, hbrowser⟩
  · intro g r a h
    cases hb : g.useBotAgents with
    | true => exact Or.inl (hbot g r a hb h)
    | false =>
      obtain ⟨_, _, _, _, _, _, h1, h2⟩ := hbrowser g r a hb h
      by_cases hmax : g.fingerprintProfile = .Maximum
      · obtain ⟨hid, r', hspec⟩ := h2 hmax
        exact Or.inr ⟨by rw [hspec]; simp, hid⟩
      · obtain ⟨hspec, hid, _⟩ := h1 hmax
        exact Or.inl ⟨hid, hspec⟩
  · intro s rt r a h
    rcases FromUserAgentString_cases s rt r with ⟨e, _, he⟩ | ⟨p, _, _, he⟩ |
      ⟨p, vp, k, m, _, _, _, hok⟩
    · rw [he] at h; simp at h
    · rw [he] at h; simp at h
    · rw [hok] at h
      simp only [Except.ok.injEq] at h
      subst h
      refine ⟨?_, rfl⟩
      simp only [findClosestChromeProfileForParser_eq]
      split
      · decide
      · split <;> decide

set_option maxRecDepth 100000 in
/-- C12 (witness): the default generator, the reverse parser on the Chrome test
input, the default generator in bot mode, and the default generator under the
maximum fingerprint profile. -/
theorem tls_selection_exclusive_witness :
    (((agentOf (Generate NewGenerator zeroRng)).ClientHelloID ≠ default ∧
        (agentOf (Generate NewGenerator zeroRng)).ClientHelloSpec = none) ∨
      ((agentOf (Generate NewGenerator zeroRng)).ClientHelloSpec ≠ none ∧
        (agentOf (Generate NewGenerator zeroRng)).ClientHelloID = default)) ∧
    ((agentOf (FromUserAgentString uaChrome138 RequestTypeNavigate zeroRng)).ClientHelloID ≠
        default ∧
      (agentOf (FromUserAgentString uaChrome138 RequestTypeNavigate zeroRng)).ClientHelloSpec =
        none) ∧
    ((agentOf (Generate botGenerator zeroRng)).ClientHelloID ≠ default ∧
      (agentOf (Generate botGenerator zeroRng)).ClientHelloSpec = none) ∧
    ((agentOf (Generate maximumGenerator zeroRng)).ClientHelloID = default ∧
      ∃ r', (agentOf (Generate maximumGenerator zeroRng)).ClientHelloSpec =
        some (ChromeLatestSpec r').1) := by
  refine ⟨tls_selection_exclusive.1 NewGenerator zeroRng _ (by decide),
    tls_selection_exclusive.2.1 uaChrome138 RequestTypeNavigate zeroRng _ (by decide),
    tls_selection_exclusive.2.2.1 botGenerator zeroRng _ rfl (by decide), ?_⟩
  obtain ⟨_, _, _, _, _, _, _, hmax⟩ :=
    tls_selection_exclusive.2.2.2 maximumGenerator zeroRng
      (agentOf (Generate maximumGenerator zeroRng)) rfl (by decide)
  exact hmax rfl

/-! ## The priority-preserving shuffle on unknown names -/

/-- C11 (the code at the failing input): on `[":authority", "x-custom"]` the two
keys have different priorities (0 and the unknown bucket `MaxInt`) and
`PriorityHeaderSorter` keeps `:authority` first, but the run scan of
`ShuffledPriorityHeaderSorter` reads the zero value 0 for the unknown key, joins
both keys into one run, and with every draw equal to zero returns them swapped. -/
theorem ShuffledPriorityHeaderSorter_authority_swap :
    priorityOf ":authority" = 0 ∧ priorityOf "x-custom" = MaxInt ∧
    runPriority ":authority" = runPriority "x-custom" ∧
    PriorityHeaderSorter [":authority", "x-custom"] = [":authority", "x-custom"] ∧
    (ShuffledPriorityHeaderSorter [":authority", "x-custom"] zeroRng).1 =
      ["x-custom", ":authority"] := by
  decide

/-! ## Platform and OS lists that mix the random token with concrete values -/

set_option maxRecDepth 100000 in
/-- C15 (the code at the failing input): with platforms
`[PlatformRandom, PlatformDesktop]` the token `random` is not expanded: it is paired
with every desktop OS as if it were a platform, `resolvePlatformAndOS` returns the
platform `random` when the draw is zero, and `Generate` then returns an Agent with an
empty user-agent. With operating systems `[OSRandom, OSWindows]` the token has no
entry in `osProfiles` and is dropped, so only Windows remains. -/
theorem resolvePlatformAndOS_mixed_random :
    validCombos mixedPlatformGenerator BrowserChrome =
      [(PlatformRandom, OSWindows), (PlatformRandom, OSWindows11), (PlatformRandom, OSLinux),
        (PlatformRandom, osMacIntel), (PlatformRandom, osMacAppleSilicon),
        (PlatformRandom, OSChromeOS), (PlatformRandom, osUbuntu), (PlatformRandom, osFedora),
        (PlatformDesktop, OSWindows), (PlatformDesktop, OSWindows11), (PlatformDesktop, OSLinux),
        (PlatformDesktop, osMacIntel), (PlatformDesktop, osMacAppleSilicon),
        (PlatformDesktop, OSChromeOS), (PlatformDesktop, osUbuntu), (PlatformDesktop, osFedora)] ∧
    (∃ r', resolvePlatformAndOS mixedPlatformGenerator BrowserChrome zeroRng =
      .ok ((PlatformRandom, OSWindows), r')) ∧
    (∃ a, Generate mixedPlatformGenerator zeroRng = .ok a ∧ a.UserAgent = "") ∧
    validCombos mixedOSGenerator BrowserChrome = [(PlatformDesktop, OSWindows)] := by
  refine ⟨by decide, ⟨_, rfl⟩, ⟨agentOf (Generate mixedPlatformGenerator zeroRng), ?_, ?_⟩,
    by decide⟩
  · decide
  · decide

/-! ## Lemmas on a generator that names one browser -/

/-- With a single concrete browser configured, `resolveBrowser` returns it. -/
theorem resolveBrowser_single (g : Generator) (r : Rng) (b : Browser)
    (h : g.browsers = [b]) (hb : b ≠ BrowserRandom) :
    resolveBrowser g r = .ok (b, r.advance) := by
  unfold resolveBrowser
  have hne : ¬ BrowserRandom = b := fun e => hb e.symm
  simp [h, hne, Choice, Nat.mod_one]

/-- With a single concrete browser configured, a run resolves that browser. -/
theorem ResolvedRun_browser_single (g : Generator) (r : Rng) (browser : Browser)
    (platform : Platform) (os : OperatingSystem) (version : Int) (r3 : Rng) (a : Agent)
    (b : Browser) (hg : g.browsers = [b]) (hb : b ≠ BrowserRandom)
    (h : ResolvedRun g r browser platform os version r3 a) : browser = b := by
  obtain ⟨r1, r2, h1, _⟩ := h
  rw [resolveBrowser_single g r b hg hb] at h1
  simp only [Except.ok.injEq, Prod.mk.injEq] at h1
  exact h1.1.symm

/-- With one concrete platform configured, a run resolves that platform. -/
theorem validCombos_platform_single (g : Generator) (browser : Browser) (p : Platform)
    (c : Platform × OperatingSystem) (hg : g.platforms = [p]) (hp : p ≠ PlatformRandom)
    (h : c ∈ validCombos g browser) : c.1 = p := by
  rw [validCombos_mem] at h
  obtain ⟨p1, hp1, o, _, concreteOS, _, hc⟩ := h
  have hne : ¬ g.platforms = [PlatformRandom] := by
    rw [hg]
    simpa using hp
  rw [if_neg hne, hg, List.mem_singleton] at hp1
  rw [comboFor_mem] at hc
  rw [hc.1, hp1]

/-- The user-agent of a run is the parts of the platform's generator list for the
browser's family, joined by single spaces. -/
theorem ResolvedRun_userAgent (g : Generator) (r : Rng) (browser : Browser)
    (platform : Platform) (os : OperatingSystem) (version : Int) (r3 : Rng) (a : Agent)
    (h : ResolvedRun g r browser platform os version r3 a) :
    ∃ parts r1,
      renderParts
        (mapGet (mapGet platformProfiles platform).ComponentGenerators
          (mapGet browserProfiles browser).Family)
        (mapGet browserProfiles browser) (mapGet osProfiles os)
        (mapGet (mapGet browserProfiles browser).Versions version)
        (fullVersionOf (mapGet browserProfiles browser) version r3).1
        (fullVersionOf (mapGet browserProfiles browser) version r3).2 = some (parts, r1) ∧
      a.UserAgent = Join parts " " := by
  obtain ⟨r1, r2, _, _, _, h4⟩ := h
  obtain ⟨parts, q1, _, _, hparts, hua, _⟩ := generateFor_inv _ _ _ _ _ _ _ h4
  exact ⟨parts, q1, hparts, hua⟩

/-- The platform token of the Android profile with the placeholder replaced. -/
theorem android_token (device : String) :
    replaceFirst (mapGet osProfiles OSAndroid).PlatformToken "\x7bdevice_model\x7d" device =
      "Linux; Android 14; " ++ device ++ "" := by
  have hs : splitOnce "\x7bdevice_model\x7d".data (mapGet osProfiles OSAndroid).PlatformToken.data
      = ("Linux; Android 14; ".data, some []) := by decide
  unfold replaceFirst
  rw [hs]

/-! ## Safari: platform and OS resolution -/

/-- The combinations `resolvePlatformAndOS` can return for Safari. -/
theorem safari_combo (g : Generator) (c : Platform × OperatingSystem)
    (h : c ∈ validCombos g BrowserSafari) :
    c = (PlatformMobile, OSiOS) ∨ c = (PlatformDesktop, osMacIntel) ∨
      c = (PlatformDesktop, osMacAppleSilicon) := by
  rw [validCombos_mem] at h
  obtain ⟨p, _, o, _, concreteOS, _, hc⟩ := h
  exact comboFor_safari p concreteOS c hc

/-- Safari restricted to the mobile platform renders an iPhone user-agent. -/
theorem safari_mobile_userAgent (g : Generator) (r : Rng) (a : Agent)
    (hbot : g.useBotAgents = false) (hb : g.browsers = [BrowserSafari])
    (hp : g.platforms = [PlatformMobile]) (h : Generate g r = .ok a) :
    Contains a.UserAgent "iPhone" = true ∧ Contains a.UserAgent "Mobile/" = true := by
  obtain ⟨browser, platform, os, version, r3, hrun⟩ := Generate_browser_inv g r a hbot h
  have hbrowser : browser = BrowserSafari :=
    ResolvedRun_browser_single g r browser platform os version r3 a _ hb (by decide) hrun
  subst hbrowser
  have hfacts := ResolvedRun_facts g r _ platform os version r3 a hrun
  have hplat : platform = PlatformMobile :=
    validCombos_platform_single g _ PlatformMobile (platform, os) hp (by decide) hfacts.2.2.1
  subst hplat
  have hos : os = OSiOS := by
    rcases safari_combo g _ hfacts.2.2.1 with hc | hc | hc
    · exact (Prod.mk.inj hc).2
    · exact absurd (Prod.mk.inj hc).1 (by decide)
    · exact absurd (Prod.mk.inj hc).1 (by decide)
  subst hos
  obtain ⟨parts, r1, hparts, hua⟩ := ResolvedRun_userAgent g r _ _ _ version r3 a hrun
  have hfam : (mapGet browserProfiles BrowserSafari).Family = WebKit := rfl
  have htok : ∀ q : Rng, osToken (mapGet osProfiles OSiOS) q =
      some ((mapGet osProfiles OSiOS).PlatformToken, q) := fun _ => rfl
  rw [hfam, renderParts_webkit_mobile _ _ _ _ _ _ _ (htok _)] at hparts
  simp only [Option.some.injEq, Prod.mk.injEq] at hparts
  rw [hua, ← hparts.1]
  constructor
  · apply Contains_Join_of_mem _ _ ("(" ++ (mapGet osProfiles OSiOS).PlatformToken ++ ")")
    · simp
    · decide
  · apply Contains_Join_of_mem _ _
      ("Mobile/" ++
        (mapGet (mapGet browserProfiles BrowserSafari).Versions version).MobileVersion)
    · simp
    · exact Contains_append_left _ _ _ (Contains_self _)

/-- Safari restricted to operating systems that are neither iOS nor macOS has no
valid combination. -/
theorem safari_no_combo (g : Generator) (hos : g.os ≠ [OSRandom])
    (hno : ∀ o ∈ g.os, o ≠ OSiOS ∧ o ≠ OSMac ∧ o ≠ osMacIntel ∧ o ≠ osMacAppleSilicon) :
    validCombos g BrowserSafari = [] := by
  rw [List.eq_nil_iff_forall_not_mem]
  intro c hc
  rw [validCombos_mem] at hc
  obtain ⟨p, _, o, ho, concreteOS, hco, hmem⟩ := hc
  rw [if_neg hos] at ho
  obtain ⟨h1, h2, h3, h4⟩ := hno o ho
  rw [if_neg h2, List.mem_singleton] at hco
  subst hco
  have hc2 := (comboFor_mem _ _ _ _).1 hmem
  rcases comboFor_safari p concreteOS c hmem with e | e | e
  · rw [hc2.1] at e
    exact h1 (Prod.mk.inj e).2
  · rw [hc2.1] at e
    exact h3 (Prod.mk.inj e).2
  · rw [hc2.1] at e
    exact h4 (Prod.mk.inj e).2

/-- C13: for Safari, `resolvePlatformAndOS` fails with the no-compatible-combination
error or returns (mobile, iOS), (desktop, macOS Intel) or (desktop, macOS Apple
Silicon), whatever the configured platforms and operating systems. Safari
restricted to the mobile platform yields on every successful run a user-agent that
contains `iPhone` and `Mobile/`; Safari restricted to operating systems none of
which is iOS or a macOS token makes `Generate` fail with that error. -/
theorem safari_resolution :
    (∀ (g : Generator) (r : Rng),
      resolvePlatformAndOS g BrowserSafari r = .error (.errorf
        "no compatible platform/OS combination found for browser %s with the current settings")
      ∨ resolvePlatformAndOS g BrowserSafari r = .ok ((PlatformMobile, OSiOS), r.advance)
      ∨ resolvePlatformAndOS g BrowserSafari r = .ok ((PlatformDesktop, osMacIntel), r.advance)
      ∨ resolvePlatformAndOS g BrowserSafari r =
          .ok ((PlatformDesktop, osMacAppleSilicon), r.advance)) ∧
    (∀ (g : Generator) (r : Rng) (a : Agent), g.useBotAgents = false →
      g.browsers = [BrowserSafari] → g.platforms = [PlatformMobile] → Generate g r = .ok a →
      Contains a.UserAgent "iPhone" = true ∧ Contains a.UserAgent "Mobile/" = true) ∧
    (∀ (g : Generator) (r : Rng), g.useBotAgents = false → g.browsers = [BrowserSafari] →
      g.os ≠ [OSRandom] →
      (∀ o ∈ g.os, o ≠ OSiOS ∧ o ≠ OSMac ∧ o ≠ osMacIntel ∧ o ≠ osMacAppleSilicon) →
      Generate g r = .error (.errorf
        "no compatible platform/OS combination found for browser %s with the current settings"))
    := by
  refine ⟨?_, safari_mobile_userAgent, ?_⟩
  · intro g r
    rcases resolvePlatformAndOS_cases g BrowserSafari r with h | ⟨c, hc, h⟩
    · exact Or.inl h.2
    · rcases safari_combo g c hc with e | e | e
      · exact Or.inr (Or.inl (e ▸ h))
      · exact Or.inr (Or.inr (Or.inl (e ▸ h)))
      · exact Or.inr (Or.inr (Or.inr (e ▸ h)))
  · intro g r hbot hb hos hno
    have hcombos := safari_no_combo g hos hno
    have hres : resolvePlatformAndOS g BrowserSafari r.advance = .error (.errorf
        "no compatible platform/OS combination found for browser %s with the current settings")
        := by
      rcases resolvePlatformAndOS_cases g BrowserSafari r.advance with h | ⟨c, hc, _⟩
      · exact h.2
      · rw [hcombos] at hc
        exact absurd hc (List.not_mem_nil _)
    unfold Generate
    simp only [hbot, Bool.false_eq_true, if_false]
    rw [resolveBrowser_single g r BrowserSafari hb (by decide)]
    simp only [hres]

set_option maxRecDepth 100000 in
/-- C13 (witness): Safari with draws all zero resolves to (mobile, iOS) under the
default configuration; the generator of the test `SafariMobile` succeeds with an
iPhone user-agent; Safari restricted to Windows and Linux fails. -/
theorem safari_resolution_witness :
    (resolvePlatformAndOS NewGenerator BrowserSafari zeroRng = .error (.errorf
        "no compatible platform/OS combination found for browser %s with the current settings")
      ∨ resolvePlatformAndOS NewGenerator BrowserSafari zeroRng =
          .ok ((PlatformMobile, OSiOS), zeroRng.advance)
      ∨ resolvePlatformAndOS NewGenerator BrowserSafari zeroRng =
          .ok ((PlatformDesktop, osMacIntel), zeroRng.advance)
      ∨ resolvePlatformAndOS NewGenerator BrowserSafari zeroRng =
          .ok ((PlatformDesktop, osMacAppleSilicon), zeroRng.advance)) ∧
    (Contains (agentOf (Generate safariMobileGenerator zeroRng)).UserAgent "iPhone" = true ∧
      Contains (agentOf (Generate safariMobileGenerator zeroRng)).UserAgent "Mobile/" = true) ∧
    Generate safariWindowsGenerator zeroRng = .error (.errorf
      "no compatible platform/OS combination found for browser %s with the current settings") :=
  ⟨safari_resolution.1 NewGenerator zeroRng,
    safari_resolution.2.1 safariMobileGenerator zeroRng
      (agentOf (Generate safariMobileGenerator zeroRng)) rfl rfl rfl (by decide),
    safari_resolution.2.2 safariWindowsGenerator zeroRng rfl rfl (by decide) (by decide)⟩

/-! ## Firefox: platform and OS resolution -/

/-- The combinations `resolvePlatformAndOS` can return for Firefox. -/
theorem firefox_combo (g : Generator) (c : Platform × OperatingSystem)
    (h : c ∈ validCombos g BrowserFirefox) :
    c = (PlatformMobile, OSAndroid) ∨
      ∃ os ∈ [OSWindows, OSWindows11, osMacIntel, osMacAppleSilicon, OSLinux, osUbuntu,
        osFedora, OSChromeOS], c = (PlatformDesktop, os) := by
  rw [validCombos_mem] at h
  obtain ⟨p, _, o, _, concreteOS, _, hc⟩ := h
  rcases comboFor_firefox p concreteOS c hc with e | ⟨e, hmem⟩
  · exact Or.inl e
  · exact Or.inr ⟨concreteOS, hmem, e⟩

/-- Firefox restricted to the mobile platform renders an Android user-agent. -/
theorem firefox_mobile_userAgent (g : Generator) (r : Rng) (a : Agent)
    (hbot : g.useBotAgents = false) (hb : g.browsers = [BrowserFirefox])
    (hp : g.platforms = [PlatformMobile]) (h : Generate g r = .ok a) :
    Contains a.UserAgent "Android" = true := by
  obtain ⟨browser, platform, os, version, r3, hrun⟩ := Generate_browser_inv g r a hbot h
  have hbrowser : browser = BrowserFirefox :=
    ResolvedRun_browser_single g r browser platform os version r3 a _ hb (by decide) hrun
  subst hbrowser
  have hfacts := ResolvedRun_facts g r _ platform os version r3 a hrun
  have hplat : platform = PlatformMobile :=
    validCombos_platform_single g _ PlatformMobile (platform, os) hp (by decide) hfacts.2.2.1
  subst hplat
  have hos : os = OSAndroid := by
    rcases firefox_combo g _ hfacts.2.2.1 with hc | ⟨o, _, hc⟩
    · exact (Prod.mk.inj hc).2
    · exact absurd (Prod.mk.inj hc).1 (by decide)
  subst hos
  obtain ⟨parts, r1, hparts, hua⟩ := ResolvedRun_userAgent g r _ _ _ version r3 a hrun
  have hfam : (mapGet browserProfiles BrowserFirefox).Family = Gecko := rfl
  rcases osToken_cases (mapGet osProfiles OSAndroid)
      (fullVersionOf (mapGet browserProfiles BrowserFirefox) version r3).2 with
    ⟨_, device, _, htok⟩ | ⟨hne, _⟩
  · rw [hfam, renderParts_gecko PlatformMobile (Or.inr rfl) _ _ _ _ _ _ _ htok] at hparts
    simp only [Option.some.injEq, Prod.mk.injEq] at hparts
    rw [hua, ← hparts.1, android_token]
    apply Contains_Join_of_mem _ _
      ("(" ++ ("Linux; Android 14; " ++ device ++ "") ++ "; rv:" ++
        (mapGet (mapGet browserProfiles BrowserFirefox).Versions version).GeckoRevision ++ ")")
    · simp
    · apply Contains_append_left
      apply Contains_append_left
      apply Contains_append_left
      apply Contains_append_right
      apply Contains_append_left
      apply Contains_append_left
      decide
  · exact absurd rfl hne

set_option maxRecDepth 100000 in
/-- C14 (counterexample): Firefox restricted to the desktop platform and the generic
macOS token resolves, with draws all zero, to (desktop, macOS Intel), an OS whose
profile is named `macOS`, and `Generate` returns a Firefox user-agent for a
Macintosh. -/
theorem firefox_desktop_macos :
    (∃ r', resolvePlatformAndOS firefoxMacGenerator BrowserFirefox zeroRng =
      .ok ((PlatformDesktop, osMacIntel), r')) ∧
    (mapGet osProfiles osMacIntel).Name = "macOS" ∧
    (∃ a, Generate firefoxMacGenerator zeroRng = .ok a ∧
      a.UserAgent =
        "Mozilla/5.0 (Macintosh; Intel Mac OS X 10_15_7; rv:120.0) Gecko/20100101 Firefox/120.0")
    := by
  refine ⟨⟨_, rfl⟩, by decide, agentOf (Generate firefoxMacGenerator zeroRng), ?_, ?_⟩
  · decide
  · decide

/-- C14 (amended): for Firefox, `resolvePlatformAndOS` fails with the
no-compatible-combination error or returns (mobile, Android) or (desktop, OS) where
OS is one of the eight desktop operating systems of `osProfiles`, the two macOS
variants included. Firefox restricted to the mobile platform yields on every
successful run a user-agent that contains `Android`. -/
theorem firefox_resolution :
    (∀ (g : Generator) (r : Rng),
      resolvePlatformAndOS g BrowserFirefox r = .error (.errorf
        "no compatible platform/OS combination found for browser %s with the current settings")
      ∨ resolvePlatformAndOS g BrowserFirefox r = .ok ((PlatformMobile, OSAndroid), r.advance)
      ∨ ∃ os ∈ [OSWindows, OSWindows11, osMacIntel, osMacAppleSilicon, OSLinux, osUbuntu,
          osFedora, OSChromeOS],
        resolvePlatformAndOS g BrowserFirefox r = .ok ((PlatformDesktop, os), r.advance)) ∧
    (∀ (g : Generator) (r : Rng) (a : Agent), g.useBotAgents = false →
      g.browsers = [BrowserFirefox] → g.platforms = [PlatformMobile] → Generate g r = .ok a →
      Contains a.UserAgent "Android" = true) := by
  refine ⟨?_, firefox_mobile_userAgent⟩
  intro g r
  rcases resolvePlatformAndOS_cases g BrowserFirefox r with h | ⟨c, hc, h⟩
  · exact Or.inl h.2
  · rcases firefox_combo g c hc with e | ⟨os, hmem, e⟩
    · exact Or.inr (Or.inl (e ▸ h))
    · exact Or.inr (Or.inr ⟨os, hmem, e ▸ h⟩)

set_option maxRecDepth 100000 in
/-- C14 (witness): the generator of the test `FirefoxMobile` succeeds with an
Android user-agent. -/
theorem firefox_resolution_witness :
    Contains (agentOf (Generate firefoxMobileGenerator zeroRng)).UserAgent "Android" = true :=
  firefox_resolution.2 firefoxMobileGenerator zeroRng
    (agentOf (Generate firefoxMobileGenerator zeroRng)) rfl rfl rfl (by decide)

/-! ## Generation returns once a version is chosen -/

/-- Every fragment-generator list of `platformProfiles` renders: no generator
panics. -/
theorem renderParts_isSome (platform : Platform) (family : BrowserFamily) (bp : browserProfile)
    (op : osProfile) (vp : versionProfile) (fv : String) (r : Rng) :
    ∃ parts r1,
      renderParts (mapGet (mapGet platformProfiles platform).ComponentGenerators family)
        bp op vp fv r = some (parts, r1) := by
  obtain ⟨token, q, htok⟩ := osToken_isSome op r
  by_cases hd : platform = PlatformDesktop
  · subst hd
    by_cases hc : family = Chromium
    · subst hc
      exact ⟨_, _, renderParts_chromium_desktop bp op vp fv r q token htok⟩
    · by_cases hg : family = Gecko
      · subst hg
        exact ⟨_, _, renderParts_gecko _ (Or.inl rfl) bp op vp fv r q token htok⟩
      · by_cases hw : family = WebKit
        · subst hw
          exact ⟨_, _, renderParts_webkit_desktop bp op vp fv r q token htok⟩
        · have hnil : mapGet (mapGet platformProfiles PlatformDesktop).ComponentGenerators
              family = [] := by
            have h1 : ¬ Chromium = family := fun h => hc h.symm
            have h2 : ¬ Gecko = family := fun h => hg h.symm
            have h3 : ¬ WebKit = family := fun h => hw h.symm
            simp [mapGet, mapFind, platformProfiles, h1, h2, h3]
            rfl
          rw [hnil]
          exact ⟨_, _, rfl⟩
  · by_cases hm : platform = PlatformMobile
    · subst hm
      by_cases hc : family = Chromium
      · subst hc
        exact ⟨_, _, renderParts_chromium_mobile bp op vp fv r q token htok⟩
      · by_cases hg : family = Gecko
        · subst hg
          exact ⟨_, _, renderParts_gecko _ (Or.inr rfl) bp op vp fv r q token htok⟩
        · by_cases hw : family = WebKit
          · subst hw
            exact ⟨_, _, renderParts_webkit_mobile bp op vp fv r q token htok⟩
          · have hnil : mapGet (mapGet platformProfiles PlatformMobile).ComponentGenerators
                family = [] := by
              have h1 : ¬ Chromium = family := fun h => hc h.symm
              have h2 : ¬ Gecko = family := fun h => hg h.symm
              have h3 : ¬ WebKit = family := fun h => hw h.symm
              simp [mapGet, mapFind, platformProfiles, h1, h2, h3]
              rfl
            rw [hnil]
            exact ⟨_, _, rfl⟩
    · exact ⟨_, _, renderParts_unknown_platform platform hd hm family bp op vp fv r⟩

/-- Every entry of `greaseBrands` holds the separator `;v=`. -/
theorem greaseBrands_split :
    ∀ b ∈ greaseBrands, (splitOnce ";v=".data b.data).2.isSome = true := by
  decide

/-- The brand list `buildSecChUa` builds with a drawn GREASE brand is returned: the
index into the split brand is in range. -/
theorem buildSecChUa_isSome (brand version : String) (isFull : Bool) (r : Rng) :
    ∃ v r1, buildSecChUa brand version isFull true r = some (v, r1) := by
  obtain ⟨g, hg⟩ := Choice_isSome greaseBrands r (by decide)
  have hmem := Choice_mem _ _ _ _ hg
  have hsplit := greaseBrands_split g hmem
  obtain ⟨w, hw⟩ := Option.isSome_iff_exists.1 hsplit
  unfold buildSecChUa
  simp only [if_true, hg]
  cases isFull with
  | true => exact ⟨_, _, rfl⟩
  | false =>
    simp only [Bool.false_eq_true, if_false, hw, Option.map_some']
    exact ⟨_, _, rfl⟩

set_option maxRecDepth 100000 in
/-- Every version profile of `browserProfiles` has accept templates of both kinds. -/
theorem accept_patterns_nonempty :
    ∀ bp ∈ browserProfiles, ∀ vp ∈ bp.2.Versions,
      vp.2.AcceptHeaderPatterns.isEmpty = false ∧ vp.2.AcceptHeaderPatternsXHR.isEmpty = false := by
  decide

/-- The negotiation headers are built when a language profile is configured and the
version profile has accept templates. -/
theorem negotiationAssignments_isSome (g : Generator) (vp : versionProfile) (r : Rng)
    (hl : g.languageProfiles ≠ [])
    (ha : vp.AcceptHeaderPatterns.isEmpty = false ∧ vp.AcceptHeaderPatternsXHR.isEmpty = false) :
    ∃ kvs r1, negotiationAssignments g vp r = some (kvs, r1) := by
  obtain ⟨lang, hlang⟩ := Choice_isSome g.languageProfiles r hl
  have htemplate : (if g.requestType = RequestTypeXHR then vp.AcceptHeaderPatternsXHR
      else vp.AcceptHeaderPatterns) ≠ [] := by
    split
    · intro h
      rw [h] at ha
      simp at ha
    · intro h
      rw [h] at ha
      simp at ha
  obtain ⟨template, htemp⟩ := Choice_isSome _ r.advance htemplate
  unfold negotiationAssignments
  simp only [hlang, htemp]
  cases g.acceptEnabled <;> exact ⟨_, _, rfl⟩

/-- The client-hint headers are always built. -/
theorem hintAssignments_isSome (g : Generator) (browser : browserProfile) (os : osProfile)
    (platform : platformProfile) (version : Int) (fullVersion : String) (r : Rng) :
    ∃ kvs r1, hintAssignments g browser os platform version fullVersion r = some (kvs, r1) := by
  unfold hintAssignments
  split
  · obtain ⟨ua, q, hua⟩ := buildSecChUa_isSome browser.Brand (Itoa version) false r
    obtain ⟨full, q2, hfull⟩ := buildSecChUa_isSome browser.Brand fullVersion true q
    simp only [hua, hfull]
    split <;> exact ⟨_, _, rfl⟩
  · exact ⟨_, _, rfl⟩

/-- The fetch-metadata headers are always built. -/
theorem fetchAssignments_isSome (g : Generator) (browser : browserProfile) (r : Rng) :
    ∃ kvs r1, fetchAssignments g browser r = some (kvs, r1) := by
  obtain ⟨dest, hdest⟩ := Choice_isSome subresourceDests r (by decide)
  unfold fetchAssignments
  simp only [hdest]
  split
  · exact ⟨_, _, rfl⟩
  · split
    · exact ⟨_, _, rfl⟩
    · split <;> exact ⟨_, _, rfl⟩

/-- The function `buildHeaders` returns when a language profile is configured and the
version profile has accept templates. -/
theorem buildHeaders_isSome (g : Generator) (browser : browserProfile) (os : osProfile)
    (platform : platformProfile) (version : Int) (fullVersion : String)
    (vp : versionProfile) (sorter : HeaderSorter) (r : Rng)
    (hl : g.languageProfiles ≠ [])
    (ha : vp.AcceptHeaderPatterns.isEmpty = false ∧ vp.AcceptHeaderPatternsXHR.isEmpty = false) :
    ∃ res r1, buildHeaders g browser os platform version fullVersion vp sorter r =
      some (res, r1) := by
  obtain ⟨neg, q1, hneg⟩ := negotiationAssignments_isSome g vp r hl ha
  obtain ⟨hints, q2, hhints⟩ := hintAssignments_isSome g browser os platform version fullVersion q1
  unfold buildHeaders generatedHeaderMap
  simp only [hneg, hhints]
  obtain ⟨fetch, q3, hfetch⟩ := fetchAssignments_isSome g browser
    (if g.fingerprintProfile = .Extreme then extremeDrop (assignAll [] (neg ++ hints)) q2
      else (assignAll [] (neg ++ hints), q2)).2
  simp only [hfetch]
  exact ⟨_, _, rfl⟩

/-- Lookup after an assignment. -/
theorem mapFind_mapSet {κ ν : Type} [DecidableEq κ] (m : List (κ × ν)) (k c : κ) (v : ν) :
    mapFind (mapSet m k v) c = if k = c then some v else mapFind m c := by
  induction m with
  | nil => simp [mapSet, mapFind]
  | cons e rest ih =>
    obtain ⟨k', v'⟩ := e
    simp only [mapSet]
    by_cases hk : k' = k
    · subst hk
      simp only [if_true, mapFind]
      by_cases hc : k' = c <;> simp [hc]
    · simp only [hk, if_false, mapFind, ih]
      by_cases hc : k' = c
      · subst hc
        have : ¬ k = k' := fun e => hk e.symm
        simp [this]
      · simp [hc]

/-- A key has no entry exactly when it is not among the keys. -/
theorem mapFind_eq_none {κ ν : Type} [DecidableEq κ] (m : List (κ × ν)) (k : κ) :
    mapFind m k = none ↔ k ∉ mapKeys m := by
  induction m with
  | nil => simp [mapFind, mapKeys]
  | cons e rest ih =>
    obtain ⟨k', v'⟩ := e
    simp only [mapFind, mapKeys, List.map_cons, List.mem_cons, not_or]
    by_cases hk : k' = k
    · subst hk
      simp
    · simp only [hk, if_false]
      have hk2 : ¬ k = k' := fun e => hk e.symm
      simp only [hk2, not_false_eq_true, true_and]
      exact ih

/-! ## Rounding to the nearest `float64` -/

/-- Rounding to the nearest, ties to even, is monotone. -/
theorem round_mono (d n1 n2 : Nat) (hd : 0 < d) (h : n1 ≤ n2) :
    (if 2 * (n1 % d) > d ∨ (2 * (n1 % d) = d ∧ n1 / d % 2 = 1) then n1 / d + 1 else n1 / d) ≤
    (if 2 * (n2 % d) > d ∨ (2 * (n2 % d) = d ∧ n2 / d % 2 = 1) then n2 / d + 1 else n2 / d) := by
  have hq : n1 / d ≤ n2 / d := Nat.div_le_div_right h
  have e1 := Nat.div_add_mod n1 d
  have e2 := Nat.div_add_mod n2 d
  have hm1 := Nat.mod_lt n1 hd
  have hm2 := Nat.mod_lt n2 hd
  rcases Nat.lt_or_eq_of_le hq with hlt | heq
  · split <;> split <;> omega
  · rw [heq] at e1 ⊢
    have hr : n1 % d ≤ n2 % d := by omega
    split <;> split <;> omega

/-- Rounding a fraction that does not exceed an integer does not exceed it. -/
theorem roundHalfEven_le (n d K : Nat) (hd : 0 < d) (h : n ≤ K * d) :
    roundHalfEven n d ≤ K := by
  unfold roundHalfEven
  have e := Nat.div_add_mod n d
  have hm := Nat.mod_lt n hd
  have hq : n / d ≤ K := by
    apply Nat.div_le_of_le_mul
    rw [Nat.mul_comm]
    exact h
  simp only
  split
  · rename_i hup
    rcases Nat.lt_or_eq_of_le hq with hlt | heq
    · omega
    · exfalso
      rw [heq, Nat.mul_comm] at e
      have hr : n % d = 0 := by omega
      rw [hr] at hup
      omega
  · exact hq

/-- Rounding a fraction that is at least an integer is at least it. -/
theorem le_roundHalfEven (n d K : Nat) (hd : 0 < d) (h : K * d ≤ n) :
    K ≤ roundHalfEven n d := by
  unfold roundHalfEven
  have hq : K ≤ n / d := (Nat.le_div_iff_mul_le hd).2 h
  simp only
  split <;> omega

/-- Rounding does not depend on the representation of the fraction. -/
theorem roundHalfEven_scale (n d c : Nat) (hc : 0 < c) :
    roundHalfEven (n * c) (d * c) = roundHalfEven n d := by
  unfold roundHalfEven
  have h1 : n * c / (d * c) = n / d := Nat.mul_div_mul_right n d hc
  have h2 : n * c % (d * c) = n % d * c := Nat.mul_mod_mul_right c n d
  simp only [h1, h2]
  have e1 : 2 * (n % d * c) > d * c ↔ 2 * (n % d) > d := by
    rw [← Nat.mul_assoc]
    exact Nat.mul_lt_mul_right hc
  have e2 : 2 * (n % d * c) = d * c ↔ 2 * (n % d) = d := by
    rw [← Nat.mul_assoc]
    exact Nat.mul_left_inj (Nat.pos_iff_ne_zero.1 hc)
  simp only [e1, e2]

/-- Rounding is monotone, also between fractions with different denominators. -/
theorem roundHalfEven_mono (n1 d1 n2 d2 : Nat) (h1 : 0 < d1) (h2 : 0 < d2)
    (h : n1 * d2 ≤ n2 * d1) : roundHalfEven n1 d1 ≤ roundHalfEven n2 d2 := by
  rw [← roundHalfEven_scale n1 d1 d2 h2, ← roundHalfEven_scale n2 d2 d1 h1,
    Nat.mul_comm d2 d1]
  exact round_mono (d1 * d2) (n1 * d2) (n2 * d1) (Nat.mul_pos h1 h2) h

/-- The shift found brings `m` to `x` and not to twice `x`. -/
theorem normShift_spec (x : Nat) :
    ∀ (fuel m : Nat), 0 < m → m < 2 * x → x ≤ m * 2 ^ fuel →
      x ≤ m * 2 ^ normShift m x fuel ∧ m * 2 ^ normShift m x fuel < 2 * x := by
  intro fuel
  induction fuel with
  | zero =>
    intro m _ hlt hle
    simp only [normShift, Nat.pow_zero, Nat.mul_one] at hle ⊢
    exact ⟨hle, hlt⟩
  | succ fuel ih =>
    intro m hm hlt hle
    unfold normShift
    by_cases hx : x ≤ m
    · rw [if_pos hx, Nat.pow_zero, Nat.mul_one]
      exact ⟨hx, hlt⟩
    · rw [if_neg hx]
      have hle2 : x ≤ 2 * m * 2 ^ fuel := by
        rw [Nat.pow_succ] at hle
        calc x ≤ m * (2 ^ fuel * 2) := hle
          _ = 2 * m * 2 ^ fuel := by ring
      obtain ⟨h1, h2⟩ := ih (2 * m) (by omega) (by omega) hle2
      have e : m * 2 ^ (normShift (2 * m) x fuel + 1) =
          2 * m * 2 ^ normShift (2 * m) x fuel := by
        rw [Nat.pow_succ]
        ring
      rw [e]
      exact ⟨h1, h2⟩

/-- Rounding to 53 binary digits does not cross a number that has 53 binary
digits: for `x = n / S` with `x * 2 ^ a` between `2 ^ 52` and `2 ^ 53` and the
rounded value `q / 2 ^ a`, and for every `k / 2 ^ a'` with `k` between `2 ^ 52` and
`2 ^ 53`: if `x ≤ k / 2 ^ a'` then `q / 2 ^ a ≤ k / 2 ^ a'`, and if
`k / 2 ^ a' ≤ x` then `k / 2 ^ a' ≤ q / 2 ^ a`. -/
theorem round_noncross (n S k a a' : Nat) (hS : 0 < S) (hw1 : S * 2 ^ 52 ≤ n * 2 ^ a)
    (hw2 : n * 2 ^ a < S * 2 ^ 53) (hk1 : 2 ^ 52 ≤ k) (hk2 : k ≤ 2 ^ 53) :
    (n * 2 ^ a' ≤ k * S → roundHalfEven (n * 2 ^ a) S * 2 ^ a' ≤ k * 2 ^ a) ∧
    (k * S ≤ n * 2 ^ a' → k * 2 ^ a ≤ roundHalfEven (n * 2 ^ a) S * 2 ^ a') := by
  have hqlo : 2 ^ 52 ≤ roundHalfEven (n * 2 ^ a) S :=
    le_roundHalfEven _ _ _ hS (by rw [Nat.mul_comm]; exact hw1)
  rcases Nat.le_total a' a with hle | hle
  · obtain ⟨c, rfl⟩ := Nat.exists_eq_add_of_le hle
    have hpow : (2 : Nat) ^ (a' + c) = 2 ^ a' * 2 ^ c := Nat.pow_add 2 a' c
    rw [hpow]
    rw [hpow] at hw1 hw2
    generalize (2 : Nat) ^ a' = A at *
    generalize (2 : Nat) ^ c = C at *
    constructor
    · intro h
      have hq : roundHalfEven (n * (A * C)) S ≤ k * C := by
        apply roundHalfEven_le _ _ _ hS
        calc n * (A * C) = n * A * C := by ring
          _ ≤ k * S * C := Nat.mul_le_mul_right C h
          _ = k * C * S := by ring
      calc roundHalfEven (n * (A * C)) S * A ≤ k * C * A := Nat.mul_le_mul_right A hq
        _ = k * (A * C) := by ring
    · intro h
      have hq : k * C ≤ roundHalfEven (n * (A * C)) S := by
        apply le_roundHalfEven _ _ _ hS
        calc k * C * S = k * S * C := by ring
          _ ≤ n * A * C := Nat.mul_le_mul_right C h
          _ = n * (A * C) := by ring
      calc k * (A * C) = k * C * A := by ring
        _ ≤ roundHalfEven (n * (A * C)) S * A := Nat.mul_le_mul_right A hq
  · rcases Nat.eq_or_lt_of_le hle with heq | hlt
    · subst heq
      generalize (2 : Nat) ^ a = A at *
      constructor
      · intro h
        have hq : roundHalfEven (n * A) S ≤ k := roundHalfEven_le _ _ _ hS h
        exact Nat.mul_le_mul_right A hq
      · intro h
        have hq : k ≤ roundHalfEven (n * A) S := le_roundHalfEven _ _ _ hS h
        exact Nat.mul_le_mul_right A hq
    · obtain ⟨c, rfl⟩ := Nat.exists_eq_add_of_lt hlt
      have hpow : (2 : Nat) ^ (a + c + 1) = 2 ^ a * 2 ^ c * 2 := by
        rw [Nat.pow_succ, Nat.pow_add]
      have hC : 0 < (2 : Nat) ^ c := Nat.pos_pow_of_pos _ (by decide)
      have hA : 0 < (2 : Nat) ^ a := Nat.pos_pow_of_pos _ (by decide)
      rw [hpow]
      generalize (2 : Nat) ^ a = A at *
      generalize (2 : Nat) ^ c = C at *
      constructor
      · intro h
        have h1 : S * 2 ^ 52 * (C * 2) ≤ k * S := by
          calc S * 2 ^ 52 * (C * 2) ≤ n * A * (C * 2) := Nat.mul_le_mul_right _ hw1
            _ = n * (A * C * 2) := by ring
            _ ≤ k * S := h
        have h2 : 2 ^ 52 * (C * 2) ≤ k := by
          apply Nat.le_of_mul_le_mul_right _ hS
          calc 2 ^ 52 * (C * 2) * S = S * 2 ^ 52 * (C * 2) := by ring
            _ ≤ k * S := h1
        have hC1 : C = 1 := by omega
        subst hC1
        have hk : k = 2 ^ 53 := by omega
        have h3 : n * A ≤ 2 ^ 52 * S := by
          have h4 : n * A * 2 ≤ 2 ^ 53 * S := by
            calc n * A * 2 = n * (A * 1 * 2) := by ring
              _ ≤ k * S := h
              _ = 2 ^ 53 * S := by rw [hk]
          omega
        have hq : roundHalfEven (n * A) S ≤ 2 ^ 52 := roundHalfEven_le _ _ _ hS h3
        calc roundHalfEven (n * A) S * (A * 1 * 2) ≤ 2 ^ 52 * (A * 1 * 2) :=
              Nat.mul_le_mul_right _ hq
          _ = 2 ^ 53 * A := by ring
          _ = k * A := by rw [hk]
      · intro _
        calc k * A ≤ 2 ^ 53 * A := Nat.mul_le_mul_right A hk2
          _ = 2 ^ 52 * (A * 1 * 2) := by ring
          _ ≤ 2 ^ 52 * (A * C * 2) := by
              apply Nat.mul_le_mul_left
              apply Nat.mul_le_mul_right
              exact Nat.mul_le_mul_left A hC
          _ ≤ roundHalfEven (n * A) S * (A * C * 2) := Nat.mul_le_mul_right _ hqlo

theorem pow10_split (s : Nat) : (10 : Nat) ^ s = 2 ^ s * 5 ^ s := by
  rw [← Nat.mul_pow]

theorem pow10_le_pow2 (s : Nat) : (10 : Nat) ^ s ≤ 2 ^ (4 * s) := by
  rw [Nat.pow_mul]
  exact Nat.pow_le_pow_left (by decide) s

/-- Rounding of a positive dyadic number below `2 ^ 53`: the shift `a` brings
it between `2 ^ 52` and `2 ^ 53`, and the result is the rounded numerator over
`2 ^ a`. -/
theorem round_dyadic (n s : Nat) (hn : 0 < n) (hsmall : n < 2 ^ s * 2 ^ 53) :
    ∃ a, 2 ^ s * 2 ^ 52 ≤ n * 2 ^ a ∧ n * 2 ^ a < 2 ^ s * 2 ^ 53 ∧
      Float64.round (dyadic n s) = dyadic (roundHalfEven (n * 2 ^ a) (2 ^ s)) a := by
  have h5 : 0 < (5 : Nat) ^ s := Nat.pos_pow_of_pos _ (by decide)
  have h2 : 0 < (2 : Nat) ^ s := Nat.pos_pow_of_pos _ (by decide)
  have hm : 0 < n * 5 ^ s := Nat.mul_pos hn h5
  have hlarge : ¬ 10 ^ s * 2 ^ 53 ≤ n * 5 ^ s := by
    intro h
    rw [pow10_split] at h
    have h' : 2 ^ s * 2 ^ 53 * 5 ^ s ≤ n * 5 ^ s := by
      calc 2 ^ s * 2 ^ 53 * 5 ^ s = 2 ^ s * 5 ^ s * 2 ^ 53 := by ring
        _ ≤ n * 5 ^ s := h
    have := Nat.le_of_mul_le_mul_right h' h5
    omega
  have hlt : n * 5 ^ s < 2 * (10 ^ s * 2 ^ 52) := by
    rw [pow10_split]
    calc n * 5 ^ s < 2 ^ s * 2 ^ 53 * 5 ^ s := Nat.mul_lt_mul_of_pos_right hsmall h5
      _ = 2 * (2 ^ s * 5 ^ s * 2 ^ 52) := by ring
  have hfuel : 10 ^ s * 2 ^ 52 ≤ n * 5 ^ s * 2 ^ (4 * s + 53) := by
    have h1 : (10 : Nat) ^ s * 2 ^ 52 ≤ 2 ^ (4 * s) * 2 ^ 53 :=
      Nat.mul_le_mul (pow10_le_pow2 s) (by decide)
    calc 10 ^ s * 2 ^ 52 ≤ 2 ^ (4 * s) * 2 ^ 53 := h1
      _ = 1 * 2 ^ (4 * s + 53) := by rw [Nat.pow_add, Nat.one_mul]
      _ ≤ n * 5 ^ s * 2 ^ (4 * s + 53) := Nat.mul_le_mul_right _ hm
  obtain ⟨hs1, hs2⟩ := normShift_spec (10 ^ s * 2 ^ 52) (4 * s + 53) (n * 5 ^ s) hm hlt hfuel
  refine ⟨normShift (n * 5 ^ s) (10 ^ s * 2 ^ 52) (4 * s + 53), ?_, ?_, ?_⟩
  · rw [pow10_split] at hs1
    apply Nat.le_of_mul_le_mul_right _ h5
    calc 2 ^ s * 2 ^ 52 * 5 ^ s = 2 ^ s * 5 ^ s * 2 ^ 52 := by ring
      _ ≤ n * 5 ^ s * 2 ^ normShift (n * 5 ^ s) (10 ^ s * 2 ^ 52) (4 * s + 53) := by
          rw [← pow10_split]
          rw [← pow10_split] at hs1
          exact hs1
      _ = n * 2 ^ normShift (n * 5 ^ s) (10 ^ s * 2 ^ 52) (4 * s + 53) * 5 ^ s := by ring
  · apply Nat.lt_of_mul_lt_mul_right (a := 5 ^ s)
    calc n * 2 ^ normShift (n * 5 ^ s) (10 ^ s * 2 ^ 52) (4 * s + 53) * 5 ^ s
        = n * 5 ^ s * 2 ^ normShift (n * 5 ^ s) (10 ^ s * 2 ^ 52) (4 * s + 53) := by ring
      _ < 2 * (10 ^ s * 2 ^ 52) := hs2
      _ = 2 ^ s * 2 ^ 53 * 5 ^ s := by
          rw [pow10_split]
          ring
  · have habs : ((n * 5 ^ s : Nat) : Int).natAbs = n * 5 ^ s := Int.natAbs_ofNat _
    have hsign : ((n * 5 ^ s : Nat) : Int).sign = 1 :=
      Int.sign_eq_one_of_pos (Int.ofNat_pos.2 hm)
    have hq : ∀ a, roundHalfEven (n * 5 ^ s * 2 ^ a) (10 ^ s) =
        roundHalfEven (n * 2 ^ a) (2 ^ s) := by
      intro a
      rw [pow10_split, ← roundHalfEven_scale (n * 2 ^ a) (2 ^ s) (5 ^ s) h5]
      congr 1
      ring
    unfold Float64.round dyadic
    simp only [habs, hsign, Nat.pos_iff_ne_zero.1 hm, if_false, hlarge, hq, Int.one_mul]

/-- Rounding of a positive dyadic number below `2 ^ 53`, with the bounds of the
result against every number of 53 binary digits. -/
theorem round_dyadic_bounds (n s : Nat) (hn : 0 < n) (hsmall : n < 2 ^ s * 2 ^ 53) :
    ∃ q a, Float64.round (dyadic n s) = dyadic q a ∧ 2 ^ 52 ≤ q ∧ q ≤ 2 ^ 53 ∧
      ∀ k a', 2 ^ 52 ≤ k → k ≤ 2 ^ 53 →
        (n * 2 ^ a' ≤ k * 2 ^ s → q * 2 ^ a' ≤ k * 2 ^ a) ∧
        (k * 2 ^ s ≤ n * 2 ^ a' → k * 2 ^ a ≤ q * 2 ^ a') := by
  have h2 : 0 < (2 : Nat) ^ s := Nat.pos_pow_of_pos _ (by decide)
  obtain ⟨a, hw1, hw2, hr⟩ := round_dyadic n s hn hsmall
  refine ⟨_, a, hr, ?_, ?_, ?_⟩
  · exact le_roundHalfEven _ _ _ h2 (by rw [Nat.mul_comm]; exact hw1)
  · exact roundHalfEven_le _ _ _ h2 (by rw [Nat.mul_comm (2 ^ 53)]; exact Nat.le_of_lt hw2)
  · intro k a' hk1 hk2
    exact round_noncross n (2 ^ s) k a a' h2 hw1 hw2 hk1 hk2

/-- The rounding of zero is zero. -/
theorem round_dyadic_zero (s : Nat) : Float64.round (dyadic 0 s) = ⟨0, 0⟩ := by
  unfold Float64.round dyadic
  simp

/-- The product of two dyadic numbers: the rounding of the exact product. -/
theorem mul_dyadic (k1 a1 k2 a2 : Nat) :
    Float64.mul (dyadic k1 a1) (dyadic k2 a2) =
      Float64.round (dyadic (k1 * k2) (a1 + a2)) := by
  unfold Float64.mul dyadic
  congr 1
  simp only [Float64.mk.injEq, and_true]
  push_cast
  rw [pow_add]
  ring

/-- The integer part of a dyadic number. -/
theorem toUint32_dyadic (q a : Nat) :
    Float64.toUint32 (dyadic q a) = q / 2 ^ a % 2 ^ 32 := by
  have h5 : 0 < (5 : Nat) ^ a := Nat.pos_pow_of_pos _ (by decide)
  unfold Float64.toUint32 dyadic
  simp only [Int.toNat_ofNat]
  rw [pow10_split, Nat.mul_div_mul_right _ _ h5]

/-- A fraction strictly below an integer `M` and nearer to it than one half rounds
to at least `M`. -/
theorem roundHalfEven_near (n d M : Nat) (h1 : n < M * d) (h2 : 2 * (M * d) < 2 * n + d) :
    M ≤ roundHalfEven n d := by
  have hd : 0 < d := by
    rcases Nat.eq_zero_or_pos d with h | h
    · subst h
      simp at h1
    · exact h
  have hM : 0 < M := by
    rcases Nat.eq_zero_or_pos M with h | h
    · subst h
      simp at h1
    · exact h
  obtain ⟨M', rfl⟩ : ∃ M', M = M' + 1 := ⟨M - 1, by omega⟩
  have hq : n / d = M' := by
    apply Nat.div_eq_of_lt_le
    · rw [Nat.add_mul] at h2
      rw [Nat.mul_comm]
      by_contra hc
      rw [Nat.not_le] at hc
      rw [Nat.add_mul] at h1
      have : M' * d = d * M' := Nat.mul_comm _ _
      omega
    · rw [Nat.mul_comm]
      rw [Nat.mul_comm] at h1
      exact h1
  have hr : n % d = n - M' * d := by
    have := Nat.div_add_mod n d
    rw [hq] at this
    have h3 : d * M' = M' * d := Nat.mul_comm _ _
    omega
  have hle : M' * d ≤ n := by
    have := Nat.div_mul_le_self n d
    rw [hq] at this
    exact this
  unfold roundHalfEven
  simp only [hq, hr]
  rw [Nat.add_mul] at h2
  rw [if_pos (Or.inl (by omega))]

/-- The integer part of the `float64` nearest to `n / 2 ^ s` is `K`, when the
number lies between `K` and `K + 1 - 1 / 32`. -/
theorem toUint32_round_above (n s K : Nat) (hn : 0 < n) (hK : K < 2 ^ 32)
    (hlow : K * 2 ^ s ≤ n) (hup : 32 * n + 2 ^ s ≤ 32 * ((K + 1) * 2 ^ s)) :
    Float64.toUint32 (Float64.round (dyadic n s)) = K := by
  have hS : 0 < (2 : Nat) ^ s := Nat.pos_pow_of_pos _ (by decide)
  generalize hSdef : (2 : Nat) ^ s = S at hS hlow hup
  have hKS : (K + 1) * S ≤ 2 ^ 32 * S := Nat.mul_le_mul_right _ hK
  have hsmall : n < 2 ^ s * 2 ^ 53 := by
    rw [hSdef]
    have : 2 ^ 32 * S = S * 2 ^ 32 := Nat.mul_comm _ _
    have h53 : S * 2 ^ 53 = S * 2 ^ 32 * 2 ^ 21 := by ring
    have : S * 2 ^ 32 ≤ S * 2 ^ 32 * 2 ^ 21 := Nat.le_mul_of_pos_right _ (by decide)
    omega
  obtain ⟨a, hw1, hw2, hr⟩ := round_dyadic n s hn hsmall
  rw [hSdef] at hw1 hw2 hr
  have hA : 0 < (2 : Nat) ^ a := Nat.pos_pow_of_pos _ (by decide)
  generalize hAdef : (2 : Nat) ^ a = A at hA hw1 hw2
  have hA32 : 32 ≤ A := by
    by_contra hc
    rw [Nat.not_le] at hc
    have h1 : n * A ≤ n * 32 := Nat.mul_le_mul_left _ (Nat.le_of_lt hc)
    have h2 : S * 2 ^ 52 = S * 2 ^ 32 * 2 ^ 20 := by ring
    have h3 : 2 ^ 32 * S = S * 2 ^ 32 := Nat.mul_comm _ _
    have h4 : S * 2 ^ 32 * 2 ^ 20 = 2 ^ 20 * (S * 2 ^ 32) := Nat.mul_comm _ _
    omega
  have hlo : K * A ≤ roundHalfEven (n * A) S := by
    apply le_roundHalfEven _ _ _ hS
    calc K * A * S = K * S * A := by ring
      _ ≤ n * A := Nat.mul_le_mul_right _ hlow
  have hhi : roundHalfEven (n * A) S ≤ (K + 1) * A - 1 := by
    apply roundHalfEven_le _ _ _ hS
    have h1 : (32 * n + S) * A ≤ 32 * ((K + 1) * S) * A := Nat.mul_le_mul_right _ hup
    have h2 : (32 * n + S) * A = 32 * (n * A) + S * A := by ring
    have h3 : 32 * ((K + 1) * S) * A = 32 * ((K + 1) * A * S) := by ring
    have h4 : 32 * S ≤ A * S := Nat.mul_le_mul_right _ hA32
    have h5 : S * A = A * S := Nat.mul_comm _ _
    have h6 : 1 * S ≤ (K + 1) * A * S :=
      Nat.mul_le_mul_right _ (Nat.mul_pos (Nat.succ_pos K) hA)
    rw [Nat.sub_mul]
    omega
  rw [hr, toUint32_dyadic, hAdef]
  have hdiv : roundHalfEven (n * A) S / A = K := by
    apply Nat.div_eq_of_lt_le
    · exact hlo
    · have : 0 < (K + 1) * A := Nat.mul_pos (Nat.succ_pos K) hA
      omega
  rw [hdiv]
  exact Nat.mod_eq_of_lt hK

/-- The integer part of the `float64` nearest to `n / 2 ^ s` is `K`, when the
number lies below `K` by less than `2 ^ -54` of its value. -/
theorem toUint32_round_below (n s K : Nat) (hn : 0 < n) (hK : K < 2 ^ 32)
    (hlt : n < K * 2 ^ s) (hnear : (K * 2 ^ s - n) * 2 ^ 54 ≤ n) :
    Float64.toUint32 (Float64.round (dyadic n s)) = K := by
  have hS : 0 < (2 : Nat) ^ s := Nat.pos_pow_of_pos _ (by decide)
  generalize hSdef : (2 : Nat) ^ s = S at hS hlt hnear
  have hsmall : n < 2 ^ s * 2 ^ 53 := by
    rw [hSdef]
    have h1 : K * S ≤ 2 ^ 32 * S := Nat.mul_le_mul_right _ (Nat.le_of_lt hK)
    have : 2 ^ 32 * S = S * 2 ^ 32 := Nat.mul_comm _ _
    have h53 : S * 2 ^ 53 = S * 2 ^ 32 * 2 ^ 21 := by ring
    have : S * 2 ^ 32 ≤ S * 2 ^ 32 * 2 ^ 21 := Nat.le_mul_of_pos_right _ (by decide)
    omega
  obtain ⟨a, hw1, hw2, hr⟩ := round_dyadic n s hn hsmall
  rw [hSdef] at hw1 hw2 hr
  have hA : 0 < (2 : Nat) ^ a := Nat.pos_pow_of_pos _ (by decide)
  generalize hAdef : (2 : Nat) ^ a = A at hA hw1 hw2
  have hlt2 : n * A < K * A * S := by
    calc n * A < K * S * A := Nat.mul_lt_mul_of_pos_right hlt hA
      _ = K * A * S := by ring
  have hnear2 : (K * S - n) * 2 ^ 54 * A ≤ n * A := Nat.mul_le_mul_right _ hnear
  have hexp : (K * S - n) * 2 ^ 54 * A = (K * A * S - n * A) * 2 ^ 54 := by
    rw [Nat.sub_mul, Nat.sub_mul, Nat.sub_mul]
    congr 1 <;> ring
  have hlo : K * A ≤ roundHalfEven (n * A) S := by
    apply roundHalfEven_near _ _ _ hlt2
    have h1 : S * 2 ^ 53 = 2 ^ 53 * S := Nat.mul_comm _ _
    omega
  have hhi : roundHalfEven (n * A) S ≤ K * A :=
    roundHalfEven_le _ _ _ hS (Nat.le_of_lt hlt2)
  rw [hr, toUint32_dyadic, hAdef, Nat.le_antisymm hhi hlo, Nat.mul_div_cancel _ hA]
  exact Nat.mod_eq_of_lt hK

set_option maxRecDepth 100000 in
/-- The `float64` of the literals 0.10, 0.15 and 0.20. -/
theorem percent_literals :
    Float64.round ⟨10, 2⟩ = dyadic 7205759403792794 56 ∧
    Float64.round ⟨15, 2⟩ = dyadic 5404319552844595 55 ∧
    Float64.round ⟨20, 2⟩ = dyadic 7205759403792794 55 := by
  decide

/-- The product of a `uint32` and a dyadic number. -/
theorem mul_ofUint32 (b k a : Nat) :
    Float64.mul (Float64.ofUint32 b) (dyadic k a) = Float64.round (dyadic (b * k) a) := by
  have h : Float64.ofUint32 b = dyadic b 0 := by
    unfold Float64.ofUint32 dyadic
    simp
  rw [h, mul_dyadic, Nat.zero_add]

/-- The delta of `randomizeValue`: for every `uint32` the conversion
`uint32(float64(b) * p)` gives the hundredths `b * 10 / 100`, `b * 15 / 100`,
`b * 20 / 100` for the literals 0.10, 0.15 and 0.20. -/
theorem percent_hundredths (b : Nat) (hb : b < 2 ^ 32) :
    Float64.toUint32 (Float64.mul (Float64.ofUint32 b) (Float64.round ⟨10, 2⟩)) = b * 10 / 100 ∧
    Float64.toUint32 (Float64.mul (Float64.ofUint32 b) (Float64.round ⟨15, 2⟩)) = b * 15 / 100 ∧
    Float64.toUint32 (Float64.mul (Float64.ofUint32 b) (Float64.round ⟨20, 2⟩)) = b * 20 / 100 := by
  rw [percent_literals.1, percent_literals.2.1, percent_literals.2.2, mul_ofUint32, mul_ofUint32,
    mul_ofUint32]
  rcases Nat.eq_zero_or_pos b with h0 | hpos
  · subst h0
    simp only [Nat.zero_mul, round_dyadic_zero]
    decide
  have h10 : b * 10 / 100 = b / 10 := Nat.mul_div_mul_right b 10 (by decide)
  have h15 : b * 15 / 100 = b * 3 / 20 := by
    rw [show b * 15 = b * 3 * 5 from by ring]
    exact Nat.mul_div_mul_right (b * 3) 20 (by decide)
  have h20 : b * 20 / 100 = b / 5 := Nat.mul_div_mul_right b 5 (by decide)
  rw [h10, h15, h20]
  refine ⟨?_, ?_, ?_⟩
  · apply toUint32_round_above
    · exact Nat.mul_pos hpos (by decide)
    · omega
    · norm_num
      omega
    · norm_num
      omega
  · by_cases hg : b * 3 % 20 = 0
    · apply toUint32_round_below
      · exact Nat.mul_pos hpos (by decide)
      · omega
      · norm_num
        omega
      · norm_num
        omega
    · apply toUint32_round_above
      · exact Nat.mul_pos hpos (by decide)
      · omega
      · norm_num
        omega
      · norm_num
        omega
  · apply toUint32_round_above
    · exact Nat.mul_pos hpos (by decide)
    · omega
    · norm_num
      omega
    · norm_num
      omega

/-! ## HTTP/2 jitter -/

/-- The jitter of a value that is zero is zero, and no draw is made. -/
theorem randomizeValue_zero (percentage : Float64) (r : Rng) :
    randomizeValue 0 percentage r = some (0, r) := by
  simp [randomizeValue]

/-- The jitter of a non-zero value returns and stays within the percentage, when
the upper bound fits into 32 bits; `percent` is the percentage in hundredths. -/
theorem randomizeValue_bounds (base : Nat) (c : Float64) (percent : Nat) (r : Rng)
    (hc : Float64.toUint32 (Float64.mul (Float64.ofUint32 base) c) = base * percent / 100)
    (hb : base ≠ 0) (hp : percent ≤ 100) (hfit : base + base * percent / 100 < 2 ^ 32) :
    ∃ v r1, randomizeValue base c r = some (v, r1) ∧
      base - base * percent / 100 ≤ v ∧ v ≤ base + base * percent / 100 := by
  have hd : base * percent / 100 ≤ base := by
    apply Nat.div_le_of_le_mul
    calc base * percent ≤ base * 100 := Nat.mul_le_mul_left _ hp
      _ = 100 * base := Nat.mul_comm _ _
  have hlt : ¬ base < base * percent / 100 := by omega
  unfold randomizeValue Number
  simp only [hc, hb, if_false, hlt, Nat.mod_eq_of_lt hfit]
  have hnp : ¬ base + base * percent / 100 < base - base * percent / 100 := by omega
  rw [if_neg hnp]
  by_cases heq : base - base * percent / 100 = base + base * percent / 100
  · rw [if_pos heq]
    exact ⟨_, _, rfl, Nat.le_refl _, by omega⟩
  · rw [if_neg heq]
    have hmod := Nat.mod_lt (r 0)
      (show 0 < base + base * percent / 100 - (base - base * percent / 100) + 1 by omega)
    exact ⟨_, _, rfl, by omega, by omega⟩

/-- The jitter of a 32-bit value whose upper bound does not fit into 32 bits
panics: the wrapped upper bound lies below the lower bound. -/
theorem randomizeValue_wrap (base : Nat) (c : Float64) (percent : Nat) (r : Rng)
    (hc : Float64.toUint32 (Float64.mul (Float64.ofUint32 base) c) = base * percent / 100)
    (hu : base < 2 ^ 32) (hp : percent ≤ 50) (hwrap : 2 ^ 32 ≤ base + base * percent / 100) :
    randomizeValue base c r = none := by
  have hd : 2 * (base * percent / 100) ≤ base := by
    have h1 : base * percent / 100 ≤ base * 50 / 100 :=
      Nat.div_le_div_right (Nat.mul_le_mul_left _ hp)
    omega
  have hb : base ≠ 0 := by omega
  have hlt : ¬ base < base * percent / 100 := by omega
  have hmod : (base + base * percent / 100) % 2 ^ 32 = base + base * percent / 100 - 2 ^ 32 := by
    rw [Nat.mod_eq_sub_mod hwrap, Nat.mod_eq_of_lt (by omega)]
  unfold randomizeValue Number
  simp only [hc, hb, if_false, hlt, hmod]
  rw [if_pos (by omega)]

/-- One guarded update when the value, if present, fits with its percentage. -/
theorem jitterSetting_fit (m : List (SettingID × Nat)) (id : SettingID) (c : Float64)
    (percent : Nat) (r : Rng)
    (hc : ∀ b, b < 2 ^ 32 →
      Float64.toUint32 (Float64.mul (Float64.ofUint32 b) c) = b * percent / 100)
    (hp : percent ≤ 100)
    (hfit : ∀ b, mapFind m id = some b → b + b * percent / 100 < 2 ^ 32) :
    ∃ s r1, jitterSetting m id c r = some (s, r1) ∧ mapKeys s = mapKeys m ∧
      (∀ c, c ≠ id → mapFind s c = mapFind m c) ∧
      (mapFind m id = none → mapFind s id = none) ∧
      (mapFind m id = some 0 → mapFind s id = some 0) ∧
      (∀ b, mapFind m id = some b → 0 < b →
        ∃ v, mapFind s id = some v ∧ b - b * percent / 100 ≤ v ∧
          v ≤ b + b * percent / 100) := by
  unfold jitterSetting
  cases h : mapFind m id with
  | none =>
    refine ⟨m, r, rfl, rfl, fun _ _ => rfl, fun _ => h, ?_, ?_⟩
    · intro hz
      simp at hz
    · intro b hb
      simp at hb
  | some val =>
    have hk : id ∈ mapKeys m := by
      by_contra hn
      rw [(mapFind_eq_none m id).2 hn] at h
      simp at h
    have hkeys : ∀ v, mapKeys (mapSet m id v) = mapKeys m := by
      intro v
      rw [mapKeys_mapSet, if_pos hk]
    have hother : ∀ v c, c ≠ id → mapFind (mapSet m id v) c = mapFind m c := by
      intro v c hc
      rw [mapFind_mapSet, if_neg (Ne.symm hc)]
    have hself : ∀ v, mapFind (mapSet m id v) id = some v := by
      intro v
      rw [mapFind_mapSet, if_pos rfl]
    by_cases hz : val = 0
    · subst hz
      simp only [randomizeValue_zero]
      refine ⟨_, _, rfl, hkeys 0, hother 0, ?_, fun _ => hself 0, ?_⟩
      · intro hn
        simp at hn
      · intro b hb hpos
        simp only [Option.some.injEq] at hb
        omega
    · obtain ⟨v, r1, hv, hlo, hhi⟩ := randomizeValue_bounds val c percent r
        (hc val (Nat.lt_of_le_of_lt (Nat.le_add_right _ _) (hfit val h))) hz hp (hfit val h)
      simp only [hv]
      refine ⟨_, _, rfl, hkeys v, hother v, ?_, ?_, ?_⟩
      · intro hn
        simp at hn
      · intro hzero
        simp only [Option.some.injEq] at hzero
        exact absurd hzero hz
      · intro b hb _
        simp only [Option.some.injEq] at hb
        subst hb
        exact ⟨v, hself v, hlo, hhi⟩

/-- One guarded update panics when the value is present and does not fit. -/
theorem jitterSetting_wrap (m : List (SettingID × Nat)) (id : SettingID) (c : Float64)
    (percent : Nat) (r : Rng) (b : Nat)
    (hc : ∀ b, b < 2 ^ 32 →
      Float64.toUint32 (Float64.mul (Float64.ofUint32 b) c) = b * percent / 100)
    (hp : percent ≤ 50) (hb : mapFind m id = some b) (hu : b < 2 ^ 32)
    (hwrap : 2 ^ 32 ≤ b + b * percent / 100) : jitterSetting m id c r = none := by
  unfold jitterSetting
  simp only [hb, randomizeValue_wrap b c percent r (hc b hu) hu hp hwrap]

/-- The table the moderate profile returns for a base table whose three settings
fit with their percentages. -/
theorem randomizeH2Settings_normal (base : List (SettingID × Nat)) (r : Rng)
    (hfit : ∀ e ∈ [(SettingHeaderTableSize, 10), (SettingInitialWindowSize, 15),
        (SettingMaxHeaderListSize, 10)],
      ∀ b, mapFind base e.1 = some b → b + b * e.2 / 100 < 2 ^ 32) :
    ∃ s r1, randomizeH2Settings base .Normal r = some (s, r1) ∧
      mapKeys s = mapKeys base ∧
      (∀ id, id ∉ [SettingHeaderTableSize, SettingInitialWindowSize,
          SettingMaxHeaderListSize] → mapFind s id = mapFind base id) ∧
      ∀ e ∈ [(SettingHeaderTableSize, 10), (SettingInitialWindowSize, 15),
          (SettingMaxHeaderListSize, 10)],
        (mapFind base e.1 = none → mapFind s e.1 = none) ∧
        (mapFind base e.1 = some 0 → mapFind s e.1 = some 0) ∧
        (∀ b, mapFind base e.1 = some b → 0 < b →
          ∃ v, mapFind s e.1 = some v ∧ b - b * e.2 / 100 ≤ v ∧ v ≤ b + b * e.2 / 100) := by
  have hne12 : SettingInitialWindowSize ≠ SettingHeaderTableSize := by decide
  have hne13 : SettingMaxHeaderListSize ≠ SettingHeaderTableSize := by decide
  have hne23 : SettingMaxHeaderListSize ≠ SettingInitialWindowSize := by decide
  obtain ⟨s1, r1, hs1, hk1, ho1, hn1, hz1, hb1⟩ :=
    jitterSetting_fit base SettingHeaderTableSize _ 10 r
      (fun b hb => (percent_hundredths b hb).1) (by decide)
      (hfit (SettingHeaderTableSize, 10) (by decide))
  obtain ⟨s2, r2, hs2, hk2, ho2, hn2, hz2, hb2⟩ :=
    jitterSetting_fit s1 SettingInitialWindowSize _ 15 r1
      (fun b hb => (percent_hundredths b hb).2.1) (by decide) (by
      intro b hb
      rw [ho1 _ hne12] at hb
      exact hfit (SettingInitialWindowSize, 15) (by decide) b hb)
  obtain ⟨s3, r3, hs3, hk3, ho3, hn3, hz3, hb3⟩ :=
    jitterSetting_fit s2 SettingMaxHeaderListSize _ 10 r2
      (fun b hb => (percent_hundredths b hb).1) (by decide) (by
      intro b hb
      rw [ho2 _ hne23, ho1 _ hne13] at hb
      exact hfit (SettingMaxHeaderListSize, 10) (by decide) b hb)
  refine ⟨s3, r3, ?_, ?_, ?_, ?_⟩
  · unfold randomizeH2Settings
    simp only [hs1, hs2, hs3]
  · rw [hk3, hk2, hk1]
  · intro id hid
    simp only [List.mem_cons, List.mem_singleton, List.not_mem_nil, or_false, not_or] at hid
    rw [ho3 id hid.2.2, ho2 id hid.2.1, ho1 id hid.1]
  · intro e he
    simp only [List.mem_cons, List.mem_singleton, List.not_mem_nil, or_false] at he
    rcases he with rfl | rfl | rfl
    · have h3 : mapFind s3 SettingHeaderTableSize = mapFind s1 SettingHeaderTableSize := by
        rw [ho3 _ hne13.symm, ho2 _ hne12.symm]
      simp only [h3]
      exact ⟨hn1, hz1, hb1⟩
    · have h3 : mapFind s3 SettingInitialWindowSize = mapFind s2 SettingInitialWindowSize := by
        rw [ho3 _ hne23.symm]
      have h1 : mapFind s1 SettingInitialWindowSize = mapFind base SettingInitialWindowSize :=
        ho1 _ hne12
      simp only [h3, ← h1]
      exact ⟨hn2, hz2, hb2⟩
    · have h1 : mapFind s2 SettingMaxHeaderListSize = mapFind base SettingMaxHeaderListSize := by
        rw [ho2 _ hne23, ho1 _ hne13]
      simp only [← h1]
      exact ⟨hn3, hz3, hb3⟩

/-- The moderate profile panics on a table of 32-bit values in which one of the
three settings does not fit with its percentage. -/
theorem randomizeH2Settings_normal_wrap (base : List (SettingID × Nat)) (r : Rng)
    (hu : ∀ id b, mapFind base id = some b → b < 2 ^ 32)
    (hwrap : ∃ e ∈ [(SettingHeaderTableSize, 10), (SettingInitialWindowSize, 15),
        (SettingMaxHeaderListSize, 10)],
      ∃ b, mapFind base e.1 = some b ∧ 2 ^ 32 ≤ b + b * e.2 / 100) :
    randomizeH2Settings base .Normal r = none := by
  have hne12 : SettingInitialWindowSize ≠ SettingHeaderTableSize := by decide
  have hne13 : SettingMaxHeaderListSize ≠ SettingHeaderTableSize := by decide
  have hne23 : SettingMaxHeaderListSize ≠ SettingInitialWindowSize := by decide
  unfold randomizeH2Settings
  simp only
  by_cases h1 : ∀ b, mapFind base SettingHeaderTableSize = some b → b + b * 10 / 100 < 2 ^ 32
  · obtain ⟨s1, r1, hs1, _, ho1, _⟩ :=
      jitterSetting_fit base SettingHeaderTableSize _ 10 r
        (fun b hb => (percent_hundredths b hb).1) (by decide) h1
    simp only [hs1]
    by_cases h2 : ∀ b, mapFind base SettingInitialWindowSize = some b →
        b + b * 15 / 100 < 2 ^ 32
    · obtain ⟨s2, r2, hs2, _, ho2, _⟩ :=
        jitterSetting_fit s1 SettingInitialWindowSize _ 15 r1
          (fun b hb => (percent_hundredths b hb).2.1) (by decide) (by
          intro b hb
          rw [ho1 _ hne12] at hb
          exact h2 b hb)
      simp only [hs2]
      obtain ⟨e, he, b, hb, hw⟩ := hwrap
      simp only [List.mem_cons, List.mem_singleton, List.not_mem_nil, or_false] at he
      rcases he with rfl | rfl | rfl
      · exact absurd (h1 b hb) (by omega)
      · exact absurd (h2 b hb) (by omega)
      · exact jitterSetting_wrap s2 _ _ 10 r2 b (fun b hb => (percent_hundredths b hb).1)
          (by decide) (by rw [ho2 _ hne23, ho1 _ hne13]; exact hb) (hu _ b hb) hw
    · push_neg at h2
      obtain ⟨b, hb, hw⟩ := h2
      rw [jitterSetting_wrap s1 _ _ 15 r1 b (fun b hb => (percent_hundredths b hb).2.1)
        (by decide) (by rw [ho1 _ hne12]; exact hb) (hu _ b hb) hw]
  · push_neg at h1
    obtain ⟨b, hb, hw⟩ := h1
    rw [jitterSetting_wrap base _ _ 10 r b (fun b hb => (percent_hundredths b hb).1)
      (by decide) hb (hu _ b hb) hw]

/-- The values of the three tables of the package are positive and fit with the
largest percentage. -/
theorem h2_tables_fit :
    ∀ table ∈ [GetChromiumH2Settings, GetGeckoH2Settings, GetWebKitH2Settings],
      ∀ e ∈ table, 0 < e.2 ∧ e.2 + e.2 * 15 / 100 < 2 ^ 32 := by
  decide

/-- The three jittered values of the maximum profile. -/
theorem randomizeH2Settings_maximum (base : List (SettingID × Nat)) (r : Rng) :
    ∃ v1 v2 v3 r3, 4096 - 819 ≤ v1 ∧ v1 ≤ 4096 + 819 ∧ 65535 - 13107 ≤ v2 ∧
      v2 ≤ 65535 + 13107 ∧ 16384 - 3276 ≤ v3 ∧ v3 ≤ 16384 + 3276 ∧
      randomizeH2Settings base .Maximum r =
        some (mapSet (mapSet (mapSet (mapSet (mapSet base
          SettingHeaderTableSize v1) SettingEnablePush 0) SettingInitialWindowSize v2)
          SettingMaxFrameSize v3) SettingMaxConcurrentStreams
            ((2 ^ 32 - 1 - (IntN 1024 r3).1) % 2 ^ 32), (IntN 1024 r3).2) := by
  obtain ⟨v1, r1, h1, hl1, hh1⟩ := randomizeValue_bounds 4096 _ 20 r
    (percent_hundredths 4096 (by decide)).2.2 (by decide) (by decide) (by decide)
  obtain ⟨v2, r2, h2, hl2, hh2⟩ := randomizeValue_bounds 65535 _ 20 r1
    (percent_hundredths 65535 (by decide)).2.2 (by decide) (by decide) (by decide)
  obtain ⟨v3, r3, h3, hl3, hh3⟩ := randomizeValue_bounds 16384 _ 20 r2
    (percent_hundredths 16384 (by decide)).2.2 (by decide) (by decide) (by decide)
  refine ⟨v1, v2, v3, r3, hl1, hh1, hl2, hh2, hl3, hh3, ?_⟩
  unfold randomizeH2Settings
  simp only [h1, h2, h3]

/-- Jitter of the HTTP/2 settings returns for the two jitter profiles, on a table
whose values fit with the largest percentage. -/
theorem randomizeH2Settings_isSome (base : List (SettingID × Nat))
    (profile : H2RandomizationProfile) (r : Rng) (h : profile ≠ .None)
    (hfit : ∀ e ∈ base, e.2 + e.2 * 15 / 100 < 2 ^ 32) :
    ∃ s r1, randomizeH2Settings base profile r = some (s, r1) := by
  cases profile with
  | None => exact absurd rfl h
  | Normal =>
    obtain ⟨s, r1, hs, _⟩ := randomizeH2Settings_normal base r (by
      intro e he b hb
      have hm := hfit _ (mapFind_mem base e.1 b hb)
      simp only [List.mem_cons, List.mem_singleton, List.not_mem_nil, or_false] at he
      rcases he with rfl | rfl | rfl <;> simp only at hm ⊢ <;> omega)
    exact ⟨s, r1, hs⟩
  | Maximum =>
    obtain ⟨_, _, _, _, _, _, _, _, _, _, heq⟩ := randomizeH2Settings_maximum base r
    exact ⟨_, _, heq⟩

/-- The HTTP/2 tables of the browser profiles fit with the largest percentage. -/
theorem profile_tables_fit :
    ∀ e ∈ browserProfiles, ∀ s ∈ e.2.H2Settings, s.2 + s.2 * 15 / 100 < 2 ^ 32 := by
  decide

/-- Once a version of a known browser is chosen, generation returns an Agent. -/
theorem generateFor_isOk (g : Generator) (browser : Browser) (platformProf : platformProfile)
    (osProf : osProfile) (version : Int) (r : Rng) (platform : Platform)
    (hplat : platformProf = mapGet platformProfiles platform)
    (hl : g.languageProfiles ≠ [])
    (hv : version ∈ mapKeys (mapGet browserProfiles browser).Versions) :
    ∃ a, generateFor g (mapGet browserProfiles browser) platformProf osProf version r = .ok a := by
  have hb := browser_known_of_version browser version hv
  have hvp := mapGet_mem _ _ hv
  have ha := accept_patterns_nonempty _ hb _ hvp
  obtain ⟨parts, q1, hparts⟩ := renderParts_isSome platform
    (mapGet browserProfiles browser).Family (mapGet browserProfiles browser) osProf
    (mapGet (mapGet browserProfiles browser).Versions version)
    (fullVersionOf (mapGet browserProfiles browser) version r).1
    (fullVersionOf (mapGet browserProfiles browser) version r).2
  obtain ⟨res, q2, hheaders⟩ : ∃ res q2, (if !g.zeroHeader then
        buildHeaders g (mapGet browserProfiles browser) osProf platformProf version
          (fullVersionOf (mapGet browserProfiles browser) version r).1
          (mapGet (mapGet browserProfiles browser).Versions version)
          (if g.fingerprintProfile = .Maximum then ShuffledPriorityHeaderSorter
            else g.headerSorter) q1
      else some (([], []), q1)) = some (res, q2) := by
    split
    · exact buildHeaders_isSome _ _ _ _ _ _ _ _ _ hl ha
    · exact ⟨_, _, rfl⟩
  obtain ⟨h2, q3, hh2⟩ : ∃ h2 q3, (if g.h2Only then
          if g.h2RandomizationProfile ≠ .None then
            randomizeH2Settings (mapGet browserProfiles browser).H2Settings
              g.h2RandomizationProfile q2
          else some ((mapGet browserProfiles browser).H2Settings, q2)
        else some ([], q2)) = some (h2, q3) := by
    split
    · split
      · rename_i hne
        exact randomizeH2Settings_isSome _ _ _ hne (profile_tables_fit _ hb)
      · exact ⟨_, _, rfl⟩
    · exact ⟨_, _, rfl⟩
  subst hplat
  unfold generateFor
  unfold fullVersionOf at hparts hheaders
  simp only [hparts, hheaders, hh2]
  exact ⟨_, rfl⟩

/-! ## Version resolution -/

/-- Failure of `resolveBrowser` or of `resolvePlatformAndOS` is a failure of
`Generate` with the same error. -/
theorem Generate_resolve_error (g : Generator) (r : Rng) (hbot : g.useBotAgents = false) :
    (∀ e, resolveBrowser g r = .error e → Generate g r = .error e) ∧
    (∀ browser r1 e, resolveBrowser g r = .ok (browser, r1) →
      resolvePlatformAndOS g browser r1 = .error e → Generate g r = .error e) := by
  constructor
  · intro e h
    unfold Generate
    simp only [hbot, Bool.false_eq_true, if_false, h]
  · intro browser r1 e hb hp
    unfold Generate
    simp only [hbot, Bool.false_eq_true, if_false, hb, hp]

/-- The errors of `resolveBrowser` and `resolvePlatformAndOS` differ from the
no-available-versions error. -/
theorem resolve_error_ne_versions (g : Generator) :
    (∀ r, resolveBrowser g r ≠ .error (.errorf
      "legitagent: no available browser versions for %s that meet the specified criteria")) ∧
    (∀ browser r, resolvePlatformAndOS g browser r ≠ .error (.errorf
      "legitagent: no available browser versions for %s that meet the specified criteria")) := by
  constructor
  · intro r h
    unfold resolveBrowser at h
    dsimp only at h
    generalize (if g.browsers.contains BrowserRandom then allRealBrowsers else g.browsers) = pb
      at h
    split at h
    · exact absurd (Err.errorf.inj (Except.error.inj h)) (by decide)
    · split at h
      · cases Except.error.inj h
      · cases h
  · intro browser r h
    rcases resolvePlatformAndOS_cases g browser r with h1 | ⟨c, _, h1⟩
    · rw [h1.2] at h
      exact absurd (Err.errorf.inj (Except.error.inj h)) (by decide)
    · rw [h1] at h
      cases h

/-- Neither `resolveBrowser` nor `resolvePlatformAndOS` panics. -/
theorem resolve_no_panic (g : Generator) :
    (∀ r, resolveBrowser g r ≠ .error .panic) ∧
    (∀ browser r, resolvePlatformAndOS g browser r ≠ .error .panic) := by
  constructor
  · intro r h
    unfold resolveBrowser at h
    dsimp only at h
    generalize (if g.browsers.contains BrowserRandom then allRealBrowsers else g.browsers) = pb
      at h
    split at h
    · cases Except.error.inj h
    · rename_i hne
      have hne2 : pb ≠ [] := by
        intro e
        apply hne
        rw [e]
        rfl
      obtain ⟨res, hres⟩ := Choice_isSome pb r hne2
      rw [hres] at h
      cases h
  · intro browser r h
    rcases resolvePlatformAndOS_cases g browser r with h1 | ⟨c, _, h1⟩
    · rw [h1.2] at h
      cases Except.error.inj h
    · rw [h1] at h
      cases h

set_option maxRecDepth 100000 in
/-- C16 (counterexample): with Safari restricted to Windows and Linux the browser
resolves to Safari, both keys 16 and 17 of its version table pass the range filter
(the bounds are the default ones) and the HTTP/2 filter (HTTP/2-only is not set),
and yet `Generate` fails, with the no-compatible-combination error of
`resolvePlatformAndOS`. -/
theorem version_filters_pass_yet_failure :
    safariWindowsGenerator.useBotAgents = false ∧
    resolveBrowser safariWindowsGenerator zeroRng = .ok (BrowserSafari, zeroRng.advance) ∧
    mapKeys (mapGet browserProfiles BrowserSafari).Versions = [16, 17] ∧
    (∀ v ∈ mapKeys (mapGet browserProfiles BrowserSafari).Versions,
      ((safariWindowsGenerator.minVersion ≠ 114 ∨ safariWindowsGenerator.maxVersion ≠ 141) →
        safariWindowsGenerator.minVersion ≤ v ∧ v ≤ safariWindowsGenerator.maxVersion) ∧
      (safariWindowsGenerator.h2Only = true →
        (mapGet (mapGet browserProfiles BrowserSafari).Versions v).SupportsH2 = true)) ∧
    Generate safariWindowsGenerator zeroRng = .error (.errorf
      "no compatible platform/OS combination found for browser %s with the current settings") ∧
    ¬ ((∃ e, Generate safariWindowsGenerator zeroRng = .error e) ↔
      ∀ v ∈ mapKeys (mapGet browserProfiles BrowserSafari).Versions,
        ¬ (((safariWindowsGenerator.minVersion ≠ 114 ∨ safariWindowsGenerator.maxVersion ≠ 141) →
            safariWindowsGenerator.minVersion ≤ v ∧ v ≤ safariWindowsGenerator.maxVersion) ∧
          (safariWindowsGenerator.h2Only = true →
            (mapGet (mapGet browserProfiles BrowserSafari).Versions v).SupportsH2 = true))) := by
  refine ⟨rfl, rfl, by decide, by decide, by decide, ?_⟩
  intro h
  exact h.1 ⟨.errorf
    "no compatible platform/OS combination found for browser %s with the current settings",
    by decide⟩ 16 (by decide) (by decide)

/-- C16 (amended): in browser mode every successful run of `Generate` chose a version
that is a key of the resolved browser's version table; when the bounds differ from
(114, 141) the version lies between them; when HTTP/2-only is set its profile is
flagged HTTP/2-capable. Once browser, platform and OS are resolved (and a language
profile is configured, as `NewGenerator` and `WithLanguages` ensure), `Generate`
returns the no-available-versions error when no key of the table passes these
filters, and returns an Agent when some key passes. An error of `resolveBrowser` or
of `resolvePlatformAndOS` is returned by `Generate` unchanged. Hence `Generate`
fails exactly when the browser does not resolve, or the platform and OS do not
resolve for the resolved browser, or both resolve and no key passes the filters;
it fails with the no-available-versions error exactly in the last case; and it
never panics. -/
theorem version_resolution :
    (∀ (g : Generator) (r : Rng) (a : Agent), g.useBotAgents = false → Generate g r = .ok a →
      ∃ browser platform os version r3, ResolvedRun g r browser platform os version r3 a ∧
        version ∈ mapKeys (mapGet browserProfiles browser).Versions ∧
        ((g.minVersion ≠ 114 ∨ g.maxVersion ≠ 141) →
          g.minVersion ≤ version ∧ version ≤ g.maxVersion) ∧
        (g.h2Only = true →
          (mapGet (mapGet browserProfiles browser).Versions version).SupportsH2 = true)) ∧
    (∀ (g : Generator) (r r1 r2 : Rng) (browser : Browser) (c : Platform × OperatingSystem),
      g.useBotAgents = false → g.languageProfiles ≠ [] →
      resolveBrowser g r = .ok (browser, r1) →
      resolvePlatformAndOS g browser r1 = .ok (c, r2) →
      ((∀ v ∈ mapKeys (mapGet browserProfiles browser).Versions,
          ¬ (((g.minVersion ≠ 114 ∨ g.maxVersion ≠ 141) →
              g.minVersion ≤ v ∧ v ≤ g.maxVersion) ∧
            (g.h2Only = true →
              (mapGet (mapGet browserProfiles browser).Versions v).SupportsH2 = true))) →
        Generate g r = .error (.errorf
          "legitagent: no available browser versions for %s that meet the specified criteria")) ∧
      ((∃ v ∈ mapKeys (mapGet browserProfiles browser).Versions,
          ((g.minVersion ≠ 114 ∨ g.maxVersion ≠ 141) →
              g.minVersion ≤ v ∧ v ≤ g.maxVersion) ∧
            (g.h2Only = true →
              (mapGet (mapGet browserProfiles browser).Versions v).SupportsH2 = true)) →
        ∃ a, Generate g r = .ok a)) ∧
    (∀ (g : Generator) (r : Rng) (e : Err), g.useBotAgents = false →
      resolveBrowser g r = .error e → Generate g r = .error e) ∧
    (∀ (g : Generator) (r r1 : Rng) (browser : Browser) (e : Err), g.useBotAgents = false →
      resolveBrowser g r = .ok (browser, r1) →
      resolvePlatformAndOS g browser r1 = .error e → Generate g r = .error e) ∧
    (∀ (g : Generator) (r : Rng), g.useBotAgents = false → g.languageProfiles ≠ [] →
      ((∃ e, Generate g r = .error e) ↔
        ((∃ e, resolveBrowser g r = .error e) ∨
         (∃ browser r1 e, resolveBrowser g r = .ok (browser, r1) ∧
            resolvePlatformAndOS g browser r1 = .error e) ∨
         (∃ browser r1 c r2, resolveBrowser g r = .ok (browser, r1) ∧
            resolvePlatformAndOS g browser r1 = .ok (c, r2) ∧
            ∀ v ∈ mapKeys (mapGet browserProfiles browser).Versions,
              ¬ (((g.minVersion ≠ 114 ∨ g.maxVersion ≠ 141) →
                  g.minVersion ≤ v ∧ v ≤ g.maxVersion) ∧
                (g.h2Only = true →
                  (mapGet (mapGet browserProfiles browser).Versions v).SupportsH2 = true))))) ∧
      (Generate g r = .error (.errorf
          "legitagent: no available browser versions for %s that meet the specified criteria") ↔
        ∃ browser r1 c r2, resolveBrowser g r = .ok (browser, r1) ∧
          resolvePlatformAndOS g browser r1 = .ok (c, r2) ∧
          ∀ v ∈ mapKeys (mapGet browserProfiles browser).Versions,
            ¬ (((g.minVersion ≠ 114 ∨ g.maxVersion ≠ 141) →
                g.minVersion ≤ v ∧ v ≤ g.maxVersion) ∧
              (g.h2Only = true →
                (mapGet (mapGet browserProfiles browser).Versions v).SupportsH2 = true))) ∧
      Generate g r ≠ .error .panic) := by
  have hres : ∀ (g : Generator) (r r1 r2 : Rng) (browser : Browser)
      (c : Platform × OperatingSystem),
      g.useBotAgents = false → g.languageProfiles ≠ [] →
      resolveBrowser g r = .ok (browser, r1) →
      resolvePlatformAndOS g browser r1 = .ok (c, r2) →
      ((∀ v ∈ mapKeys (mapGet browserProfiles browser).Versions,
          ¬ (((g.minVersion ≠ 114 ∨ g.maxVersion ≠ 141) →
              g.minVersion ≤ v ∧ v ≤ g.maxVersion) ∧
            (g.h2Only = true →
              (mapGet (mapGet browserProfiles browser).Versions v).SupportsH2 = true))) →
        Generate g r = .error (.errorf
          "legitagent: no available browser versions for %s that meet the specified criteria")) ∧
      ((∃ v ∈ mapKeys (mapGet browserProfiles browser).Versions,
          ((g.minVersion ≠ 114 ∨ g.maxVersion ≠ 141) →
              g.minVersion ≤ v ∧ v ≤ g.maxVersion) ∧
            (g.h2Only = true →
              (mapGet (mapGet browserProfiles browser).Versions v).SupportsH2 = true)) →
        ∃ a, Generate g r = .ok a) := by
    intro g r r1 r2 browser c hbot hl hb hp
    obtain ⟨platform, os⟩ := c
    constructor
    · intro hnone
      have hempty : finalVersions g (mapGet browserProfiles browser)
          (rangeKeys (mapGet browserProfiles browser).Versions r2).1 = [] := by
        rw [List.eq_nil_iff_forall_not_mem]
        intro v hv
        rw [finalVersions_mem] at hv
        exact hnone v ((rangeKeys_perm _ r2).subset hv.1) hv.2
      unfold Generate
      simp only [hbot, Bool.false_eq_true, if_false, hb, hp, hempty, List.isEmpty_nil, if_true]
    · rintro ⟨v, hv, hpass⟩
      have hmem : v ∈ finalVersions g (mapGet browserProfiles browser)
          (rangeKeys (mapGet browserProfiles browser).Versions r2).1 := by
        rw [finalVersions_mem]
        exact ⟨(rangeKeys_perm _ r2).symm.subset hv, hpass⟩
      have hne : finalVersions g (mapGet browserProfiles browser)
          (rangeKeys (mapGet browserProfiles browser).Versions r2).1 ≠ [] :=
        List.ne_nil_of_mem hmem
      obtain ⟨version, hchoice⟩ := Choice_isSome _
        (rangeKeys (mapGet browserProfiles browser).Versions r2).2 hne
      have hkey : version ∈ mapKeys (mapGet browserProfiles browser).Versions :=
        (rangeKeys_perm _ r2).subset
          ((finalVersions_mem _ _ _ _).1 (Choice_mem _ _ _ _ hchoice)).1
      obtain ⟨a, ha⟩ := generateFor_isOk g browser (mapGet platformProfiles platform)
        (mapGet osProfiles os) version
        (rangeKeys (mapGet browserProfiles browser).Versions r2).2.advance platform rfl hl hkey
      refine ⟨a, ?_⟩
      unfold Generate
      have hnot : (finalVersions g (mapGet browserProfiles browser)
          (rangeKeys (mapGet browserProfiles browser).Versions r2).1).isEmpty = false := by
        cases hfin : finalVersions g (mapGet browserProfiles browser)
            (rangeKeys (mapGet browserProfiles browser).Versions r2).1 with
        | nil => exact absurd hfin hne
        | cons _ _ => rfl
      simp only [hbot, Bool.false_eq_true, if_false, hb, hp, hnot, hchoice, ha]
  refine ⟨?_, hres, fun g r e hbot => (Generate_resolve_error g r hbot).1 e,
    fun g r r1 browser e hbot => (Generate_resolve_error g r hbot).2 browser r1 e, ?_⟩
  · intro g r a hbot h
    obtain ⟨browser, platform, os, version, r3, hrun⟩ := Generate_browser_inv g r a hbot h
    have hfacts := ResolvedRun_facts g r browser platform os version r3 a hrun
    exact ⟨browser, platform, os, version, r3, hrun, hfacts.2.2.2.1, hfacts.2.2.2.2.1,
      hfacts.2.2.2.2.2⟩
  · intro g r hbot hl
    have hprop := Generate_resolve_error g r hbot
    refine ⟨?_, ?_, ?_⟩
    · constructor
      · rintro ⟨e, he⟩
        cases hb : resolveBrowser g r with
        | error eb => exact Or.inl ⟨eb, rfl⟩
        | ok res =>
          obtain ⟨browser, r1⟩ := res
          cases hp : resolvePlatformAndOS g browser r1 with
          | error ep => exact Or.inr (Or.inl ⟨browser, r1, ep, rfl, hp⟩)
          | ok res2 =>
            obtain ⟨c, r2⟩ := res2
            refine Or.inr (Or.inr ⟨browser, r1, c, r2, rfl, hp, ?_⟩)
            intro v hv hpass
            obtain ⟨a, ha⟩ := (hres g r r1 r2 browser c hbot hl hb hp).2 ⟨v, hv, hpass⟩
            rw [ha] at he
            cases he
      · rintro (⟨e, he⟩ | ⟨browser, r1, e, hb, hp⟩ | ⟨browser, r1, c, r2, hb, hp, hnone⟩)
        · exact ⟨e, hprop.1 e he⟩
        · exact ⟨e, hprop.2 browser r1 e hb hp⟩
        · exact ⟨_, (hres g r r1 r2 browser c hbot hl hb hp).1 hnone⟩
    · constructor
      · intro he
        cases hb : resolveBrowser g r with
        | error eb =>
          have h1 := hprop.1 eb hb
          rw [he] at h1
          have h2 := Except.error.inj h1
          rw [← h2] at hb
          exact absurd hb ((resolve_error_ne_versions g).1 r)
        | ok res =>
          obtain ⟨browser, r1⟩ := res
          cases hp : resolvePlatformAndOS g browser r1 with
          | error ep =>
            have h1 := hprop.2 browser r1 ep hb hp
            rw [he] at h1
            have h2 := Except.error.inj h1
            rw [← h2] at hp
            exact absurd hp ((resolve_error_ne_versions g).2 browser r1)
          | ok res2 =>
            obtain ⟨c, r2⟩ := res2
            refine ⟨browser, r1, c, r2, rfl, hp, ?_⟩
            intro v hv hpass
            obtain ⟨a, ha⟩ := (hres g r r1 r2 browser c hbot hl hb hp).2 ⟨v, hv, hpass⟩
            rw [ha] at he
            cases he
      · rintro ⟨browser, r1, c, r2, hb, hp, hnone⟩
        exact (hres g r r1 r2 browser c hbot hl hb hp).1 hnone
    · intro he
      cases hb : resolveBrowser g r with
      | error eb =>
        have h1 := hprop.1 eb hb
        rw [he] at h1
        have h2 := Except.error.inj h1
        rw [← h2] at hb
        exact absurd hb ((resolve_no_panic g).1 r)
      | ok res =>
        obtain ⟨browser, r1⟩ := res
        cases hp : resolvePlatformAndOS g browser r1 with
        | error ep =>
          have h1 := hprop.2 browser r1 ep hb hp
          rw [he] at h1
          have h2 := Except.error.inj h1
          rw [← h2] at hp
          exact absurd hp ((resolve_no_panic g).2 browser r1)
        | ok res2 =>
          obtain ⟨c, r2⟩ := res2
          by_cases hpass : ∃ v ∈ mapKeys (mapGet browserProfiles browser).Versions,
              ((g.minVersion ≠ 114 ∨ g.maxVersion ≠ 141) →
                g.minVersion ≤ v ∧ v ≤ g.maxVersion) ∧
              (g.h2Only = true →
                (mapGet (mapGet browserProfiles browser).Versions v).SupportsH2 = true)
          · obtain ⟨a, ha⟩ := (hres g r r1 r2 browser c hbot hl hb hp).2 hpass
            rw [ha] at he
            cases he
          · have hnone := (hres g r r1 r2 browser c hbot hl hb hp).1
              (fun v hv hv2 => hpass ⟨v, hv, hv2⟩)
            rw [hnone] at he
            cases Except.error.inj he

set_option maxRecDepth 100000 in
/-- C16 (witness): the default generator succeeds; Chrome with the range (200, 300)
fails with the no-available-versions error; Chrome with the default range
succeeds; Safari restricted to Windows and Linux fails with the error of
`resolvePlatformAndOS`. -/
theorem version_resolution_witness :
    (∃ browser platform os version r3,
      ResolvedRun NewGenerator zeroRng browser platform os version r3
        (agentOf (Generate NewGenerator zeroRng)) ∧
      version ∈ mapKeys (mapGet browserProfiles browser).Versions ∧
      ((NewGenerator.minVersion ≠ 114 ∨ NewGenerator.maxVersion ≠ 141) →
        NewGenerator.minVersion ≤ version ∧ version ≤ NewGenerator.maxVersion) ∧
      (NewGenerator.h2Only = true →
        (mapGet (mapGet browserProfiles browser).Versions version).SupportsH2 = true)) ∧
    Generate chromeOutOfRangeGenerator zeroRng = .error (.errorf
      "legitagent: no available browser versions for %s that meet the specified criteria") ∧
    (∃ a, Generate mixedOSGenerator zeroRng = .ok a) ∧
    Generate safariWindowsGenerator zeroRng = .error (.errorf
      "no compatible platform/OS combination found for browser %s with the current settings") :=
  ⟨version_resolution.1 NewGenerator zeroRng (agentOf (Generate NewGenerator zeroRng)) rfl
      (by decide),
    (version_resolution.2.1 chromeOutOfRangeGenerator zeroRng zeroRng.advance
      zeroRng.advance.advance BrowserChrome (PlatformDesktop, OSWindows) rfl (by decide) rfl
      rfl).1 (by decide),
    (version_resolution.2.1 mixedOSGenerator zeroRng zeroRng.advance
      zeroRng.advance.advance BrowserChrome (PlatformDesktop, OSWindows) rfl (by decide) rfl
      rfl).2 ⟨120, by decide, by decide⟩,
    version_resolution.2.2.2.1 safariWindowsGenerator zeroRng zeroRng.advance BrowserSafari _
      rfl rfl rfl⟩

/-! ## The default version range -/

set_option maxRecDepth 100000 in
/-- C17 (counterexample): the keys of Safari's version table are 16 and 17, outside
the default range [114, 141]; the generator of the test `SafariMobile`, whose bounds
are the default ones (114, 141), resolves with draws all zero to Safari version 17
and returns an Agent for it. -/
theorem safari_versions_outside_default_range :
    mapKeys (mapGet browserProfiles BrowserSafari).Versions = [16, 17] ∧
    safariMobileGenerator.minVersion = 114 ∧ safariMobileGenerator.maxVersion = 141 ∧
    (∃ r3 a, ResolvedRun safariMobileGenerator zeroRng BrowserSafari PlatformMobile OSiOS 17 r3 a)
    ∧ ¬ ((114 : Int) ≤ 17 ∧ (17 : Int) ≤ 141) := by
  refine ⟨by decide, rfl, rfl, ⟨_, agentOf (Generate safariMobileGenerator zeroRng), _, _,
    rfl, rfl, rfl, ?_⟩, by decide⟩
  decide

/-- C17 (amended): every key of the version tables of Chrome, Opera, Edge, Brave and
Firefox lies in [114, 141], the keys of Safari's table are 16 and 17; with the bounds
(114, 141), default or set explicitly, `Generate` applies no range filter: the
candidates are all the keys of the table (those flagged HTTP/2-capable when
HTTP/2-only is set), so a run on one of the first five browsers chooses a version in
[114, 141] and a run on Safari chooses 16 or 17. -/
theorem default_range_is_no_filter :
    (∀ b ∈ [BrowserChrome, BrowserOpera, BrowserEdge, BrowserBrave, BrowserFirefox],
      ∀ v ∈ mapKeys (mapGet browserProfiles b).Versions, 114 ≤ v ∧ v ≤ 141) ∧
    mapKeys (mapGet browserProfiles BrowserSafari).Versions = [16, 17] ∧
    (∀ (g : Generator) (profile : browserProfile) (all : List Int),
      g.minVersion = 114 → g.maxVersion = 141 →
      finalVersions g profile all =
        if g.h2Only then all.filter fun v => (mapGet profile.Versions v).SupportsH2 else all) ∧
    (∀ (g : Generator) (r : Rng) (a : Agent), g.useBotAgents = false →
      g.minVersion = 114 → g.maxVersion = 141 → Generate g r = .ok a →
      ∃ browser platform os version r3, ResolvedRun g r browser platform os version r3 a ∧
        (browser ∈ [BrowserChrome, BrowserOpera, BrowserEdge, BrowserBrave, BrowserFirefox] →
          114 ≤ version ∧ version ≤ 141) ∧
        (browser = BrowserSafari → version = 16 ∨ version = 17)) := by
  have hkeys : ∀ b ∈ [BrowserChrome, BrowserOpera, BrowserEdge, BrowserBrave, BrowserFirefox],
      ∀ v ∈ mapKeys (mapGet browserProfiles b).Versions, 114 ≤ v ∧ v ≤ 141 := by decide
  have hsafari : mapKeys (mapGet browserProfiles BrowserSafari).Versions = [16, 17] := by decide
  refine ⟨hkeys, hsafari, ?_, ?_⟩
  · intro g profile all hmin hmax
    unfold finalVersions
    simp [hmin, hmax]
  · intro g r a hbot _ _ h
    obtain ⟨browser, platform, os, version, r3, hrun⟩ := Generate_browser_inv g r a hbot h
    have hfacts := ResolvedRun_facts g r browser platform os version r3 a hrun
    refine ⟨browser, platform, os, version, r3, hrun, fun hb => hkeys browser hb version
      hfacts.2.2.2.1, ?_⟩
    intro hb
    have hv := hfacts.2.2.2.1
    rw [hb, hsafari] at hv
    simpa using hv

set_option maxRecDepth 100000 in
/-- C17 (witness): the default generator with HTTP/2-only set keeps the versions
flagged HTTP/2-capable of any list; the generator of the test `SafariMobile`
succeeds. -/
theorem default_range_is_no_filter_witness :
    finalVersions NewGenerator (mapGet browserProfiles BrowserSafari) [16, 17] =
      (if NewGenerator.h2Only then
        [16, 17].filter fun v =>
          (mapGet (mapGet browserProfiles BrowserSafari).Versions v).SupportsH2
      else [16, 17]) ∧
    ∃ browser platform os version r3,
      ResolvedRun safariMobileGenerator zeroRng browser platform os version r3
        (agentOf (Generate safariMobileGenerator zeroRng)) ∧
      (browser ∈ [BrowserChrome, BrowserOpera, BrowserEdge, BrowserBrave, BrowserFirefox] →
        114 ≤ version ∧ version ≤ 141) ∧
      (browser = BrowserSafari → version = 16 ∨ version = 17) :=
  ⟨default_range_is_no_filter.2.2.1 NewGenerator (mapGet browserProfiles BrowserSafari)
      [16, 17] rfl rfl,
    default_range_is_no_filter.2.2.2 safariMobileGenerator zeroRng
      (agentOf (Generate safariMobileGenerator zeroRng)) rfl rfl rfl (by decide)⟩

/-! ## Lemmas on decimal numerals and on splitting -/

/-- A decimal digit is rendered as one of the ten digit characters. -/
theorem digitChar_mem (d : Nat) (h : d < 10) : Nat.digitChar d ∈ "0123456789".data := by
  interval_cases d <;> decide

/-- The decimal digits of a number are digit characters. -/
theorem toDigitsCore_mem (fuel n : Nat) (ds : List Char) (c : Char)
    (h : c ∈ Nat.toDigitsCore 10 fuel n ds) : c ∈ ds ∨ c ∈ "0123456789".data := by
  induction fuel generalizing n ds with
  | zero =>
    simp only [Nat.toDigitsCore] at h
    exact Or.inl h
  | succ f ih =>
    simp only [Nat.toDigitsCore] at h
    split at h
    · rcases List.mem_cons.1 h with e | e
      · exact Or.inr (e ▸ digitChar_mem _ (Nat.mod_lt _ (by decide)))
      · exact Or.inl e
    · rcases ih _ _ h with e | e
      · rcases List.mem_cons.1 e with e1 | e1
        · exact Or.inr (e1 ▸ digitChar_mem _ (Nat.mod_lt _ (by decide)))
        · exact Or.inl e1
      · exact Or.inr e

/-- The numeral of a natural number holds digits only. -/
theorem Nat_repr_chars (n : Nat) (c : Char) (h : c ∈ (toString n).data) :
    c ∈ "0123456789".data := by
  have h1 : (toString n).data = Nat.toDigitsCore 10 (n + 1) n [] := rfl
  rw [h1] at h
  rcases toDigitsCore_mem _ _ _ _ h with e | e
  · exact absurd e (List.not_mem_nil _)
  · exact e

/-- The numeral `Itoa` writes holds digits and possibly the sign. -/
theorem Itoa_chars (z : Int) (c : Char) (h : c ∈ (Itoa z).data) :
    c ∈ "-0123456789".data := by
  cases z with
  | ofNat n =>
    have h1 : Itoa (Int.ofNat n) = toString n := rfl
    rw [h1] at h
    exact List.mem_cons_of_mem _ (Nat_repr_chars n c h)
  | negSucc n =>
    have h1 : (Itoa (Int.negSucc n)).data = '-' :: (toString (n + 1)).data := rfl
    rw [h1] at h
    rcases List.mem_cons.1 h with e | e
    · rw [e]
      decide
    · exact List.mem_cons_of_mem _ (Nat_repr_chars _ c e)

/-- The text before the first separator is made of characters of the text. -/
theorem splitOnce_fst_mem (sep s : List Char) (c : Char) (h : c ∈ (splitOnce sep s).1) :
    c ∈ s := by
  induction s with
  | nil => simp [splitOnce] at h
  | cons x xs ih =>
    simp only [splitOnce] at h
    split at h
    · simp at h
    · rcases List.mem_cons.1 h with e | e
      · exact e ▸ List.mem_cons_self _ _
      · exact List.mem_cons_of_mem _ (ih e)

/-- What `dropPrefix` leaves is a suffix of the text. -/
theorem dropPrefix_mem (p s rest : List Char) (c : Char) (h : dropPrefix p s = some rest)
    (hc : c ∈ rest) : c ∈ s := by
  induction p generalizing s with
  | nil =>
    simp only [dropPrefix, Option.some.injEq] at h
    exact h ▸ hc
  | cons a as ih =>
    cases s with
    | nil => simp [dropPrefix] at h
    | cons x xs =>
      simp only [dropPrefix] at h
      split at h
      · exact List.mem_cons_of_mem _ (ih xs h)
      · simp at h

/-- The text after the first separator is made of characters of the text. -/
theorem splitOnce_snd_mem (sep s rest : List Char) (c : Char)
    (h : (splitOnce sep s).2 = some rest) (hc : c ∈ rest) : c ∈ s := by
  induction s with
  | nil => simp [splitOnce] at h
  | cons x xs ih =>
    simp only [splitOnce] at h
    split at h
    · rename_i r hr
      simp only [Option.some.injEq] at h
      exact dropPrefix_mem sep (x :: xs) r c hr (h ▸ hc)
    · exact List.mem_cons_of_mem _ (ih h)

/-- The result of `replaceFirst` is made of characters of the text and of the
replacement. -/
theorem replaceFirst_mem (s old new : String) (c : Char)
    (h : c ∈ (replaceFirst s old new).data) : c ∈ s.data ∨ c ∈ new.data := by
  unfold replaceFirst at h
  split at h
  · exact Or.inl h
  · rename_i before after hsplit
    simp only [String.data_append, List.mem_append] at h
    rcases h with (e | e) | e
    · exact Or.inl (splitOnce_fst_mem old.data s.data c (by rw [hsplit]; exact e))
    · exact Or.inr e
    · exact Or.inl (splitOnce_snd_mem old.data s.data after c (by rw [hsplit]) e)

/-- Splitting at a one-character separator that the head of the text does not hold
returns that head. -/
theorem splitOnce_head (sep : Char) (pre rest : List Char) (h : sep ∉ pre) :
    (splitOnce [sep] (pre ++ sep :: rest)).1 = pre := by
  induction pre with
  | nil => simp [splitOnce, dropPrefix]
  | cons x xs ih =>
    have hx : sep ≠ x := fun e => h (e ▸ List.mem_cons_self _ _)
    have hxs : sep ∉ xs := fun e => h (List.mem_cons_of_mem _ e)
    simp only [List.cons_append, splitOnce, dropPrefix, hx, if_false]
    exact congrArg (x :: ·) (ih hxs)

/-! ## The user-agent names the browser and the version -/

/-- A platform list that is the random token alone, or holds concrete platforms
only, resolves to a concrete platform. -/
theorem validCombos_platform_concrete (g : Generator) (browser : Browser)
    (c : Platform × OperatingSystem)
    (hg : g.platforms = [PlatformRandom] ∨
      ∀ p ∈ g.platforms, p = PlatformDesktop ∨ p = PlatformMobile)
    (h : c ∈ validCombos g browser) : c.1 = PlatformDesktop ∨ c.1 = PlatformMobile := by
  rw [validCombos_mem] at h
  obtain ⟨p, hp, o, _, concreteOS, _, hc⟩ := h
  rw [comboFor_mem] at hc
  rw [hc.1]
  by_cases hr : g.platforms = [PlatformRandom]
  · rw [if_pos hr] at hp
    simpa [allRealPlatforms] using hp
  · rw [if_neg hr] at hp
    rcases hg with hg | hg
    · exact absurd hg hr
    · exact hg p hp

/-- The fragments of a Chromium browser hold the `Chrome/` token and, when the
profile has one, the rendered suffix. -/
theorem chromium_parts (platform : Platform)
    (hp : platform = PlatformDesktop ∨ platform = PlatformMobile) (bp : browserProfile)
    (op : osProfile) (vp : versionProfile) (fv : String) (r r1 : Rng) (parts : List String)
    (h : renderParts (mapGet (mapGet platformProfiles platform).ComponentGenerators Chromium)
      bp op vp fv r = some (parts, r1)) :
    "Chrome/" ++ fv ∈ parts ∧
    (bp.UASuffix ≠ "" →
      replaceFirst bp.UASuffix "%s" (String.mk (splitOnce ".".data fv.data).1) ≠ "" →
      replaceFirst bp.UASuffix "%s" (String.mk (splitOnce ".".data fv.data).1) ∈ parts) := by
  obtain ⟨token, q, htok⟩ := osToken_isSome op r
  rcases hp with hp | hp
  · subst hp
    rw [renderParts_chromium_desktop bp op vp fv r q token htok] at h
    simp only [Option.some.injEq, Prod.mk.injEq] at h
    rw [← h.1]
    refine ⟨by simp, fun h1 h2 => ?_⟩
    simp [h1, h2]
  · subst hp
    rw [renderParts_chromium_mobile bp op vp fv r q token htok] at h
    simp only [Option.some.injEq, Prod.mk.injEq] at h
    rw [← h.1]
    refine ⟨by simp, fun h1 h2 => ?_⟩
    simp [h1, h2]

/-- The fragments of a Gecko browser hold the `Gecko/` trail and the `Firefox/`
token. -/
theorem gecko_parts (platform : Platform)
    (hp : platform = PlatformDesktop ∨ platform = PlatformMobile) (bp : browserProfile)
    (op : osProfile) (vp : versionProfile) (fv : String) (r r1 : Rng) (parts : List String)
    (h : renderParts (mapGet (mapGet platformProfiles platform).ComponentGenerators Gecko)
      bp op vp fv r = some (parts, r1)) :
    "Gecko/20100101" ∈ parts ∧ "Firefox/" ++ vp.GeckoRevision ∈ parts := by
  obtain ⟨token, q, htok⟩ := osToken_isSome op r
  rw [renderParts_gecko platform hp bp op vp fv r q token htok] at h
  simp only [Option.some.injEq, Prod.mk.injEq] at h
  rw [← h.1]
  simp

/-- The fragments of a WebKit browser hold the `Version/` token. -/
theorem webkit_parts (platform : Platform)
    (hp : platform = PlatformDesktop ∨ platform = PlatformMobile) (bp : browserProfile)
    (op : osProfile) (vp : versionProfile) (fv : String) (r r1 : Rng) (parts : List String)
    (h : renderParts (mapGet (mapGet platformProfiles platform).ComponentGenerators WebKit)
      bp op vp fv r = some (parts, r1)) :
    "Version/" ++ vp.SafariVersion ∈ parts := by
  obtain ⟨token, q, htok⟩ := osToken_isSome op r
  rcases hp with hp | hp
  · subst hp
    rw [renderParts_webkit_desktop bp op vp fv r q token htok] at h
    simp only [Option.some.injEq, Prod.mk.injEq] at h
    rw [← h.1]
    simp
  · subst hp
    rw [renderParts_webkit_mobile bp op vp fv r q token htok] at h
    simp only [Option.some.injEq, Prod.mk.injEq] at h
    rw [← h.1]
    simp

/-- The major version `BrowserSuffixGenerator` cuts out of the full version of a
Chromium browser is the numeral of the version. -/
theorem major_of_fullVersion (v build patch : Int) :
    String.mk (splitOnce ".".data
      (Itoa v ++ ".0." ++ Itoa build ++ "." ++ Itoa patch).data).1 = Itoa v := by
  have hdata : (Itoa v ++ ".0." ++ Itoa build ++ "." ++ Itoa patch).data =
      (Itoa v).data ++ '.' :: ("0." ++ Itoa build ++ "." ++ Itoa patch).data := by
    simp only [String.data_append, List.append_assoc]
    rfl
  have hdot : '.' ∉ (Itoa v).data := by
    intro h
    exact absurd (Itoa_chars v _ h) (by decide)
  have hsep : ".".data = ['.'] := rfl
  rw [hdata, hsep, splitOnce_head _ _ _ hdot]

/-- The suffix formats of Opera and Edge with the major version filled in. -/
theorem suffix_rendered (pre major : String) (hpre : pre ∈ ["OPR/", "Edg/"]) :
    replaceFirst (pre ++ "%s") "%s" major = pre ++ major ++ "" := by
  simp only [List.mem_cons, List.mem_singleton, List.not_mem_nil, or_false] at hpre
  rcases hpre with e | e
  · subst e
    have hs : splitOnce "%s".data ("OPR/" ++ "%s").data = ("OPR/".data, some []) := by decide
    unfold replaceFirst
    rw [hs]
  · subst e
    have hs : splitOnce "%s".data ("Edg/" ++ "%s").data = ("Edg/".data, some []) := by decide
    unfold replaceFirst
    rw [hs]

/-- With the bounds (v, v) a run chooses version v. -/
theorem ResolvedRun_version_pinned (g : Generator) (r : Rng) (browser : Browser)
    (platform : Platform) (os : OperatingSystem) (version : Int) (r3 : Rng) (a : Agent)
    (v : Int) (hmin : g.minVersion = v) (hmax : g.maxVersion = v)
    (h : ResolvedRun g r browser platform os version r3 a) : version = v := by
  have hpass := (ResolvedRun_facts g r browser platform os version r3 a h).2.2.2.2.1
  have hne : g.minVersion ≠ 114 ∨ g.maxVersion ≠ 141 := by
    rw [hmin, hmax]
    omega
  have hb := hpass hne
  rw [hmin, hmax] at hb
  omega

/-- A Chromium-derived profile renders with the Chromium generators. -/
theorem chromium_family :
    ∀ e ∈ browserProfiles, e.2.ChromiumBased = true → e.2.Family = Chromium := by
  decide

/-- The Gecko revision recorded for a Firefox version is that version with `.0`. -/
theorem firefox_revision :
    ∀ v ∈ mapKeys (mapGet browserProfiles BrowserFirefox).Versions,
      (mapGet (mapGet browserProfiles BrowserFirefox).Versions v).GeckoRevision =
        Itoa v ++ ".0" := by
  decide

/-- The Chromium part of a pinned run: the `Chrome/` token with version and build
number, and the suffix of Opera and Edge. -/
theorem chromium_userAgent (g : Generator) (r : Rng) (b : Browser) (platform : Platform)
    (os : OperatingSystem) (v : Int) (r3 : Rng) (a : Agent)
    (hrun : ResolvedRun g r b platform os v r3 a)
    (hp : platform = PlatformDesktop ∨ platform = PlatformMobile)
    (hcb : (mapGet browserProfiles b).ChromiumBased = true) :
    Contains a.UserAgent
      ("Chrome/" ++ Itoa v ++ ".0." ++
        Itoa (mapGet (mapGet browserProfiles b).Versions v).BuildNumber ++ ".") = true ∧
    ∀ pre ∈ ["OPR/", "Edg/"], (mapGet browserProfiles b).UASuffix = pre ++ "%s" →
      Contains a.UserAgent (pre ++ Itoa v) = true := by
  have hfacts := ResolvedRun_facts g r b platform os v r3 a hrun
  have hfam := chromium_family _ hfacts.2.1 hcb
  obtain ⟨parts, r1, hparts, hua⟩ := ResolvedRun_userAgent g r b platform os v r3 a hrun
  have hfv : (fullVersionOf (mapGet browserProfiles b) v r3).1 =
      Itoa v ++ ".0." ++ Itoa (mapGet (mapGet browserProfiles b).Versions v).BuildNumber ++ "." ++
        Itoa (IntN 999 r3).1 := by
    unfold fullVersionOf
    rw [if_pos hcb]
  dsimp only at hfam
  rw [hfam, hfv] at hparts
  have hmem := chromium_parts platform hp _ _ _ _ _ _ _ hparts
  rw [hua]
  constructor
  · apply Contains_Join_of_mem _ _ _ _ hmem.1
    have hassoc : "Chrome/" ++ (Itoa v ++ ".0." ++
        Itoa (mapGet (mapGet browserProfiles b).Versions v).BuildNumber ++ "." ++
        Itoa (IntN 999 r3).1) =
        ("Chrome/" ++ Itoa v ++ ".0." ++
          Itoa (mapGet (mapGet browserProfiles b).Versions v).BuildNumber ++ ".") ++
        Itoa (IntN 999 r3).1 := by
      simp only [String.append_assoc]
    rw [hassoc]
    exact Contains_append_left _ _ _ (Contains_self _)
  · intro pre hpre hsuffix
    have hrender : replaceFirst (mapGet browserProfiles b).UASuffix "%s"
        (String.mk (splitOnce ".".data (Itoa v ++ ".0." ++
          Itoa (mapGet (mapGet browserProfiles b).Versions v).BuildNumber ++ "." ++
          Itoa (IntN 999 r3).1).data).1) = pre ++ Itoa v ++ "" := by
      rw [major_of_fullVersion, hsuffix, suffix_rendered pre _ hpre]
    have hpre_ne : pre ≠ "" := by
      simp only [List.mem_cons, List.mem_singleton, List.not_mem_nil, or_false] at hpre
      rcases hpre with e | e <;> subst e <;> decide
    have hne1 : (mapGet browserProfiles b).UASuffix ≠ "" := by
      rw [hsuffix]
      exact append_ne_empty_left _ _ hpre_ne
    have hne2 : pre ++ Itoa v ++ "" ≠ "" :=
      append_ne_empty_left _ _ (append_ne_empty_left _ _ hpre_ne)
    have hin := hmem.2 hne1 (by rw [hrender]; exact hne2)
    rw [hrender] at hin
    exact Contains_Join_of_mem _ _ _ _ hin (Contains_append_left _ _ _ (Contains_self _))

set_option maxRecDepth 100000 in
/-- C18: with a single browser `b` configured, the bounds set to (v, v) for a key `v`
of `b`'s version table, and a platform list that resolves to a concrete platform,
every successful run of `Generate` yields a user-agent that names the browser and
that version: for a Chromium-derived browser (Chrome, Opera, Edge, Brave) the text
`Chrome/v.0.<build number of v>.`, in addition `OPR/v` for Opera and `Edg/v` for
Edge; for Firefox `Gecko/` and `Firefox/v.0`; for Safari `Version/` followed by the
Safari version recorded for `v`. The build number recorded for Chrome 140 is
7255. -/
theorem userAgent_names_version :
    (∀ (g : Generator) (r : Rng) (a : Agent) (b : Browser) (v : Int),
      g.useBotAgents = false → g.browsers = [b] →
      v ∈ mapKeys (mapGet browserProfiles b).Versions →
      g.minVersion = v → g.maxVersion = v →
      (g.platforms = [PlatformRandom] ∨
        ∀ p ∈ g.platforms, p = PlatformDesktop ∨ p = PlatformMobile) →
      Generate g r = .ok a →
      (b ∈ [BrowserChrome, BrowserOpera, BrowserEdge, BrowserBrave] →
        Contains a.UserAgent
          ("Chrome/" ++ Itoa v ++ ".0." ++
            Itoa (mapGet (mapGet browserProfiles b).Versions v).BuildNumber ++ ".") = true) ∧
      (b = BrowserOpera → Contains a.UserAgent ("OPR/" ++ Itoa v) = true) ∧
      (b = BrowserEdge → Contains a.UserAgent ("Edg/" ++ Itoa v) = true) ∧
      (b = BrowserFirefox →
        Contains a.UserAgent "Gecko/" = true ∧
        Contains a.UserAgent ("Firefox/" ++ Itoa v ++ ".0") = true) ∧
      (b = BrowserSafari →
        Contains a.UserAgent
          ("Version/" ++ (mapGet (mapGet browserProfiles b).Versions v).SafariVersion) = true)) ∧
    (mapGet (mapGet browserProfiles BrowserChrome).Versions 140).BuildNumber = 7255 := by
  refine ⟨?_, by decide⟩
  intro g r a b v hbot hb hv hmin hmax hplat h
  have hrandom : b ≠ BrowserRandom := by
    intro e
    rw [e] at hv
    have hnil : mapKeys (mapGet browserProfiles BrowserRandom).Versions = [] := by decide
    rw [hnil] at hv
    exact absurd hv (List.not_mem_nil _)
  obtain ⟨browser, platform, os, version, r3, hrun⟩ := Generate_browser_inv g r a hbot h
  have hbrowser : browser = b :=
    ResolvedRun_browser_single g r browser platform os version r3 a b hb hrandom hrun
  have hversion : version = v :=
    ResolvedRun_version_pinned g r browser platform os version r3 a v hmin hmax hrun
  subst hbrowser hversion
  have hfacts := ResolvedRun_facts g r browser platform os version r3 a hrun
  have hp : platform = PlatformDesktop ∨ platform = PlatformMobile :=
    validCombos_platform_concrete g browser (platform, os) hplat hfacts.2.2.1
  obtain ⟨parts, r1, hparts, hua⟩ := ResolvedRun_userAgent g r browser platform os version r3 a hrun
  refine ⟨?_, ?_, ?_, ?_, ?_⟩
  · intro hmem
    have hcb : (mapGet browserProfiles browser).ChromiumBased = true := by
      simp only [List.mem_cons, List.mem_singleton, List.not_mem_nil, or_false] at hmem
      rcases hmem with e | e | e | e <;> subst e <;> rfl
    exact (chromium_userAgent g r browser platform os version r3 a hrun hp hcb).1
  · intro e
    subst e
    exact (chromium_userAgent g r _ platform os version r3 a hrun hp rfl).2 "OPR/"
      (by simp) rfl
  · intro e
    subst e
    exact (chromium_userAgent g r _ platform os version r3 a hrun hp rfl).2 "Edg/"
      (by simp) rfl
  · intro e
    subst e
    have hfam : (mapGet browserProfiles BrowserFirefox).Family = Gecko := rfl
    rw [hfam] at hparts
    have hmem := gecko_parts platform hp _ _ _ _ _ _ _ hparts
    rw [firefox_revision version hv] at hmem
    rw [hua]
    constructor
    · exact Contains_Join_of_mem _ _ _ _ hmem.1 (by decide)
    · apply Contains_Join_of_mem _ _ _ _ hmem.2
      have hassoc : "Firefox/" ++ (Itoa version ++ ".0") = "Firefox/" ++ Itoa version ++ ".0" := by
        simp only [String.append_assoc]
      rw [hassoc]
      exact Contains_self _
  · intro e
    subst e
    have hfam : (mapGet browserProfiles BrowserSafari).Family = WebKit := rfl
    rw [hfam] at hparts
    have hmem := webkit_parts platform hp _ _ _ _ _ _ _ hparts
    rw [hua]
    exact Contains_Join_of_mem _ _ _ _ hmem (Contains_self _)

set_option maxRecDepth 100000 in
/-- C18 (witness): the generators of the tests `Chrome` and `Opera`. -/
theorem userAgent_names_version_witness :
    Contains (agentOf (Generate chrome140Generator zeroRng)).UserAgent
      ("Chrome/" ++ Itoa 140 ++ ".0." ++
        Itoa (mapGet (mapGet browserProfiles BrowserChrome).Versions 140).BuildNumber ++ ".") =
      true ∧
    Contains (agentOf (Generate opera128Generator zeroRng)).UserAgent ("OPR/" ++ Itoa 128) =
      true :=
  ⟨(userAgent_names_version.1 chrome140Generator zeroRng
      (agentOf (Generate chrome140Generator zeroRng)) BrowserChrome 140 rfl rfl (by decide)
      rfl rfl (Or.inr (by decide)) (by decide)).1 (by decide),
    (userAgent_names_version.1 opera128Generator zeroRng
      (agentOf (Generate opera128Generator zeroRng)) BrowserOpera 128 rfl rfl (by decide)
      rfl rfl (Or.inr (by decide)) (by decide)).2.1 rfl⟩

/-! ## The device placeholder -/

/-- An opening brace occurs in a concatenation only if it occurs in a part. -/
theorem brace_append (a b : String) (ha : Char.ofNat 123 ∉ a.data)
    (hb : Char.ofNat 123 ∉ b.data) : Char.ofNat 123 ∉ (a ++ b).data := by
  rw [String.data_append, List.mem_append]
  exact fun h => h.elim ha hb

/-- A numeral holds no brace. -/
theorem brace_Itoa (z : Int) : Char.ofNat 123 ∉ (Itoa z).data :=
  fun h => absurd (Itoa_chars z _ h) (by decide)

/-- The full version of a run holds no brace. -/
theorem brace_fullVersion (profile : browserProfile) (v : Int) (r : Rng) :
    Char.ofNat 123 ∉ (fullVersionOf profile v r).1.data := by
  unfold fullVersionOf
  split
  · exact brace_append _ _ (brace_append _ _ (brace_append _ _ (brace_append _ _
      (brace_Itoa _) (by decide)) (brace_Itoa _)) (by decide)) (brace_Itoa _)
  · dsimp only
    decide

set_option maxRecDepth 100000 in
/-- No text field of a version profile and no suffix format holds a brace. -/
theorem brace_version_fields :
    ∀ e ∈ browserProfiles, Char.ofNat 123 ∉ e.2.UASuffix.data ∧
      ∀ ve ∈ e.2.Versions,
        Char.ofNat 123 ∉ ve.2.GeckoRevision.data ∧ Char.ofNat 123 ∉ ve.2.WebKitVersion.data ∧
        Char.ofNat 123 ∉ ve.2.SafariVersion.data ∧ Char.ofNat 123 ∉ ve.2.MobileVersion.data := by
  decide

/-- The Android profile is the only OS profile whose platform token holds the
placeholder. -/
theorem brace_os_tokens :
    ∀ e ∈ osProfiles,
      (e.2.Name = "Android" →
        e.2.PlatformToken = (mapGet osProfiles OSAndroid).PlatformToken) ∧
      (e.2.Name ≠ "Android" → Char.ofNat 123 ∉ e.2.PlatformToken.data) := by
  decide

/-- No device model holds a brace. -/
theorem brace_devices : ∀ d ∈ androidDevices, Char.ofNat 123 ∉ d.data := by
  decide

/-- The platform token that `osToken` renders for an OS profile of the table holds
no brace. -/
theorem brace_osToken (e : OperatingSystem × osProfile) (he : e ∈ osProfiles) (r q : Rng)
    (token : String) (h : osToken e.2 r = some (token, q)) :
    Char.ofNat 123 ∉ token.data := by
  rcases osToken_cases e.2 r with ⟨hname, device, hdev, htok⟩ | ⟨hname, htok⟩
  · rw [htok] at h
    simp only [Option.some.injEq, Prod.mk.injEq] at h
    rw [← h.1, (brace_os_tokens e he).1 hname, android_token]
    exact brace_append _ _ (brace_append _ _ (by decide) (brace_devices device hdev))
      (by decide)
  · rw [htok] at h
    simp only [Option.some.injEq, Prod.mk.injEq] at h
    rw [← h.1]
    exact (brace_os_tokens e he).2 hname

/-- The fragments of a Chromium browser on the desktop platform. -/
theorem candidates_chromium_desktop (bp : browserProfile) (op : osProfile) (vp : versionProfile) (fv : String)
    (r q : Rng) (token : String) (htok : osToken op r = some (token, q)) (r1 : Rng)
    (parts : List String)
    (h : renderParts (mapGet (mapGet platformProfiles PlatformDesktop).ComponentGenerators Chromium)
      bp op vp fv r = some (parts, r1)) :
    ∀ part ∈ parts, part ∈
        [ "Mozilla/5.0", "(" ++ token ++ ")", "AppleWebKit/537.36", "(KHTML, like Gecko)",
          "Chrome/" ++ fv, "Safari/537.36", "Mobile Safari/537.36",
          replaceFirst bp.UASuffix "%s" (String.mk (splitOnce ".".data fv.data).1),
          "(" ++ token ++ "; rv:" ++ vp.GeckoRevision ++ ")", "Gecko/20100101",
          "Firefox/" ++ vp.GeckoRevision, "AppleWebKit/" ++ vp.WebKitVersion,
          "Version/" ++ vp.SafariVersion, "Mobile/" ++ vp.MobileVersion, "Safari/604.1",
          "Safari/" ++ vp.WebKitVersion ] := by
  rw [renderParts_chromium_desktop bp op vp fv r q token htok] at h
  simp only [Option.some.injEq, Prod.mk.injEq] at h
  rw [← h.1]
  intro part hpart
  by_cases h1 : bp.UASuffix = ""
  · simp [h1] at hpart ⊢
    tauto
  · by_cases h2 : replaceFirst bp.UASuffix "%s" (String.mk (splitOnce ".".data fv.data).1) = ""
    · simp [h1, h2] at hpart ⊢
      tauto
    · simp [h1, h2] at hpart ⊢
      tauto

/-- The fragments of a Chromium browser on the mobile platform. -/
theorem candidates_chromium_mobile (bp : browserProfile) (op : osProfile) (vp : versionProfile) (fv : String)
    (r q : Rng) (token : String) (htok : osToken op r = some (token, q)) (r1 : Rng)
    (parts : List String)
    (h : renderParts (mapGet (mapGet platformProfiles PlatformMobile).ComponentGenerators Chromium)
      bp op vp fv r = some (parts, r1)) :
    ∀ part ∈ parts, part ∈
        [ "Mozilla/5.0", "(" ++ token ++ ")", "AppleWebKit/537.36", "(KHTML, like Gecko)",
          "Chrome/" ++ fv, "Safari/537.36", "Mobile Safari/537.36",
          replaceFirst bp.UASuffix "%s" (String.mk (splitOnce ".".data fv.data).1),
          "(" ++ token ++ "; rv:" ++ vp.GeckoRevision ++ ")", "Gecko/20100101",
          "Firefox/" ++ vp.GeckoRevision, "AppleWebKit/" ++ vp.WebKitVersion,
          "Version/" ++ vp.SafariVersion, "Mobile/" ++ vp.MobileVersion, "Safari/604.1",
          "Safari/" ++ vp.WebKitVersion ] := by
  rw [renderParts_chromium_mobile bp op vp fv r q token htok] at h
  simp only [Option.some.injEq, Prod.mk.injEq] at h
  rw [← h.1]
  intro part hpart
  by_cases h1 : bp.UASuffix = ""
  · simp [h1] at hpart ⊢
    tauto
  · by_cases h2 : replaceFirst bp.UASuffix "%s" (String.mk (splitOnce ".".data fv.data).1) = ""
    · simp [h1, h2] at hpart ⊢
      tauto
    · simp [h1, h2] at hpart ⊢
      tauto

/-- The fragments of a Gecko browser on the desktop platform. -/
theorem candidates_gecko_desktop (bp : browserProfile) (op : osProfile) (vp : versionProfile) (fv : String)
    (r q : Rng) (token : String) (htok : osToken op r = some (token, q)) (r1 : Rng)
    (parts : List String)
    (h : renderParts (mapGet (mapGet platformProfiles PlatformDesktop).ComponentGenerators Gecko)
      bp op vp fv r = some (parts, r1)) :
    ∀ part ∈ parts, part ∈
        [ "Mozilla/5.0", "(" ++ token ++ ")", "AppleWebKit/537.36", "(KHTML, like Gecko)",
          "Chrome/" ++ fv, "Safari/537.36", "Mobile Safari/537.36",
          replaceFirst bp.UASuffix "%s" (String.mk (splitOnce ".".data fv.data).1),
          "(" ++ token ++ "; rv:" ++ vp.GeckoRevision ++ ")", "Gecko/20100101",
          "Firefox/" ++ vp.GeckoRevision, "AppleWebKit/" ++ vp.WebKitVersion,
          "Version/" ++ vp.SafariVersion, "Mobile/" ++ vp.MobileVersion, "Safari/604.1",
          "Safari/" ++ vp.WebKitVersion ] := by
  rw [renderParts_gecko _ (Or.inl rfl) bp op vp fv r q token htok] at h
  simp only [Option.some.injEq, Prod.mk.injEq] at h
  rw [← h.1]
  intro part hpart
  simp at hpart ⊢
  tauto

/-- The fragments of a Gecko browser on the mobile platform. -/
theorem candidates_gecko_mobile (bp : browserProfile) (op : osProfile) (vp : versionProfile) (fv : String)
    (r q : Rng) (token : String) (htok : osToken op r = some (token, q)) (r1 : Rng)
    (parts : List String)
    (h : renderParts (mapGet (mapGet platformProfiles PlatformMobile).ComponentGenerators Gecko)
      bp op vp fv r = some (parts, r1)) :
    ∀ part ∈ parts, part ∈
        [ "Mozilla/5.0", "(" ++ token ++ ")", "AppleWebKit/537.36", "(KHTML, like Gecko)",
          "Chrome/" ++ fv, "Safari/537.36", "Mobile Safari/537.36",
          replaceFirst bp.UASuffix "%s" (String.mk (splitOnce ".".data fv.data).1),
          "(" ++ token ++ "; rv:" ++ vp.GeckoRevision ++ ")", "Gecko/20100101",
          "Firefox/" ++ vp.GeckoRevision, "AppleWebKit/" ++ vp.WebKitVersion,
          "Version/" ++ vp.SafariVersion, "Mobile/" ++ vp.MobileVersion, "Safari/604.1",
          "Safari/" ++ vp.WebKitVersion ] := by
  rw [renderParts_gecko _ (Or.inr rfl) bp op vp fv r q token htok] at h
  simp only [Option.some.injEq, Prod.mk.injEq] at h
  rw [← h.1]
  intro part hpart
  simp at hpart ⊢
  tauto

/-- The fragments of a WebKit browser on the desktop platform. -/
theorem candidates_webkit_desktop (bp : browserProfile) (op : osProfile) (vp : versionProfile) (fv : String)
    (r q : Rng) (token : String) (htok : osToken op r = some (token, q)) (r1 : Rng)
    (parts : List String)
    (h : renderParts (mapGet (mapGet platformProfiles PlatformDesktop).ComponentGenerators WebKit)
      bp op vp fv r = some (parts, r1)) :
    ∀ part ∈ parts, part ∈
        [ "Mozilla/5.0", "(" ++ token ++ ")", "AppleWebKit/537.36", "(KHTML, like Gecko)",
          "Chrome/" ++ fv, "Safari/537.36", "Mobile Safari/537.36",
          replaceFirst bp.UASuffix "%s" (String.mk (splitOnce ".".data fv.data).1),
          "(" ++ token ++ "; rv:" ++ vp.GeckoRevision ++ ")", "Gecko/20100101",
          "Firefox/" ++ vp.GeckoRevision, "AppleWebKit/" ++ vp.WebKitVersion,
          "Version/" ++ vp.SafariVersion, "Mobile/" ++ vp.MobileVersion, "Safari/604.1",
          "Safari/" ++ vp.WebKitVersion ] := by
  rw [renderParts_webkit_desktop bp op vp fv r q token htok] at h
  simp only [Option.some.injEq, Prod.mk.injEq] at h
  rw [← h.1]
  intro part hpart
  by_cases hmob : op.IsMobile = true
  · simp [hmob] at hpart ⊢
    tauto
  · simp [hmob] at hpart ⊢
    tauto

/-- The fragments of a WebKit browser on the mobile platform. -/
theorem candidates_webkit_mobile (bp : browserProfile) (op : osProfile) (vp : versionProfile) (fv : String)
    (r q : Rng) (token : String) (htok : osToken op r = some (token, q)) (r1 : Rng)
    (parts : List String)
    (h : renderParts (mapGet (mapGet platformProfiles PlatformMobile).ComponentGenerators WebKit)
      bp op vp fv r = some (parts, r1)) :
    ∀ part ∈ parts, part ∈
        [ "Mozilla/5.0", "(" ++ token ++ ")", "AppleWebKit/537.36", "(KHTML, like Gecko)",
          "Chrome/" ++ fv, "Safari/537.36", "Mobile Safari/537.36",
          replaceFirst bp.UASuffix "%s" (String.mk (splitOnce ".".data fv.data).1),
          "(" ++ token ++ "; rv:" ++ vp.GeckoRevision ++ ")", "Gecko/20100101",
          "Firefox/" ++ vp.GeckoRevision, "AppleWebKit/" ++ vp.WebKitVersion,
          "Version/" ++ vp.SafariVersion, "Mobile/" ++ vp.MobileVersion, "Safari/604.1",
          "Safari/" ++ vp.WebKitVersion ] := by
  rw [renderParts_webkit_mobile bp op vp fv r q token htok] at h
  simp only [Option.some.injEq, Prod.mk.injEq] at h
  rw [← h.1]
  intro part hpart
  by_cases hmob : op.IsMobile = true
  · simp [hmob] at hpart ⊢
    tauto
  · simp [hmob] at hpart ⊢
    tauto

/-- Every fragment of a rendered user-agent is one of sixteen texts built from the
platform token, the full version and the fields of the version profile. -/
theorem renderParts_candidates (platform : Platform) (family : BrowserFamily)
    (bp : browserProfile) (op : osProfile) (vp : versionProfile) (fv : String) (r r1 : Rng)
    (parts : List String)
    (h : renderParts (mapGet (mapGet platformProfiles platform).ComponentGenerators family)
      bp op vp fv r = some (parts, r1)) :
    ∃ token q, osToken op r = some (token, q) ∧
      ∀ part ∈ parts, part ∈
        [ "Mozilla/5.0", "(" ++ token ++ ")", "AppleWebKit/537.36", "(KHTML, like Gecko)",
          "Chrome/" ++ fv, "Safari/537.36", "Mobile Safari/537.36",
          replaceFirst bp.UASuffix "%s" (String.mk (splitOnce ".".data fv.data).1),
          "(" ++ token ++ "; rv:" ++ vp.GeckoRevision ++ ")", "Gecko/20100101",
          "Firefox/" ++ vp.GeckoRevision, "AppleWebKit/" ++ vp.WebKitVersion,
          "Version/" ++ vp.SafariVersion, "Mobile/" ++ vp.MobileVersion, "Safari/604.1",
          "Safari/" ++ vp.WebKitVersion ] := by
  obtain ⟨token, q, htok⟩ := osToken_isSome op r
  refine ⟨token, q, htok, ?_⟩
  have hnil : ∀ gens : List UAComponentGenerator, gens = [] →
      renderParts gens bp op vp fv r = some (parts, r1) → parts = [] := by
    intro gens hg hr
    rw [hg] at hr
    simp only [renderParts, Option.some.injEq, Prod.mk.injEq] at hr
    exact hr.1.symm
  by_cases hd : platform = PlatformDesktop
  · subst hd
    by_cases hc : family = Chromium
    · subst hc
      exact candidates_chromium_desktop bp op vp fv r q token htok r1 parts h
    · by_cases hg : family = Gecko
      · subst hg
        exact candidates_gecko_desktop bp op vp fv r q token htok r1 parts h
      · by_cases hw : family = WebKit
        · subst hw
          exact candidates_webkit_desktop bp op vp fv r q token htok r1 parts h
        · have hempty : mapGet (mapGet platformProfiles PlatformDesktop).ComponentGenerators
              family = [] := by
            have h1 : ¬ Chromium = family := fun h => hc h.symm
            have h2 : ¬ Gecko = family := fun h => hg h.symm
            have h3 : ¬ WebKit = family := fun h => hw h.symm
            simp [mapGet, mapFind, platformProfiles, h1, h2, h3]
            rfl
          rw [hnil _ hempty h]
          intro part hpart
          exact absurd hpart (List.not_mem_nil _)
  · by_cases hm : platform = PlatformMobile
    · subst hm
      by_cases hc : family = Chromium
      · subst hc
        exact candidates_chromium_mobile bp op vp fv r q token htok r1 parts h
      · by_cases hg : family = Gecko
        · subst hg
          exact candidates_gecko_mobile bp op vp fv r q token htok r1 parts h
        · by_cases hw : family = WebKit
          · subst hw
            exact candidates_webkit_mobile bp op vp fv r q token htok r1 parts h
          · have hempty : mapGet (mapGet platformProfiles PlatformMobile).ComponentGenerators
                family = [] := by
              have h1 : ¬ Chromium = family := fun h => hc h.symm
              have h2 : ¬ Gecko = family := fun h => hg h.symm
              have h3 : ¬ WebKit = family := fun h => hw h.symm
              simp [mapGet, mapFind, platformProfiles, h1, h2, h3]
              rfl
            rw [hnil _ hempty h]
            intro part hpart
            exact absurd hpart (List.not_mem_nil _)
    · rw [renderParts_unknown_platform platform hd hm family bp op vp fv r] at h
      simp only [Option.some.injEq, Prod.mk.injEq] at h
      rw [← h.1]
      intro part hpart
      exact absurd hpart (List.not_mem_nil _)

/-- The OS a run resolves has an entry in `osProfiles`. -/
theorem validCombos_os_known (g : Generator) (browser : Browser)
    (c : Platform × OperatingSystem) (h : c ∈ validCombos g browser) :
    (c.2, mapGet osProfiles c.2) ∈ osProfiles := by
  rw [validCombos_mem] at h
  obtain ⟨p, _, o, _, concreteOS, _, hc⟩ := h
  rw [comboFor_mem] at hc
  obtain ⟨hceq, prof, hfind, _⟩ := hc
  rw [hceq]
  have hget : mapGet osProfiles concreteOS = prof := by simp [mapGet, hfind]
  rw [hget]
  exact osProfiles_find _ _ hfind

/-- The user-agent of a run holds no opening brace. -/
theorem ResolvedRun_no_brace (g : Generator) (r : Rng) (browser : Browser)
    (platform : Platform) (os : OperatingSystem) (version : Int) (r3 : Rng) (a : Agent)
    (hrun : ResolvedRun g r browser platform os version r3 a) :
    Char.ofNat 123 ∉ a.UserAgent.data := by
  have hfacts := ResolvedRun_facts g r browser platform os version r3 a hrun
  have hos := validCombos_os_known g browser (platform, os) hfacts.2.2.1
  have hvp := mapGet_mem _ _ hfacts.2.2.2.1
  obtain ⟨hsuffix, hfields⟩ := brace_version_fields _ hfacts.2.1
  obtain ⟨hgecko, hwebkit, hsafari, hmobile⟩ := hfields _ hvp
  have hfv := brace_fullVersion (mapGet browserProfiles browser) version r3
  obtain ⟨parts, r1, hparts, hua⟩ := ResolvedRun_userAgent g r browser platform os version r3 a hrun
  obtain ⟨token, q, htok, hcand⟩ := renderParts_candidates _ _ _ _ _ _ _ _ _ hparts
  have htoken := brace_osToken (os, mapGet osProfiles os) hos _ _ token htok
  have hmajor : Char.ofNat 123 ∉
      (replaceFirst (mapGet browserProfiles browser).UASuffix "%s"
        (String.mk (splitOnce ".".data
          (fullVersionOf (mapGet browserProfiles browser) version r3).1.data).1)).data := by
    intro hmem
    rcases replaceFirst_mem _ _ _ _ hmem with e | e
    · exact hsuffix e
    · exact hfv (splitOnce_fst_mem _ _ _ e)
  intro hmem
  rw [hua] at hmem
  rcases Join_mem_data _ _ _ hmem with e | ⟨part, hpart, e⟩
  · exact absurd e (by decide)
  · have hc := hcand part hpart
    simp only [List.mem_cons, List.mem_singleton, List.not_mem_nil, or_false] at hc
    rcases hc with hc | hc | hc | hc | hc | hc | hc | hc | hc | hc | hc | hc | hc | hc | hc | hc
      <;> rw [hc] at e
    · exact absurd e (by decide)
    · exact brace_append _ _ (brace_append _ _ (by decide) htoken) (by decide) e
    · exact absurd e (by decide)
    · exact absurd e (by decide)
    · exact brace_append _ _ (by decide) hfv e
    · exact absurd e (by decide)
    · exact absurd e (by decide)
    · exact hmajor e
    · exact brace_append _ _ (brace_append _ _ (brace_append _ _ (brace_append _ _ (by decide)
        htoken) (by decide)) hgecko) (by decide) e
    · exact absurd e (by decide)
    · exact brace_append _ _ (by decide) hgecko e
    · exact brace_append _ _ (by decide) hwebkit e
    · exact brace_append _ _ (by decide) hsafari e
    · exact brace_append _ _ (by decide) hmobile e
    · exact absurd e (by decide)
    · exact brace_append _ _ (by decide) hwebkit e

/-- C19: the user-agent of every Agent generated in browser mode holds no opening
brace, hence never the placeholder `\x7bdevice_model\x7d`. For an OS profile named
`Android`, `OSGenerator` and `FirefoxOSGenerator` emit the platform token with the
placeholder replaced by one member of `androidDevices` (for the Android profile of
`osProfiles`: `Linux; Android 14; ` followed by the device); for every other OS
profile they emit the platform token unchanged. -/
theorem userAgent_no_placeholder :
    (∀ (g : Generator) (r : Rng) (a : Agent), g.useBotAgents = false → Generate g r = .ok a →
      Contains a.UserAgent "\x7bdevice_model\x7d" = false) ∧
    (∀ (bp : browserProfile) (op : osProfile) (vp : versionProfile) (fv : String) (r : Rng),
      op.Name = "Android" →
      ∃ device ∈ androidDevices,
        OSGenerator bp op vp fv r =
          some ("(" ++ replaceFirst op.PlatformToken "\x7bdevice_model\x7d" device ++ ")",
            r.advance) ∧
        FirefoxOSGenerator bp op vp fv r =
          some ("(" ++ replaceFirst op.PlatformToken "\x7bdevice_model\x7d" device ++ "; rv:" ++
            vp.GeckoRevision ++ ")", r.advance)) ∧
    (∀ device : String,
      replaceFirst (mapGet osProfiles OSAndroid).PlatformToken "\x7bdevice_model\x7d" device =
        "Linux; Android 14; " ++ device ++ "") ∧
    (∀ (bp : browserProfile) (op : osProfile) (vp : versionProfile) (fv : String) (r : Rng),
      op.Name ≠ "Android" →
      OSGenerator bp op vp fv r = some ("(" ++ op.PlatformToken ++ ")", r) ∧
      FirefoxOSGenerator bp op vp fv r =
        some ("(" ++ op.PlatformToken ++ "; rv:" ++ vp.GeckoRevision ++ ")", r)) := by
  refine ⟨?_, ?_, android_token, ?_⟩
  · intro g r a hbot h
    obtain ⟨browser, platform, os, version, r3, hrun⟩ := Generate_browser_inv g r a hbot h
    have hclean := ResolvedRun_no_brace g r browser platform os version r3 a hrun
    rw [Bool.eq_false_iff]
    intro hcontains
    exact hclean (mem_of_Contains _ _ _ (by decide) hcontains)
  · intro bp op vp fv r hname
    rcases osToken_cases op r with ⟨_, device, hdev, htok⟩ | ⟨hne, _⟩
    · refine ⟨device, hdev, ?_, ?_⟩
      · simp only [OSGenerator, htok]
      · simp only [FirefoxOSGenerator, htok]
    · exact absurd hname hne
  · intro bp op vp fv r hname
    rcases osToken_cases op r with ⟨hn, _⟩ | ⟨_, htok⟩
    · exact absurd hn hname
    · constructor
      · simp only [OSGenerator, htok]
      · simp only [FirefoxOSGenerator, htok]

set_option maxRecDepth 100000 in
/-- C19 (witness): the generator of the test `FirefoxMobile`, the Android profile
and the Windows profile. -/
theorem userAgent_no_placeholder_witness :
    Contains (agentOf (Generate firefoxMobileGenerator zeroRng)).UserAgent
      "\x7bdevice_model\x7d" = false ∧
    (∃ device ∈ androidDevices,
      OSGenerator default (mapGet osProfiles OSAndroid) default "" zeroRng =
        some ("(" ++ replaceFirst (mapGet osProfiles OSAndroid).PlatformToken
          "\x7bdevice_model\x7d" device ++ ")", zeroRng.advance) ∧
      FirefoxOSGenerator default (mapGet osProfiles OSAndroid) default "" zeroRng =
        some ("(" ++ replaceFirst (mapGet osProfiles OSAndroid).PlatformToken
          "\x7bdevice_model\x7d" device ++ "; rv:" ++
          (default : versionProfile).GeckoRevision ++ ")", zeroRng.advance)) ∧
    (OSGenerator default (mapGet osProfiles OSWindows) default "" zeroRng =
        some ("(" ++ (mapGet osProfiles OSWindows).PlatformToken ++ ")", zeroRng) ∧
      FirefoxOSGenerator default (mapGet osProfiles OSWindows) default "" zeroRng =
        some ("(" ++ (mapGet osProfiles OSWindows).PlatformToken ++ "; rv:" ++
          (default : versionProfile).GeckoRevision ++ ")", zeroRng)) :=
  ⟨userAgent_no_placeholder.1 firefoxMobileGenerator zeroRng
      (agentOf (Generate firefoxMobileGenerator zeroRng)) rfl (by decide),
    userAgent_no_placeholder.2.1 default (mapGet osProfiles OSAndroid) default "" zeroRng
      (by decide),
    userAgent_no_placeholder.2.2.2 default (mapGet osProfiles OSWindows) default "" zeroRng
      (by decide)⟩

/-! ## The HTTP/2 settings of a generated Agent -/

/-- The settings table of every browser profile is the canonical table of its
rendering family, and is not empty. -/
theorem h2_table_of_family :
    ∀ e ∈ browserProfiles,
      e.2.H2Settings ≠ [] ∧
      (e.2.Family = Chromium → e.2.H2Settings = GetChromiumH2Settings) ∧
      (e.2.Family = Gecko → e.2.H2Settings = GetGeckoH2Settings) ∧
      (e.2.Family = WebKit → e.2.H2Settings = GetWebKitH2Settings) := by
  decide

/-- C20: in browser mode with HTTP/2-only set and no jitter, the HTTP/2 settings of
the Agent are the settings table of the resolved browser's profile, which is the
canonical table of its rendering family: the Chromium table for Chrome, Opera, Edge
and Brave, the Gecko table for Firefox, the WebKit table for Safari; it is not empty.
The Chromium table has header-table-size 65536, max-concurrent-streams 1000,
initial-window-size 6291456 and max-header-list-size 262144; the Gecko table has
initial-window-size 131072; the WebKit table has header-table-size 4096 and
max-header-list-size 16384. With HTTP/2-only off the table is empty. -/
theorem h2_settings_of_family :
    (∀ (g : Generator) (r : Rng) (a : Agent), g.useBotAgents = false → g.h2Only = true →
      g.h2RandomizationProfile = .None → Generate g r = .ok a →
      ∃ browser platform os version r3, ResolvedRun g r browser platform os version r3 a ∧
        a.H2Settings = (mapGet browserProfiles browser).H2Settings ∧ a.H2Settings ≠ [] ∧
        ((mapGet browserProfiles browser).Family = Chromium →
          a.H2Settings = GetChromiumH2Settings) ∧
        ((mapGet browserProfiles browser).Family = Gecko → a.H2Settings = GetGeckoH2Settings) ∧
        ((mapGet browserProfiles browser).Family = WebKit →
          a.H2Settings = GetWebKitH2Settings)) ∧
    (∀ b ∈ [BrowserChrome, BrowserOpera, BrowserEdge, BrowserBrave],
      (mapGet browserProfiles b).Family = Chromium) ∧
    (mapGet browserProfiles BrowserFirefox).Family = Gecko ∧
    (mapGet browserProfiles BrowserSafari).Family = WebKit ∧
    (mapFind GetChromiumH2Settings SettingHeaderTableSize = some 65536 ∧
      mapFind GetChromiumH2Settings SettingMaxConcurrentStreams = some 1000 ∧
      mapFind GetChromiumH2Settings SettingInitialWindowSize = some 6291456 ∧
      mapFind GetChromiumH2Settings SettingMaxHeaderListSize = some 262144) ∧
    mapFind GetGeckoH2Settings SettingInitialWindowSize = some 131072 ∧
    (mapFind GetWebKitH2Settings SettingHeaderTableSize = some 4096 ∧
      mapFind GetWebKitH2Settings SettingMaxHeaderListSize = some 16384) ∧
    (∀ (g : Generator) (r : Rng) (a : Agent), g.useBotAgents = false → g.h2Only = false →
      Generate g r = .ok a → a.H2Settings = []) := by
  refine ⟨?_, by decide, by decide, by decide, by decide, by decide, by decide, ?_⟩
  · intro g r a hbot hh2 hjitter h
    obtain ⟨browser, platform, os, version, r3, hrun⟩ := Generate_browser_inv g r a hbot h
    have hfacts := ResolvedRun_facts g r browser platform os version r3 a hrun
    have htable := h2_table_of_family _ hfacts.2.1
    obtain ⟨q1, q2, _, _, _, hgen⟩ := hrun
    obtain ⟨_, _, _, _, _, _, _, hsettings, _⟩ := generateFor_inv _ _ _ _ _ _ _ hgen
    simp only [hh2, hjitter, ne_eq, not_true_eq_false, if_true, if_false, Option.some.injEq,
      Prod.mk.injEq] at hsettings
    have heq : a.H2Settings = (mapGet browserProfiles browser).H2Settings := hsettings.1.symm
    refine ⟨browser, platform, os, version, r3, ⟨q1, q2, ‹_›, ‹_›, ‹_›, hgen⟩, heq, ?_, ?_, ?_, ?_⟩
    · rw [heq]
      exact htable.1
    · intro hf
      rw [heq]
      exact htable.2.1 hf
    · intro hf
      rw [heq]
      exact htable.2.2.1 hf
    · intro hf
      rw [heq]
      exact htable.2.2.2 hf
  · intro g r a hbot hh2 h
    obtain ⟨browser, platform, os, version, r3, hrun⟩ := Generate_browser_inv g r a hbot h
    obtain ⟨q1, q2, _, _, _, hgen⟩ := hrun
    obtain ⟨_, _, _, _, _, _, _, hsettings, _⟩ := generateFor_inv _ _ _ _ _ _ _ hgen
    simp only [hh2, Bool.false_eq_true, if_false, Option.some.injEq, Prod.mk.injEq] at hsettings
    exact hsettings.1.symm

set_option maxRecDepth 100000 in
/-- C20 (witness): the generator of the test `Chrome`, whose settings are the
Chromium table, and the default generator with HTTP/2-only off. -/
theorem h2_settings_of_family_witness :
    (∃ browser platform os version r3,
      ResolvedRun chrome140Generator zeroRng browser platform os version r3
        (agentOf (Generate chrome140Generator zeroRng)) ∧
      (agentOf (Generate chrome140Generator zeroRng)).H2Settings =
        (mapGet browserProfiles browser).H2Settings ∧
      (agentOf (Generate chrome140Generator zeroRng)).H2Settings ≠ [] ∧
      ((mapGet browserProfiles browser).Family = Chromium →
        (agentOf (Generate chrome140Generator zeroRng)).H2Settings = GetChromiumH2Settings) ∧
      ((mapGet browserProfiles browser).Family = Gecko →
        (agentOf (Generate chrome140Generator zeroRng)).H2Settings = GetGeckoH2Settings) ∧
      ((mapGet browserProfiles browser).Family = WebKit →
        (agentOf (Generate chrome140Generator zeroRng)).H2Settings = GetWebKitH2Settings)) ∧
    (agentOf (Generate noH2Generator zeroRng)).H2Settings = [] :=
  ⟨h2_settings_of_family.1 chrome140Generator zeroRng
      (agentOf (Generate chrome140Generator zeroRng)) rfl rfl rfl (by decide),
    h2_settings_of_family.2.2.2.2.2.2.2 noH2Generator zeroRng
      (agentOf (Generate noH2Generator zeroRng)) rfl rfl (by decide)⟩

/-! ## Lemmas on lookups in maps and header sets -/

/-- An entry of a map whose keys are pairwise distinct is what the lookup finds. -/
theorem mapFind_of_mem {κ ν : Type} [DecidableEq κ] (m : List (κ × ν)) (k : κ) (v : ν)
    (hnd : (mapKeys m).Nodup) (h : (k, v) ∈ m) : mapFind m k = some v := by
  induction m with
  | nil => simp at h
  | cons e rest ih =>
    obtain ⟨k', v'⟩ := e
    simp only [mapKeys, List.map_cons, List.nodup_cons] at hnd
    simp only [mapFind]
    rcases List.mem_cons.1 h with e | e
    · simp only [Prod.mk.injEq] at e
      simp [e.1, e.2]
    · have hne : ¬ k' = k := by
        intro hk
        subst hk
        exact hnd.1 (List.mem_map.2 ⟨(k', v), e, rfl⟩)
      simp only [hne, if_false]
      exact ih hnd.2 e

/-- Filling a header set key by key: a name whose canonical form differs from
those of all the keys keeps its entry. -/
theorem foldl_Set_find_other (f : String → String) (ks : List String) (h : Header) (c : String)
    (hc : ∀ k ∈ ks, CanonicalHeaderKey k ≠ c) :
    mapFind (ks.foldl (fun header k => Header.Set header k (f k)) h) c = mapFind h c := by
  induction ks generalizing h with
  | nil => rfl
  | cons k ks ih =>
    simp only [List.foldl_cons]
    rw [ih _ (fun k' hk' => hc k' (List.mem_cons_of_mem _ hk'))]
    unfold Header.Set
    rw [mapFind_mapSet, if_neg (hc k (List.mem_cons_self _ _))]

/-- Filling a header set key by key: a key with a canonical form of its own is
stored with its value. -/
theorem foldl_Set_find (f : String → String) (ks : List String) (h : Header) (k : String)
    (hnd : (ks.map CanonicalHeaderKey).Nodup) (hk : k ∈ ks) :
    mapFind (ks.foldl (fun header k => Header.Set header k (f k)) h) (CanonicalHeaderKey k) =
      some [f k] := by
  induction ks generalizing h with
  | nil => simp at hk
  | cons k0 ks ih =>
    simp only [List.map_cons, List.nodup_cons] at hnd
    simp only [List.foldl_cons]
    rcases List.mem_cons.1 hk with e | e
    · subst e
      rw [foldl_Set_find_other]
      · unfold Header.Set
        rw [mapFind_mapSet, if_pos rfl]
      · intro k' hk' heq
        exact hnd.1 (heq ▸ List.mem_map_of_mem _ hk')
    · exact ih _ hnd.2 e

/-- The header set that `finishHeaders` fills, read at one of the ordered keys. -/
theorem finishHeaders_lookup_mem (m : List (String × String)) (keys : List String) (k : String)
    (hnd : (keys.map CanonicalHeaderKey).Nodup) (hk : k ∈ keys) :
    Header.Lookup (finishHeaders m keys).1 k = some (mapGet m k) ∧
    Header.Get (finishHeaders m keys).1 k = mapGet m k := by
  have h := foldl_Set_find (fun k => mapGet m k) keys [] k hnd hk
  unfold Header.Lookup Header.Get finishHeaders
  simp only [h]
  exact ⟨rfl, rfl⟩

/-- The header set that `finishHeaders` fills, read at a name whose canonical form
is that of no ordered key. -/
theorem finishHeaders_lookup_other (m : List (String × String)) (keys : List String)
    (name : String) (hc : ∀ k ∈ keys, CanonicalHeaderKey k ≠ CanonicalHeaderKey name) :
    Header.Lookup (finishHeaders m keys).1 name = none ∧
    Header.Get (finishHeaders m keys).1 name = "" := by
  have h := foldl_Set_find_other (fun k => mapGet m k) keys [] (CanonicalHeaderKey name) hc
  unfold Header.Lookup Header.Get finishHeaders
  simp only [h]
  exact ⟨rfl, rfl⟩

/-- The header set built from a map with emitted names only, read at an emitted
name: the entry of the map, or nothing. -/
theorem finishHeaders_lookup (m : List (String × String)) (keys : List String) (name : String)
    (hm : keysWithin emittedHeaderNames m) (hp : keys.Perm (mapKeys m))
    (hname : name ∈ emittedHeaderNames) :
    Header.Lookup (finishHeaders m keys).1 name = mapFind m name ∧
    Header.Get (finishHeaders m keys).1 name = mapGet m name := by
  have hnd := canonical_nodup_of_keysWithin m keys hm hp
  by_cases hk : name ∈ mapKeys m
  · have hk2 : name ∈ keys := hp.symm.subset hk
    obtain ⟨h1, h2⟩ := finishHeaders_lookup_mem m keys name hnd hk2
    refine ⟨?_, h2⟩
    rw [h1]
    cases hfind : mapFind m name with
    | none => exact absurd hk ((mapFind_eq_none m name).1 hfind)
    | some v => simp [mapGet, hfind]
  · have hnone := (mapFind_eq_none m name).2 hk
    have hc : ∀ k ∈ keys, CanonicalHeaderKey k ≠ CanonicalHeaderKey name := by
      intro k hkk heq
      have hkm : k ∈ mapKeys m := hp.subset hkk
      have := canonical_injective_on_emitted k (hm.2 k hkm) name hname heq
      exact hk (this ▸ hkm)
    obtain ⟨h1, h2⟩ := finishHeaders_lookup_other m keys name hc
    refine ⟨by rw [h1, hnone], ?_⟩
    rw [h2]
    simp [mapGet, hnone]

/-! ## Bot mode -/

/-- A successful run of the bot branch chose one eligible profile and copied it. -/
theorem generateBot_inv (g : Generator) (r : Rng) (a : Agent) (h : generateBot g r = .ok a) :
    ∃ p r1, Choice (eligibleBots g) r = some (p, r1) ∧
      a.UserAgent = p.UserAgent ∧ a.ClientHelloID = p.HelloID ∧ a.ClientHelloSpec = none ∧
      a.H2Settings = (if g.h2Only then GetChromiumH2Settings else []) ∧
      a.Headers = (finishHeaders p.Headers (rangeKeys p.Headers r1).1).1 ∧
      a.HeaderOrder = pseudoHeaders ++
        PriorityHeaderSorter (rangeKeys p.Headers (rangeKeys p.Headers r1).2).1 := by
  unfold generateBot at h
  split at h
  · simp at h
  · split at h
    · simp at h
    · rename_i chosen r1 hchoice
      simp only [Except.ok.injEq] at h
      subst h
      exact ⟨chosen, r1, hchoice, rfl, rfl, rfl, rfl, rfl, rfl⟩

/-- The members of the eligible profiles: the whole catalogue without a filter, the
profiles of the requested categories with one. -/
theorem eligibleBots_mem (g : Generator) (p : botProfile) :
    p ∈ eligibleBots g ↔
      (g.botAgentTypes = [] ∧ p ∈ allBotProfiles) ∨
      (g.botAgentTypes ≠ [] ∧ ∃ name ∈ g.botAgentTypes, ∃ ps,
        mapFind botProfileCategories name = some ps ∧ p ∈ ps) := by
  unfold eligibleBots
  cases ht : g.botAgentTypes with
  | nil => simp
  | cons t ts =>
    simp only [List.isEmpty_cons, Bool.false_eq_true, if_false, List.mem_flatMap, ne_eq,
      reduceCtorEq, not_false_eq_true, true_and, false_and, false_or]
    constructor
    · rintro ⟨name, hname, hmem⟩
      cases hfind : mapFind botProfileCategories name with
      | none => simp [hfind] at hmem
      | some ps =>
        simp only [hfind, Option.getD_some] at hmem
        exact ⟨name, hname, ps, hfind, hmem⟩
    · rintro ⟨name, hname, ps, hfind, hmem⟩
      exact ⟨name, hname, by simpa [hfind] using hmem⟩

set_option maxRecDepth 100000 in
/-- Every profile of the catalogue has a non-empty `accept` and a non-empty
`accept-encoding` header. -/
theorem bot_accept_headers :
    ∀ p ∈ allBotProfiles,
      (mapFind p.Headers "accept").isSome = true ∧ mapGet p.Headers "accept" ≠ "" ∧
      (mapFind p.Headers "accept-encoding").isSome = true ∧
      mapGet p.Headers "accept-encoding" ≠ "" := by
  decide

set_option maxRecDepth 100000 in
/-- No user-agent of the catalogue is listed under two categories. -/
theorem bot_userAgents_disjoint :
    ∀ e1 ∈ botProfileCategories, ∀ e2 ∈ botProfileCategories,
      ∀ p ∈ e1.2, ∀ q ∈ e2.2, p.UserAgent = q.UserAgent → e1.1 = e2.1 := by
  decide

/-- C21: in bot mode every successful run of `Generate` returns an Agent copied from
one catalogue profile `p`: the user-agent and the TLS identity are `p`'s, there is no
TLS specification, the HTTP/2 table is the Chromium table when HTTP/2-only is set and
empty otherwise, the keys of the header set are the canonical forms of `p`'s header
names and every header of `p` is read back with `p`'s value. Without a category
filter `p` is a profile of the full catalogue; with one, `p` is listed under a
requested category, and every category that lists the returned user-agent is a
requested one. The `accept` and `accept-encoding` headers are read back non-empty,
and the two toggles do not change the result. -/
theorem bot_agent_verbatim :
    (∀ (g : Generator) (r : Rng) (a : Agent), g.useBotAgents = true → Generate g r = .ok a →
      ∃ p ∈ allBotProfiles,
        (g.botAgentTypes ≠ [] →
          (∃ name ∈ g.botAgentTypes, ∃ ps,
            mapFind botProfileCategories name = some ps ∧ p ∈ ps) ∧
          ∀ e ∈ botProfileCategories, ∀ q ∈ e.2, q.UserAgent = a.UserAgent →
            e.1 ∈ g.botAgentTypes) ∧
        a.UserAgent = p.UserAgent ∧ a.ClientHelloID = p.HelloID ∧ a.ClientHelloSpec = none ∧
        a.H2Settings = (if g.h2Only then GetChromiumH2Settings else []) ∧
        (mapKeys a.Headers).Perm ((mapKeys p.Headers).map CanonicalHeaderKey) ∧
        (∀ k v, (k, v) ∈ p.Headers →
          Header.Lookup a.Headers k = some v ∧ Header.Get a.Headers k = v) ∧
        Header.Get a.Headers "accept" = mapGet p.Headers "accept" ∧
        Header.Get a.Headers "accept" ≠ "" ∧
        Header.Get a.Headers "accept-encoding" = mapGet p.Headers "accept-encoding" ∧
        Header.Get a.Headers "accept-encoding" ≠ "") ∧
    (∀ (g : Generator) (r : Rng) (accept encoding : Bool), g.useBotAgents = true →
      Generate { g with acceptEnabled := accept, acceptEncodingEnabled := encoding } r =
        Generate g r) := by
  constructor
  · intro g r a hbot h
    unfold Generate at h
    simp only [hbot, if_true] at h
    obtain ⟨p, r1, hchoice, hua, hid, hspec, hh2, hheaders, _⟩ := generateBot_inv g r a h
    have hel := Choice_mem _ _ _ _ hchoice
    have hcat := eligibleBots_subset g p hel
    have hnd := bot_headers_canonical_nodup p hcat
    have hperm := rangeKeys_perm p.Headers r1
    have hvnd : ((rangeKeys p.Headers r1).1.map CanonicalHeaderKey).Nodup :=
      (hperm.map _).nodup_iff.2 hnd
    have hkeys := foldl_Set_keys (fun k => mapGet p.Headers k) (rangeKeys p.Headers r1).1 []
      (by simpa [mapKeys] using hvnd)
    have hread : ∀ k ∈ mapKeys p.Headers,
        Header.Lookup a.Headers k = some (mapGet p.Headers k) ∧
        Header.Get a.Headers k = mapGet p.Headers k := by
      intro k hk
      rw [hheaders]
      exact finishHeaders_lookup_mem p.Headers _ k hvnd (hperm.symm.subset hk)
    obtain ⟨ha1, ha2, he1, he2⟩ := bot_accept_headers p hcat
    have hacc : "accept" ∈ mapKeys p.Headers := by
      by_contra hn
      rw [(mapFind_eq_none _ _).2 hn] at ha1
      simp at ha1
    have henc : "accept-encoding" ∈ mapKeys p.Headers := by
      by_contra hn
      rw [(mapFind_eq_none _ _).2 hn] at he1
      simp at he1
    refine ⟨p, hcat, ?_, hua, hid, hspec, hh2, ?_, ?_, (hread _ hacc).2, ?_,
      (hread _ henc).2, ?_⟩
    · intro hne
      rcases (eligibleBots_mem g p).1 hel with ⟨hnil, _⟩ | ⟨_, name, hname, ps, hfind, hmem⟩
      · exact absurd hnil hne
      · refine ⟨⟨name, hname, ps, hfind, hmem⟩, ?_⟩
        intro e he q hq hqua
        have hentry := mapFind_mem _ _ _ hfind
        have := bot_userAgents_disjoint e he (name, ps) hentry q hq p hmem (by rw [hqua, hua])
        rw [this]
        exact hname
    · rw [hheaders]
      simp only [finishHeaders]
      rw [hkeys]
      simp only [mapKeys, List.map_nil, List.nil_append]
      exact hperm.map _
    · intro k v hkv
      have hk : k ∈ mapKeys p.Headers := List.mem_map.2 ⟨(k, v), hkv, rfl⟩
      have hfind := mapFind_of_mem p.Headers k v (List.Nodup.of_map _ hnd) hkv
      have hget : mapGet p.Headers k = v := by simp [mapGet, hfind]
      rw [← hget]
      exact hread k hk
    · rw [(hread _ hacc).2]
      exact ha2
    · rw [(hread _ henc).2]
      exact he2
  · intro g r accept encoding hbot
    unfold Generate
    simp only [hbot, if_true]
    rfl

set_option maxRecDepth 100000 in
/-- C21 (witness): the bot generator restricted to `GoogleBot`, with both toggles
off. -/
theorem bot_agent_verbatim_witness :
    (∃ p ∈ allBotProfiles,
      (botTogglesOffGenerator.botAgentTypes ≠ [] →
        (∃ name ∈ botTogglesOffGenerator.botAgentTypes, ∃ ps,
          mapFind botProfileCategories name = some ps ∧ p ∈ ps) ∧
        ∀ e ∈ botProfileCategories, ∀ q ∈ e.2,
          q.UserAgent = (agentOf (Generate botTogglesOffGenerator zeroRng)).UserAgent →
          e.1 ∈ botTogglesOffGenerator.botAgentTypes) ∧
      (agentOf (Generate botTogglesOffGenerator zeroRng)).UserAgent = p.UserAgent ∧
      (agentOf (Generate botTogglesOffGenerator zeroRng)).ClientHelloID = p.HelloID ∧
      (agentOf (Generate botTogglesOffGenerator zeroRng)).ClientHelloSpec = none ∧
      (agentOf (Generate botTogglesOffGenerator zeroRng)).H2Settings =
        (if botTogglesOffGenerator.h2Only then GetChromiumH2Settings else []) ∧
      (mapKeys (agentOf (Generate botTogglesOffGenerator zeroRng)).Headers).Perm
        ((mapKeys p.Headers).map CanonicalHeaderKey) ∧
      (∀ k v, (k, v) ∈ p.Headers →
        Header.Lookup (agentOf (Generate botTogglesOffGenerator zeroRng)).Headers k = some v ∧
        Header.Get (agentOf (Generate botTogglesOffGenerator zeroRng)).Headers k = v) ∧
      Header.Get (agentOf (Generate botTogglesOffGenerator zeroRng)).Headers "accept" =
        mapGet p.Headers "accept" ∧
      Header.Get (agentOf (Generate botTogglesOffGenerator zeroRng)).Headers "accept" ≠ "" ∧
      Header.Get (agentOf (Generate botTogglesOffGenerator zeroRng)).Headers "accept-encoding" =
        mapGet p.Headers "accept-encoding" ∧
      Header.Get (agentOf (Generate botTogglesOffGenerator zeroRng)).Headers "accept-encoding" ≠
        "") ∧
    Generate { botGoogleGenerator with acceptEnabled := false, acceptEncodingEnabled := false }
        zeroRng = Generate botGoogleGenerator zeroRng :=
  ⟨bot_agent_verbatim.1 botTogglesOffGenerator zeroRng
      (agentOf (Generate botTogglesOffGenerator zeroRng)) rfl (by decide),
    bot_agent_verbatim.2 botGoogleGenerator zeroRng false false rfl⟩

/-- Every category of the catalogue lists at least one profile. -/
theorem bot_categories_nonempty : ∀ e ∈ botProfileCategories, e.2 ≠ [] := by
  decide

/-- The eligible profiles are none exactly when no requested name is a category,
under a non-empty filter. -/
theorem eligibleBots_eq_nil (g : Generator) (hne : g.botAgentTypes ≠ []) :
    eligibleBots g = [] ↔ ∀ name ∈ g.botAgentTypes, name ∉ mapKeys botProfileCategories := by
  rw [List.eq_nil_iff_forall_not_mem]
  constructor
  · intro h name hname hkey
    cases hfind : mapFind botProfileCategories name with
    | none => exact (mapFind_eq_none _ _).1 hfind hkey
    | some ps =>
      have hentry := mapFind_mem _ _ _ hfind
      have hps := bot_categories_nonempty _ hentry
      obtain ⟨p, hp⟩ := List.exists_mem_of_ne_nil ps hps
      exact h p ((eligibleBots_mem g p).2 (Or.inr ⟨hne, name, hname, ps, hfind, hp⟩))
  · intro h p hp
    rcases (eligibleBots_mem g p).1 hp with ⟨hnil, _⟩ | ⟨_, name, hname, ps, hfind, _⟩
    · exact hne hnil
    · exact h name hname (List.mem_map.2 ⟨(name, ps), mapFind_mem _ _ _ hfind, rfl⟩)

/-- The bot branch returns an Agent when some profile is eligible. -/
theorem generateBot_isOk (g : Generator) (r : Rng) (h : eligibleBots g ≠ []) :
    ∃ a, generateBot g r = .ok a := by
  obtain ⟨p, hp⟩ := Choice_isSome (eligibleBots g) r h
  have hnot : (eligibleBots g).isEmpty = false := by
    cases he : eligibleBots g with
    | nil => exact absurd he h
    | cons _ _ => rfl
  unfold generateBot
  simp only [hnot, Bool.false_eq_true, if_false, hp]
  exact ⟨_, rfl⟩

/-- C22: in bot mode with a non-empty category filter, `Generate` returns the
no-bot-profiles error when none of the requested names is a key of
`botProfileCategories`, and returns an Agent when one of them is; so it fails
exactly when no profile matches. The name `NonExistentBot` is no key. With an empty
filter `Generate` always returns an Agent. -/
theorem bot_filter_failure :
    (∀ (g : Generator) (r : Rng), g.useBotAgents = true → g.botAgentTypes ≠ [] →
      ((∀ name ∈ g.botAgentTypes, name ∉ mapKeys botProfileCategories) →
        Generate g r = .error (.errorf
          "legitagent: no bot profiles found for the specified types: %v")) ∧
      ((∃ name ∈ g.botAgentTypes, name ∈ mapKeys botProfileCategories) →
        ∃ a, Generate g r = .ok a)) ∧
    "NonExistentBot" ∉ mapKeys botProfileCategories ∧
    (∀ (g : Generator) (r : Rng), g.useBotAgents = true → g.botAgentTypes = [] →
      ∃ a, Generate g r = .ok a) := by
  refine ⟨?_, by decide, ?_⟩
  · intro g r hbot hne
    constructor
    · intro hnone
      have hempty := (eligibleBots_eq_nil g hne).2 hnone
      unfold Generate generateBot
      simp only [hbot, if_true, hempty, List.isEmpty_nil]
    · rintro ⟨name, hname, hkey⟩
      have hsome : eligibleBots g ≠ [] := by
        intro hempty
        exact (eligibleBots_eq_nil g hne).1 hempty name hname hkey
      obtain ⟨a, ha⟩ := generateBot_isOk g r hsome
      refine ⟨a, ?_⟩
      unfold Generate
      simp only [hbot, if_true, ha]
  · intro g r hbot hnil
    have hall : eligibleBots g = allBotProfiles := by
      unfold eligibleBots
      simp [hnil]
    have hsome : eligibleBots g ≠ [] := by
      rw [hall]
      decide
    obtain ⟨a, ha⟩ := generateBot_isOk g r hsome
    refine ⟨a, ?_⟩
    unfold Generate
    simp only [hbot, if_true, ha]

set_option maxRecDepth 100000 in
/-- C22 (witness): the filter `NonExistentBot` fails, the filter `GoogleBot` and the
empty filter succeed. -/
theorem bot_filter_failure_witness :
    Generate botInvalidGenerator zeroRng = .error (.errorf
      "legitagent: no bot profiles found for the specified types: %v") ∧
    (∃ a, Generate botGoogleGenerator zeroRng = .ok a) ∧
    (∃ a, Generate botGenerator zeroRng = .ok a) :=
  ⟨(bot_filter_failure.1 botInvalidGenerator zeroRng rfl (by decide)).1 (by decide),
    (bot_filter_failure.1 botGoogleGenerator zeroRng rfl (by decide)).2
      ⟨BotGoogle, by decide, by decide⟩,
    bot_filter_failure.2.2 botGenerator zeroRng rfl rfl⟩

/-! ## Release of a record -/

/-- Deleting every key of a map, in any order, leaves no entry. -/
theorem foldl_mapDelete_nil {κ ν : Type} [DecidableEq κ] (ks : List κ) (m : List (κ × ν))
    (h : ∀ k ∈ mapKeys m, k ∈ ks) : ks.foldl (fun h k => mapDelete h k) m = [] := by
  induction ks generalizing m with
  | nil =>
    cases m with
    | nil => rfl
    | cons e rest => exact absurd (h e.1 (by simp [mapKeys])) (List.not_mem_nil _)
  | cons k ks ih =>
    simp only [List.foldl_cons]
    apply ih
    intro k' hk'
    simp only [mapKeys, mapDelete, List.mem_map, List.mem_filter, decide_eq_true_eq] at hk'
    obtain ⟨e, ⟨he, hne⟩, rfl⟩ := hk'
    rcases List.mem_cons.1 (h e.1 (List.mem_map.2 ⟨e, he, rfl⟩)) with heq | hmem
    · exact absurd heq hne
    · exact hmem

/-- The loop that deletes every key leaves the map without entries. -/
theorem deleteAll_nil (m : Header) (r : Rng) : deleteAll m r = [] :=
  foldl_mapDelete_nil _ _ (fun _ hk => (rangeKeys_perm m r).symm.subset hk)

/-- C26: `ReleaseAgent` on the nil pointer leaves the memory as it is. On a pointer
`p` it leaves the record at `p` with an empty user-agent, nil header order, nil TLS
specification, nil HTTP/2 table, the zero TLS identity and the same header map
reference as before; the map object behind that reference has no entries left
(every key was deleted from that very object, in whatever order the keys were
visited), so every holder of the reference sees it empty; a nil header map stays
nil. The pointer `p` is put into the pool; no other record and no other map object
changes. -/
theorem ReleaseAgent_clears :
    (∀ (mem : Memory) (r : Rng), ReleaseAgent mem none r = mem) ∧
    (∀ (mem : Memory) (p : Nat) (r : Rng),
      ((ReleaseAgent mem (some p) r).agents p).UserAgent = "" ∧
      ((ReleaseAgent mem (some p) r).agents p).Headers = (mem.agents p).Headers ∧
      ((ReleaseAgent mem (some p) r).agents p).HeaderOrder = none ∧
      ((ReleaseAgent mem (some p) r).agents p).ClientHelloSpec = none ∧
      ((ReleaseAgent mem (some p) r).agents p).ClientHelloID = default ∧
      ((ReleaseAgent mem (some p) r).agents p).H2Settings = none ∧
      (∀ h, (mem.agents p).Headers = some h →
        (ReleaseAgent mem (some p) r).headerMaps h = [] ∧
        (ReleaseAgent mem (some p) r).headerMaps h =
          (rangeKeys (mem.headerMaps h) r).1.foldl (fun m k => mapDelete m k)
            (mem.headerMaps h)) ∧
      (ReleaseAgent mem (some p) r).pool = p :: mem.pool ∧
      (∀ x, x ≠ p → (ReleaseAgent mem (some p) r).agents x = mem.agents x) ∧
      (∀ x, (mem.agents p).Headers ≠ some x →
        (ReleaseAgent mem (some p) r).headerMaps x = mem.headerMaps x)) := by
  refine ⟨fun _ _ => rfl, ?_⟩
  intro mem p r
  have hrec : (ReleaseAgent mem (some p) r).agents p =
      { UserAgent := "", Headers := (mem.agents p).Headers, HeaderOrder := none,
        ClientHelloSpec := none, ClientHelloID := default, H2Settings := none } := by
    simp only [ReleaseAgent, if_true]
  have hmap : ∀ h, (mem.agents p).Headers = some h →
      (ReleaseAgent mem (some p) r).headerMaps h = deleteAll (mem.headerMaps h) r := by
    intro h hh
    simp only [ReleaseAgent, hh, if_true]
  refine ⟨by rw [hrec], by rw [hrec], by rw [hrec], by rw [hrec], by rw [hrec], by rw [hrec],
    ?_, rfl, ?_, ?_⟩
  · intro h hh
    exact ⟨by rw [hmap h hh, deleteAll_nil], by rw [hmap h hh]; rfl⟩
  · intro x hx
    simp only [ReleaseAgent, hx, if_false]
  · intro x hx
    cases hh : (mem.agents p).Headers with
    | none => simp only [ReleaseAgent, hh]
    | some h =>
      have hne : ¬ x = h := by
        intro e
        apply hx
        rw [hh, e]
      simp only [ReleaseAgent, hh, hne, if_false]

/-- C26 (witness): in the sample memory the record at address 0 is released: it is
cleared and in the pool, its header map at address 7, which had two entries, is
empty, and the record at address 1, which holds the same map, sees it empty. -/
theorem ReleaseAgent_clears_witness :
    ((ReleaseAgent sampleMemory (some 0) zeroRng).agents 0).UserAgent = "" ∧
    ((ReleaseAgent sampleMemory (some 0) zeroRng).agents 0).Headers = some 7 ∧
    sampleMemory.headerMaps 7 = [("Accept", ["*/*"]), ("User-Agent", ["Mozilla/5.0"])] ∧
    (ReleaseAgent sampleMemory (some 0) zeroRng).headerMaps 7 = [] ∧
    ((ReleaseAgent sampleMemory (some 0) zeroRng).agents 1).Headers = some 7 ∧
    (ReleaseAgent sampleMemory (some 0) zeroRng).pool = [0] := by
  obtain ⟨hua, hh, _, _, _, _, hmap, hpool, hother, _⟩ :=
    ReleaseAgent_clears.2 sampleMemory 0 zeroRng
  refine ⟨hua, hh, rfl, (hmap 7 rfl).1, ?_, hpool⟩
  rw [hother 1 (by decide)]
  rfl

/-! ## Lemmas on the assignments of `buildHeaders` -/

/-- Lookup in a list written after another. -/
theorem mapFind_append {κ ν : Type} [DecidableEq κ] (a b : List (κ × ν)) (k : κ) :
    mapFind (a ++ b) k = (mapFind a k).or (mapFind b k) := by
  induction a with
  | nil => simp [mapFind]
  | cons e rest ih =>
    obtain ⟨k', v'⟩ := e
    simp only [List.cons_append, mapFind]
    by_cases hk : k' = k
    · simp [hk]
    · simp [hk, ih]

/-- After a run of assignments the last assignment to a key is what the map holds
for it; a key that was not assigned keeps its entry. -/
theorem mapFind_assignAll (m kvs : List (String × String)) (k : String) :
    mapFind (assignAll m kvs) k = (mapFind kvs.reverse k).or (mapFind m k) := by
  induction kvs generalizing m with
  | nil => simp [assignAll, mapFind]
  | cons kv rest ih =>
    have hstep : assignAll m (kv :: rest) = assignAll (mapSet m kv.1 kv.2) rest := rfl
    rw [hstep, ih, mapFind_mapSet, List.reverse_cons, mapFind_append]
    cases hrest : mapFind rest.reverse k with
    | some v => simp
    | none =>
      simp only [Option.none_or, mapFind]
      by_cases hk : kv.1 = k
      · simp [hk]
      · simp [hk]

/-- The loop of the extreme profile leaves a key that does not start with `sec-`
as it is. -/
theorem mapFind_dropLoop_keep (ks : List String) (m : List (String × String)) (r : Rng)
    (k : String) (hk : HasPrefix k "sec-" = false) :
    mapFind (dropLoop ks m r).1 k = mapFind m k := by
  induction ks generalizing m r with
  | nil => rfl
  | cons k0 ks ih =>
    simp only [dropLoop]
    split
    · split
      · rw [ih]
        have hne : k0 ≠ k := by
          intro e
          subst e
          simp_all
        unfold mapDelete
        induction m with
        | nil => rfl
        | cons e rest ihm =>
          obtain ⟨k', v'⟩ := e
          simp only [List.filter_cons, decide_not]
          by_cases hk' : k' = k0
          · subst hk'
            simp only [decide_True, Bool.not_true, Bool.false_eq_true, if_false, mapFind, hne]
            simpa using ihm
          · simp only [hk', decide_False, Bool.not_false, if_true, mapFind]
            by_cases hkk : k' = k
            · simp [hkk]
            · simp only [hkk, if_false]
              simpa using ihm
      · exact ih _ _
    · exact ih _ _

/-- The loop of the extreme profile only deletes: an entry it leaves was there. -/
theorem mapFind_dropLoop_sub (ks : List String) (m : List (String × String)) (r : Rng)
    (k v : String) (h : mapFind (dropLoop ks m r).1 k = some v) : mapFind m k = some v := by
  induction ks generalizing m r with
  | nil => exact h
  | cons k0 ks ih =>
    simp only [dropLoop] at h
    split at h
    · split at h
      · have h1 := ih _ _ h
        unfold mapDelete at h1
        clear h ih
        induction m with
        | nil => simp [mapFind] at h1
        | cons e rest ihm =>
          obtain ⟨k', v'⟩ := e
          simp only [List.filter_cons, decide_not] at h1
          by_cases hk' : k' = k0
          · subst hk'
            simp only [decide_True, Bool.not_true, Bool.false_eq_true, if_false] at h1
            have hrest := ihm (by simpa using h1)
            simp only [mapFind]
            by_cases hkk : k' = k
            · subst hkk
              exfalso
              have hmem := mapFind_mem _ _ _ (by simpa using h1 : mapFind
                (rest.filter fun e => !decide (e.1 = k')) k' = some v)
              simp at hmem
            · simp [hkk, hrest]
          · simp only [hk', decide_False, Bool.not_false, if_true, mapFind] at h1
            simp only [mapFind]
            by_cases hkk : k' = k
            · simpa [hkk] using h1
            · simp only [hkk, if_false] at h1 ⊢
              exact ihm (by simpa using h1)
      · exact ih _ _ h
    · exact ih _ _ h

/-- The assignments of the negotiation headers, spelled out. -/
theorem negotiationAssignments_inv (g : Generator) (vp : versionProfile) (r r1 : Rng)
    (neg : List (String × String)) (h : negotiationAssignments g vp r = some (neg, r1)) :
    ∃ lang tmpl ra re rl, lang ∈ g.languageProfiles ∧
      (g.acceptEnabled = true →
        tmpl ∈ (if g.requestType = RequestTypeXHR then vp.AcceptHeaderPatternsXHR
          else vp.AcceptHeaderPatterns)) ∧
      neg =
        (if g.acceptEnabled then [("accept", (buildAcceptHeader tmpl ra).1)] else []) ++
        (if g.acceptEncodingEnabled then [("accept-encoding", (generateAcceptEncoding re).1)]
          else []) ++
        [("accept-language", (buildAcceptHeader lang rl).1)] := by
  unfold negotiationAssignments at h
  dsimp only at h
  generalize (if g.requestType = RequestTypeXHR then vp.AcceptHeaderPatternsXHR
    else vp.AcceptHeaderPatterns) = tpl at h ⊢
  split at h
  · simp at h
  · rename_i lang q1 hlang
    have hl := Choice_mem _ _ _ _ hlang
    cases hacc : g.acceptEnabled with
    | false =>
      cases henc : g.acceptEncodingEnabled with
      | false =>
        simp only [hacc, henc, Bool.false_eq_true, if_false, Option.some.injEq,
          Prod.mk.injEq] at h
        exact ⟨lang, [], q1, q1, q1, hl, by simp, by rw [← h.1]; simp⟩
      | true =>
        simp only [hacc, henc, Bool.false_eq_true, if_false, if_true, Option.some.injEq,
          Prod.mk.injEq] at h
        exact ⟨lang, [], q1, q1, (generateAcceptEncoding q1).2, hl, by simp,
          by rw [← h.1]; simp⟩
    | true =>
      simp only [hacc, if_true] at h
      split at h
      · simp at h
      · rename_i acc q3 hacc2
        split at hacc2
        · simp at hacc2
        · rename_i tmpl q2 htmpl
          simp only [Option.some.injEq, Prod.mk.injEq] at hacc2
          have htm := Choice_mem _ _ _ _ htmpl
          cases henc : g.acceptEncodingEnabled with
          | false =>
            simp only [henc, Bool.false_eq_true, if_false, Option.some.injEq,
              Prod.mk.injEq] at h
            exact ⟨lang, tmpl, q2, q3, q3, hl, fun _ => htm,
              by rw [← h.1, ← hacc2.1]; simp⟩
          | true =>
            simp only [henc, if_true, Option.some.injEq, Prod.mk.injEq] at h
            exact ⟨lang, tmpl, q2, q3, (generateAcceptEncoding q3).2, hl, fun _ => htm,
              by rw [← h.1, ← hacc2.1]; simp⟩

/-- The assignments of the client hints, spelled out. -/
theorem hintAssignments_inv (g : Generator) (browser : browserProfile) (os : osProfile)
    (platform : platformProfile) (version : Int) (fullVersion : String) (r r1 : Rng)
    (hints : List (String × String))
    (h : hintAssignments g browser os platform version fullVersion r = some (hints, r1)) :
    (browser.ChromiumBased = false ∧ hints = []) ∨
    (browser.ChromiumBased = true ∧ ∃ ua q full q2,
      buildSecChUa browser.Brand (Itoa version) false true r = some (ua, q) ∧
      (g.fullFingerprint = true →
        buildSecChUa browser.Brand fullVersion true true q = some (full, q2)) ∧
      hints =
        [ ("sec-ch-ua", ua), ("sec-ch-ua-mobile", platform.MobileHint),
          ("sec-ch-ua-platform", "\"" ++ os.Name ++ "\"") ] ++
        (if g.fullFingerprint then
          [("sec-ch-ua-full-version-list", full)] ++ osHintAssignments os else [])) := by
  unfold hintAssignments at h
  cases hcb : browser.ChromiumBased with
  | false =>
    simp only [hcb, Bool.false_eq_true, if_false, Option.some.injEq, Prod.mk.injEq] at h
    exact Or.inl ⟨rfl, h.1.symm⟩
  | true =>
    simp only [hcb, if_true] at h
    split at h
    · simp at h
    · rename_i ua q hua
      cases hff : g.fullFingerprint with
      | false =>
        simp only [hff, Bool.false_eq_true, if_false, Option.some.injEq, Prod.mk.injEq] at h
        refine Or.inr ⟨rfl, ua, q, "", q, hua, by simp, ?_⟩
        rw [← h.1]
        simp
      | true =>
        simp only [hff, if_true] at h
        split at h
        · simp at h
        · rename_i full q2 hfull
          simp only [Option.some.injEq, Prod.mk.injEq] at h
          refine Or.inr ⟨rfl, ua, q, full, q2, hua, fun _ => hfull, ?_⟩
          rw [← h.1]
          simp

/-- The assignments of the fetch-metadata headers, spelled out. -/
theorem fetchAssignments_inv (g : Generator) (browser : browserProfile) (r r1 : Rng)
    (fetch : List (String × String)) (h : fetchAssignments g browser r = some (fetch, r1)) :
    ∃ dest ∈ subresourceDests,
      fetch =
        (if g.requestType = RequestTypeNavigate ∧ browser.Brand = "Brave" then [("sec-gpc", "1")]
          else []) ++
        (if g.requestType = RequestTypeNavigate then
          [ ("sec-fetch-dest", "document"), ("sec-fetch-mode", "navigate"),
            ("sec-fetch-site", "none"), ("sec-fetch-user", "?1"),
            ("upgrade-insecure-requests", "1") ]
        else if g.requestType = RequestTypeSubresource then
          [ ("sec-fetch-dest", dest), ("sec-fetch-mode", "no-cors"),
            ("sec-fetch-site", "same-origin") ]
        else if g.requestType = RequestTypeXHR then
          [ ("sec-fetch-dest", "empty"), ("sec-fetch-mode", "cors"),
            ("sec-fetch-site", "same-origin") ]
        else []) := by
  unfold fetchAssignments at h
  by_cases hnav : g.requestType = RequestTypeNavigate
  · simp only [eq_true hnav, if_true, true_and, Option.some.injEq, Prod.mk.injEq] at h ⊢
    exact ⟨"style", by decide, h.1.symm⟩
  · by_cases hsub : g.requestType = RequestTypeSubresource
    · simp only [eq_false hnav, eq_true hsub, if_true, if_false, false_and] at h ⊢
      split at h
      · simp at h
      · rename_i dest q hdest
        simp only [Option.some.injEq, Prod.mk.injEq] at h
        exact ⟨dest, Choice_mem _ _ _ _ hdest, h.1.symm⟩
    · by_cases hxhr : g.requestType = RequestTypeXHR
      · simp only [eq_false hnav, eq_false hsub, eq_true hxhr, if_true, if_false, false_and,
          Option.some.injEq, Prod.mk.injEq] at h ⊢
        exact ⟨"style", by decide, h.1.symm⟩
      · simp only [eq_false hnav, eq_false hsub, eq_false hxhr, if_false, false_and,
          Option.some.injEq, Prod.mk.injEq] at h ⊢
        exact ⟨"style", by decide, h.1.symm⟩

/-- The header map of `buildHeaders`, spelled out: the negotiation and client-hint
assignments, the map `d` they leave (after the deletions of the extreme profile,
which touch only names starting with `sec-`), and the fetch assignments made on
`d`. -/
theorem generatedHeaderMap_inv (g : Generator) (browser : browserProfile) (os : osProfile)
    (platform : platformProfile) (version : Int) (fullVersion : String)
    (vp : versionProfile) (r r' : Rng) (m : List (String × String))
    (h : generatedHeaderMap g browser os platform version fullVersion vp r = some (m, r')) :
    ∃ neg q1 hints q2 d qd fetch,
      negotiationAssignments g vp r = some (neg, q1) ∧
      hintAssignments g browser os platform version fullVersion q1 = some (hints, q2) ∧
      fetchAssignments g browser qd = some (fetch, r') ∧
      m = assignAll d fetch ∧
      (g.fingerprintProfile ≠ .Extreme → d = assignAll [] (neg ++ hints)) ∧
      (∀ k, HasPrefix k "sec-" = false → mapFind d k = mapFind (assignAll [] (neg ++ hints)) k) ∧
      (∀ k v, mapFind d k = some v → mapFind (assignAll [] (neg ++ hints)) k = some v) := by
  unfold generatedHeaderMap at h
  split at h
  · simp at h
  · rename_i neg q1 hneg
    split at h
    · simp at h
    · rename_i hints q2 hhints
      dsimp only at h
      split at h
      · simp at h
      · rename_i fetch q3 hfetch
        simp only [Option.some.injEq, Prod.mk.injEq] at h
        obtain ⟨hm, hr⟩ := h
        subst hr
        refine ⟨neg, q1, hints, q2, _, _, fetch, hneg, hhints, hfetch, hm.symm, ?_, ?_, ?_⟩
        · intro hne
          rw [if_neg hne]
        · intro k hk
          split
          · exact mapFind_dropLoop_keep _ _ _ k hk
          · rfl
        · intro k v hv
          split at hv
          · exact mapFind_dropLoop_sub _ _ _ k v hv
          · exact hv

/-- The headers of an Agent generated with the zero-header switch off, under a
sorter that only rearranges the keys: every emitted name is read back as the header
map of `buildHeaders` holds it. -/
theorem generateFor_headers (g : Generator) (profile : browserProfile)
    (platformProf : platformProfile) (osProf : osProfile) (version : Int) (r : Rng) (a : Agent)
    (hz : g.zeroHeader = false) (hs : ∀ ks r0, (g.headerSorter ks r0).1.Perm ks)
    (h : generateFor g profile platformProf osProf version r = .ok a) :
    ∃ m q q',
      generatedHeaderMap g profile osProf platformProf version
        (fullVersionOf profile version r).1 (mapGet profile.Versions version) q = some (m, q') ∧
      keysWithin emittedHeaderNames m ∧
      (∃ ks, a.HeaderOrder = pseudoHeaders ++ ks ∧ ks.Perm (mapKeys m)) ∧
      (mapKeys a.Headers).Perm ((mapKeys m).map CanonicalHeaderKey) ∧
      ∀ name ∈ emittedHeaderNames,
        Header.Lookup a.Headers name = mapFind m name ∧
        Header.Get a.Headers name = mapGet m name := by
  obtain ⟨parts, q1, q2, q3, _, _, hheaders, _⟩ := generateFor_inv _ _ _ _ _ _ _ h
  simp only [hz, Bool.not_false, if_true] at hheaders
  unfold buildHeaders at hheaders
  split at hheaders
  · simp at hheaders
  · rename_i m qm hm
    simp only [Option.some.injEq, Prod.mk.injEq] at hheaders
    have hfin := hheaders.1
    have hH : (finishHeaders m ((if g.fingerprintProfile = .Maximum then
        ShuffledPriorityHeaderSorter else g.headerSorter) (rangeKeys m qm).1
        (rangeKeys m qm).2).1).1 = a.Headers := by rw [hfin]
    have hO : (finishHeaders m ((if g.fingerprintProfile = .Maximum then
        ShuffledPriorityHeaderSorter else g.headerSorter) (rangeKeys m qm).1
        (rangeKeys m qm).2).1).2 = a.HeaderOrder := by rw [hfin]
    have hw := generatedHeaderMap_keysWithin _ _ _ _ _ _ _ _ m qm hm
    have hsort : ∀ ks r0, ((if g.fingerprintProfile = .Maximum then ShuffledPriorityHeaderSorter
        else g.headerSorter) ks r0).1.Perm ks := by
      intro ks r0
      split
      · exact (provided_sorters_perm ks r0).2.2
      · exact hs ks r0
    have hp := (hsort (rangeKeys m qm).1 (rangeKeys m qm).2).trans (rangeKeys_perm m qm)
    have hnd := canonical_nodup_of_keysWithin m _ hw hp
    have hkeys := foldl_Set_keys (fun k => mapGet m k) _ [] (by simpa [mapKeys] using hnd)
    refine ⟨m, q1, qm, hm, hw, ⟨_, hO.symm, hp⟩, ?_, ?_⟩
    · rw [← hH]
      simp only [finishHeaders]
      rw [hkeys]
      simp only [mapKeys, List.map_nil, List.nil_append]
      exact hp.map _
    · intro name hname
      rw [← hH]
      exact finishHeaders_lookup m _ name hw hp hname

/-- Lookup in the negotiation assignments, last assignment first. -/
theorem negotiation_block (acc enc : Bool) (va ve vl : String) :
    mapFind ((if acc then [("accept", va)] else []) ++
        (if enc then [("accept-encoding", ve)] else []) ++
        [("accept-language", vl)]).reverse "accept" = (if acc then some va else none) ∧
    mapFind ((if acc then [("accept", va)] else []) ++
        (if enc then [("accept-encoding", ve)] else []) ++
        [("accept-language", vl)]).reverse "accept-encoding" = (if enc then some ve else none) ∧
    mapFind ((if acc then [("accept", va)] else []) ++
        (if enc then [("accept-encoding", ve)] else []) ++
        [("accept-language", vl)]).reverse "accept-language" = some vl ∧
    ∀ k ∈ [ "sec-ch-ua", "sec-ch-ua-mobile", "sec-ch-ua-platform",
        "sec-ch-ua-full-version-list", "sec-ch-ua-platform-version", "sec-ch-ua-arch",
        "sec-ch-ua-bitness", "sec-gpc", "sec-fetch-dest", "sec-fetch-mode", "sec-fetch-site",
        "sec-fetch-user", "upgrade-insecure-requests" ],
      mapFind ((if acc then [("accept", va)] else []) ++
        (if enc then [("accept-encoding", ve)] else []) ++
        [("accept-language", vl)]).reverse k = none := by
  cases acc <;> cases enc <;>
    exact ⟨rfl, rfl, rfl, fun k hk => by fin_cases hk <;> rfl⟩

/-- Lookup in the client-hint assignments of a Chromium-derived browser, last
assignment first. -/
theorem hints_block (ff : Bool) (ua mobile name full : String) (os : osProfile) :
    mapFind ([ ("sec-ch-ua", ua), ("sec-ch-ua-mobile", mobile),
          ("sec-ch-ua-platform", name) ] ++
        (if ff then [("sec-ch-ua-full-version-list", full)] ++ osHintAssignments os
          else [])).reverse "sec-ch-ua" = some ua ∧
    mapFind ([ ("sec-ch-ua", ua), ("sec-ch-ua-mobile", mobile),
          ("sec-ch-ua-platform", name) ] ++
        (if ff then [("sec-ch-ua-full-version-list", full)] ++ osHintAssignments os
          else [])).reverse "sec-ch-ua-mobile" = some mobile ∧
    mapFind ([ ("sec-ch-ua", ua), ("sec-ch-ua-mobile", mobile),
          ("sec-ch-ua-platform", name) ] ++
        (if ff then [("sec-ch-ua-full-version-list", full)] ++ osHintAssignments os
          else [])).reverse "sec-ch-ua-platform" = some name ∧
    mapFind ([ ("sec-ch-ua", ua), ("sec-ch-ua-mobile", mobile),
          ("sec-ch-ua-platform", name) ] ++
        (if ff then [("sec-ch-ua-full-version-list", full)] ++ osHintAssignments os
          else [])).reverse "sec-ch-ua-full-version-list" = (if ff then some full else none) ∧
    mapFind ([ ("sec-ch-ua", ua), ("sec-ch-ua-mobile", mobile),
          ("sec-ch-ua-platform", name) ] ++
        (if ff then [("sec-ch-ua-full-version-list", full)] ++ osHintAssignments os
          else [])).reverse "sec-ch-ua-platform-version" =
      (if ff = true ∧ os.Version ≠ "" then some ("\"" ++ os.Version ++ "\"") else none) ∧
    mapFind ([ ("sec-ch-ua", ua), ("sec-ch-ua-mobile", mobile),
          ("sec-ch-ua-platform", name) ] ++
        (if ff then [("sec-ch-ua-full-version-list", full)] ++ osHintAssignments os
          else [])).reverse "sec-ch-ua-arch" =
      (if ff = true ∧ os.Arch ≠ "" then some ("\"" ++ os.Arch ++ "\"") else none) ∧
    mapFind ([ ("sec-ch-ua", ua), ("sec-ch-ua-mobile", mobile),
          ("sec-ch-ua-platform", name) ] ++
        (if ff then [("sec-ch-ua-full-version-list", full)] ++ osHintAssignments os
          else [])).reverse "sec-ch-ua-bitness" =
      (if ff = true ∧ os.BitnessHint ≠ "" then some ("\"" ++ os.BitnessHint ++ "\"")
        else none) ∧
    ∀ k ∈ [ "accept", "accept-encoding", "accept-language", "sec-gpc", "sec-fetch-dest",
        "sec-fetch-mode", "sec-fetch-site", "sec-fetch-user", "upgrade-insecure-requests" ],
      mapFind ([ ("sec-ch-ua", ua), ("sec-ch-ua-mobile", mobile),
          ("sec-ch-ua-platform", name) ] ++
        (if ff then [("sec-ch-ua-full-version-list", full)] ++ osHintAssignments os
          else [])).reverse k = none := by
  cases ff
  · exact ⟨rfl, rfl, rfl, rfl, by simp; rfl, by simp; rfl, by simp; rfl,
      fun k hk => by fin_cases hk <;> rfl⟩
  · unfold osHintAssignments
    by_cases hv : os.Version = "" <;> by_cases ha : os.Arch = "" <;>
      by_cases hb : os.BitnessHint = "" <;>
      simp only [hv, ha, hb, ne_eq, not_true_eq_false, not_false_eq_true, if_true, if_false,
        and_true, and_false, true_and] <;>
      exact ⟨rfl, rfl, rfl, rfl, rfl, rfl, rfl, fun k hk => by fin_cases hk <;> rfl⟩

/-- Lookup in the fetch-metadata assignments, last assignment first. -/
theorem fetch_block (nav sub xhr brave : Prop) [Decidable nav] [Decidable sub] [Decidable xhr]
    [Decidable brave] (dest : String) :
    mapFind ((if nav ∧ brave then [("sec-gpc", "1")] else []) ++
        (if nav then
          [ ("sec-fetch-dest", "document"), ("sec-fetch-mode", "navigate"),
            ("sec-fetch-site", "none"), ("sec-fetch-user", "?1"),
            ("upgrade-insecure-requests", "1") ]
        else if sub then
          [ ("sec-fetch-dest", dest), ("sec-fetch-mode", "no-cors"),
            ("sec-fetch-site", "same-origin") ]
        else if xhr then
          [ ("sec-fetch-dest", "empty"), ("sec-fetch-mode", "cors"),
            ("sec-fetch-site", "same-origin") ]
        else [])).reverse "sec-fetch-dest" =
      (if nav then some "document" else if sub then some dest
        else if xhr then some "empty" else none) ∧
    mapFind ((if nav ∧ brave then [("sec-gpc", "1")] else []) ++
        (if nav then
          [ ("sec-fetch-dest", "document"), ("sec-fetch-mode", "navigate"),
            ("sec-fetch-site", "none"), ("sec-fetch-user", "?1"),
            ("upgrade-insecure-requests", "1") ]
        else if sub then
          [ ("sec-fetch-dest", dest), ("sec-fetch-mode", "no-cors"),
            ("sec-fetch-site", "same-origin") ]
        else if xhr then
          [ ("sec-fetch-dest", "empty"), ("sec-fetch-mode", "cors"),
            ("sec-fetch-site", "same-origin") ]
        else [])).reverse "sec-fetch-mode" =
      (if nav then some "navigate" else if sub then some "no-cors"
        else if xhr then some "cors" else none) ∧
    mapFind ((if nav ∧ brave then [("sec-gpc", "1")] else []) ++
        (if nav then
          [ ("sec-fetch-dest", "document"), ("sec-fetch-mode", "navigate"),
            ("sec-fetch-site", "none"), ("sec-fetch-user", "?1"),
            ("upgrade-insecure-requests", "1") ]
        else if sub then
          [ ("sec-fetch-dest", dest), ("sec-fetch-mode", "no-cors"),
            ("sec-fetch-site", "same-origin") ]
        else if xhr then
          [ ("sec-fetch-dest", "empty"), ("sec-fetch-mode", "cors"),
            ("sec-fetch-site", "same-origin") ]
        else [])).reverse "sec-fetch-site" =
      (if nav then some "none" else if sub then some "same-origin"
        else if xhr then some "same-origin" else none) ∧
    mapFind ((if nav ∧ brave then [("sec-gpc", "1")] else []) ++
        (if nav then
          [ ("sec-fetch-dest", "document"), ("sec-fetch-mode", "navigate"),
            ("sec-fetch-site", "none"), ("sec-fetch-user", "?1"),
            ("upgrade-insecure-requests", "1") ]
        else if sub then
          [ ("sec-fetch-dest", dest), ("sec-fetch-mode", "no-cors"),
            ("sec-fetch-site", "same-origin") ]
        else if xhr then
          [ ("sec-fetch-dest", "empty"), ("sec-fetch-mode", "cors"),
            ("sec-fetch-site", "same-origin") ]
        else [])).reverse "sec-fetch-user" = (if nav then some "?1" else none) ∧
    mapFind ((if nav ∧ brave then [("sec-gpc", "1")] else []) ++
        (if nav then
          [ ("sec-fetch-dest", "document"), ("sec-fetch-mode", "navigate"),
            ("sec-fetch-site", "none"), ("sec-fetch-user", "?1"),
            ("upgrade-insecure-requests", "1") ]
        else if sub then
          [ ("sec-fetch-dest", dest), ("sec-fetch-mode", "no-cors"),
            ("sec-fetch-site", "same-origin") ]
        else if xhr then
          [ ("sec-fetch-dest", "empty"), ("sec-fetch-mode", "cors"),
            ("sec-fetch-site", "same-origin") ]
        else [])).reverse "upgrade-insecure-requests" = (if nav then some "1" else none) ∧
    mapFind ((if nav ∧ brave then [("sec-gpc", "1")] else []) ++
        (if nav then
          [ ("sec-fetch-dest", "document"), ("sec-fetch-mode", "navigate"),
            ("sec-fetch-site", "none"), ("sec-fetch-user", "?1"),
            ("upgrade-insecure-requests", "1") ]
        else if sub then
          [ ("sec-fetch-dest", dest), ("sec-fetch-mode", "no-cors"),
            ("sec-fetch-site", "same-origin") ]
        else if xhr then
          [ ("sec-fetch-dest", "empty"), ("sec-fetch-mode", "cors"),
            ("sec-fetch-site", "same-origin") ]
        else [])).reverse "sec-gpc" = (if nav ∧ brave then some "1" else none) ∧
    ∀ k ∈ [ "accept", "accept-encoding", "accept-language", "sec-ch-ua", "sec-ch-ua-mobile",
        "sec-ch-ua-platform", "sec-ch-ua-full-version-list", "sec-ch-ua-platform-version",
        "sec-ch-ua-arch", "sec-ch-ua-bitness" ],
      mapFind ((if nav ∧ brave then [("sec-gpc", "1")] else []) ++
        (if nav then
          [ ("sec-fetch-dest", "document"), ("sec-fetch-mode", "navigate"),
            ("sec-fetch-site", "none"), ("sec-fetch-user", "?1"),
            ("upgrade-insecure-requests", "1") ]
        else if sub then
          [ ("sec-fetch-dest", dest), ("sec-fetch-mode", "no-cors"),
            ("sec-fetch-site", "same-origin") ]
        else if xhr then
          [ ("sec-fetch-dest", "empty"), ("sec-fetch-mode", "cors"),
            ("sec-fetch-site", "same-origin") ]
        else [])).reverse k = none := by
  by_cases h1 : nav <;> by_cases h2 : sub <;> by_cases h3 : xhr <;> by_cases h4 : brave <;>
    simp only [h1, h2, h3, h4, if_true, if_false, and_true, and_false, true_and, false_and,
      and_self] <;>
    exact ⟨rfl, rfl, rfl, rfl, rfl, rfl, fun k hk => by fin_cases hk <;> rfl⟩

/-- The entries of the header map of `buildHeaders`, name by name. The negotiation
and fetch-metadata names are fixed by the toggles and the request type under every
fingerprint profile; the client-hint names are absent for a browser that is not
Chromium-derived, fixed outside the extreme profile, and under the extreme profile
either as fixed or deleted. -/
theorem generatedHeaderMap_entries (g : Generator) (browser : browserProfile) (os : osProfile)
    (platform : platformProfile) (version : Int) (fullVersion : String)
    (vp : versionProfile) (r r' : Rng) (m : List (String × String))
    (h : generatedHeaderMap g browser os platform version fullVersion vp r = some (m, r')) :
    ∃ va ve vl ua full dest,
      (g.acceptEnabled = true →
        ∃ tmpl ∈ (if g.requestType = RequestTypeXHR then vp.AcceptHeaderPatternsXHR
            else vp.AcceptHeaderPatterns), ∃ ra, va = (buildAcceptHeader tmpl ra).1) ∧
      (∃ re, ve = (generateAcceptEncoding re).1) ∧
      (∃ lang ∈ g.languageProfiles, ∃ rl, vl = (buildAcceptHeader lang rl).1) ∧
      (browser.ChromiumBased = true →
        ∃ q q', buildSecChUa browser.Brand (Itoa version) false true q = some (ua, q')) ∧
      (browser.ChromiumBased = true → g.fullFingerprint = true →
        ∃ q q', buildSecChUa browser.Brand fullVersion true true q = some (full, q')) ∧
      dest ∈ subresourceDests ∧
      mapFind m "accept" = (if g.acceptEnabled then some va else none) ∧
      mapFind m "accept-encoding" = (if g.acceptEncodingEnabled then some ve else none) ∧
      mapFind m "accept-language" = some vl ∧
      mapFind m "sec-fetch-dest" =
        (if g.requestType = RequestTypeNavigate then some "document"
          else if g.requestType = RequestTypeSubresource then some dest
          else if g.requestType = RequestTypeXHR then some "empty" else none) ∧
      mapFind m "sec-fetch-mode" =
        (if g.requestType = RequestTypeNavigate then some "navigate"
          else if g.requestType = RequestTypeSubresource then some "no-cors"
          else if g.requestType = RequestTypeXHR then some "cors" else none) ∧
      mapFind m "sec-fetch-site" =
        (if g.requestType = RequestTypeNavigate then some "none"
          else if g.requestType = RequestTypeSubresource then some "same-origin"
          else if g.requestType = RequestTypeXHR then some "same-origin" else none) ∧
      mapFind m "sec-fetch-user" =
        (if g.requestType = RequestTypeNavigate then some "?1" else none) ∧
      mapFind m "upgrade-insecure-requests" =
        (if g.requestType = RequestTypeNavigate then some "1" else none) ∧
      mapFind m "sec-gpc" =
        (if g.requestType = RequestTypeNavigate ∧ browser.Brand = "Brave" then some "1"
          else none) ∧
      (browser.ChromiumBased = false →
        ∀ k ∈ [ "sec-ch-ua", "sec-ch-ua-mobile", "sec-ch-ua-platform",
            "sec-ch-ua-full-version-list", "sec-ch-ua-platform-version", "sec-ch-ua-arch",
            "sec-ch-ua-bitness" ], mapFind m k = none) ∧
      (browser.ChromiumBased = true →
        (mapFind m "sec-ch-ua" = some ua ∨
          (g.fingerprintProfile = .Extreme ∧ mapFind m "sec-ch-ua" = none)) ∧
        (mapFind m "sec-ch-ua-mobile" = some platform.MobileHint ∨
          (g.fingerprintProfile = .Extreme ∧ mapFind m "sec-ch-ua-mobile" = none)) ∧
        (mapFind m "sec-ch-ua-platform" = some ("\"" ++ os.Name ++ "\"") ∨
          (g.fingerprintProfile = .Extreme ∧ mapFind m "sec-ch-ua-platform" = none)) ∧
        (mapFind m "sec-ch-ua-full-version-list" =
            (if g.fullFingerprint then some full else none) ∨
          (g.fingerprintProfile = .Extreme ∧
            mapFind m "sec-ch-ua-full-version-list" = none)) ∧
        (mapFind m "sec-ch-ua-platform-version" =
            (if g.fullFingerprint = true ∧ os.Version ≠ "" then
              some ("\"" ++ os.Version ++ "\"") else none) ∨
          (g.fingerprintProfile = .Extreme ∧
            mapFind m "sec-ch-ua-platform-version" = none)) ∧
        (mapFind m "sec-ch-ua-arch" =
            (if g.fullFingerprint = true ∧ os.Arch ≠ "" then some ("\"" ++ os.Arch ++ "\"")
              else none) ∨
          (g.fingerprintProfile = .Extreme ∧ mapFind m "sec-ch-ua-arch" = none)) ∧
        (mapFind m "sec-ch-ua-bitness" =
            (if g.fullFingerprint = true ∧ os.BitnessHint ≠ "" then
              some ("\"" ++ os.BitnessHint ++ "\"") else none) ∨
          (g.fingerprintProfile = .Extreme ∧ mapFind m "sec-ch-ua-bitness" = none))) := by
  obtain ⟨neg, q1, hints, q2, d, qd, fetch, hneg, hhints, hfetch, hm, hd1, hd2, hd3⟩ :=
    generatedHeaderMap_inv _ _ _ _ _ _ _ _ _ _ h
  obtain ⟨lang, tmpl, ra, re, rl, hlang, htmpl, hnegeq⟩ :=
    negotiationAssignments_inv _ _ _ _ _ hneg
  obtain ⟨dest, hdest, hfetcheq⟩ := fetchAssignments_inv _ _ _ _ _ hfetch
  have hfind : ∀ k, mapFind m k = (mapFind fetch.reverse k).or (mapFind d k) := by
    intro k
    rw [hm, mapFind_assignAll]
  have hbase : ∀ k, mapFind (assignAll [] (neg ++ hints)) k =
      (mapFind hints.reverse k).or (mapFind neg.reverse k) := by
    intro k
    rw [mapFind_assignAll, List.reverse_append, mapFind_append]
    simp [mapFind]
  have hdnone : ∀ k, (mapFind hints.reverse k).or (mapFind neg.reverse k) = none →
      mapFind d k = none := by
    intro k hk
    cases hdk : mapFind d k with
    | none => rfl
    | some v =>
      have := hd3 k v hdk
      rw [hbase, hk] at this
      simp at this
  have hdkeep : ∀ k, HasPrefix k "sec-" = false →
      mapFind d k = (mapFind hints.reverse k).or (mapFind neg.reverse k) := by
    intro k hk
    rw [hd2 k hk, hbase]
  have hdhint : ∀ k, mapFind d k = (mapFind hints.reverse k).or (mapFind neg.reverse k) ∨
      (g.fingerprintProfile = .Extreme ∧ mapFind d k = none) := by
    intro k
    by_cases he : g.fingerprintProfile = .Extreme
    · cases hdk : mapFind d k with
      | none => exact Or.inr ⟨he, rfl⟩
      | some v =>
        left
        have := hd3 k v hdk
        rw [hbase] at this
        exact this.symm
    · left
      rw [hd1 he, hbase]
  obtain ⟨hn1, hn2, hn3, hn4⟩ := negotiation_block g.acceptEnabled g.acceptEncodingEnabled
    (buildAcceptHeader tmpl ra).1 (generateAcceptEncoding re).1 (buildAcceptHeader lang rl).1
  rw [← hnegeq] at hn1 hn2 hn3 hn4
  obtain ⟨hf1, hf2, hf3, hf4, hf5, hf6, hf7⟩ := fetch_block (g.requestType = RequestTypeNavigate)
    (g.requestType = RequestTypeSubresource) (g.requestType = RequestTypeXHR)
    (browser.Brand = "Brave") dest
  rw [← hfetcheq] at hf1 hf2 hf3 hf4 hf5 hf6 hf7
  rcases hintAssignments_inv _ _ _ _ _ _ _ _ _ hhints with
    ⟨hcb, hnil⟩ | ⟨hcb, ua, q, full, q2', hua, hfull, hhinteq⟩
  · have hh : ∀ k, mapFind hints.reverse k = none := by
      intro k
      rw [hnil]
      rfl
    refine ⟨_, _, _, "", "", dest, fun hacc => ⟨tmpl, htmpl hacc, ra, rfl⟩, ⟨re, rfl⟩,
      ⟨lang, hlang, rl, rfl⟩, ?_, ?_, hdest, ?_, ?_, ?_, ?_, ?_, ?_, ?_, ?_, ?_, ?_, ?_⟩
    · intro hc
      rw [hcb] at hc
      exact absurd hc (by decide)
    · intro hc
      rw [hcb] at hc
      exact absurd hc (by decide)
    · rw [hfind, hf7 _ (by simp), hdkeep _ (by decide), hh, hn1]
      simp
    · rw [hfind, hf7 _ (by simp), hdkeep _ (by decide), hh, hn2]
      simp
    · rw [hfind, hf7 _ (by simp), hdkeep _ (by decide), hh, hn3]
      simp
    · rw [hfind, hf1, hdnone _ (by rw [hh, hn4 _ (by simp)]; rfl)]
      simp
    · rw [hfind, hf2, hdnone _ (by rw [hh, hn4 _ (by simp)]; rfl)]
      simp
    · rw [hfind, hf3, hdnone _ (by rw [hh, hn4 _ (by simp)]; rfl)]
      simp
    · rw [hfind, hf4, hdnone _ (by rw [hh, hn4 _ (by simp)]; rfl)]
      simp
    · rw [hfind, hf5, hdnone _ (by rw [hh, hn4 _ (by simp)]; rfl)]
      simp
    · rw [hfind, hf6, hdnone _ (by rw [hh, hn4 _ (by simp)]; rfl)]
      simp
    · intro _ k hk
      rw [hfind, hf7 k (by fin_cases hk <;> simp),
        hdnone k (by rw [hh, hn4 k (by fin_cases hk <;> simp)]; rfl)]
      rfl
    · intro hc
      rw [hcb] at hc
      exact absurd hc (by decide)
  · obtain ⟨hh1, hh2, hh3, hh4, hh5, hh6, hh7, hh8⟩ := hints_block g.fullFingerprint ua
      platform.MobileHint ("\"" ++ os.Name ++ "\"") full os
    rw [← hhinteq] at hh1 hh2 hh3 hh4 hh5 hh6 hh7 hh8
    have hkey : ∀ k x, mapFind fetch.reverse k = none → mapFind hints.reverse k = x →
        mapFind neg.reverse k = none →
        mapFind m k = x ∨ (g.fingerprintProfile = .Extreme ∧ mapFind m k = none) := by
      intro k x hfk hhk hnk
      rcases hdhint k with hd | ⟨he, hd⟩
      · left
        rw [hfind, hfk, hd, hhk, hnk]
        simp
      · right
        refine ⟨he, ?_⟩
        rw [hfind, hfk, hd]
        rfl
    refine ⟨_, _, _, ua, full, dest, fun hacc => ⟨tmpl, htmpl hacc, ra, rfl⟩, ⟨re, rfl⟩,
      ⟨lang, hlang, rl, rfl⟩, fun _ => ⟨_, _, hua⟩, fun _ hff => ⟨_, _, hfull hff⟩, hdest,
      ?_, ?_, ?_, ?_, ?_, ?_, ?_, ?_, ?_, ?_, ?_⟩
    · rw [hfind, hf7 _ (by simp), hdkeep _ (by decide), hh8 _ (by simp), hn1]
      simp
    · rw [hfind, hf7 _ (by simp), hdkeep _ (by decide), hh8 _ (by simp), hn2]
      simp
    · rw [hfind, hf7 _ (by simp), hdkeep _ (by decide), hh8 _ (by simp), hn3]
      simp
    · rw [hfind, hf1, hdnone _ (by rw [hh8 _ (by simp), hn4 _ (by simp)]; rfl)]
      simp
    · rw [hfind, hf2, hdnone _ (by rw [hh8 _ (by simp), hn4 _ (by simp)]; rfl)]
      simp
    · rw [hfind, hf3, hdnone _ (by rw [hh8 _ (by simp), hn4 _ (by simp)]; rfl)]
      simp
    · rw [hfind, hf4, hdnone _ (by rw [hh8 _ (by simp), hn4 _ (by simp)]; rfl)]
      simp
    · rw [hfind, hf5, hdnone _ (by rw [hh8 _ (by simp), hn4 _ (by simp)]; rfl)]
      simp
    · rw [hfind, hf6, hdnone _ (by rw [hh8 _ (by simp), hn4 _ (by simp)]; rfl)]
      simp
    · intro hc
      rw [hcb] at hc
      exact absurd hc (by decide)
    · intro _
      exact ⟨hkey _ _ (hf7 _ (by simp)) hh1 (hn4 _ (by simp)),
        hkey _ _ (hf7 _ (by simp)) hh2 (hn4 _ (by simp)),
        hkey _ _ (hf7 _ (by simp)) hh3 (hn4 _ (by simp)),
        hkey _ _ (hf7 _ (by simp)) hh4 (hn4 _ (by simp)),
        hkey _ _ (hf7 _ (by simp)) hh5 (hn4 _ (by simp)),
        hkey _ _ (hf7 _ (by simp)) hh6 (hn4 _ (by simp)),
        hkey _ _ (hf7 _ (by simp)) hh7 (hn4 _ (by simp))⟩

/-! ## The headers of an Agent generated in browser mode -/

/-- The headers of a run with the zero-header switch off, under a sorter that only
rearranges the keys: they are read back from the header map of `buildHeaders`. -/
theorem ResolvedRun_headers (g : Generator) (r : Rng) (browser : Browser)
    (platform : Platform) (os : OperatingSystem) (version : Int) (r3 : Rng) (a : Agent)
    (hz : g.zeroHeader = false) (hs : ∀ ks r0, (g.headerSorter ks r0).1.Perm ks)
    (h : ResolvedRun g r browser platform os version r3 a) :
    ∃ m q q',
      generatedHeaderMap g (mapGet browserProfiles browser) (mapGet osProfiles os)
        (mapGet platformProfiles platform) version
        (fullVersionOf (mapGet browserProfiles browser) version r3).1
        (mapGet (mapGet browserProfiles browser).Versions version) q = some (m, q') ∧
      keysWithin emittedHeaderNames m ∧
      (∃ ks, a.HeaderOrder = pseudoHeaders ++ ks ∧ ks.Perm (mapKeys m)) ∧
      (mapKeys a.Headers).Perm ((mapKeys m).map CanonicalHeaderKey) ∧
      ∀ name ∈ emittedHeaderNames,
        Header.Lookup a.Headers name = mapFind m name ∧
        Header.Get a.Headers name = mapGet m name := by
  obtain ⟨_, _, _, _, _, hgen⟩ := h
  exact generateFor_headers g _ _ _ _ _ a hz hs hgen

/-- A run with the zero-header switch on has no header. -/
theorem ResolvedRun_zeroHeader (g : Generator) (r : Rng) (browser : Browser)
    (platform : Platform) (os : OperatingSystem) (version : Int) (r3 : Rng) (a : Agent)
    (hz : g.zeroHeader = true) (h : ResolvedRun g r browser platform os version r3 a) :
    a.Headers = [] ∧ a.HeaderOrder = [] ∧ ∀ name, Header.Lookup a.Headers name = none := by
  obtain ⟨_, _, _, _, _, hgen⟩ := h
  obtain ⟨h1, h2⟩ := generateFor_zeroHeader g _ _ _ _ _ a hz hgen
  refine ⟨h1, h2, fun name => ?_⟩
  rw [h1]
  rfl

/-- A value found in a map is what `mapGet` reads. -/
theorem mapGet_of_find {κ ν : Type} [DecidableEq κ] [Inhabited ν] (m : List (κ × ν)) (k : κ)
    (v : ν) (h : mapFind m k = some v) : mapGet m k = v := by
  simp [mapGet, h]

/-- A key without an entry reads as the zero value. -/
theorem mapGet_of_none (m : List (String × String)) (k : String) (h : mapFind m k = none) :
    mapGet m k = "" := by
  simp [mapGet, h]

/-- A joined list whose first part is not empty is not empty. -/
theorem Join_ne_empty (a : String) (l : List String) (sep : String) (h : a ≠ "") :
    Join (a :: l) sep ≠ "" := by
  intro he
  have hd := Join_cons_data a l sep
  rw [he] at hd
  have hnil : a.data = [] := by
    have : ("" : String).data = [] := rfl
    rw [this] at hd
    exact (List.append_eq_nil.1 hd.symm).1
  exact h (String.ext hnil)

/-- The accept value built from a template whose first part has a value is not
empty. -/
theorem buildAcceptHeader_ne_empty (p : AcceptHeaderPart) (rest : List AcceptHeaderPart)
    (r : Rng) (h : p.Value ≠ "") : (buildAcceptHeader (p :: rest) r).1 ≠ "" := by
  unfold buildAcceptHeader
  simp only [acceptParts]
  split
  · exact Join_ne_empty _ _ _
      (append_ne_empty_left _ _ (append_ne_empty_left _ _ (append_ne_empty_left _ _ h)))
  · exact Join_ne_empty _ _ _ (append_ne_empty_left _ _ h)

/-- The accept-encoding value is not empty: it names `gzip`. -/
theorem generateAcceptEncoding_gzip (r : Rng) :
    Contains (generateAcceptEncoding r).1 "gzip" = true ∧ (generateAcceptEncoding r).1 ≠ "" := by
  have hmem : "gzip" ∈ (Shuffle ["gzip", "deflate", "br"] r).1 :=
    (Shuffle_perm _ r).symm.subset (by simp)
  have hjoin : Contains (Join (Shuffle ["gzip", "deflate", "br"] r).1 ", ") "gzip" = true :=
    Contains_Join_of_mem _ _ _ _ hmem (Contains_self _)
  have hc : Contains (generateAcceptEncoding r).1 "gzip" = true := by
    unfold generateAcceptEncoding
    dsimp only
    split
    · exact Contains_append_left _ _ _ hjoin
    · exact hjoin
  refine ⟨hc, ?_⟩
  intro he
  rw [he] at hc
  exact absurd hc (by decide)

set_option maxRecDepth 100000 in
/-- Every accept template of the version profiles starts with a part that has a
value. -/
theorem accept_templates_start :
    ∀ bp ∈ browserProfiles, ∀ vp ∈ bp.2.Versions,
      ∀ tmpl ∈ vp.2.AcceptHeaderPatterns ++ vp.2.AcceptHeaderPatternsXHR,
        (tmpl.map fun p => decide (p.Value ≠ "")).head? = some true := by
  decide

/-- C28 (counterexample): the default generator with the zero-header switch set has
the accept toggle on, and with draws all zero `Generate` returns an Agent without an
`accept` header. -/
theorem accept_absent_without_headers :
    zeroHeaderGenerator.useBotAgents = false ∧ zeroHeaderGenerator.acceptEnabled = true ∧
    (∃ a, Generate zeroHeaderGenerator zeroRng = .ok a ∧ a.Headers = [] ∧
      Header.Lookup a.Headers "accept" = none ∧ Header.Get a.Headers "accept" = "") := by
  refine ⟨rfl, rfl, agentOf (Generate zeroHeaderGenerator zeroRng), ?_, ?_, ?_, ?_⟩ <;> decide

/-- C28 (amended): for every Agent generated in browser mode with the zero-header
switch off, under a header-ordering strategy that only rearranges the keys, the
`accept` header is present, with a non-empty value, exactly when the accept toggle
is on, and the `accept-encoding` header is present, with a non-empty value, exactly
when the accept-encoding toggle is on. The generator built with no option has accept
on, accept-encoding off, the zero-header switch off and the priority sorter. With
the zero-header switch on the Agent has no header at all. -/
theorem accept_toggles :
    (∀ (g : Generator) (r : Rng) (a : Agent), g.useBotAgents = false → g.zeroHeader = false →
      (∀ ks r0, (g.headerSorter ks r0).1.Perm ks) → Generate g r = .ok a →
      (g.acceptEnabled = true →
        ∃ v, Header.Lookup a.Headers "accept" = some v ∧ v ≠ "" ∧
          Header.Get a.Headers "accept" = v) ∧
      (g.acceptEnabled = false →
        Header.Lookup a.Headers "accept" = none ∧ Header.Get a.Headers "accept" = "") ∧
      (g.acceptEncodingEnabled = true →
        ∃ v, Header.Lookup a.Headers "accept-encoding" = some v ∧ v ≠ "" ∧
          Header.Get a.Headers "accept-encoding" = v) ∧
      (g.acceptEncodingEnabled = false →
        Header.Lookup a.Headers "accept-encoding" = none ∧
        Header.Get a.Headers "accept-encoding" = "")) ∧
    (NewGenerator.acceptEnabled = true ∧ NewGenerator.acceptEncodingEnabled = false ∧
      NewGenerator.zeroHeader = false ∧
      ∀ ks r0, (NewGenerator.headerSorter ks r0).1.Perm ks) ∧
    (∀ (g : Generator) (r : Rng) (a : Agent), g.useBotAgents = false → g.zeroHeader = true →
      Generate g r = .ok a → ∀ name, Header.Lookup a.Headers name = none) := by
  refine ⟨?_, ⟨rfl, rfl, rfl, fun ks r0 => (provided_sorters_perm ks r0).1⟩, ?_⟩
  · intro g r a hbot hz hs h
    obtain ⟨browser, platform, os, version, r3, hrun⟩ := Generate_browser_inv g r a hbot h
    have hfacts := ResolvedRun_facts g r browser platform os version r3 a hrun
    obtain ⟨m, q, q', hm, _, _, _, hread⟩ :=
      ResolvedRun_headers g r browser platform os version r3 a hz hs hrun
    obtain ⟨va, ve, vl, ua, full, dest, hva, hve, _, _, _, _, hacc, henc, _⟩ :=
      generatedHeaderMap_entries _ _ _ _ _ _ _ _ _ _ hm
    have hra := hread "accept" (by decide)
    have hre := hread "accept-encoding" (by decide)
    refine ⟨?_, ?_, ?_, ?_⟩
    · intro hon
      rw [hon, if_pos rfl] at hacc
      refine ⟨va, by rw [hra.1, hacc], ?_, by rw [hra.2, mapGet_of_find _ _ _ hacc]⟩
      obtain ⟨tmpl, htmpl, ra, hvaeq⟩ := hva hon
      have hstart := accept_templates_start _ hfacts.2.1 _ (mapGet_mem _ _ hfacts.2.2.2.1) tmpl
        (by
          split at htmpl
          · exact List.mem_append_right _ htmpl
          · exact List.mem_append_left _ htmpl)
      cases tmpl with
      | nil => simp at hstart
      | cons p rest =>
        simp only [List.map_cons, List.head?_cons, Option.some.injEq, decide_eq_true_eq] at hstart
        rw [hvaeq]
        exact buildAcceptHeader_ne_empty p rest ra hstart
    · intro hoff
      rw [hoff] at hacc
      simp only [Bool.false_eq_true, if_false] at hacc
      exact ⟨by rw [hra.1, hacc], by rw [hra.2, mapGet_of_none _ _ hacc]⟩
    · intro hon
      rw [hon, if_pos rfl] at henc
      obtain ⟨re, hveeq⟩ := hve
      refine ⟨ve, by rw [hre.1, henc], ?_, by rw [hre.2, mapGet_of_find _ _ _ henc]⟩
      rw [hveeq]
      exact (generateAcceptEncoding_gzip re).2
    · intro hoff
      rw [hoff] at henc
      simp only [Bool.false_eq_true, if_false] at henc
      exact ⟨by rw [hre.1, henc], by rw [hre.2, mapGet_of_none _ _ henc]⟩
  · intro g r a hbot hz h
    obtain ⟨browser, platform, os, version, r3, hrun⟩ := Generate_browser_inv g r a hbot h
    exact (ResolvedRun_zeroHeader g r browser platform os version r3 a hz hrun).2.2

set_option maxRecDepth 100000 in
/-- C28 (witness): the generator built with no option carries `accept` and no
`accept-encoding`; with the accept-encoding toggle on the header is there. -/
theorem accept_toggles_witness :
    (∃ v, Header.Lookup (agentOf (Generate NewGenerator zeroRng)).Headers "accept" = some v ∧
      v ≠ "" ∧ Header.Get (agentOf (Generate NewGenerator zeroRng)).Headers "accept" = v) ∧
    (Header.Lookup (agentOf (Generate NewGenerator zeroRng)).Headers "accept-encoding" = none ∧
      Header.Get (agentOf (Generate NewGenerator zeroRng)).Headers "accept-encoding" = "") ∧
    (∃ v, Header.Lookup (agentOf (Generate acceptEncodingGenerator zeroRng)).Headers
        "accept-encoding" = some v ∧ v ≠ "" ∧
      Header.Get (agentOf (Generate acceptEncodingGenerator zeroRng)).Headers
        "accept-encoding" = v) ∧
    (Header.Lookup (agentOf (Generate acceptOffGenerator zeroRng)).Headers "accept" = none ∧
      Header.Get (agentOf (Generate acceptOffGenerator zeroRng)).Headers "accept" = "") :=
  ⟨(accept_toggles.1 NewGenerator zeroRng (agentOf (Generate NewGenerator zeroRng)) rfl rfl
      (fun ks r0 => (provided_sorters_perm ks r0).1) (by decide)).1 rfl,
    (accept_toggles.1 NewGenerator zeroRng (agentOf (Generate NewGenerator zeroRng)) rfl rfl
      (fun ks r0 => (provided_sorters_perm ks r0).1) (by decide)).2.2.2 rfl,
    (accept_toggles.1 acceptEncodingGenerator zeroRng
      (agentOf (Generate acceptEncodingGenerator zeroRng)) rfl rfl
      (fun ks r0 => (provided_sorters_perm ks r0).1) (by decide)).2.2.1 rfl,
    (accept_toggles.1 acceptOffGenerator zeroRng
      (agentOf (Generate acceptOffGenerator zeroRng)) rfl rfl
      (fun ks r0 => (provided_sorters_perm ks r0).1) (by decide)).2.1 rfl⟩

/-! ## Fetch-metadata headers -/

/-- C30 (counterexample): the default generator with the zero-header switch set makes
navigation requests, and with draws all zero `Generate` returns an Agent without a
`sec-fetch-dest` header. -/
theorem fetch_metadata_absent_without_headers :
    zeroHeaderGenerator.useBotAgents = false ∧
    zeroHeaderGenerator.requestType = RequestTypeNavigate ∧
    (∃ a, Generate zeroHeaderGenerator zeroRng = .ok a ∧
      Header.Lookup a.Headers "sec-fetch-dest" = none ∧
      Header.Get a.Headers "sec-fetch-dest" = "") := by
  refine ⟨rfl, rfl, agentOf (Generate zeroHeaderGenerator zeroRng), ?_, ?_, ?_⟩ <;> decide

/-- C30 (amended): for every Agent generated in browser mode with the zero-header
switch off, under a header-ordering strategy that only rearranges the keys and under
every fingerprint profile, the fetch-metadata headers are fixed by the request type:
navigation gives `sec-fetch-dest: document`, `sec-fetch-mode: navigate`,
`sec-fetch-site: none`, `sec-fetch-user: ?1` and `upgrade-insecure-requests: 1`;
subresource gives a `sec-fetch-dest` out of `style`, `script`, `image`, `font`,
`empty`, `sec-fetch-mode: no-cors`, `sec-fetch-site: same-origin`, and neither
`sec-fetch-user` nor `upgrade-insecure-requests`; XHR gives `sec-fetch-dest: empty`,
`sec-fetch-mode: cors`, `sec-fetch-site: same-origin` and neither of the two. With
the zero-header switch on the Agent has no header at all. -/
theorem fetch_metadata_by_request_type :
    (∀ (g : Generator) (r : Rng) (a : Agent), g.useBotAgents = false → g.zeroHeader = false →
      (∀ ks r0, (g.headerSorter ks r0).1.Perm ks) → Generate g r = .ok a →
      (g.requestType = RequestTypeNavigate →
        Header.Lookup a.Headers "sec-fetch-dest" = some "document" ∧
        Header.Lookup a.Headers "sec-fetch-mode" = some "navigate" ∧
        Header.Lookup a.Headers "sec-fetch-site" = some "none" ∧
        Header.Lookup a.Headers "sec-fetch-user" = some "?1" ∧
        Header.Lookup a.Headers "upgrade-insecure-requests" = some "1") ∧
      (g.requestType = RequestTypeSubresource →
        (∃ dest ∈ ["style", "script", "image", "font", "empty"],
          Header.Lookup a.Headers "sec-fetch-dest" = some dest) ∧
        Header.Lookup a.Headers "sec-fetch-mode" = some "no-cors" ∧
        Header.Lookup a.Headers "sec-fetch-site" = some "same-origin" ∧
        Header.Lookup a.Headers "sec-fetch-user" = none ∧
        Header.Lookup a.Headers "upgrade-insecure-requests" = none) ∧
      (g.requestType = RequestTypeXHR →
        Header.Lookup a.Headers "sec-fetch-dest" = some "empty" ∧
        Header.Lookup a.Headers "sec-fetch-mode" = some "cors" ∧
        Header.Lookup a.Headers "sec-fetch-site" = some "same-origin" ∧
        Header.Lookup a.Headers "sec-fetch-user" = none ∧
        Header.Lookup a.Headers "upgrade-insecure-requests" = none)) ∧
    subresourceDests = ["style", "script", "image", "font", "empty"] ∧
    (∀ (g : Generator) (r : Rng) (a : Agent), g.useBotAgents = false → g.zeroHeader = true →
      Generate g r = .ok a → ∀ name, Header.Lookup a.Headers name = none) := by
  refine ⟨?_, rfl, ?_⟩
  · intro g r a hbot hz hs h
    obtain ⟨browser, platform, os, version, r3, hrun⟩ := Generate_browser_inv g r a hbot h
    obtain ⟨m, q, q', hm, _, _, _, hread⟩ :=
      ResolvedRun_headers g r browser platform os version r3 a hz hs hrun
    obtain ⟨va, ve, vl, ua, full, dest, _, _, _, _, _, hdest, _, _, _, hf1, hf2, hf3, hf4, hf5,
      _⟩ := generatedHeaderMap_entries _ _ _ _ _ _ _ _ _ _ hm
    rw [← (hread "sec-fetch-dest" (by decide)).1] at hf1
    rw [← (hread "sec-fetch-mode" (by decide)).1] at hf2
    rw [← (hread "sec-fetch-site" (by decide)).1] at hf3
    rw [← (hread "sec-fetch-user" (by decide)).1] at hf4
    rw [← (hread "upgrade-insecure-requests" (by decide)).1] at hf5
    refine ⟨?_, ?_, ?_⟩
    · intro hrt
      rw [hf1, hf2, hf3, hf4, hf5]
      simp only [eq_true hrt, if_true, and_self]
    · intro hrt
      have hnav : ¬ g.requestType = RequestTypeNavigate := by
        rw [hrt]
        decide
      rw [hf1, hf2, hf3, hf4, hf5]
      simp only [eq_false hnav, eq_true hrt, if_true, if_false, and_self, and_true]
      exact ⟨dest, hdest, rfl⟩
    · intro hrt
      have hnav : ¬ g.requestType = RequestTypeNavigate := by
        rw [hrt]
        decide
      have hsub : ¬ g.requestType = RequestTypeSubresource := by
        rw [hrt]
        decide
      rw [hf1, hf2, hf3, hf4, hf5]
      simp only [eq_false hnav, eq_false hsub, eq_true hrt, if_true, if_false, and_self]
  · intro g r a hbot hz h
    obtain ⟨browser, platform, os, version, r3, hrun⟩ := Generate_browser_inv g r a hbot h
    exact (ResolvedRun_zeroHeader g r browser platform os version r3 a hz hrun).2.2

set_option maxRecDepth 100000 in
/-- C30 (witness): the default generator for navigation, subresource and XHR
requests. -/
theorem fetch_metadata_by_request_type_witness :
    (Header.Lookup (agentOf (Generate NewGenerator zeroRng)).Headers "sec-fetch-dest" =
        some "document" ∧
      Header.Lookup (agentOf (Generate NewGenerator zeroRng)).Headers "sec-fetch-mode" =
        some "navigate" ∧
      Header.Lookup (agentOf (Generate NewGenerator zeroRng)).Headers "sec-fetch-site" =
        some "none" ∧
      Header.Lookup (agentOf (Generate NewGenerator zeroRng)).Headers "sec-fetch-user" =
        some "?1" ∧
      Header.Lookup (agentOf (Generate NewGenerator zeroRng)).Headers
        "upgrade-insecure-requests" = some "1") ∧
    ((∃ dest ∈ ["style", "script", "image", "font", "empty"],
        Header.Lookup (agentOf (Generate subresourceGenerator zeroRng)).Headers
          "sec-fetch-dest" = some dest) ∧
      Header.Lookup (agentOf (Generate subresourceGenerator zeroRng)).Headers
        "sec-fetch-mode" = some "no-cors" ∧
      Header.Lookup (agentOf (Generate subresourceGenerator zeroRng)).Headers
        "sec-fetch-site" = some "same-origin" ∧
      Header.Lookup (agentOf (Generate subresourceGenerator zeroRng)).Headers
        "sec-fetch-user" = none ∧
      Header.Lookup (agentOf (Generate subresourceGenerator zeroRng)).Headers
        "upgrade-insecure-requests" = none) ∧
    (Header.Lookup (agentOf (Generate xhrGenerator zeroRng)).Headers "sec-fetch-dest" =
        some "empty" ∧
      Header.Lookup (agentOf (Generate xhrGenerator zeroRng)).Headers "sec-fetch-mode" =
        some "cors" ∧
      Header.Lookup (agentOf (Generate xhrGenerator zeroRng)).Headers "sec-fetch-site" =
        some "same-origin" ∧
      Header.Lookup (agentOf (Generate xhrGenerator zeroRng)).Headers "sec-fetch-user" =
        none ∧
      Header.Lookup (agentOf (Generate xhrGenerator zeroRng)).Headers
        "upgrade-insecure-requests" = none) :=
  ⟨(fetch_metadata_by_request_type.1 NewGenerator zeroRng
      (agentOf (Generate NewGenerator zeroRng)) rfl rfl
      (fun ks r0 => (provided_sorters_perm ks r0).1) (by decide)).1 rfl,
    (fetch_metadata_by_request_type.1 subresourceGenerator zeroRng
      (agentOf (Generate subresourceGenerator zeroRng)) rfl rfl
      (fun ks r0 => (provided_sorters_perm ks r0).1) (by decide)).2.1 rfl,
    (fetch_metadata_by_request_type.1 xhrGenerator zeroRng
      (agentOf (Generate xhrGenerator zeroRng)) rfl rfl
      (fun ks r0 => (provided_sorters_perm ks r0).1) (by decide)).2.2 rfl⟩

/-! ## The full-fingerprint client hints -/

set_option maxRecDepth 100000 in
/-- C27 (counterexample): Chrome on Windows 11 with the full-fingerprint toggle on,
the normal profile and the zero-header switch set: with draws all zero `Generate`
returns an Agent without a `sec-ch-ua-full-version-list` and without a
`sec-ch-ua-arch` header. -/
theorem full_fingerprint_absent_without_headers :
    zeroHeaderFullGenerator.useBotAgents = false ∧
    zeroHeaderFullGenerator.browsers = [BrowserChrome] ∧
    zeroHeaderFullGenerator.fullFingerprint = true ∧
    zeroHeaderFullGenerator.fingerprintProfile = .Normal ∧
    (∃ a, Generate zeroHeaderFullGenerator zeroRng = .ok a ∧
      Header.Lookup a.Headers "sec-ch-ua-full-version-list" = none ∧
      Header.Lookup a.Headers "sec-ch-ua-arch" = none) := by
  refine ⟨rfl, rfl, rfl, rfl, agentOf (Generate zeroHeaderFullGenerator zeroRng), ?_, ?_, ?_⟩ <;>
    decide

/-- C27 (amended): for every Agent generated in browser mode for a Chromium-derived
browser with the zero-header switch off, under a header-ordering strategy that only
rearranges the keys: with the full-fingerprint toggle off none of
`sec-ch-ua-full-version-list`, `sec-ch-ua-platform-version`, `sec-ch-ua-arch`,
`sec-ch-ua-bitness` is present; with it on, outside the extreme profile,
`sec-ch-ua-full-version-list` is present and each of the other three is present, as
the field value in double quotes, exactly when the profile of the resolved OS has a
non-empty version, architecture, bitness hint. The Windows 11 profile has the
architecture `x86`, the iOS profile has none. With the zero-header switch on the
Agent has no header at all. -/
theorem full_fingerprint_hints :
    (∀ (g : Generator) (r : Rng) (a : Agent), g.useBotAgents = false → g.zeroHeader = false →
      (∀ ks r0, (g.headerSorter ks r0).1.Perm ks) → Generate g r = .ok a →
      ∃ browser platform os version r3, ResolvedRun g r browser platform os version r3 a ∧
        ((mapGet browserProfiles browser).ChromiumBased = true →
          (g.fullFingerprint = false →
            Header.Lookup a.Headers "sec-ch-ua-full-version-list" = none ∧
            Header.Lookup a.Headers "sec-ch-ua-platform-version" = none ∧
            Header.Lookup a.Headers "sec-ch-ua-arch" = none ∧
            Header.Lookup a.Headers "sec-ch-ua-bitness" = none) ∧
          (g.fullFingerprint = true → g.fingerprintProfile ≠ .Extreme →
            (∃ v, Header.Lookup a.Headers "sec-ch-ua-full-version-list" = some v) ∧
            Header.Lookup a.Headers "sec-ch-ua-platform-version" =
              (if (mapGet osProfiles os).Version ≠ "" then
                some ("\"" ++ (mapGet osProfiles os).Version ++ "\"") else none) ∧
            Header.Lookup a.Headers "sec-ch-ua-arch" =
              (if (mapGet osProfiles os).Arch ≠ "" then
                some ("\"" ++ (mapGet osProfiles os).Arch ++ "\"") else none) ∧
            Header.Lookup a.Headers "sec-ch-ua-bitness" =
              (if (mapGet osProfiles os).BitnessHint ≠ "" then
                some ("\"" ++ (mapGet osProfiles os).BitnessHint ++ "\"") else none)))) ∧
    (∀ b ∈ [BrowserChrome, BrowserOpera, BrowserEdge, BrowserBrave],
      (mapGet browserProfiles b).ChromiumBased = true) ∧
    (mapGet osProfiles OSWindows11).Arch = "x86" ∧ (mapGet osProfiles OSiOS).Arch = "" ∧
    (∀ (g : Generator) (r : Rng) (a : Agent), g.useBotAgents = false → g.zeroHeader = true →
      Generate g r = .ok a → ∀ name, Header.Lookup a.Headers name = none) := by
  refine ⟨?_, by decide, by decide, by decide, ?_⟩
  · intro g r a hbot hz hs h
    obtain ⟨browser, platform, os, version, r3, hrun⟩ := Generate_browser_inv g r a hbot h
    refine ⟨browser, platform, os, version, r3, hrun, ?_⟩
    intro hcb
    obtain ⟨m, q, q', hm, _, _, _, hread⟩ :=
      ResolvedRun_headers g r browser platform os version r3 a hz hs hrun
    obtain ⟨va, ve, vl, ua, full, dest, _, _, _, _, _, _, _, _, _, _, _, _, _, _, _, _, hints⟩ :=
      generatedHeaderMap_entries _ _ _ _ _ _ _ _ _ _ hm
    obtain ⟨_, _, _, h4, h5, h6, h7⟩ := hints hcb
    rw [← (hread "sec-ch-ua-full-version-list" (by decide)).1] at h4
    rw [← (hread "sec-ch-ua-platform-version" (by decide)).1] at h5
    rw [← (hread "sec-ch-ua-arch" (by decide)).1] at h6
    rw [← (hread "sec-ch-ua-bitness" (by decide)).1] at h7
    constructor
    · intro hoff
      simp only [hoff, Bool.false_eq_true, if_false, false_and] at h4 h5 h6 h7
      exact ⟨h4.elim id (fun x => x.2), h5.elim id (fun x => x.2), h6.elim id (fun x => x.2),
        h7.elim id (fun x => x.2)⟩
    · intro hon hne
      simp only [hon, if_true, true_and] at h4 h5 h6 h7
      exact ⟨⟨full, h4.elim id (fun x => absurd x.1 hne)⟩, h5.elim id (fun x => absurd x.1 hne),
        h6.elim id (fun x => absurd x.1 hne), h7.elim id (fun x => absurd x.1 hne)⟩
  · intro g r a hbot hz h
    obtain ⟨browser, platform, os, version, r3, hrun⟩ := Generate_browser_inv g r a hbot h
    exact (ResolvedRun_zeroHeader g r browser platform os version r3 a hz hrun).2.2

/-- With one concrete OS configured, a run resolves that OS. -/
theorem validCombos_os_single (g : Generator) (browser : Browser) (o : OperatingSystem)
    (c : Platform × OperatingSystem) (hg : g.os = [o]) (ho : o ≠ OSRandom) (hmac : o ≠ OSMac)
    (h : c ∈ validCombos g browser) : c.2 = o := by
  rw [validCombos_mem] at h
  obtain ⟨p, _, o1, ho1, concreteOS, hc1, hc⟩ := h
  have hne : ¬ g.os = [OSRandom] := by
    rw [hg]
    simpa using ho
  rw [if_neg hne, hg, List.mem_singleton] at ho1
  subst ho1
  rw [if_neg hmac, List.mem_singleton] at hc1
  rw [comboFor_mem] at hc
  rw [hc.1, hc1]

set_option maxRecDepth 100000 in
/-- C27 (witness): Chrome on Windows 11 with the full-fingerprint toggle on carries
the four hints, `sec-ch-ua-arch` being `"x86"`; Chrome with the toggle off carries
none of them. -/
theorem full_fingerprint_hints_witness :
    ((∃ v, Header.Lookup (agentOf (Generate fullFingerprintGenerator zeroRng)).Headers
        "sec-ch-ua-full-version-list" = some v) ∧
      Header.Lookup (agentOf (Generate fullFingerprintGenerator zeroRng)).Headers
        "sec-ch-ua-platform-version" = some "\"15.0.0\"" ∧
      Header.Lookup (agentOf (Generate fullFingerprintGenerator zeroRng)).Headers
        "sec-ch-ua-arch" = some "\"x86\"" ∧
      Header.Lookup (agentOf (Generate fullFingerprintGenerator zeroRng)).Headers
        "sec-ch-ua-bitness" = some "\"64\"") ∧
    (Header.Lookup (agentOf (Generate chromeGenerator zeroRng)).Headers
        "sec-ch-ua-full-version-list" = none ∧
      Header.Lookup (agentOf (Generate chromeGenerator zeroRng)).Headers
        "sec-ch-ua-platform-version" = none ∧
      Header.Lookup (agentOf (Generate chromeGenerator zeroRng)).Headers
        "sec-ch-ua-arch" = none ∧
      Header.Lookup (agentOf (Generate chromeGenerator zeroRng)).Headers
        "sec-ch-ua-bitness" = none) := by
  constructor
  · obtain ⟨browser, platform, os, version, r3, hrun, hh⟩ :=
      full_fingerprint_hints.1 fullFingerprintGenerator zeroRng
        (agentOf (Generate fullFingerprintGenerator zeroRng)) rfl rfl
        (fun ks r0 => (provided_sorters_perm ks r0).1) (by decide)
    have hb := ResolvedRun_browser_single _ _ _ _ _ _ _ _ BrowserChrome rfl (by decide) hrun
    subst hb
    have hos := validCombos_os_single fullFingerprintGenerator _ OSWindows11 (platform, os) rfl
      (by decide) (by decide) (ResolvedRun_facts _ _ _ _ _ _ _ _ hrun).2.2.1
    dsimp only at hos
    subst hos
    exact (hh rfl).2 rfl (by decide)
  · obtain ⟨browser, platform, os, version, r3, hrun, hh⟩ :=
      full_fingerprint_hints.1 chromeGenerator zeroRng
        (agentOf (Generate chromeGenerator zeroRng)) rfl rfl
        (fun ks r0 => (provided_sorters_perm ks r0).1) (by decide)
    have hb := ResolvedRun_browser_single _ _ _ _ _ _ _ _ BrowserChrome rfl (by decide) hrun
    subst hb
    exact (hh rfl).1 rfl

/-! ## The headers rebuilt by the reverse parser -/

/-- Splitting at a one-character separator that the text does not hold returns the
text. -/
theorem splitOnce_no_sep (sep : Char) (s : List Char) (h : sep ∉ s) :
    (splitOnce [sep] s).1 = s := by
  induction s with
  | nil => rfl
  | cons x xs ih =>
    have hx : sep ≠ x := fun e => h (e ▸ List.mem_cons_self _ _)
    have hxs : sep ∉ xs := fun e => h (List.mem_cons_of_mem _ e)
    simp only [splitOnce, dropPrefix, hx, if_false]
    exact congrArg (x :: ·) (ih hxs)

/-- The major version `buildSecChUa` cuts out of a numeral is the numeral. -/
theorem major_of_Itoa (v : Int) : String.mk (splitOnce ".".data (Itoa v).data).1 = Itoa v := by
  have hdot : '.' ∉ (Itoa v).data := fun h => absurd (Itoa_chars v _ h) (by decide)
  have hsep : ".".data = ['.'] := rfl
  rw [hsep, splitOnce_no_sep _ _ hdot]

/-- The brand list `buildSecChUa` writes without randomisation for a major version:
Chromium, the brand, and the fixed GREASE brand, in this order. -/
theorem buildSecChUa_static_major (brand : String) (v : Int) (r : Rng) :
    buildSecChUa brand (Itoa v) false false r =
      some (Join [ "\"Chromium\";v=\"" ++ Itoa v ++ "\"",
        "\"" ++ brand ++ "\";v=\"" ++ Itoa v ++ "\"",
        "\"Not/A)Brand\"" ++ ";v=" ++ "\"8\"" ] ", ", r) := by
  have hsplit : splitOnce ";v=".data "\"Not/A)Brand\";v=\"8\"".data =
      ("\"Not/A)Brand\"".data, some "\"8\"".data) := by decide
  have hmaj := major_of_Itoa v
  have hdata : ".".data = ['.'] := rfl
  rw [hdata] at hmaj
  unfold buildSecChUa
  simp only [Bool.false_eq_true, if_false, hsplit, Option.map_some', hmaj]

/-- The brand list `buildSecChUa` writes without randomisation for a full version. -/
theorem buildSecChUa_static_full (brand version : String) (r : Rng) :
    buildSecChUa brand version true false r =
      some (Join [ "\"Chromium\";v=\"" ++ version ++ "\"",
        "\"" ++ brand ++ "\";v=\"" ++ version ++ "\"",
        "\"Not/A)Brand\"" ++ ";v=" ++ "\"99.0.0.0\"" ] ", ", r) := by
  have hsplit : splitOnce ";v=".data "\"Not/A)Brand\";v=\"8\"".data =
      ("\"Not/A)Brand\"".data, some "\"8\"".data) := by decide
  unfold buildSecChUa
  simp only [Bool.false_eq_true, if_false, if_true, hsplit]

/-- The header map of `buildStaticHeaders` does not depend on the random source, and
is the run of its assignments. -/
theorem staticHeaderMap_eq (browser : browserProfile) (os : osProfile)
    (platform : platformProfile) (version : Int) (fullVersion : String)
    (vp : versionProfile) (rt : RequestType) (r : Rng) :
    staticHeaderMap browser os platform version fullVersion vp rt r =
      some (assignAll []
        ([ ("accept", Join ((staticAcceptTemplate vp rt).map staticAcceptPart) ","),
            ("accept-encoding", "gzip, deflate, br"),
            ("accept-language", "en-US,en;q=0.9") ] ++
          (if browser.ChromiumBased then
            [ ("sec-ch-ua",
                Join [ "\"Chromium\";v=\"" ++ Itoa version ++ "\"",
                  "\"" ++ browser.Brand ++ "\";v=\"" ++ Itoa version ++ "\"",
                  "\"Not/A)Brand\"" ++ ";v=" ++ "\"8\"" ] ", "),
              ("sec-ch-ua-mobile", platform.MobileHint),
              ("sec-ch-ua-platform", "\"" ++ os.Name ++ "\"") ] ++
            (if true then
              [ ("sec-ch-ua-full-version-list",
                  Join [ "\"Chromium\";v=\"" ++ fullVersion ++ "\"",
                    "\"" ++ browser.Brand ++ "\";v=\"" ++ fullVersion ++ "\"",
                    "\"Not/A)Brand\"" ++ ";v=" ++ "\"99.0.0.0\"" ] ", ") ] ++
                osHintAssignments os
            else [])
          else []) ++
          staticFetchAssignments rt)) := by
  unfold staticHeaderMap staticHintAssignments
  simp only [buildSecChUa_static_major, buildSecChUa_static_full]
  cases browser.ChromiumBased <;> rfl

/-- The entries of the header map of `buildStaticHeaders`, name by name. -/
theorem staticHeaderMap_entries (browser : browserProfile) (os : osProfile)
    (platform : platformProfile) (version : Int) (fullVersion : String)
    (vp : versionProfile) (rt : RequestType) (r : Rng) (m : List (String × String))
    (h : staticHeaderMap browser os platform version fullVersion vp rt r = some m) :
    mapFind m "accept" =
      some (Join ((staticAcceptTemplate vp rt).map staticAcceptPart) ",") ∧
    mapFind m "accept-encoding" = some "gzip, deflate, br" ∧
    mapFind m "accept-language" = some "en-US,en;q=0.9" ∧
    mapFind m "sec-fetch-dest" =
      (if rt = RequestTypeNavigate then some "document"
        else if rt = RequestTypeXHR then some "empty" else none) ∧
    mapFind m "sec-fetch-mode" =
      (if rt = RequestTypeNavigate then some "navigate"
        else if rt = RequestTypeXHR then some "cors" else none) ∧
    mapFind m "sec-fetch-site" =
      (if rt = RequestTypeNavigate then some "none"
        else if rt = RequestTypeXHR then some "same-origin" else none) ∧
    mapFind m "sec-fetch-user" = (if rt = RequestTypeNavigate then some "?1" else none) ∧
    mapFind m "upgrade-insecure-requests" =
      (if rt = RequestTypeNavigate then some "1" else none) ∧
    mapFind m "sec-gpc" = none ∧
    (browser.ChromiumBased = false →
      ∀ k ∈ [ "sec-ch-ua", "sec-ch-ua-mobile", "sec-ch-ua-platform",
          "sec-ch-ua-full-version-list", "sec-ch-ua-platform-version", "sec-ch-ua-arch",
          "sec-ch-ua-bitness" ], mapFind m k = none) ∧
    (browser.ChromiumBased = true →
      mapFind m "sec-ch-ua" =
        some (Join [ "\"Chromium\";v=\"" ++ Itoa version ++ "\"",
          "\"" ++ browser.Brand ++ "\";v=\"" ++ Itoa version ++ "\"",
          "\"Not/A)Brand\"" ++ ";v=" ++ "\"8\"" ] ", ") ∧
      mapFind m "sec-ch-ua-mobile" = some platform.MobileHint ∧
      mapFind m "sec-ch-ua-platform" = some ("\"" ++ os.Name ++ "\"") ∧
      mapFind m "sec-ch-ua-full-version-list" =
        some (Join [ "\"Chromium\";v=\"" ++ fullVersion ++ "\"",
          "\"" ++ browser.Brand ++ "\";v=\"" ++ fullVersion ++ "\"",
          "\"Not/A)Brand\"" ++ ";v=" ++ "\"99.0.0.0\"" ] ", ") ∧
      mapFind m "sec-ch-ua-platform-version" =
        (if os.Version ≠ "" then some ("\"" ++ os.Version ++ "\"") else none) ∧
      mapFind m "sec-ch-ua-arch" =
        (if os.Arch ≠ "" then some ("\"" ++ os.Arch ++ "\"") else none) ∧
      mapFind m "sec-ch-ua-bitness" =
        (if os.BitnessHint ≠ "" then some ("\"" ++ os.BitnessHint ++ "\"") else none)) := by
  rw [staticHeaderMap_eq] at h
  simp only [Option.some.injEq] at h
  have hfind : ∀ (A H F : List (String × String)) (k : String),
      mapFind (assignAll [] (A ++ H ++ F)) k =
        (mapFind F.reverse k).or ((mapFind H.reverse k).or (mapFind A.reverse k)) := by
    intro A H F k
    rw [mapFind_assignAll, List.reverse_append, List.reverse_append, mapFind_append,
      mapFind_append]
    simp [mapFind]
  have hF : ∀ k ∈ [ "accept", "accept-encoding", "accept-language", "sec-ch-ua",
      "sec-ch-ua-mobile", "sec-ch-ua-platform", "sec-ch-ua-full-version-list",
      "sec-ch-ua-platform-version", "sec-ch-ua-arch", "sec-ch-ua-bitness", "sec-gpc" ],
      mapFind (staticFetchAssignments rt).reverse k = none := by
    intro k hk
    unfold staticFetchAssignments
    split
    · fin_cases hk <;> rfl
    · split
      · fin_cases hk <;> rfl
      · rfl
  have hF1 : mapFind (staticFetchAssignments rt).reverse "sec-fetch-dest" =
      (if rt = RequestTypeNavigate then some "document"
        else if rt = RequestTypeXHR then some "empty" else none) := by
    unfold staticFetchAssignments
    split
    · rfl
    · split <;> rfl
  have hF2 : mapFind (staticFetchAssignments rt).reverse "sec-fetch-mode" =
      (if rt = RequestTypeNavigate then some "navigate"
        else if rt = RequestTypeXHR then some "cors" else none) := by
    unfold staticFetchAssignments
    split
    · rfl
    · split <;> rfl
  have hF3 : mapFind (staticFetchAssignments rt).reverse "sec-fetch-site" =
      (if rt = RequestTypeNavigate then some "none"
        else if rt = RequestTypeXHR then some "same-origin" else none) := by
    unfold staticFetchAssignments
    split
    · rfl
    · split <;> rfl
  have hF4 : mapFind (staticFetchAssignments rt).reverse "sec-fetch-user" =
      (if rt = RequestTypeNavigate then some "?1" else none) := by
    unfold staticFetchAssignments
    split
    · rfl
    · split <;> rfl
  have hF5 : mapFind (staticFetchAssignments rt).reverse "upgrade-insecure-requests" =
      (if rt = RequestTypeNavigate then some "1" else none) := by
    unfold staticFetchAssignments
    split
    · rfl
    · split <;> rfl
  cases hcb : browser.ChromiumBased with
  | false =>
    rw [hcb] at h
    simp only [Bool.false_eq_true, if_false] at h
    subst h
    refine ⟨?_, ?_, ?_, ?_, ?_, ?_, ?_, ?_, ?_, ?_, ?_⟩
    · rw [hfind, hF _ (by simp)]
      rfl
    · rw [hfind, hF _ (by simp)]
      rfl
    · rw [hfind, hF _ (by simp)]
      rfl
    · rw [hfind, hF1]
      split
      · rfl
      · split <;> rfl
    · rw [hfind, hF2]
      split
      · rfl
      · split <;> rfl
    · rw [hfind, hF3]
      split
      · rfl
      · split <;> rfl
    · rw [hfind, hF4]
      split <;> rfl
    · rw [hfind, hF5]
      split <;> rfl
    · rw [hfind, hF _ (by simp)]
      rfl
    · intro _ k hk
      rw [hfind, hF k (by fin_cases hk <;> simp)]
      fin_cases hk <;> rfl
    · intro hc
      exact absurd hc (by decide)
  | true =>
    rw [hcb] at h
    simp only [if_true] at h
    subst h
    obtain ⟨hh1, hh2, hh3, hh4, hh5, hh6, hh7, hh8⟩ := hints_block true
      (Join [ "\"Chromium\";v=\"" ++ Itoa version ++ "\"",
        "\"" ++ browser.Brand ++ "\";v=\"" ++ Itoa version ++ "\"",
        "\"Not/A)Brand\"" ++ ";v=" ++ "\"8\"" ] ", ")
      platform.MobileHint ("\"" ++ os.Name ++ "\"")
      (Join [ "\"Chromium\";v=\"" ++ fullVersion ++ "\"",
        "\"" ++ browser.Brand ++ "\";v=\"" ++ fullVersion ++ "\"",
        "\"Not/A)Brand\"" ++ ";v=" ++ "\"99.0.0.0\"" ] ", ") os
    simp only [if_true, true_and] at hh1 hh2 hh3 hh4 hh5 hh6 hh7 hh8
    refine ⟨?_, ?_, ?_, ?_, ?_, ?_, ?_, ?_, ?_, ?_, ?_⟩
    · rw [hfind, hF _ (by simp), hh8 _ (by simp)]
      rfl
    · rw [hfind, hF _ (by simp), hh8 _ (by simp)]
      rfl
    · rw [hfind, hF _ (by simp), hh8 _ (by simp)]
      rfl
    · rw [hfind, hF1, hh8 _ (by simp)]
      split
      · rfl
      · split <;> rfl
    · rw [hfind, hF2, hh8 _ (by simp)]
      split
      · rfl
      · split <;> rfl
    · rw [hfind, hF3, hh8 _ (by simp)]
      split
      · rfl
      · split <;> rfl
    · rw [hfind, hF4, hh8 _ (by simp)]
      split <;> rfl
    · rw [hfind, hF5, hh8 _ (by simp)]
      split <;> rfl
    · rw [hfind, hF _ (by simp), hh8 _ (by simp)]
      rfl
    · intro hc
      exact absurd hc (by decide)
    · intro _
      refine ⟨?_, ?_, ?_, ?_, ?_, ?_, ?_⟩
      · rw [hfind, hF _ (by simp), hh1]
        rfl
      · rw [hfind, hF _ (by simp), hh2]
        rfl
      · rw [hfind, hF _ (by simp), hh3]
        rfl
      · rw [hfind, hF _ (by simp), hh4]
        rfl
      · rw [hfind, hF _ (by simp), hh5]
        by_cases hv : os.Version = "" <;> by_cases ha : os.Arch = "" <;>
          by_cases hb : os.BitnessHint = "" <;>
          simp only [hv, ha, hb, ne_eq, not_true_eq_false, not_false_eq_true, if_true,
            if_false] <;> rfl
      · rw [hfind, hF _ (by simp), hh6]
        by_cases hv : os.Version = "" <;> by_cases ha : os.Arch = "" <;>
          by_cases hb : os.BitnessHint = "" <;>
          simp only [hv, ha, hb, ne_eq, not_true_eq_false, not_false_eq_true, if_true,
            if_false] <;> rfl
      · rw [hfind, hF _ (by simp), hh7]
        by_cases hv : os.Version = "" <;> by_cases ha : os.Arch = "" <;>
          by_cases hb : os.BitnessHint = "" <;>
          simp only [hv, ha, hb, ne_eq, not_true_eq_false, not_false_eq_true, if_true,
            if_false] <;> rfl

/-- Two lists with the same images under a function that separates their entries
are equal. -/
theorem map_eq_of_separating {α β : Type} (f : α → β) :
    ∀ (l1 l2 : List α), l1.map f = l2.map f →
      (∀ a ∈ l1, ∀ b ∈ l2, f a = f b → a = b) → l1 = l2
  | [], [], _, _ => rfl
  | [], _ :: _, h, _ => by simp at h
  | _ :: _, [], h, _ => by simp at h
  | a :: l1, b :: l2, h, hinj => by
    simp only [List.map_cons, List.cons.injEq] at h
    have hab := hinj a (List.mem_cons_self _ _) b (List.mem_cons_self _ _) h.1
    have hrest := map_eq_of_separating f l1 l2 h.2
      (fun x hx y hy => hinj x (List.mem_cons_of_mem _ hx) y (List.mem_cons_of_mem _ hy))
    rw [hab, hrest]

/-- The priority sort of keys with pairwise different priorities does not depend on
the order in which they arrive. -/
theorem PriorityHeaderSorter_perm_eq (l1 l2 : List String) (hp : l1.Perm l2)
    (hinj : ∀ a ∈ l1, ∀ b ∈ l1, priorityOf a = priorityOf b → a = b) :
    PriorityHeaderSorter l1 = PriorityHeaderSorter l2 := by
  have hs1 := PriorityHeaderSorter_sorted l1
  have hs2 := PriorityHeaderSorter_sorted l2
  have hp1 : (PriorityHeaderSorter l1).Perm l1 := SliceStable_perm _ _
  have hp2 : (PriorityHeaderSorter l2).Perm l2 := SliceStable_perm _ _
  have hperm : (PriorityHeaderSorter l1).Perm (PriorityHeaderSorter l2) :=
    hp1.trans (hp.trans hp2.symm)
  have hm1 : ((PriorityHeaderSorter l1).map priorityOf).Sorted (· ≤ ·) :=
    List.pairwise_map.2 hs1
  have hm2 : ((PriorityHeaderSorter l2).map priorityOf).Sorted (· ≤ ·) :=
    List.pairwise_map.2 hs2
  have hmap := List.eq_of_perm_of_sorted (hperm.map priorityOf) hm1 hm2
  apply map_eq_of_separating priorityOf _ _ hmap
  intro a ha b hb hab
  exact hinj a (hp1.subset ha) b (hp.symm.subset (hp2.subset hb)) hab

/-- The emitted header names all have an entry in `headerPriority`, and no two of
them share a priority. -/
theorem emitted_priorities :
    (∀ k ∈ emittedHeaderNames, (mapFind headerPriority k).isSome = true) ∧
    (∀ a ∈ emittedHeaderNames, ∀ b ∈ emittedHeaderNames, priorityOf a = priorityOf b → a = b) ∧
    (headerPriority.map Prod.snd).Nodup := by
  decide

/-- The function `buildStaticHeaders` does not depend on the order in which the
intermediate map is visited. -/
theorem buildStaticHeaders_deterministic (browser : browserProfile) (os : osProfile)
    (platform : platformProfile) (version : Int) (fullVersion : String)
    (vp : versionProfile) (rt : RequestType) (r1 r2 : Rng) :
    buildStaticHeaders browser os platform version fullVersion vp rt r1 =
      buildStaticHeaders browser os platform version fullVersion vp rt r2 := by
  obtain ⟨m1, hm1, hb1⟩ := buildStaticHeaders_isSome browser os platform version fullVersion vp
    rt r1
  obtain ⟨m2, hm2, hb2⟩ := buildStaticHeaders_isSome browser os platform version fullVersion vp
    rt r2
  have hw := staticHeaderMap_keysWithin _ _ _ _ _ _ _ _ m1 hm1
  rw [staticHeaderMap_eq] at hm1 hm2
  have hm : m1 = m2 := by
    rw [hm1] at hm2
    exact Option.some.inj hm2
  subst hm
  rw [hb1, hb2]
  have hperm : (rangeKeys m1 r1).1.Perm (rangeKeys m1 r2).1 :=
    (rangeKeys_perm m1 r1).trans (rangeKeys_perm m1 r2).symm
  have hinj : ∀ a ∈ (rangeKeys m1 r1).1, ∀ b ∈ (rangeKeys m1 r1).1,
      priorityOf a = priorityOf b → a = b := by
    intro a ha b hb
    exact emitted_priorities.2.1 a (hw.2 a ((rangeKeys_perm m1 r1).subset ha)) b
      (hw.2 b ((rangeKeys_perm m1 r1).subset hb))
  rw [PriorityHeaderSorter_perm_eq _ _ hperm hinj]

/-- A successful run of the reverse parser, spelled out. -/
theorem FromUserAgentString_inv (s : String) (rt : RequestType) (r : Rng) (a : Agent)
    (h : FromUserAgentString s rt r = .ok a) :
    ∃ p vp k m, parseUserAgentString s = .ok p ∧
      findClosestVersionProfile (mapGet browserProfiles p.Browser).Versions p.Version =
        .ok (vp, k) ∧
      staticHeaderMap (mapGet browserProfiles p.Browser) (mapGet osProfiles p.OS)
        (mapGet platformProfiles
          (if p.OS = OSAndroid ∨ p.OS = OSiOS then PlatformMobile else PlatformDesktop))
        p.Version
        (if (mapGet browserProfiles p.Browser).ChromiumBased then
          Itoa p.Version ++ ".0." ++ Itoa vp.BuildNumber ++ ".0"
        else "")
        vp rt r = some m ∧
      keysWithin emittedHeaderNames m ∧
      a.UserAgent = s ∧ a.ClientHelloSpec = none ∧
      a.ClientHelloID = findClosestChromeProfileForParser p.Version ∧
      a.H2Settings = GetChromiumH2Settings ∧
      a.HeaderOrder = pseudoHeaders ++ PriorityHeaderSorter (rangeKeys m r).1 ∧
      a.Headers = (finishHeaders m (PriorityHeaderSorter (rangeKeys m r).1)).1 ∧
      ∀ name ∈ emittedHeaderNames,
        Header.Lookup a.Headers name = mapFind m name ∧
        Header.Get a.Headers name = mapGet m name := by
  rcases FromUserAgentString_cases s rt r with ⟨e, _, he⟩ | ⟨p, _, _, he⟩ | ⟨p, vp, k, m, hp, hv, hm, hF⟩
  · rw [he] at h
    simp at h
  · rw [he] at h
    simp at h
  · rw [hF] at h
    simp only [Except.ok.injEq] at h
    subst h
    have hw := staticHeaderMap_keysWithin _ _ _ _ _ _ _ _ m hm
    have hperm : (PriorityHeaderSorter (rangeKeys m r).1).Perm (mapKeys m) :=
      (SliceStable_perm _ _).trans (rangeKeys_perm m r)
    exact ⟨p, vp, k, m, hp, hv, hm, hw, rfl, rfl, rfl, rfl, rfl, rfl,
      fun name hname => finishHeaders_lookup m _ name hw hperm hname⟩

/-! ## Theorems on the headers rebuilt by the reverse parser -/

/-- C24: whenever `FromUserAgentString` succeeds, the headers are rebuilt with the
profile of a platform that is `mobile` exactly when the classified OS is Android or
iOS and `desktop` otherwise; for a Chromium-derived browser the header
`sec-ch-ua-mobile` is `?1` for Android and iOS and `?0` for every other OS. -/
theorem parser_platform_by_os :
    (∀ (s : String) (rt : RequestType) (r : Rng) (a : Agent),
      FromUserAgentString s rt r = .ok a →
      ∃ p vp k platform, parseUserAgentString s = .ok p ∧
        findClosestVersionProfile (mapGet browserProfiles p.Browser).Versions p.Version =
          .ok (vp, k) ∧
        (platform = PlatformMobile ↔ (p.OS = OSAndroid ∨ p.OS = OSiOS)) ∧
        (platform = PlatformDesktop ↔ ¬ (p.OS = OSAndroid ∨ p.OS = OSiOS)) ∧
        buildStaticHeaders (mapGet browserProfiles p.Browser) (mapGet osProfiles p.OS)
          (mapGet platformProfiles platform) p.Version
          (if (mapGet browserProfiles p.Browser).ChromiumBased then
            Itoa p.Version ++ ".0." ++ Itoa vp.BuildNumber ++ ".0"
          else "")
          vp rt r = some (a.Headers, a.HeaderOrder) ∧
        ((mapGet browserProfiles p.Browser).ChromiumBased = true →
          Header.Lookup a.Headers "sec-ch-ua-mobile" =
            some (if p.OS = OSAndroid ∨ p.OS = OSiOS then "?1" else "?0") ∧
          Header.Get a.Headers "sec-ch-ua-mobile" =
            (if p.OS = OSAndroid ∨ p.OS = OSiOS then "?1" else "?0"))) ∧
    (mapGet platformProfiles PlatformMobile).MobileHint = "?1" ∧
    (mapGet platformProfiles PlatformDesktop).MobileHint = "?0" := by
  refine ⟨?_, rfl, rfl⟩
  intro s rt r a h
  obtain ⟨p, vp, k, m, hp, hv, hm, hw, _, _, _, _, hO, hH, hread⟩ :=
    FromUserAgentString_inv s rt r a h
  refine ⟨p, vp, k,
    if p.OS = OSAndroid ∨ p.OS = OSiOS then PlatformMobile else PlatformDesktop,
    hp, hv, ?_, ?_, ?_, ?_⟩
  · by_cases hc : p.OS = OSAndroid ∨ p.OS = OSiOS
    · simp [hc]
    · simp only [hc, if_false, iff_false]
      decide
  · by_cases hc : p.OS = OSAndroid ∨ p.OS = OSiOS
    · simp only [hc, if_true, not_true_eq_false, iff_false]
      decide
    · simp [hc]
  · obtain ⟨m', hm', hb⟩ := buildStaticHeaders_isSome (mapGet browserProfiles p.Browser)
      (mapGet osProfiles p.OS)
      (mapGet platformProfiles
        (if p.OS = OSAndroid ∨ p.OS = OSiOS then PlatformMobile else PlatformDesktop))
      p.Version
      (if (mapGet browserProfiles p.Browser).ChromiumBased then
        Itoa p.Version ++ ".0." ++ Itoa vp.BuildNumber ++ ".0"
      else "") vp rt r
    have hmm : m' = m := by
      rw [hm] at hm'
      exact (Option.some.inj hm').symm
    subst hmm
    rw [hb, hH, hO]
    rfl
  · intro hcb
    obtain ⟨_, _, _, _, _, _, _, _, _, _, hhints⟩ := staticHeaderMap_entries _ _ _ _ _ _ _ _ m hm
    have hmob := (hhints hcb).2.1
    have hhint : (mapGet platformProfiles
        (if p.OS = OSAndroid ∨ p.OS = OSiOS then PlatformMobile else PlatformDesktop)).MobileHint =
        (if p.OS = OSAndroid ∨ p.OS = OSiOS then "?1" else "?0") := by
      split <;> rfl
    rw [hhint] at hmob
    obtain ⟨h1, h2⟩ := hread "sec-ch-ua-mobile" (by decide)
    exact ⟨by rw [h1, hmob], by rw [h2, mapGet_of_find _ _ _ hmob]⟩

set_option maxRecDepth 100000 in
/-- C24 (witness): Chrome with a platform token that names Android is rebuilt as
mobile, Chrome on Windows as desktop. -/
theorem parser_platform_by_os_witness :
    Header.Lookup (agentOf (FromUserAgentString uaChromeAndroidPlain RequestTypeNavigate
      zeroRng)).Headers "sec-ch-ua-mobile" = some "?1" ∧
    Header.Lookup (agentOf (FromUserAgentString uaChrome138 RequestTypeNavigate
      zeroRng)).Headers "sec-ch-ua-mobile" = some "?0" := by
  constructor
  · obtain ⟨p, vp, k, platform, hp, _, _, _, _, hmob⟩ :=
      parser_platform_by_os.1 uaChromeAndroidPlain RequestTypeNavigate zeroRng
        (agentOf (FromUserAgentString uaChromeAndroidPlain RequestTypeNavigate zeroRng))
        (by decide)
    have hparse : parseUserAgentString uaChromeAndroidPlain =
        .ok { Browser := BrowserChrome, Version := 125, OS := OSAndroid } := by decide
    rw [hparse] at hp
    simp only [Except.ok.injEq] at hp
    subst hp
    exact (hmob rfl).1
  · obtain ⟨p, vp, k, platform, hp, _, _, _, _, hmob⟩ :=
      parser_platform_by_os.1 uaChrome138 RequestTypeNavigate zeroRng
        (agentOf (FromUserAgentString uaChrome138 RequestTypeNavigate zeroRng)) (by decide)
    have hparse : parseUserAgentString uaChrome138 =
        .ok { Browser := BrowserChrome, Version := 138, OS := OSWindows11 } := by decide
    rw [hparse] at hp
    simp only [Except.ok.injEq] at hp
    subst hp
    exact (hmob rfl).1

/-- C25: `FromUserAgentString` is deterministic: its result, hence the header values,
the header order, the TLS identity and the HTTP/2 table, does not depend on the
order in which the intermediate header map is visited. Every name in the header
order after the four pseudo-headers has an entry in `headerPriority`, and no two
entries of `headerPriority` share a priority. For a Chromium-derived browser
classified on Windows and a navigation request the order is the listed one. The
`accept` value is entry 0 of the template list of the closest version profile that
fits the request type, each part with its own weight. -/
theorem parser_headers_deterministic :
    (∀ (s : String) (rt : RequestType) (r1 r2 : Rng),
      FromUserAgentString s rt r1 = FromUserAgentString s rt r2) ∧
    (∀ (s : String) (rt : RequestType) (r : Rng) (a : Agent),
      FromUserAgentString s rt r = .ok a →
      ∃ ks, a.HeaderOrder = pseudoHeaders ++ ks ∧
        ∀ k ∈ ks, (mapFind headerPriority k).isSome = true) ∧
    (headerPriority.map Prod.snd).Nodup ∧
    (∀ (s : String) (r : Rng) (a : Agent) (p : parsedUA),
      FromUserAgentString s RequestTypeNavigate r = .ok a → parseUserAgentString s = .ok p →
      (mapGet browserProfiles p.Browser).ChromiumBased = true → p.OS = OSWindows11 →
      a.HeaderOrder =
        [ ":method", ":authority", ":scheme", ":path", "upgrade-insecure-requests",
          "sec-ch-ua", "sec-ch-ua-arch", "sec-ch-ua-bitness", "sec-ch-ua-full-version-list",
          "sec-ch-ua-mobile", "sec-ch-ua-platform", "sec-ch-ua-platform-version", "accept",
          "accept-encoding", "accept-language", "sec-fetch-site", "sec-fetch-mode",
          "sec-fetch-user", "sec-fetch-dest" ]) ∧
    (∀ (s : String) (rt : RequestType) (r : Rng) (a : Agent),
      FromUserAgentString s rt r = .ok a →
      ∃ p vp k, parseUserAgentString s = .ok p ∧
        findClosestVersionProfile (mapGet browserProfiles p.Browser).Versions p.Version =
          .ok (vp, k) ∧
        Header.Lookup a.Headers "accept" =
          some (Join
            ((if rt = RequestTypeXHR then vp.AcceptHeaderPatternsXHR.headD []
              else vp.AcceptHeaderPatterns.headD []).map
              fun part =>
                part.Value ++ String.join (part.Extras.map (fun extra => ";" ++ extra)) ++
                  (if part.Q.isPos then ";q=" ++ FormatFloat1 part.Q else "")) ",")) := by
  refine ⟨?_, ?_, emitted_priorities.2.2, ?_, ?_⟩
  · intro s rt r1 r2
    cases hp : parseUserAgentString s with
    | error e => simp only [FromUserAgentString, hp]
    | ok p =>
      rw [FromUserAgentString_of_parse s rt r1 p hp, FromUserAgentString_of_parse s rt r2 p hp]
      cases findClosestVersionProfile (mapGet browserProfiles p.Browser).Versions p.Version with
      | error e => rfl
      | ok res =>
        obtain ⟨vp, k⟩ := res
        simp only
        rw [buildStaticHeaders_deterministic _ _ _ _ _ _ _ r1 r2]
  · intro s rt r a h
    obtain ⟨p, vp, k, m, _, _, _, hw, _, _, _, _, hO, _, _⟩ := FromUserAgentString_inv s rt r a h
    refine ⟨_, hO, ?_⟩
    intro key hkey
    have hmem : key ∈ mapKeys m :=
      (rangeKeys_perm m r).subset ((SliceStable_perm _ _).subset hkey)
    exact emitted_priorities.1 key (hw.2 key hmem)
  · intro s r a p h hp hcb hos
    obtain ⟨p', vp, k, m, hp', _, hm, hw, _, _, _, _, hO, _, _⟩ :=
      FromUserAgentString_inv s RequestTypeNavigate r a h
    rw [hp] at hp'
    simp only [Except.ok.injEq] at hp'
    subst hp'
    have hinj : ∀ x ∈ (rangeKeys m r).1, ∀ y ∈ (rangeKeys m r).1,
        priorityOf x = priorityOf y → x = y := by
      intro x hx y hy
      exact emitted_priorities.2.1 x (hw.2 x ((rangeKeys_perm m r).subset hx)) y
        (hw.2 y ((rangeKeys_perm m r).subset hy))
    rw [hO, PriorityHeaderSorter_perm_eq _ _ (rangeKeys_perm m r) hinj]
    rw [staticHeaderMap_eq, hcb, hos] at hm
    simp only [if_true, Option.some.injEq] at hm
    have hkeys : mapKeys m =
        [ "accept", "accept-encoding", "accept-language", "sec-ch-ua", "sec-ch-ua-mobile",
          "sec-ch-ua-platform", "sec-ch-ua-full-version-list", "sec-ch-ua-platform-version",
          "sec-ch-ua-arch", "sec-ch-ua-bitness", "sec-fetch-dest", "sec-fetch-mode",
          "sec-fetch-site", "sec-fetch-user", "upgrade-insecure-requests" ] := by
      rw [← hm]
      rfl
    rw [hkeys]
    decide
  · intro s rt r a h
    obtain ⟨p, vp, k, m, hp, hv, hm, _, _, _, _, _, _, _, hread⟩ :=
      FromUserAgentString_inv s rt r a h
    obtain ⟨hacc, _⟩ := staticHeaderMap_entries _ _ _ _ _ _ _ _ m hm
    refine ⟨p, vp, k, hp, hv, ?_⟩
    rw [(hread "accept" (by decide)).1, hacc]
    unfold staticAcceptTemplate
    split <;> rfl

set_option maxRecDepth 100000 in
/-- C25 (witness): the Chrome 138 Windows string gives the same agent for two
different visiting orders of the header map, and its header order is the listed one. -/
theorem parser_headers_deterministic_witness :
    FromUserAgentString uaChrome138 RequestTypeNavigate zeroRng =
      FromUserAgentString uaChrome138 RequestTypeNavigate (fun n => n + 1) ∧
    (agentOf (FromUserAgentString uaChrome138 RequestTypeNavigate zeroRng)).HeaderOrder =
      [ ":method", ":authority", ":scheme", ":path", "upgrade-insecure-requests",
        "sec-ch-ua", "sec-ch-ua-arch", "sec-ch-ua-bitness", "sec-ch-ua-full-version-list",
        "sec-ch-ua-mobile", "sec-ch-ua-platform", "sec-ch-ua-platform-version", "accept",
        "accept-encoding", "accept-language", "sec-fetch-site", "sec-fetch-mode",
        "sec-fetch-user", "sec-fetch-dest" ] :=
  ⟨parser_headers_deterministic.1 uaChrome138 RequestTypeNavigate zeroRng (fun n => n + 1),
    parser_headers_deterministic.2.2.2.1 uaChrome138 zeroRng
      (agentOf (FromUserAgentString uaChrome138 RequestTypeNavigate zeroRng))
      { Browser := BrowserChrome, Version := 138, OS := OSWindows11 }
      (by decide) (by decide) (by decide) rfl⟩

/-- The loop of `Generate` keeps the non-empty fragments of the steps, in order. -/
theorem renderParts_filter (gens : List UAComponentGenerator) (bp : browserProfile)
    (op : osProfile) (vp : versionProfile) (fv : String) (r : Rng) :
    renderParts gens bp op vp fv r =
      (stepFragments gens bp op vp fv r).map
        fun res => (res.1.filter (fun part => decide (part ≠ "")), res.2) := by
  induction gens generalizing r with
  | nil => rfl
  | cons gen rest ih =>
    unfold renderParts stepFragments
    cases gen bp op vp fv r with
    | none => rfl
    | some res =>
      obtain ⟨part, r1⟩ := res
      simp only
      rw [ih r1]
      cases stepFragments rest bp op vp fv r1 with
      | none => rfl
      | some res2 =>
        obtain ⟨parts, r2⟩ := res2
        by_cases hp : part = ""
        · simp [hp]
        · simp [hp]

/-- No fragment kept by the loop of `Generate` is empty. -/
theorem renderParts_nonempty (gens : List UAComponentGenerator) (bp : browserProfile)
    (op : osProfile) (vp : versionProfile) (fv : String) (r r1 : Rng) (parts : List String)
    (h : renderParts gens bp op vp fv r = some (parts, r1)) : ∀ part ∈ parts, part ≠ "" := by
  rw [renderParts_filter] at h
  cases hs : stepFragments gens bp op vp fv r with
  | none => rw [hs] at h; simp at h
  | some res =>
    rw [hs] at h
    simp only [Option.map_some', Option.some.injEq, Prod.mk.injEq] at h
    intro part hpart
    rw [← h.1, List.mem_filter] at hpart
    simpa using hpart.2

/-- A char in front of a text without a double space makes none unless both it and
the first character of the text are spaces. -/
theorem no_double_cons (c : Char) (b : List Char) (hb : ¬ [' ', ' '] <:+: b)
    (hc : c ≠ ' ' ∨ b.head? ≠ some ' ') : ¬ [' ', ' '] <:+: c :: b := by
  rw [List.infix_cons_iff]
  rintro (h | h)
  · rw [List.cons_prefix_cons] at h
    obtain ⟨hc1, hpre⟩ := h
    rcases hc with hc | hc
    · exact hc hc1.symm
    · cases b with
      | nil => simp at hpre
      | cons d t =>
        rw [List.cons_prefix_cons] at hpre
        exact hc (by rw [← hpre.1]; rfl)
  · exact hb h

theorem double_head (c d : Char) (t : List Char) (h : ¬ [' ', ' '] <:+: c :: d :: t) :
    c ≠ ' ' ∨ d ≠ ' ' := by
  by_cases hc : c = ' '
  · by_cases hd : d = ' '
    · subst hc hd
      exact absurd (List.prefix_append [' ', ' '] t).isInfix h
    · exact Or.inr hd
  · exact Or.inl hc

/-- Two texts without a double space make none when put together, unless the
first ends and the second begins with a space. -/
theorem no_double_append (a b : List Char) (ha : ¬ [' ', ' '] <:+: a)
    (hb : ¬ [' ', ' '] <:+: b) (hab : a.getLast? ≠ some ' ' ∨ b.head? ≠ some ' ') :
    ¬ [' ', ' '] <:+: a ++ b := by
  induction a with
  | nil => simpa using hb
  | cons c t ih =>
    have ht : ¬ [' ', ' '] <:+: t := fun h => ha (List.infix_cons h)
    cases t with
    | nil =>
      apply no_double_cons _ _ hb
      rcases hab with h | h
      · left
        intro e
        exact h (by rw [e]; rfl)
      · exact Or.inr h
    | cons d t2 =>
      have hlast : (c :: d :: t2).getLast? = (d :: t2).getLast? := by
        simp [List.getLast?_cons_cons]
      rw [hlast] at hab
      apply no_double_cons _ _ (ih ht hab)
      rcases double_head c d t2 ha with h | h
      · exact Or.inl h
      · right
        intro e
        exact h (by simpa using e)

/-- The property `singleSpaced` on character lists. -/
theorem singleSpaced_iff (s : String) :
    singleSpaced s ↔
      s.data.head? ≠ some ' ' ∧ s.data.getLast? ≠ some ' ' ∧ ¬ [' ', ' '] <:+: s.data := by
  unfold singleSpaced
  have hc : Contains s "  " = false ↔ ¬ [' ', ' '] <:+: s.data := by
    rw [← Bool.not_eq_true, Contains_iff]
  rw [hc]

/-- Single-spaced texts put together are single-spaced. -/
theorem singleSpaced_append (a b : String) (ha : singleSpaced a) (hb : singleSpaced b) :
    singleSpaced (a ++ b) := by
  rw [singleSpaced_iff] at ha hb ⊢
  rw [String.data_append]
  refine ⟨?_, ?_, no_double_append _ _ ha.2.2 hb.2.2 (Or.inl ha.2.1)⟩
  · rw [List.head?_append]
    cases h : a.data.head? with
    | none => simpa using hb.1
    | some c =>
      have := ha.1
      rw [h] at this
      simpa using this
  · rw [List.getLast?_append]
    cases h : b.data.getLast? with
    | none => simpa using ha.2.1
    | some c =>
      have := hb.2.1
      rw [h] at this
      simpa using this

/-- A text without a space is single-spaced. -/
theorem singleSpaced_of_no_space (a : String) (h : ' ' ∉ a.data) : singleSpaced a := by
  rw [singleSpaced_iff]
  refine ⟨?_, ?_, ?_⟩
  · intro e
    exact h (List.mem_of_mem_head? e)
  · intro e
    exact h (List.mem_of_mem_getLast? e)
  · intro e
    exact h (e.subset (by simp))

/-- Two non-empty single-spaced texts with one space between them are
single-spaced. -/
theorem singleSpaced_join_two (a b : List Char) (ha0 : a ≠ []) (hb0 : b ≠ [])
    (ha : a.head? ≠ some ' ' ∧ a.getLast? ≠ some ' ' ∧ ¬ [' ', ' '] <:+: a)
    (hb : b.head? ≠ some ' ' ∧ b.getLast? ≠ some ' ' ∧ ¬ [' ', ' '] <:+: b) :
    (a ++ ' ' :: b).head? ≠ some ' ' ∧ (a ++ ' ' :: b).getLast? ≠ some ' ' ∧
      ¬ [' ', ' '] <:+: a ++ ' ' :: b := by
  refine ⟨?_, ?_, no_double_append _ _ ha.2.2 (no_double_cons _ _ hb.2.2 (Or.inr hb.1))
    (Or.inl ha.2.1)⟩
  · cases a with
    | nil => exact absurd rfl ha0
    | cons c t => simpa using ha.1
  · cases b with
    | nil => exact absurd rfl hb0
    | cons c t =>
      rw [List.getLast?_append]
      have h1 : (' ' :: c :: t).getLast? = (c :: t).getLast? := by
        simp [List.getLast?_cons_cons]
      rw [h1]
      cases h : (c :: t).getLast? with
      | none => simp at h
      | some x =>
        have := hb.2.1
        rw [h] at this
        simpa using this

/-- Non-empty single-spaced parts joined by one space give a single-spaced text. -/
theorem singleSpaced_Join (parts : List String) (h0 : ∀ p ∈ parts, p ≠ "")
    (h : ∀ p ∈ parts, singleSpaced p) : singleSpaced (Join parts " ") := by
  cases parts with
  | nil => decide
  | cons a l =>
    rw [singleSpaced_iff, Join_cons_data]
    have key : ∀ (l : List String) (acc : List Char), acc ≠ [] →
        (acc.head? ≠ some ' ' ∧ acc.getLast? ≠ some ' ' ∧ ¬ [' ', ' '] <:+: acc) →
        (∀ p ∈ l, p ≠ "") → (∀ p ∈ l, singleSpaced p) →
        ((acc ++ (l.map (fun b => " ".data ++ b.data)).flatten).head? ≠ some ' ' ∧
          (acc ++ (l.map (fun b => " ".data ++ b.data)).flatten).getLast? ≠ some ' ' ∧
          ¬ [' ', ' '] <:+: acc ++ (l.map (fun b => " ".data ++ b.data)).flatten) := by
      intro l
      induction l with
      | nil =>
        intro acc _ hacc _ _
        simpa using hacc
      | cons b t ih =>
        intro acc hne hacc hn hs
        have hb0 : b.data ≠ [] := by
          intro e
          exact hn b (List.mem_cons_self _ _) (String.ext e)
        have hb := (singleSpaced_iff b).1 (hs b (List.mem_cons_self _ _))
        have hstep := singleSpaced_join_two acc b.data hne hb0 hacc hb
        have := ih (acc ++ ' ' :: b.data) (by simp) hstep
          (fun p hp => hn p (List.mem_cons_of_mem _ hp))
          (fun p hp => hs p (List.mem_cons_of_mem _ hp))
        have hd : " ".data = [' '] := rfl
        simpa [hd, List.append_assoc] using this
    have ha0 : a.data ≠ [] := by
      intro e
      exact h0 a (List.mem_cons_self _ _) (String.ext e)
    exact key l a.data ha0 ((singleSpaced_iff a).1 (h a (List.mem_cons_self _ _)))
      (fun p hp => h0 p (List.mem_cons_of_mem _ hp))
      (fun p hp => h p (List.mem_cons_of_mem _ hp))

/-- A space occurs in a concatenation only if it occurs in a part. -/
theorem space_append (a b : String) (ha : ' ' ∉ a.data) (hb : ' ' ∉ b.data) :
    ' ' ∉ (a ++ b).data := by
  rw [String.data_append, List.mem_append]
  exact fun h => h.elim ha hb

/-- A numeral holds no space. -/
theorem space_Itoa (z : Int) : ' ' ∉ (Itoa z).data :=
  fun h => absurd (Itoa_chars z _ h) (by decide)

/-- The full version of a run holds no space. -/
theorem space_fullVersion (profile : browserProfile) (v : Int) (r : Rng) :
    ' ' ∉ (fullVersionOf profile v r).1.data := by
  unfold fullVersionOf
  split
  · exact space_append _ _ (space_append _ _ (space_append _ _ (space_append _ _
      (space_Itoa _) (by decide)) (space_Itoa _)) (by decide)) (space_Itoa _)
  · dsimp only
    decide

set_option maxRecDepth 100000 in
/-- No text field of a version profile and no suffix format holds a space. -/
theorem space_version_fields :
    ∀ e ∈ browserProfiles, ' ' ∉ e.2.UASuffix.data ∧
      ∀ ve ∈ e.2.Versions,
        ' ' ∉ ve.2.GeckoRevision.data ∧ ' ' ∉ ve.2.WebKitVersion.data ∧
        ' ' ∉ ve.2.SafariVersion.data ∧ ' ' ∉ ve.2.MobileVersion.data := by
  decide

set_option maxRecDepth 100000 in
/-- The platform tokens of the OS profiles other than Android are single-spaced. -/
theorem single_os_tokens :
    ∀ e ∈ osProfiles, e.2.Name ≠ "Android" → singleSpaced e.2.PlatformToken := by
  decide

set_option maxRecDepth 100000 in
/-- The Android platform token is single-spaced with every device model. -/
theorem single_devices :
    ∀ d ∈ androidDevices, singleSpaced ("Linux; Android 14; " ++ d ++ "") := by
  decide

/-- The platform token that `osToken` renders for an OS profile of the table is
single-spaced. -/
theorem single_osToken (e : OperatingSystem × osProfile) (he : e ∈ osProfiles) (r q : Rng)
    (token : String) (h : osToken e.2 r = some (token, q)) : singleSpaced token := by
  rcases osToken_cases e.2 r with ⟨hname, device, hdev, htok⟩ | ⟨hname, htok⟩
  · rw [htok] at h
    simp only [Option.some.injEq, Prod.mk.injEq] at h
    rw [← h.1, (brace_os_tokens e he).1 hname, android_token]
    exact single_devices device hdev
  · rw [htok] at h
    simp only [Option.some.injEq, Prod.mk.injEq] at h
    rw [← h.1]
    exact single_os_tokens e he hname

/-- The user-agent of a run is single-spaced. -/
theorem ResolvedRun_singleSpaced (g : Generator) (r : Rng) (browser : Browser)
    (platform : Platform) (os : OperatingSystem) (version : Int) (r3 : Rng) (a : Agent)
    (hrun : ResolvedRun g r browser platform os version r3 a) :
    singleSpaced a.UserAgent := by
  have hfacts := ResolvedRun_facts g r browser platform os version r3 a hrun
  have hos := validCombos_os_known g browser (platform, os) hfacts.2.2.1
  have hvp := mapGet_mem _ _ hfacts.2.2.2.1
  obtain ⟨hsuffix, hfields⟩ := space_version_fields _ hfacts.2.1
  obtain ⟨hgecko, hwebkit, hsafari, hmobile⟩ := hfields _ hvp
  have hfv := space_fullVersion (mapGet browserProfiles browser) version r3
  obtain ⟨parts, r1, hparts, hua⟩ := ResolvedRun_userAgent g r browser platform os version r3 a hrun
  have hne := renderParts_nonempty _ _ _ _ _ _ _ _ hparts
  obtain ⟨token, q, htok, hcand⟩ := renderParts_candidates _ _ _ _ _ _ _ _ _ hparts
  have htoken := single_osToken (os, mapGet osProfiles os) hos _ _ token htok
  have hmajor : ' ' ∉
      (replaceFirst (mapGet browserProfiles browser).UASuffix "%s"
        (String.mk (splitOnce ".".data
          (fullVersionOf (mapGet browserProfiles browser) version r3).1.data).1)).data := by
    intro hmem
    rcases replaceFirst_mem _ _ _ _ hmem with e | e
    · exact hsuffix e
    · exact hfv (splitOnce_fst_mem _ _ _ e)
  rw [hua]
  apply singleSpaced_Join _ hne
  intro part hpart
  have hc := hcand part hpart
  simp only [List.mem_cons, List.mem_singleton, List.not_mem_nil, or_false] at hc
  rcases hc with hc | hc | hc | hc | hc | hc | hc | hc | hc | hc | hc | hc | hc | hc | hc | hc
    <;> rw [hc]
  · decide
  · exact singleSpaced_append _ _ (singleSpaced_append _ _ (by decide) htoken) (by decide)
  · decide
  · decide
  · exact singleSpaced_append _ _ (by decide) (singleSpaced_of_no_space _ hfv)
  · decide
  · decide
  · exact singleSpaced_of_no_space _ hmajor
  · exact singleSpaced_append _ _ (singleSpaced_append _ _ (singleSpaced_append _ _
      (singleSpaced_append _ _ (by decide) htoken) (by decide))
      (singleSpaced_of_no_space _ hgecko)) (by decide)
  · decide
  · exact singleSpaced_append _ _ (by decide) (singleSpaced_of_no_space _ hgecko)
  · exact singleSpaced_append _ _ (by decide) (singleSpaced_of_no_space _ hwebkit)
  · exact singleSpaced_append _ _ (by decide) (singleSpaced_of_no_space _ hsafari)
  · exact singleSpaced_append _ _ (by decide) (singleSpaced_of_no_space _ hmobile)
  · decide
  · exact singleSpaced_append _ _ (by decide) (singleSpaced_of_no_space _ hwebkit)

/-- The joined fragments of a Chromium-derived browser on desktop without suffix. -/
theorem chromium_desktop_text (token fv : String) :
    Join ["Mozilla/5.0", "(" ++ token ++ ")", "AppleWebKit/537.36", "(KHTML, like Gecko)",
        "Chrome/" ++ fv, "Safari/537.36"] " " =
      "Mozilla/5.0 (" ++ token ++ ") AppleWebKit/537.36 (KHTML, like Gecko) Chrome/" ++ fv ++
        " Safari/537.36" := by
  apply String.ext
  rw [Join_cons_data]
  simp [String.data_append]

/-- The joined fragments of a Chromium-derived browser on desktop with a suffix. -/
theorem chromium_desktop_text_suffix (token fv suffix : String) :
    Join (["Mozilla/5.0", "(" ++ token ++ ")", "AppleWebKit/537.36", "(KHTML, like Gecko)",
        "Chrome/" ++ fv, "Safari/537.36"] ++ [suffix]) " " =
      "Mozilla/5.0 (" ++ token ++ ") AppleWebKit/537.36 (KHTML, like Gecko) Chrome/" ++ fv ++
        " Safari/537.36" ++ (" " ++ suffix) := by
  apply String.ext
  rw [List.cons_append, Join_cons_data]
  simp [String.data_append]

/-- The OS of a valid combination is mobile exactly when the platform is. -/
theorem validCombos_mobile_flag (g : Generator) (browser : Browser)
    (c : Platform × OperatingSystem) (h : c ∈ validCombos g browser) :
    (mapGet osProfiles c.2).IsMobile = decide (c.1 = PlatformMobile) := by
  rw [validCombos_mem] at h
  obtain ⟨p, _, o, _, concreteOS, _, hc⟩ := h
  rw [comboFor_mem] at hc
  obtain ⟨hceq, prof, hfind, hmob, _⟩ := hc
  rw [hceq]
  have hget : mapGet osProfiles concreteOS = prof := by simp [mapGet, hfind]
  rw [hget, hmob]

/-- The Android profile is a mobile profile. -/
theorem android_is_mobile :
    ∀ e ∈ osProfiles, e.2.IsMobile = false → e.2.Name ≠ "Android" := by
  decide

/-- The suffix formats of the Chromium-derived browsers. -/
theorem chromium_suffixes :
    ∀ e ∈ browserProfiles, e.2.ChromiumBased = true →
      e.2.UASuffix = "" ∨ e.2.UASuffix = "OPR/" ++ "%s" ∨ e.2.UASuffix = "Edg/" ++ "%s" := by
  decide

/-- The user-agent of a run for a Chromium-derived browser on the desktop platform. -/
theorem ResolvedRun_chromium_desktop (g : Generator) (r : Rng) (browser : Browser)
    (os : OperatingSystem) (version : Int) (r3 : Rng) (a : Agent)
    (hrun : ResolvedRun g r browser PlatformDesktop os version r3 a)
    (hcb : (mapGet browserProfiles browser).ChromiumBased = true) :
    a.UserAgent =
      "Mozilla/5.0 (" ++ (mapGet osProfiles os).PlatformToken ++
        ") AppleWebKit/537.36 (KHTML, like Gecko) Chrome/" ++
        (Itoa version ++ ".0." ++
          Itoa (mapGet (mapGet browserProfiles browser).Versions version).BuildNumber ++ "." ++
          Itoa (IntN 999 r3).1) ++
        " Safari/537.36" ++
        (if (mapGet browserProfiles browser).UASuffix = "" then ""
          else " " ++ replaceFirst (mapGet browserProfiles browser).UASuffix "%s"
            (Itoa version)) := by
  have hfacts := ResolvedRun_facts g r browser PlatformDesktop os version r3 a hrun
  have hfam := chromium_family _ hfacts.2.1 hcb
  have hos := validCombos_os_known g browser (PlatformDesktop, os) hfacts.2.2.1
  have hflag := validCombos_mobile_flag g browser (PlatformDesktop, os) hfacts.2.2.1
  have hname : (mapGet osProfiles os).Name ≠ "Android" :=
    android_is_mobile _ hos (by rw [hflag]; rfl)
  obtain ⟨parts, r1, hparts, hua⟩ :=
    ResolvedRun_userAgent g r browser PlatformDesktop os version r3 a hrun
  have hfv : (fullVersionOf (mapGet browserProfiles browser) version r3).1 =
      Itoa version ++ ".0." ++
        Itoa (mapGet (mapGet browserProfiles browser).Versions version).BuildNumber ++ "." ++
        Itoa (IntN 999 r3).1 := by
    unfold fullVersionOf
    rw [if_pos hcb]
  have htok : ∀ q, osToken (mapGet osProfiles os) q =
      some ((mapGet osProfiles os).PlatformToken, q) := by
    intro q
    rcases osToken_cases (mapGet osProfiles os) q with ⟨hn, _⟩ | ⟨_, h⟩
    · exact absurd hn hname
    · exact h
  dsimp only at hfam
  rw [hfam, renderParts_chromium_desktop _ _ _ _ _ _ _ (htok _), hfv,
    major_of_fullVersion] at hparts
  simp only [Option.some.injEq, Prod.mk.injEq] at hparts
  rw [hua, ← hparts.1]
  rcases chromium_suffixes _ hfacts.2.1 hcb with hs | hs | hs
  · dsimp only at hs
    rw [if_pos hs, if_pos hs, List.append_nil, chromium_desktop_text]
    simp only [String.append_empty]
  · dsimp only at hs
    have hne : (mapGet browserProfiles browser).UASuffix ≠ "" := by
      rw [hs]
      decide
    rw [if_neg hne, if_neg hne, hs, suffix_rendered "OPR/" _ (by decide)]
    rw [if_pos (append_ne_empty_left _ _ (append_ne_empty_left _ _ (by decide))),
      chromium_desktop_text_suffix]
  · dsimp only at hs
    have hne : (mapGet browserProfiles browser).UASuffix ≠ "" := by
      rw [hs]
      decide
    rw [if_neg hne, if_neg hne, hs, suffix_rendered "Edg/" _ (by decide)]
    rw [if_pos (append_ne_empty_left _ _ (append_ne_empty_left _ _ (by decide))),
      chromium_desktop_text_suffix]

/-- C29: every Agent `Generate` returns in browser mode comes from a resolved
browser, platform, OS and version, and its user-agent is the fragments the steps
of the family's generator list return, in step order, with the empty ones left out
and the others joined by one space. The text does not begin or end with a space
and holds no two spaces in a row. For a Chromium-derived browser on the desktop
platform it is `Mozilla/5.0 (<platform token>) AppleWebKit/537.36 (KHTML, like
Gecko) Chrome/<major>.0.<build>.<patch> Safari/537.36` with a patch below 999,
followed by a space and the suffix format with the major version filled in when
the browser has a suffix format. Chrome and Brave have none; Opera has `OPR/` and
Edge has `Edg/` followed by the major version. -/
theorem userAgent_joined_fragments :
    (∀ (g : Generator) (r : Rng) (a : Agent), g.useBotAgents = false → Generate g r = .ok a →
      ∃ browser platform os version r3 frags q,
        ResolvedRun g r browser platform os version r3 a ∧
        stepFragments
          (mapGet (mapGet platformProfiles platform).ComponentGenerators
            (mapGet browserProfiles browser).Family)
          (mapGet browserProfiles browser) (mapGet osProfiles os)
          (mapGet (mapGet browserProfiles browser).Versions version)
          (fullVersionOf (mapGet browserProfiles browser) version r3).1
          (fullVersionOf (mapGet browserProfiles browser) version r3).2 = some (frags, q) ∧
        a.UserAgent = Join (frags.filter fun part => decide (part ≠ "")) " " ∧
        singleSpaced a.UserAgent ∧
        ((mapGet browserProfiles browser).ChromiumBased = true → platform = PlatformDesktop →
          (IntN 999 r3).1 < 999 ∧
          a.UserAgent =
            "Mozilla/5.0 (" ++ (mapGet osProfiles os).PlatformToken ++
              ") AppleWebKit/537.36 (KHTML, like Gecko) Chrome/" ++
              (Itoa version ++ ".0." ++
                Itoa (mapGet (mapGet browserProfiles browser).Versions version).BuildNumber ++
                "." ++ Itoa (IntN 999 r3).1) ++
              " Safari/537.36" ++
              (if (mapGet browserProfiles browser).UASuffix = "" then ""
                else " " ++ replaceFirst (mapGet browserProfiles browser).UASuffix "%s"
                  (Itoa version)))) ∧
    (mapGet browserProfiles BrowserChrome).UASuffix = "" ∧
    (mapGet browserProfiles BrowserBrave).UASuffix = "" ∧
    (mapGet browserProfiles BrowserOpera).UASuffix = "OPR/%s" ∧
    (mapGet browserProfiles BrowserEdge).UASuffix = "Edg/%s" ∧
    (∀ major : String,
      replaceFirst "OPR/%s" "%s" major = "OPR/" ++ major ∧
      replaceFirst "Edg/%s" "%s" major = "Edg/" ++ major) := by
  refine ⟨?_, rfl, rfl, rfl, rfl, ?_⟩
  · intro g r a hbot h
    obtain ⟨browser, platform, os, version, r3, hrun⟩ := Generate_browser_inv g r a hbot h
    obtain ⟨parts, r1, hparts, hua⟩ :=
      ResolvedRun_userAgent g r browser platform os version r3 a hrun
    rw [renderParts_filter] at hparts
    cases hs : stepFragments
        (mapGet (mapGet platformProfiles platform).ComponentGenerators
          (mapGet browserProfiles browser).Family)
        (mapGet browserProfiles browser) (mapGet osProfiles os)
        (mapGet (mapGet browserProfiles browser).Versions version)
        (fullVersionOf (mapGet browserProfiles browser) version r3).1
        (fullVersionOf (mapGet browserProfiles browser) version r3).2 with
    | none => rw [hs] at hparts; simp at hparts
    | some res =>
      obtain ⟨frags, q⟩ := res
      rw [hs] at hparts
      simp only [Option.map_some', Option.some.injEq, Prod.mk.injEq] at hparts
      refine ⟨browser, platform, os, version, r3, frags, q, hrun, hs, ?_,
        ResolvedRun_singleSpaced g r browser platform os version r3 a hrun, ?_⟩
      · rw [hua, ← hparts.1]
      · intro hcb hp
        subst hp
        exact ⟨Nat.mod_lt _ (by decide),
          ResolvedRun_chromium_desktop g r browser os version r3 a hrun hcb⟩
  · intro major
    have h1 := suffix_rendered "OPR/" major (by decide)
    have h2 := suffix_rendered "Edg/" major (by decide)
    rw [String.append_empty] at h1 h2
    exact ⟨h1, h2⟩

set_option maxRecDepth 100000 in
/-- C29 (witness): the generators of the tests `Chrome` and `FirefoxMobile`. -/
theorem userAgent_joined_fragments_witness :
    singleSpaced (agentOf (Generate chrome140Generator zeroRng)).UserAgent ∧
    singleSpaced (agentOf (Generate firefoxMobileGenerator zeroRng)).UserAgent := by
  constructor
  · obtain ⟨_, _, _, _, _, _, _, _, _, _, hsingle, _⟩ :=
      userAgent_joined_fragments.1 chrome140Generator zeroRng
        (agentOf (Generate chrome140Generator zeroRng)) rfl (by decide)
    exact hsingle
  · obtain ⟨_, _, _, _, _, _, _, _, _, _, hsingle, _⟩ :=
      userAgent_joined_fragments.1 firefoxMobileGenerator zeroRng
        (agentOf (Generate firefoxMobileGenerator zeroRng)) rfl (by decide)
    exact hsingle

/-- Among the header names the two builders emit, those that start with `sec-ch-ua`
are the seven client hints; so are those whose canonical form starts with
`Sec-Ch-Ua`. No pseudo-header starts with it. -/
theorem hint_names_by_prefix :
    (∀ k ∈ emittedHeaderNames,
      k ∉ [ "sec-ch-ua", "sec-ch-ua-mobile", "sec-ch-ua-platform",
        "sec-ch-ua-full-version-list", "sec-ch-ua-platform-version", "sec-ch-ua-arch",
        "sec-ch-ua-bitness" ] →
      HasPrefix k "sec-ch-ua" = false ∧ HasPrefix (CanonicalHeaderKey k) "Sec-Ch-Ua" = false) ∧
    (∀ k ∈ pseudoHeaders, HasPrefix k "sec-ch-ua" = false) := by
  decide

/-- A header map without the seven client hints has no key that starts with
`sec-ch-ua`. -/
theorem no_hint_keys (m : List (String × String)) (hw : keysWithin emittedHeaderNames m)
    (hnone : ∀ k ∈ [ "sec-ch-ua", "sec-ch-ua-mobile", "sec-ch-ua-platform",
        "sec-ch-ua-full-version-list", "sec-ch-ua-platform-version", "sec-ch-ua-arch",
        "sec-ch-ua-bitness" ], mapFind m k = none) :
    ∀ k ∈ mapKeys m,
      HasPrefix k "sec-ch-ua" = false ∧ HasPrefix (CanonicalHeaderKey k) "Sec-Ch-Ua" = false := by
  intro k hk
  apply hint_names_by_prefix.1 k (hw.2 k hk)
  intro hmem
  exact (mapFind_eq_none m k).1 (hnone k hmem) hk

/-- An Agent whose header order and header keys come from a map without client
hints names no client hint. -/
theorem no_hint_headers (m : List (String × String)) (a : Agent)
    (hw : keysWithin emittedHeaderNames m)
    (hnone : ∀ k ∈ [ "sec-ch-ua", "sec-ch-ua-mobile", "sec-ch-ua-platform",
        "sec-ch-ua-full-version-list", "sec-ch-ua-platform-version", "sec-ch-ua-arch",
        "sec-ch-ua-bitness" ], mapFind m k = none)
    (hO : ∃ ks, a.HeaderOrder = pseudoHeaders ++ ks ∧ ks.Perm (mapKeys m))
    (hH : (mapKeys a.Headers).Perm ((mapKeys m).map CanonicalHeaderKey)) :
    (∀ k ∈ a.HeaderOrder, HasPrefix k "sec-ch-ua" = false) ∧
    (∀ k ∈ mapKeys a.Headers, HasPrefix k "Sec-Ch-Ua" = false) := by
  have hkeys := no_hint_keys m hw hnone
  obtain ⟨ks, hO1, hO2⟩ := hO
  constructor
  · intro k hk
    rw [hO1, List.mem_append] at hk
    rcases hk with hk | hk
    · exact hint_names_by_prefix.2 k hk
    · exact (hkeys k (hO2.subset hk)).1
  · intro k hk
    obtain ⟨k0, hk0, rfl⟩ := List.mem_map.1 (hH.subset hk)
    exact (hkeys k0 hk0).2

/-- The brand list that `buildSecChUa` renders for a major version names Chromium
with that version, in whatever order the brands are put. -/
theorem buildSecChUa_names_chromium (brand : String) (v : Int) (randomize : Bool) (q q' : Rng)
    (ua : String) (h : buildSecChUa brand (Itoa v) false randomize q = some (ua, q')) :
    Contains ua ("\"Chromium\";v=\"" ++ Itoa v ++ "\"") = true := by
  unfold buildSecChUa at h
  have hdata : ".".data = ['.'] := rfl
  have hmajor := major_of_Itoa v
  rw [hdata] at hmajor
  split at h
  · simp at h
  · rename_i greaseBrand r1 _
    simp only [Bool.false_eq_true, if_false] at h
    split at h
    · simp at h
    · rename_i gv _
      simp only [hdata, hmajor] at h
      split at h
      · simp only [Option.some.injEq, Prod.mk.injEq] at h
        rw [← h.1]
        exact Contains_Join_of_mem _ _ _ _
          ((Shuffle_perm _ r1).symm.subset (List.mem_cons_self _ _)) (Contains_self _)
      · simp only [Option.some.injEq, Prod.mk.injEq] at h
        rw [← h.1]
        exact Contains_Join_of_mem _ _ _ _ (List.mem_cons_self _ _) (Contains_self _)

/-! ## Client hints and the browser family -/

set_option maxRecDepth 100000 in
/-- C23 (counterexample): the user-agent of Opera 120 is parsed as Opera, version
120, on Windows; its `Chrome/` token names 135, and the `sec-ch-ua` header rebuilt
for it names 120. Chrome with the zero-header switch set, outside the extreme
profile, is generated without a `sec-ch-ua` header. -/
theorem sec_ch_ua_follows_parsed_version :
    parseUserAgentString uaOpera120 =
      .ok { Browser := BrowserOpera, Version := 120, OS := OSWindows11 } ∧
    (∃ a, FromUserAgentString uaOpera120 RequestTypeNavigate zeroRng = .ok a ∧
      Contains a.UserAgent "Chrome/135." = true ∧
      Header.Lookup a.Headers "sec-ch-ua" =
        some "\"Chromium\";v=\"120\", \"Opera\";v=\"120\", \"Not/A)Brand\";v=\"8\"") ∧
    zeroHeaderFullGenerator.useBotAgents = false ∧
    zeroHeaderFullGenerator.browsers = [BrowserChrome] ∧
    zeroHeaderFullGenerator.fingerprintProfile = .Normal ∧
    (∃ a, Generate zeroHeaderFullGenerator zeroRng = .ok a ∧
      Header.Lookup a.Headers "sec-ch-ua" = none ∧
      Header.Lookup a.Headers "sec-ch-ua-mobile" = none ∧
      Header.Lookup a.Headers "sec-ch-ua-platform" = none) := by
  refine ⟨by decide,
    ⟨agentOf (FromUserAgentString uaOpera120 RequestTypeNavigate zeroRng), ?_, ?_, ?_⟩,
    rfl, rfl, rfl, agentOf (Generate zeroHeaderFullGenerator zeroRng), ?_, ?_, ?_, ?_⟩ <;>
    decide

/-- C23 (amended): client hints are emitted for Chromium-derived browsers only.
For every Agent generated in browser mode with the zero-header switch off, under a
header-ordering strategy that only rearranges the keys, and for every Agent
`FromUserAgentString` returns: if the browser is not Chromium-derived (Firefox,
Safari), no name of the header order starts with `sec-ch-ua` and no header key
starts with `Sec-Ch-Ua`; if it is Chromium-derived (Chrome, Opera, Edge, Brave),
and for `Generate` the extreme profile is not in use, `sec-ch-ua`,
`sec-ch-ua-mobile` and `sec-ch-ua-platform` are present, `sec-ch-ua-platform` is
the name of the OS profile in double quotes, `sec-ch-ua-mobile` is the mobile hint
of the platform profile (`?1` for mobile, `?0` for desktop; for the parser mobile
means a classified OS of Android or iOS), and `sec-ch-ua` names Chromium with the
major version the Agent was built for: the resolved version for `Generate`, which
on a concrete platform is also the major version of the `Chrome/` token of the
user-agent, and the version parsed from the string for `FromUserAgentString`. With
the zero-header switch on a generated Agent has no header. -/
theorem client_hints_chromium_only :
    (∀ (g : Generator) (r : Rng) (a : Agent), g.useBotAgents = false → g.zeroHeader = false →
      (∀ ks r0, (g.headerSorter ks r0).1.Perm ks) → Generate g r = .ok a →
      ∃ browser platform os version r3, ResolvedRun g r browser platform os version r3 a ∧
        ((mapGet browserProfiles browser).ChromiumBased = false →
          (∀ k ∈ a.HeaderOrder, HasPrefix k "sec-ch-ua" = false) ∧
          (∀ k ∈ mapKeys a.Headers, HasPrefix k "Sec-Ch-Ua" = false)) ∧
        ((mapGet browserProfiles browser).ChromiumBased = true →
          g.fingerprintProfile ≠ .Extreme →
          Header.Lookup a.Headers "sec-ch-ua-platform" =
            some ("\"" ++ (mapGet osProfiles os).Name ++ "\"") ∧
          Header.Lookup a.Headers "sec-ch-ua-mobile" =
            some (mapGet platformProfiles platform).MobileHint ∧
          (∃ ua, Header.Lookup a.Headers "sec-ch-ua" = some ua ∧
            Contains ua ("\"Chromium\";v=\"" ++ Itoa version ++ "\"") = true) ∧
          (platform = PlatformDesktop ∨ platform = PlatformMobile →
            Contains a.UserAgent
              ("Chrome/" ++ Itoa version ++ ".0." ++
                Itoa (mapGet (mapGet browserProfiles browser).Versions version).BuildNumber ++
                ".") = true))) ∧
    (∀ (s : String) (rt : RequestType) (r : Rng) (a : Agent),
      FromUserAgentString s rt r = .ok a →
      ∃ p, parseUserAgentString s = .ok p ∧
        ((mapGet browserProfiles p.Browser).ChromiumBased = false →
          (∀ k ∈ a.HeaderOrder, HasPrefix k "sec-ch-ua" = false) ∧
          (∀ k ∈ mapKeys a.Headers, HasPrefix k "Sec-Ch-Ua" = false)) ∧
        ((mapGet browserProfiles p.Browser).ChromiumBased = true →
          Header.Lookup a.Headers "sec-ch-ua-platform" =
            some ("\"" ++ (mapGet osProfiles p.OS).Name ++ "\"") ∧
          Header.Lookup a.Headers "sec-ch-ua-mobile" =
            some (if p.OS = OSAndroid ∨ p.OS = OSiOS then "?1" else "?0") ∧
          (∃ ua, Header.Lookup a.Headers "sec-ch-ua" = some ua ∧
            Contains ua ("\"Chromium\";v=\"" ++ Itoa p.Version ++ "\"") = true))) ∧
    (mapGet platformProfiles PlatformMobile).MobileHint = "?1" ∧
    (mapGet platformProfiles PlatformDesktop).MobileHint = "?0" ∧
    (∀ b ∈ [BrowserFirefox, BrowserSafari], (mapGet browserProfiles b).ChromiumBased = false) ∧
    (∀ b ∈ [BrowserChrome, BrowserOpera, BrowserEdge, BrowserBrave],
      (mapGet browserProfiles b).ChromiumBased = true) ∧
    (∀ (g : Generator) (r : Rng) (a : Agent), g.useBotAgents = false → g.zeroHeader = true →
      Generate g r = .ok a → ∀ name, Header.Lookup a.Headers name = none) := by
  refine ⟨?_, ?_, rfl, rfl, by decide, by decide, ?_⟩
  · intro g r a hbot hz hs h
    obtain ⟨browser, platform, os, version, r3, hrun⟩ := Generate_browser_inv g r a hbot h
    refine ⟨browser, platform, os, version, r3, hrun, ?_, ?_⟩
    · intro hcb
      obtain ⟨m, q, q', hm, hw, hO, hH, _⟩ :=
        ResolvedRun_headers g r browser platform os version r3 a hz hs hrun
      obtain ⟨va, ve, vl, ua, full, dest, _, _, _, _, _, _, _, _, _, _, _, _, _, _, _, hnone, _⟩ :=
        generatedHeaderMap_entries _ _ _ _ _ _ _ _ _ _ hm
      exact no_hint_headers m a hw (hnone hcb) hO hH
    · intro hcb hne
      obtain ⟨m, q, q', hm, _, _, _, hread⟩ :=
        ResolvedRun_headers g r browser platform os version r3 a hz hs hrun
      obtain ⟨va, ve, vl, ua, full, dest, _, _, _, hua, _, _, _, _, _, _, _, _, _, _, _, _, hints⟩ :=
        generatedHeaderMap_entries _ _ _ _ _ _ _ _ _ _ hm
      obtain ⟨h1, h2, h3, _⟩ := hints hcb
      rw [← (hread "sec-ch-ua" (by decide)).1] at h1
      rw [← (hread "sec-ch-ua-mobile" (by decide)).1] at h2
      rw [← (hread "sec-ch-ua-platform" (by decide)).1] at h3
      obtain ⟨q1, q2, hbuild⟩ := hua hcb
      refine ⟨h3.elim id (fun x => absurd x.1 hne), h2.elim id (fun x => absurd x.1 hne),
        ⟨ua, h1.elim id (fun x => absurd x.1 hne),
          buildSecChUa_names_chromium _ _ _ _ _ _ hbuild⟩, ?_⟩
      intro hp
      exact (chromium_userAgent g r browser platform os version r3 a hrun hp hcb).1
  · intro s rt r a h
    obtain ⟨p, vp, k, m, hp, hv, hm, hw, _, _, _, _, hO, hH, hread⟩ :=
      FromUserAgentString_inv s rt r a h
    have hent := staticHeaderMap_entries _ _ _ _ _ _ _ _ m hm
    refine ⟨p, hp, ?_, ?_⟩
    · intro hcb
      obtain ⟨_, _, _, _, _, _, _, _, _, hnone, _⟩ := hent
      have hperm : (PriorityHeaderSorter (rangeKeys m r).1).Perm (mapKeys m) :=
        (SliceStable_perm _ _).trans (rangeKeys_perm m r)
      have hnd := canonical_nodup_of_keysWithin m _ hw hperm
      have hkeys := foldl_Set_keys (fun k => mapGet m k) _ [] (by simpa [mapKeys] using hnd)
      refine no_hint_headers m a hw (hnone hcb) ⟨_, hO, hperm⟩ ?_
      rw [hH]
      simp only [finishHeaders]
      rw [hkeys]
      simp only [mapKeys, List.map_nil, List.nil_append]
      exact hperm.map _
    · intro hcb
      obtain ⟨_, _, _, _, _, _, _, _, _, _, hints⟩ := hent
      obtain ⟨h1, h2, h3, _⟩ := hints hcb
      rw [← (hread "sec-ch-ua" (by decide)).1] at h1
      rw [← (hread "sec-ch-ua-mobile" (by decide)).1] at h2
      rw [← (hread "sec-ch-ua-platform" (by decide)).1] at h3
      refine ⟨h3, ?_, ⟨_, h1, ?_⟩⟩
      · rw [h2]
        by_cases hc : p.OS = OSAndroid ∨ p.OS = OSiOS
        · rw [if_pos hc, if_pos hc]
          rfl
        · rw [if_neg hc, if_neg hc]
          rfl
      · exact Contains_Join_of_mem _ _ _ _ (List.mem_cons_self _ _) (Contains_self _)
  · intro g r a hbot hz h
    obtain ⟨browser, platform, os, version, r3, hrun⟩ := Generate_browser_inv g r a hbot h
    exact (ResolvedRun_zeroHeader g r browser platform os version r3 a hz hrun).2.2

set_option maxRecDepth 100000 in
/-- C23 (witness): a generated Chrome Agent carries `sec-ch-ua`; the Agent rebuilt
for the Firefox 128 string names no client hint; the Agent rebuilt for the Opera 120
string carries `sec-ch-ua-mobile` with the desktop hint. -/
theorem client_hints_chromium_only_witness :
    (∃ ua, Header.Lookup (agentOf (Generate chromeGenerator zeroRng)).Headers "sec-ch-ua" =
      some ua) ∧
    (∀ k ∈ (agentOf (FromUserAgentString uaFirefox128 RequestTypeNavigate zeroRng)).HeaderOrder,
      HasPrefix k "sec-ch-ua" = false) ∧
    Header.Lookup (agentOf (FromUserAgentString uaOpera120 RequestTypeNavigate zeroRng)).Headers
      "sec-ch-ua-mobile" = some "?0" := by
  refine ⟨?_, ?_, ?_⟩
  · obtain ⟨browser, platform, os, version, r3, hrun, _, hh⟩ :=
      client_hints_chromium_only.1 chromeGenerator zeroRng
        (agentOf (Generate chromeGenerator zeroRng)) rfl rfl
        (fun ks r0 => (provided_sorters_perm ks r0).1) (by decide)
    have hb := ResolvedRun_browser_single _ _ _ _ _ _ _ _ BrowserChrome rfl (by decide) hrun
    subst hb
    obtain ⟨_, _, ⟨ua, hua, _⟩, _⟩ := hh rfl (by decide)
    exact ⟨ua, hua⟩
  · obtain ⟨p, hp, hno, _⟩ :=
      client_hints_chromium_only.2.1 uaFirefox128 RequestTypeNavigate zeroRng
        (agentOf (FromUserAgentString uaFirefox128 RequestTypeNavigate zeroRng)) (by decide)
    have hparse : parseUserAgentString uaFirefox128 =
        .ok { Browser := BrowserFirefox, Version := 128, OS := OSWindows11 } := by decide
    rw [hparse] at hp
    simp only [Except.ok.injEq] at hp
    subst hp
    exact (hno rfl).1
  · obtain ⟨p, hp, _, hyes⟩ :=
      client_hints_chromium_only.2.1 uaOpera120 RequestTypeNavigate zeroRng
        (agentOf (FromUserAgentString uaOpera120 RequestTypeNavigate zeroRng)) (by decide)
    have hparse : parseUserAgentString uaOpera120 =
        .ok { Browser := BrowserOpera, Version := 120, OS := OSWindows11 } := by decide
    rw [hparse] at hp
    simp only [Except.ok.injEq] at hp
    subst hp
    exact (hyes rfl).2.1

/-! ## The synthesised TLS specification -/

/-- C37: for every outcome of the shuffles, the specification `ChromeLatestSpec`
returns has a cipher-suite list that rearranges the fixed list of 16 suites and
holds the GREASE placeholder exactly once; an extension list of length 17 that is a
GREASE extension, then a rearrangement of the 14 base extensions, then a GREASE
extension, then the padding extension (neither of the two is a base extension); and
the compression methods `[0]`. -/
theorem ChromeLatestSpec_shape (r : Rng) :
    (ChromeLatestSpec r).1.CipherSuites.Perm chromeCipherSuites ∧
    chromeCipherSuites.length = 16 ∧
    (ChromeLatestSpec r).1.CipherSuites.length = 16 ∧
    (ChromeLatestSpec r).1.CipherSuites.count GREASE_PLACEHOLDER = 1 ∧
    (ChromeLatestSpec r).1.Extensions.length = 17 ∧
    (∃ mid, (ChromeLatestSpec r).1.Extensions =
        [TLSExtension.UtlsGREASEExtension] ++ mid ++
          [TLSExtension.UtlsGREASEExtension, TLSExtension.UtlsPaddingExtension] ∧
      mid.Perm chromeExtensions ∧ mid.length = 14) ∧
    (ChromeLatestSpec r).1.Extensions.head? = some TLSExtension.UtlsGREASEExtension ∧
    (ChromeLatestSpec r).1.Extensions[15]? = some TLSExtension.UtlsGREASEExtension ∧
    (ChromeLatestSpec r).1.Extensions[16]? = some TLSExtension.UtlsPaddingExtension ∧
    TLSExtension.UtlsGREASEExtension ∉ chromeExtensions ∧
    TLSExtension.UtlsPaddingExtension ∉ chromeExtensions ∧
    (ChromeLatestSpec r).1.CompressionMethods = [0] := by
  have hc : (Shuffle chromeCipherSuites r).1.Perm chromeCipherSuites := Shuffle_perm _ r
  have he : (Shuffle chromeExtensions (Shuffle chromeCipherSuites r).2).1.Perm chromeExtensions :=
    Shuffle_perm _ _
  have hlen : (Shuffle chromeExtensions (Shuffle chromeCipherSuites r).2).1.length = 14 := by
    rw [he.length_eq]
    rfl
  have hext : (ChromeLatestSpec r).1.Extensions =
      [TLSExtension.UtlsGREASEExtension] ++
        (Shuffle chromeExtensions (Shuffle chromeCipherSuites r).2).1 ++
        [TLSExtension.UtlsGREASEExtension, TLSExtension.UtlsPaddingExtension] := by
    simp only [ChromeLatestSpec, shuffleExtensions]
  have hcs : (ChromeLatestSpec r).1.CipherSuites = (Shuffle chromeCipherSuites r).1 := by
    simp only [ChromeLatestSpec]
  refine ⟨by rw [hcs]; exact hc, rfl, ?_, ?_, ?_, ⟨_, hext, he, hlen⟩, ?_, ?_, ?_,
    by simp [chromeExtensions], by simp [chromeExtensions], by simp only [ChromeLatestSpec]⟩
  · rw [hcs, hc.length_eq]
    rfl
  · rw [hcs, hc.count_eq]
    decide
  · rw [hext]
    simp only [List.length_append, hlen, List.length_cons, List.length_nil]
  · rw [hext]
    rfl
  · rw [hext, List.getElem?_append_right (by simp [hlen])]
    simp [hlen]
  · rw [hext, List.getElem?_append_right (by simp [hlen])]
    simp [hlen]

/-! ## The accept-encoding value -/

/-- The arrangements of the three encodings. -/
theorem encodings_arrangements (order : List String)
    (h : order.Perm ["gzip", "deflate", "br"]) :
    order ∈ [ ["gzip", "deflate", "br"], ["gzip", "br", "deflate"], ["deflate", "gzip", "br"],
      ["deflate", "br", "gzip"], ["br", "gzip", "deflate"], ["br", "deflate", "gzip"] ] := by
  have hlen : order.length = 3 := h.length_eq
  have hnd : order.Nodup := h.nodup_iff.2 (by decide)
  match order, hlen with
  | [x, y, z], _ =>
    have hx : x ∈ ["gzip", "deflate", "br"] := h.subset (by simp)
    have hy : y ∈ ["gzip", "deflate", "br"] := h.subset (by simp)
    have hz : z ∈ ["gzip", "deflate", "br"] := h.subset (by simp)
    simp only [List.mem_cons, List.mem_singleton, List.not_mem_nil, or_false] at hx hy hz
    rcases hx with rfl | rfl | rfl <;> rcases hy with rfl | rfl | rfl <;>
      rcases hz with rfl | rfl | rfl <;> simp at hnd ⊢

/-- C34: for every outcome of the draws, `generateAcceptEncoding` returns the three
tokens `gzip`, `deflate`, `br` in some order, each once, joined by `, `, followed
or not by `, zstd`; the value contains `gzip` and is one of twelve strings, each of
which is returned for some outcome of the draws. -/
theorem accept_encoding_values :
    (∀ r : Rng,
      (∃ order : List String, order.Perm ["gzip", "deflate", "br"] ∧
        ((generateAcceptEncoding r).1 = Join order ", " ∨
          (generateAcceptEncoding r).1 = Join order ", " ++ ", zstd")) ∧
      Contains (generateAcceptEncoding r).1 "gzip" = true ∧
      (generateAcceptEncoding r).1 ∈
        [ "gzip, deflate, br", "gzip, br, deflate", "deflate, gzip, br", "deflate, br, gzip",
          "br, gzip, deflate", "br, deflate, gzip", "gzip, deflate, br, zstd",
          "gzip, br, deflate, zstd", "deflate, gzip, br, zstd", "deflate, br, gzip, zstd",
          "br, gzip, deflate, zstd", "br, deflate, gzip, zstd" ]) ∧
    (∀ s ∈
        [ "gzip, deflate, br", "gzip, br, deflate", "deflate, gzip, br", "deflate, br, gzip",
          "br, gzip, deflate", "br, deflate, gzip", "gzip, deflate, br, zstd",
          "gzip, br, deflate, zstd", "deflate, gzip, br, zstd", "deflate, br, gzip, zstd",
          "br, gzip, deflate, zstd", "br, deflate, gzip, zstd" ],
      ∃ a b c : Fin 3,
        (generateAcceptEncoding
          (fun i => if i = 0 then a.val else if i = 1 then b.val else c.val)).1 = s) := by
  constructor
  · intro r
    have hperm : (Shuffle ["gzip", "deflate", "br"] r).1.Perm ["gzip", "deflate", "br"] :=
      Shuffle_perm _ r
    have hshape : (generateAcceptEncoding r).1 = Join (Shuffle ["gzip", "deflate", "br"] r).1 ", " ∨
        (generateAcceptEncoding r).1 =
          Join (Shuffle ["gzip", "deflate", "br"] r).1 ", " ++ ", zstd" := by
      unfold generateAcceptEncoding
      dsimp only
      split
      · exact Or.inr rfl
      · exact Or.inl rfl
    refine ⟨⟨_, hperm, hshape⟩, (generateAcceptEncoding_gzip r).1, ?_⟩
    have harr := encodings_arrangements _ hperm
    simp only [List.mem_cons, List.mem_singleton, List.not_mem_nil, or_false] at harr
    rcases hshape with hs | hs <;> rw [hs] <;>
      rcases harr with e | e | e | e | e | e <;> rw [e] <;> decide
  · decide

/-! ## The brand list -/

/-- Every GREASE brand is its key, the text `;v=` and its version. -/
theorem greaseBrands_parts :
    ∀ b ∈ greaseBrands,
      (splitOnce ";v=".data b.data).2.isSome = true ∧
      String.mk (splitOnce ";v=".data b.data).1 ++ ";v=" ++
        String.mk ((splitOnce ";v=".data b.data).2.getD []) = b := by
  decide

/-- The three entries of `buildSecChUa` and its decoy, for a drawn GREASE brand. -/
theorem buildSecChUa_randomized (brand version : String) (isFull : Bool) (r : Rng) :
    ∃ gb ∈ greaseBrands, ∃ r1, Choice greaseBrands r = some (gb, r1) ∧
      buildSecChUa brand version isFull true r =
        some (Join (Shuffle
          [ "\"Chromium\";v=\"" ++
              (if isFull then version else String.mk (splitOnce ".".data version.data).1) ++ "\"",
            "\"" ++ brand ++ "\";v=\"" ++
              (if isFull then version else String.mk (splitOnce ".".data version.data).1) ++ "\"",
            if isFull then String.mk (splitOnce ";v=".data gb.data).1 ++ ";v=" ++ "\"99.0.0.0\""
            else gb ] r1).1 ", ",
          (Shuffle
          [ "\"Chromium\";v=\"" ++
              (if isFull then version else String.mk (splitOnce ".".data version.data).1) ++ "\"",
            "\"" ++ brand ++ "\";v=\"" ++
              (if isFull then version else String.mk (splitOnce ".".data version.data).1) ++ "\"",
            if isFull then String.mk (splitOnce ";v=".data gb.data).1 ++ ";v=" ++ "\"99.0.0.0\""
            else gb ] r1).2) := by
  obtain ⟨gb, hg⟩ := Choice_isSome greaseBrands r (by decide)
  have hmem := Choice_mem _ _ _ _ hg
  obtain ⟨hsome, hparts⟩ := greaseBrands_parts gb hmem
  obtain ⟨w, hw⟩ := Option.isSome_iff_exists.1 hsome
  refine ⟨gb, hmem, _, hg, ?_⟩
  rw [hw] at hparts
  unfold buildSecChUa
  simp only [if_true, hg]
  cases isFull with
  | true => simp only [if_true]
  | false =>
    simp only [Bool.false_eq_true, if_false, hw, Option.map_some']
    simp only [Option.getD_some] at hparts
    rw [hparts]

/-- The value of `buildSecChUa` without randomisation. -/
theorem buildSecChUa_fixed (brand version : String) (isFull : Bool) (r : Rng) :
    buildSecChUa brand version isFull false r =
      some (Join
        [ "\"Chromium\";v=\"" ++
            (if isFull then version else String.mk (splitOnce ".".data version.data).1) ++ "\"",
          "\"" ++ brand ++ "\";v=\"" ++
            (if isFull then version else String.mk (splitOnce ".".data version.data).1) ++ "\"",
          if isFull then "\"Not/A)Brand\";v=\"99.0.0.0\"" else "\"Not/A)Brand\";v=\"8\"" ] ", ",
        r) := by
  have hsplit : splitOnce ";v=".data "\"Not/A)Brand\";v=\"8\"".data =
      ("\"Not/A)Brand\"".data, some "\"8\"".data) := by decide
  have h1 : "\"Not/A)Brand\"" ++ ";v=" ++ "\"99.0.0.0\"" = "\"Not/A)Brand\";v=\"99.0.0.0\"" := by
    decide
  have h2 : "\"Not/A)Brand\"" ++ ";v=" ++ "\"8\"" = "\"Not/A)Brand\";v=\"8\"" := by decide
  unfold buildSecChUa
  cases isFull with
  | true => simp only [Bool.false_eq_true, if_false, if_true, hsplit, h1]
  | false => simp only [Bool.false_eq_true, if_false, hsplit, Option.map_some', h2]

set_option maxRecDepth 100000 in
/-- C33: for all inputs `buildSecChUa` returns three entries joined by `, `: the
Chromium entry and the brand entry, both with the version `V`, and one decoy
entry, where `V` is the text of the version before its first `.` when `isFull` is
false and the whole version when it is true. Without randomisation the entries
stand in that order, the decoy is `"Not/A)Brand";v="8"` (with `v="99.0.0.0"` when
`isFull`) and no draw is made; the reverse parse of the Chrome 138 string gives a
`sec-ch-ua` that contains `"Google Chrome";v="138"`. With randomisation the decoy
is one of the four GREASE brands (its key with `v="99.0.0.0"` when `isFull`) and the
three entries stand in some order. -/
theorem buildSecChUa_entries :
    (∀ (brand version : String) (isFull randomize : Bool) (r : Rng),
      ∃ entries decoy r1,
        buildSecChUa brand version isFull randomize r = some (Join entries ", ", r1) ∧
        entries.length = 3 ∧
        entries.Perm
          [ "\"Chromium\";v=\"" ++
              (if isFull then version else String.mk (splitOnce ".".data version.data).1) ++ "\"",
            "\"" ++ brand ++ "\";v=\"" ++
              (if isFull then version else String.mk (splitOnce ".".data version.data).1) ++ "\"",
            decoy ] ∧
        (randomize = false →
          decoy = (if isFull then "\"Not/A)Brand\";v=\"99.0.0.0\"" else "\"Not/A)Brand\";v=\"8\"") ∧
          entries =
            [ "\"Chromium\";v=\"" ++
                (if isFull then version else String.mk (splitOnce ".".data version.data).1) ++
                "\"",
              "\"" ++ brand ++ "\";v=\"" ++
                (if isFull then version else String.mk (splitOnce ".".data version.data).1) ++
                "\"",
              decoy ] ∧
          r1 = r) ∧
        (randomize = true →
          ∃ gb ∈ greaseBrands,
            decoy = (if isFull then
                String.mk (splitOnce ";v=".data gb.data).1 ++ ";v=" ++ "\"99.0.0.0\""
              else gb))) ∧
    greaseBrands =
      [ "\"Not/A)Brand\";v=\"8\"", "\"Not;A Brand\";v=\"99\"", "\"Not(A:Brand\";v=\"24\"",
        "\"Chromium\";v=\"99\"" ] ∧
    (∃ a, FromUserAgentString uaChrome138 RequestTypeNavigate zeroRng = .ok a ∧
      Header.Lookup a.Headers "sec-ch-ua" =
        some "\"Chromium\";v=\"138\", \"Google Chrome\";v=\"138\", \"Not/A)Brand\";v=\"8\"" ∧
      Contains (Header.Get a.Headers "sec-ch-ua") "\"Google Chrome\";v=\"138\"" = true) := by
  refine ⟨?_, rfl, ?_⟩
  · intro brand version isFull randomize r
    cases randomize with
    | false =>
      refine ⟨_, _, r, buildSecChUa_fixed brand version isFull r, rfl, List.Perm.refl _, ?_, ?_⟩
      · intro _
        exact ⟨rfl, rfl, rfl⟩
      · intro h
        exact absurd h (by decide)
    | true =>
      obtain ⟨gb, hmem, r1, _, hb⟩ := buildSecChUa_randomized brand version isFull r
      refine ⟨_, _, _, hb, ?_, Shuffle_perm _ r1, ?_, ?_⟩
      · rw [(Shuffle_perm _ r1).length_eq]
        rfl
      · intro h
        exact absurd h (by decide)
      · intro _
        exact ⟨gb, hmem, rfl⟩
  · refine ⟨agentOf (FromUserAgentString uaChrome138 RequestTypeNavigate zeroRng), ?_, ?_, ?_⟩
    · decide
    · decide
    · decide

/-- C33 (witness): the brand list of Chrome 138 without randomisation. -/
theorem buildSecChUa_entries_witness :
    ∃ entries decoy r1,
      buildSecChUa "Google Chrome" "138.0.7204.12" false false zeroRng =
        some (Join entries ", ", r1) ∧
      decoy = "\"Not/A)Brand\";v=\"8\"" ∧
      entries = [ "\"Chromium\";v=\"138\"", "\"Google Chrome\";v=\"138\"", decoy ] := by
  obtain ⟨entries, decoy, r1, hb, _, _, hfixed, _⟩ :=
    buildSecChUa_entries.1 "Google Chrome" "138.0.7204.12" false false zeroRng
  obtain ⟨hd, he, _⟩ := hfixed rfl
  refine ⟨entries, decoy, r1, hb, hd, ?_⟩
  rw [he]
  have hv : String.mk (splitOnce ".".data "138.0.7204.12".data).1 = "138" := by decide
  simp only [Bool.false_eq_true, if_false, hv]
  rfl

/-- C34 (witness): with draws all zero the value is one of the twelve and contains
`gzip`; the value `br, deflate, gzip, zstd` is returned for some draws. -/
theorem accept_encoding_values_witness :
    Contains (generateAcceptEncoding zeroRng).1 "gzip" = true ∧
    ∃ a b c : Fin 3,
      (generateAcceptEncoding
        (fun i => if i = 0 then a.val else if i = 1 then b.val else c.val)).1 =
        "br, deflate, gzip, zstd" :=
  ⟨(accept_encoding_values.1 zeroRng).2.1,
    accept_encoding_values.2 "br, deflate, gzip, zstd" (by decide)⟩

/-- C37 (witness): the specification built with draws all zero. -/
theorem ChromeLatestSpec_shape_witness :
    (ChromeLatestSpec zeroRng).1.CipherSuites.count GREASE_PLACEHOLDER = 1 ∧
    (ChromeLatestSpec zeroRng).1.Extensions.length = 17 ∧
    (ChromeLatestSpec zeroRng).1.CompressionMethods = [0] :=
  ⟨(ChromeLatestSpec_shape zeroRng).2.2.2.1, (ChromeLatestSpec_shape zeroRng).2.2.2.2.1,
    (ChromeLatestSpec_shape zeroRng).2.2.2.2.2.2.2.2.2.2.2⟩

/-! ## Theorems on the HTTP/2 jitter -/

/-- C35 (counterexample): for a base table that holds header-table-size
4000000000 the moderate profile returns no table. The delta is 400000000, the
lower bound 3600000000, and the upper bound 4400000000 wraps to 105032704, below
the lower bound, so `fastrand.Number` panics. -/
theorem moderate_jitter_wraps :
    randomizeH2Settings [(SettingHeaderTableSize, 4000000000)] .Normal zeroRng = none ∧
    (4000000000 : Nat) < 2 ^ 32 ∧
    (4000000000 + 4000000000 * 10 / 100) % 2 ^ 32 = 105032704 ∧
    Float64.toUint32 (Float64.mul (Float64.ofUint32 4000000000) (Float64.round ⟨10, 2⟩)) =
      400000000 ∧
    randomizeValue 4000000000 (Float64.round ⟨10, 2⟩) zeroRng = none := by
  refine ⟨by rfl, by decide, by decide, by rfl, by rfl⟩

/-- C35 (amended): under the moderate jitter profile, for every base table in
which header-table-size, initial-window-size and max-header-list-size, when
present with value `b`, have `b + ⌊b·p⌋ < 2^32` for `p` = 10%, 15%, 10%, and for
every outcome of the draws, `randomizeH2Settings` returns a table with the keys of
the base table; every setting other than the three keeps its base value; each of
the three, when present with `b > 0`, lies between `b − ⌊b·p⌋` and `b + ⌊b·p⌋`; a
base value 0 stays 0, an absent setting stays absent, and `randomizeValue` of 0 is
0 for every percentage, without a draw. The values of the three tables of the
package are positive and fit. On a table of 32-bit values in which one of the
three settings does not fit, the call panics for every outcome of the draws. -/
theorem moderate_jitter :
    (∀ (base : List (SettingID × Nat)) (r : Rng),
      (∀ e ∈ [(SettingHeaderTableSize, 10), (SettingInitialWindowSize, 15),
          (SettingMaxHeaderListSize, 10)],
        ∀ b, mapFind base e.1 = some b → b + b * e.2 / 100 < 2 ^ 32) →
      ∃ s r1, randomizeH2Settings base .Normal r = some (s, r1) ∧
        mapKeys s = mapKeys base ∧
        (∀ id, id ∉ [SettingHeaderTableSize, SettingInitialWindowSize,
            SettingMaxHeaderListSize] → mapFind s id = mapFind base id) ∧
        ∀ e ∈ [(SettingHeaderTableSize, 10), (SettingInitialWindowSize, 15),
            (SettingMaxHeaderListSize, 10)],
          (mapFind base e.1 = none → mapFind s e.1 = none) ∧
          (mapFind base e.1 = some 0 → mapFind s e.1 = some 0) ∧
          (∀ b, mapFind base e.1 = some b → 0 < b →
            ∃ v, mapFind s e.1 = some v ∧ b - b * e.2 / 100 ≤ v ∧ v ≤ b + b * e.2 / 100)) ∧
    (∀ (percentage : Float64) (r : Rng), randomizeValue 0 percentage r = some (0, r)) ∧
    (∀ table ∈ [GetChromiumH2Settings, GetGeckoH2Settings, GetWebKitH2Settings],
      ∀ e ∈ table, 0 < e.2 ∧ e.2 + e.2 * 15 / 100 < 2 ^ 32) ∧
    (∀ (base : List (SettingID × Nat)) (r : Rng),
      (∀ id b, mapFind base id = some b → b < 2 ^ 32) →
      (∃ e ∈ [(SettingHeaderTableSize, 10), (SettingInitialWindowSize, 15),
          (SettingMaxHeaderListSize, 10)],
        ∃ b, mapFind base e.1 = some b ∧ 2 ^ 32 ≤ b + b * e.2 / 100) →
      randomizeH2Settings base .Normal r = none) :=
  ⟨randomizeH2Settings_normal, randomizeValue_zero, h2_tables_fit,
    randomizeH2Settings_normal_wrap⟩

/-- C35 (witness): the Chromium table under the moderate profile, draws all zero. -/
theorem moderate_jitter_witness :
    ∃ s r1, randomizeH2Settings GetChromiumH2Settings .Normal zeroRng = some (s, r1) ∧
      mapKeys s = mapKeys GetChromiumH2Settings ∧
      mapFind s SettingMaxConcurrentStreams = some 1000 ∧
      ∃ v, mapFind s SettingHeaderTableSize = some v ∧ 65536 - 6553 ≤ v ∧ v ≤ 65536 + 6553 := by
  obtain ⟨s, r1, hs, hkeys, hother, hthree⟩ :=
    moderate_jitter.1 GetChromiumH2Settings zeroRng (by decide)
  refine ⟨s, r1, hs, hkeys, ?_, ?_⟩
  · rw [hother SettingMaxConcurrentStreams (by decide)]
    decide
  · exact (hthree (SettingHeaderTableSize, 10) (by decide)).2.2 65536 (by decide) (by decide)

set_option maxRecDepth 100000 in
/-- C36 (counterexample): under the maximum jitter profile, with draws all zero, the
table made from the Chromium table has max-header-list-size 262144 and the table
made from the WebKit table has 16384, the values of the base tables; so has the
table of a generated Chrome Agent. -/
theorem maximum_jitter_keeps_base_settings :
    (randomizeH2Settings GetChromiumH2Settings .Maximum zeroRng).map
      (fun res => mapFind res.1 SettingMaxHeaderListSize) = some (some 262144) ∧
    (randomizeH2Settings GetWebKitH2Settings .Maximum zeroRng).map
      (fun res => mapFind res.1 SettingMaxHeaderListSize) = some (some 16384) ∧
    (∃ a, Generate maximumJitterGenerator zeroRng = .ok a ∧
      mapFind a.H2Settings SettingMaxHeaderListSize = some 262144) := by
  refine ⟨by decide, by decide, agentOf (Generate maximumJitterGenerator zeroRng), ?_, ?_⟩ <;>
    decide

/-- C36 (amended): under the maximum jitter profile, for every base table and every
outcome of the draws, `randomizeH2Settings` returns the base table with five
settings written over it: header-table-size in [4096 − 819, 4096 + 819],
enable-push 0, initial-window-size in [65535 − 13107, 65535 + 13107], max-frame-size
in [16384 − 3276, 16384 + 3276] and max-concurrent-streams in
[2^32 − 1024, 2^32 − 1]. Every other setting of the base table keeps its base
value, and the keys of the result are the five and the keys of the base table. -/
theorem maximum_jitter :
    ∀ (base : List (SettingID × Nat)) (r : Rng),
      ∃ s r1 v1 v2 v3 v4, randomizeH2Settings base .Maximum r = some (s, r1) ∧
        mapFind s SettingHeaderTableSize = some v1 ∧ 4096 - 819 ≤ v1 ∧ v1 ≤ 4096 + 819 ∧
        mapFind s SettingEnablePush = some 0 ∧
        mapFind s SettingInitialWindowSize = some v2 ∧ 65535 - 13107 ≤ v2 ∧
        v2 ≤ 65535 + 13107 ∧
        mapFind s SettingMaxFrameSize = some v3 ∧ 16384 - 3276 ≤ v3 ∧ v3 ≤ 16384 + 3276 ∧
        mapFind s SettingMaxConcurrentStreams = some v4 ∧ 2 ^ 32 - 1024 ≤ v4 ∧
        v4 ≤ 2 ^ 32 - 1 ∧
        (∀ id, id ∉ [SettingHeaderTableSize, SettingEnablePush, SettingInitialWindowSize,
            SettingMaxFrameSize, SettingMaxConcurrentStreams] →
          mapFind s id = mapFind base id) ∧
        (∀ id, id ∈ mapKeys s ↔
          id ∈ [SettingHeaderTableSize, SettingEnablePush, SettingInitialWindowSize,
            SettingMaxFrameSize, SettingMaxConcurrentStreams] ∨ id ∈ mapKeys base) := by
  intro base r
  obtain ⟨v1, v2, v3, r3, hl1, hh1, hl2, hh2, hl3, hh3, heq⟩ :=
    randomizeH2Settings_maximum base r
  have hfind : ∀ id,
      mapFind (mapSet (mapSet (mapSet (mapSet (mapSet base
        SettingHeaderTableSize v1) SettingEnablePush 0) SettingInitialWindowSize v2)
        SettingMaxFrameSize v3) SettingMaxConcurrentStreams
          ((2 ^ 32 - 1 - (IntN 1024 r3).1) % 2 ^ 32)) id =
      if SettingMaxConcurrentStreams = id then
        some ((2 ^ 32 - 1 - (IntN 1024 r3).1) % 2 ^ 32)
      else if SettingMaxFrameSize = id then some v3
      else if SettingInitialWindowSize = id then some v2
      else if SettingEnablePush = id then some 0
      else if SettingHeaderTableSize = id then some v1
      else mapFind base id := by
    intro id
    simp only [mapFind_mapSet]
  have hb4 : (IntN 1024 r3).1 < 1024 := Nat.mod_lt _ (by decide)
  refine ⟨_, _, v1, v2, v3, (2 ^ 32 - 1 - (IntN 1024 r3).1) % 2 ^ 32,
    heq, ?_, hl1, hh1, ?_, ?_, hl2, hh2, ?_, hl3, hh3, ?_, ?_, ?_, ?_, ?_⟩
  · rw [hfind]; rfl
  · rw [hfind]; rfl
  · rw [hfind]; rfl
  · rw [hfind]; rfl
  · rw [hfind]; rfl
  · omega
  · omega
  · intro id hid
    simp only [List.mem_cons, List.mem_singleton, List.not_mem_nil, or_false, not_or] at hid
    rw [hfind]
    simp [Ne.symm hid.1, Ne.symm hid.2.1, Ne.symm hid.2.2.1, Ne.symm hid.2.2.2.1,
      Ne.symm hid.2.2.2.2]
  · intro id
    have hmem : ∀ (m : List (SettingID × Nat)) (k : SettingID) (v : Nat),
        id ∈ mapKeys (mapSet m k v) ↔ id = k ∨ id ∈ mapKeys m := by
      intro m k v
      rw [mapKeys_mapSet]
      by_cases hk : k ∈ mapKeys m
      · rw [if_pos hk]
        constructor
        · exact Or.inr
        · rintro (rfl | h)
          · exact hk
          · exact h
      · rw [if_neg hk, List.mem_append, List.mem_singleton]
        tauto
    simp only [hmem, List.mem_cons, List.mem_singleton, List.not_mem_nil, or_false]
    tauto

/-- C36 (witness): the Chromium table under the maximum profile, draws all zero. -/
theorem maximum_jitter_witness :
    ∃ s r1, randomizeH2Settings GetChromiumH2Settings .Maximum zeroRng = some (s, r1) ∧
      mapFind s SettingEnablePush = some 0 ∧
      mapFind s SettingMaxHeaderListSize = some 262144 := by
  obtain ⟨s, r1, v1, v2, v3, v4, hs, _, _, _, hpush, _, _, _, _, _, _, _, _, _, hother, _⟩ :=
    maximum_jitter GetChromiumH2Settings zeroRng
  refine ⟨s, r1, hs, hpush, ?_⟩
  rw [hother SettingMaxHeaderListSize (by decide)]
  decide

/-! ## The priority-preserving shuffle on known names -/

/-- Two names with entries in `headerPriority` that read the same run priority are
the same name. -/
theorem runPriority_injective (a b : String)
    (ha : (mapFind headerPriority a).isSome = true)
    (hb : (mapFind headerPriority b).isSome = true)
    (h : runPriority a = runPriority b) : a = b := by
  obtain ⟨pa, hpa⟩ := Option.isSome_iff_exists.1 ha
  obtain ⟨pb, hpb⟩ := Option.isSome_iff_exists.1 hb
  unfold runPriority at h
  rw [hpa, hpb] at h
  simp only [Option.getD_some] at h
  have hma := mapFind_mem _ _ _ hpa
  have hmb := mapFind_mem _ _ _ hpb
  have hinj := List.inj_on_of_nodup_map emitted_priorities.2.2 hma hmb
  rw [h] at hma
  exact congrArg Prod.fst (hinj h)

/-- The loop of `ShuffledPriorityHeaderSorter` over keys whose neighbours all differ
in priority finds a run boundary at every index, and shuffles nothing. -/
theorem shuffledLoop_distinct (n : Nat) :
    ∀ (i : Nat) (keys : List String) (r : Rng), 1 ≤ i →
      (∀ j, i ≤ j → j < i + n →
        runPriority (keys.getD (j - 1) "") ≠ runPriority (keys.getD j "")) →
      shuffledLoop n i (i - 1) keys r = (keys, i + n - 1, r) := by
  induction n with
  | zero =>
    intro i keys r _ _
    simp [shuffledLoop]
  | succ n ih =>
    intro i keys r hi hd
    have hne := hd i (Nat.le_refl _) (by omega)
    have hrun : ¬ i - (i - 1) > 1 := by omega
    have hnext := ih (i + 1) keys r (by omega) (fun j h1 h2 => hd j (by omega) (by omega))
    simp only [Nat.add_sub_cancel] at hnext
    simp only [shuffledLoop, hne, ne_eq, not_false_eq_true, if_true, hrun, if_false, hnext]
    have he : i + 1 + n - 1 = i + (n + 1) - 1 := by omega
    rw [he]

/-- On pairwise distinct names that all have an entry in `headerPriority`, the
shuffled sorter returns the priority order and makes no draw. -/
theorem ShuffledPriorityHeaderSorter_known (keys : List String) (r : Rng) (hnd : keys.Nodup)
    (hk : ∀ k ∈ keys, (mapFind headerPriority k).isSome = true) :
    ShuffledPriorityHeaderSorter keys r = (PriorityHeaderSorter keys, r) := by
  have hperm : (PriorityHeaderSorter keys).Perm keys := SliceStable_perm _ _
  have hsnd : (PriorityHeaderSorter keys).Nodup := hperm.nodup_iff.2 hnd
  have hsk : ∀ k ∈ PriorityHeaderSorter keys, (mapFind headerPriority k).isSome = true :=
    fun k hmem => hk k (hperm.subset hmem)
  have hadj : ∀ j, 1 ≤ j → j < 1 + ((PriorityHeaderSorter keys).length - 1) →
      runPriority ((PriorityHeaderSorter keys).getD (j - 1) "") ≠
        runPriority ((PriorityHeaderSorter keys).getD j "") := by
    intro j h1 h2 heq
    have hj : j < (PriorityHeaderSorter keys).length := by omega
    have hj1 : j - 1 < (PriorityHeaderSorter keys).length := by omega
    rw [List.getD_eq_getElem _ _ hj, List.getD_eq_getElem _ _ hj1] at heq
    have hsame := runPriority_injective _ _ (hsk _ (List.getElem_mem _)) (hsk _ (List.getElem_mem _))
      heq
    have := (List.Nodup.getElem_inj_iff hsnd).1 hsame
    omega
  have hloop := shuffledLoop_distinct ((PriorityHeaderSorter keys).length - 1) 1
    (PriorityHeaderSorter keys) r (Nat.le_refl _) hadj
  unfold ShuffledPriorityHeaderSorter
  simp only [Nat.sub_self] at hloop
  simp only [hloop]
  have hlast : ¬ (PriorityHeaderSorter keys).length -
      (1 + ((PriorityHeaderSorter keys).length - 1) - 1) > 1 := by omega
  rw [if_neg hlast]

/-- Under the maximum fingerprint profile with the zero-header switch off, the
header order of `generateFor` is the priority order of the keys of the generated
header map, whatever sorter is configured. -/
theorem generateFor_order_maximum (g : Generator) (profile : browserProfile)
    (platformProf : platformProfile) (osProf : osProfile) (version : Int) (r : Rng) (a : Agent)
    (hmax : g.fingerprintProfile = .Maximum) (hz : g.zeroHeader = false)
    (h : generateFor g profile platformProf osProf version r = .ok a) :
    ∃ m, keysWithin emittedHeaderNames m ∧ "accept-language" ∈ mapKeys m ∧
      a.HeaderOrder = pseudoHeaders ++ PriorityHeaderSorter (mapKeys m) ∧
      (mapKeys a.Headers).Perm ((mapKeys m).map CanonicalHeaderKey) := by
  obtain ⟨parts, q1, q2, q3, _, _, hheaders, _⟩ := generateFor_inv _ _ _ _ _ _ _ h
  simp only [hz, Bool.not_false, if_true, hmax] at hheaders
  unfold buildHeaders at hheaders
  split at hheaders
  · simp at hheaders
  · rename_i m qm hm
    simp only [Option.some.injEq, Prod.mk.injEq] at hheaders
    have hfin := hheaders.1
    have hw := generatedHeaderMap_keysWithin _ _ _ _ _ _ _ _ m qm hm
    have hrp := rangeKeys_perm m qm
    have hknown : ∀ k ∈ (rangeKeys m qm).1, (mapFind headerPriority k).isSome = true :=
      fun k hk => emitted_priorities.1 k (hw.2 k (hrp.subset hk))
    have hsort := ShuffledPriorityHeaderSorter_known (rangeKeys m qm).1 (rangeKeys m qm).2
      (hrp.nodup_iff.2 hw.1) hknown
    have hinj : ∀ x ∈ (rangeKeys m qm).1, ∀ y ∈ (rangeKeys m qm).1,
        priorityOf x = priorityOf y → x = y := fun x hx y hy =>
      emitted_priorities.2.1 x (hw.2 x (hrp.subset hx)) y (hw.2 y (hrp.subset hy))
    rw [hsort, PriorityHeaderSorter_perm_eq _ _ hrp hinj] at hfin
    have hH : (finishHeaders m (PriorityHeaderSorter (mapKeys m))).1 = a.Headers := by rw [hfin]
    have hO : (finishHeaders m (PriorityHeaderSorter (mapKeys m))).2 = a.HeaderOrder := by
      rw [hfin]
    have hp : (PriorityHeaderSorter (mapKeys m)).Perm (mapKeys m) := SliceStable_perm _ _
    have hnd := canonical_nodup_of_keysWithin m _ hw hp
    have hkeys := foldl_Set_keys (fun k => mapGet m k) (PriorityHeaderSorter (mapKeys m)) []
      (by rw [show mapKeys ([] : Header) = [] from rfl, List.nil_append]; exact hnd)
    obtain ⟨va, ve, vl, ua, full, dest, _, _, _, _, _, _, _, _, hlang, _⟩ :=
      generatedHeaderMap_entries _ _ _ _ _ _ _ _ _ _ hm
    refine ⟨m, hw, ?_, hO.symm, ?_⟩
    · by_contra hn
      rw [(mapFind_eq_none m _).2 hn] at hlang
      simp at hlang
    · rw [← hH]
      simp only [finishHeaders]
      rw [hkeys, show mapKeys ([] : Header) = [] from rfl, List.nil_append]
      exact hp.map _

/-- Two key lists of emitted names with the same canonical forms hold the same
names. -/
theorem perm_of_canonical_perm (l1 l2 : List String) (h1 : l1.Nodup) (h2 : l2.Nodup)
    (he1 : ∀ k ∈ l1, k ∈ emittedHeaderNames) (he2 : ∀ k ∈ l2, k ∈ emittedHeaderNames)
    (h : (l1.map CanonicalHeaderKey).Perm (l2.map CanonicalHeaderKey)) : l1.Perm l2 := by
  rw [List.perm_ext_iff_of_nodup h1 h2]
  intro a
  constructor
  · intro ha
    obtain ⟨b, hb, hab⟩ := List.mem_map.1 (h.subset (List.mem_map_of_mem _ ha))
    rw [← canonical_injective_on_emitted b (he2 b hb) a (he1 a ha) hab]
    exact hb
  · intro ha
    obtain ⟨b, hb, hab⟩ := List.mem_map.1 (h.symm.subset (List.mem_map_of_mem _ ha))
    rw [← canonical_injective_on_emitted b (he1 b hb) a (he2 a ha) hab]
    exact hb

/-- The header order of a run under the maximum fingerprint profile. -/
theorem Generate_order_maximum (g : Generator) (r : Rng) (a : Agent)
    (hbot : g.useBotAgents = false) (hmax : g.fingerprintProfile = .Maximum)
    (h : Generate g r = .ok a) :
    (g.zeroHeader = false →
      ∃ ks : List String, ks.Nodup ∧ (∀ k ∈ ks, k ∈ emittedHeaderNames) ∧
        "accept-language" ∈ ks ∧
        (mapKeys a.Headers).Perm (ks.map CanonicalHeaderKey) ∧
        a.HeaderOrder = pseudoHeaders ++ PriorityHeaderSorter ks) ∧
    (g.zeroHeader = true → a.Headers = [] ∧ a.HeaderOrder = []) := by
  constructor
  · intro hz
    obtain ⟨browser, platform, os, version, r3, hrun⟩ := Generate_browser_inv g r a hbot h
    obtain ⟨_, _, _, _, _, hgen⟩ := hrun
    obtain ⟨m, hw, hlang, hO, hH⟩ := generateFor_order_maximum g _ _ _ _ _ a hmax hz hgen
    exact ⟨mapKeys m, hw.1, hw.2, hlang, hH, hO⟩
  · intro hz
    exact Generate_zeroHeader g r a hbot hz h

/-- C38: on every list of pairwise distinct header names that all have an entry in
`headerPriority`, `ShuffledPriorityHeaderSorter` returns the order
`PriorityHeaderSorter` returns, for every outcome of the draws, and makes no draw:
no two entries of `headerPriority` share a priority. Every header name the header
builders emit has an entry. Under the maximum fingerprint profile, whatever sorter
is configured, the header order of a generated Agent is the four pseudo-headers
followed by the priority order of its header names (it is empty when the
zero-header switch is on), and two Agents generated under this profile with the
same header keys have the same header order. -/
theorem shuffled_sorter_is_priority_order :
    (∀ (keys : List String) (r : Rng), keys.Nodup →
      (∀ k ∈ keys, (mapFind headerPriority k).isSome = true) →
      ShuffledPriorityHeaderSorter keys r = (PriorityHeaderSorter keys, r)) ∧
    (headerPriority.map Prod.snd).Nodup ∧
    (∀ k ∈ emittedHeaderNames, (mapFind headerPriority k).isSome = true) ∧
    (∀ (g : Generator) (r : Rng) (a : Agent), g.useBotAgents = false →
      g.fingerprintProfile = .Maximum → Generate g r = .ok a →
      (g.zeroHeader = false →
        ∃ ks : List String, ks.Nodup ∧ (∀ k ∈ ks, k ∈ emittedHeaderNames) ∧
          (mapKeys a.Headers).Perm (ks.map CanonicalHeaderKey) ∧
          a.HeaderOrder = pseudoHeaders ++ PriorityHeaderSorter ks) ∧
      (g.zeroHeader = true → a.Headers = [] ∧ a.HeaderOrder = [])) ∧
    (∀ (g1 g2 : Generator) (r1 r2 : Rng) (a1 a2 : Agent),
      g1.useBotAgents = false → g1.fingerprintProfile = .Maximum → Generate g1 r1 = .ok a1 →
      g2.useBotAgents = false → g2.fingerprintProfile = .Maximum → Generate g2 r2 = .ok a2 →
      (mapKeys a1.Headers).Perm (mapKeys a2.Headers) → a1.HeaderOrder = a2.HeaderOrder) := by
  refine ⟨ShuffledPriorityHeaderSorter_known, emitted_priorities.2.2, emitted_priorities.1,
    ?_, ?_⟩
  · intro g r a hbot hmax h
    obtain ⟨hoff, hon⟩ := Generate_order_maximum g r a hbot hmax h
    refine ⟨fun hz => ?_, hon⟩
    obtain ⟨ks, hnd, hem, _, hH, hO⟩ := hoff hz
    exact ⟨ks, hnd, hem, hH, hO⟩
  · intro g1 g2 r1 r2 a1 a2 hb1 hm1 h1 hb2 hm2 h2 hperm
    obtain ⟨hoff1, hon1⟩ := Generate_order_maximum g1 r1 a1 hb1 hm1 h1
    obtain ⟨hoff2, hon2⟩ := Generate_order_maximum g2 r2 a2 hb2 hm2 h2
    have hlang : ∀ (a : Agent) (ks : List String), "accept-language" ∈ ks →
        (mapKeys a.Headers).Perm (ks.map CanonicalHeaderKey) → mapKeys a.Headers ≠ [] := by
      intro a ks hmem hp he
      rw [he] at hp
      have := hp.symm.subset (List.mem_map_of_mem CanonicalHeaderKey hmem)
      exact absurd this (List.not_mem_nil _)
    cases hz1 : g1.zeroHeader <;> cases hz2 : g2.zeroHeader
    · obtain ⟨ks1, hnd1, hem1, _, hH1, hO1⟩ := hoff1 hz1
      obtain ⟨ks2, hnd2, hem2, _, hH2, hO2⟩ := hoff2 hz2
      have hks : ks1.Perm ks2 :=
        perm_of_canonical_perm ks1 ks2 hnd1 hnd2 hem1 hem2 (hH1.symm.trans (hperm.trans hH2))
      rw [hO1, hO2, PriorityHeaderSorter_perm_eq ks1 ks2 hks
        (fun x hx y hy => emitted_priorities.2.1 x (hem1 x hx) y (hem1 y hy))]
    · obtain ⟨ks1, _, _, hl1, hH1, _⟩ := hoff1 hz1
      have hnil := (hon2 hz2).1
      rw [hnil] at hperm
      exact absurd (List.Perm.eq_nil hperm) (hlang a1 ks1 hl1 hH1)
    · obtain ⟨ks2, _, _, hl2, hH2, _⟩ := hoff2 hz2
      have hnil := (hon1 hz1).1
      rw [hnil] at hperm
      exact absurd (List.Perm.eq_nil hperm.symm) (hlang a2 ks2 hl2 hH2)
    · rw [(hon1 hz1).2, (hon2 hz2).2]

set_option maxRecDepth 100000 in
/-- C38 (witness): the two sorters agree on three emitted names, and the default
generator under the maximum profile has the priority order. -/
theorem shuffled_sorter_is_priority_order_witness :
    ShuffledPriorityHeaderSorter ["sec-fetch-dest", "accept", "sec-ch-ua"] zeroRng =
      (PriorityHeaderSorter ["sec-fetch-dest", "accept", "sec-ch-ua"], zeroRng) ∧
    ∃ ks : List String, ks.Nodup ∧ (∀ k ∈ ks, k ∈ emittedHeaderNames) ∧
      (mapKeys (agentOf (Generate maximumGenerator zeroRng)).Headers).Perm
        (ks.map CanonicalHeaderKey) ∧
      (agentOf (Generate maximumGenerator zeroRng)).HeaderOrder =
        pseudoHeaders ++ PriorityHeaderSorter ks :=
  ⟨shuffled_sorter_is_priority_order.1 _ zeroRng (by decide) (by decide),
    (shuffled_sorter_is_priority_order.2.2.2.1 maximumGenerator zeroRng
      (agentOf (Generate maximumGenerator zeroRng)) rfl rfl (by decide)).1 rfl⟩

/-! ## Runs whose draws all have a given property -/

theorem advance_draws (P : Nat → Prop) (r : Rng) (hr : ∀ i, P (r i)) : ∀ i, P (r.advance i) :=
  fun i => hr (i + 1)

theorem Choice_draws {α : Type} (P : Nat → Prop) (xs : List α) (r r1 : Rng) (x : α)
    (hr : ∀ i, P (r i)) (h : Choice xs r = some (x, r1)) : ∀ i, P (r1 i) := by
  unfold Choice at h
  split at h
  · simp only [Option.some.injEq, Prod.mk.injEq] at h
    rw [← h.2]
    exact advance_draws P r hr
  · simp at h

theorem shuffleLoop_draws {α : Type} (P : Nat → Prop) (n : Nat) (xs : List α) (r : Rng)
    (hr : ∀ i, P (r i)) : ∀ i, P ((shuffleLoop n xs r).2 i) := by
  induction n generalizing xs r with
  | zero => exact hr
  | succ n ih =>
    simp only [shuffleLoop]
    exact ih _ _ (advance_draws P r hr)

theorem Shuffle_draws {α : Type} (P : Nat → Prop) (xs : List α) (r : Rng)
    (hr : ∀ i, P (r i)) : ∀ i, P ((Shuffle xs r).2 i) :=
  shuffleLoop_draws P _ xs r hr

theorem rangeKeys_draws {κ ν : Type} (P : Nat → Prop) (m : List (κ × ν)) (r : Rng)
    (hr : ∀ i, P (r i)) : ∀ i, P ((rangeKeys m r).2 i) :=
  Shuffle_draws P _ r hr

theorem acceptParts_draws (P : Nat → Prop) (parts : List AcceptHeaderPart) (q : Float64)
    (r : Rng) (hr : ∀ i, P (r i)) : ∀ i, P ((acceptParts parts q r).2 i) := by
  induction parts generalizing q r with
  | nil => exact hr
  | cons part rest ih =>
    simp only [acceptParts]
    split
    · exact ih _ _ (advance_draws P r hr)
    · exact ih _ _ hr

theorem buildAcceptHeader_draws (P : Nat → Prop) (parts : List AcceptHeaderPart) (r : Rng)
    (hr : ∀ i, P (r i)) : ∀ i, P ((buildAcceptHeader parts r).2 i) :=
  acceptParts_draws P parts _ r hr

theorem generateAcceptEncoding_draws (P : Nat → Prop) (r : Rng) (hr : ∀ i, P (r i)) :
    ∀ i, P ((generateAcceptEncoding r).2 i) := by
  have h := advance_draws P _ (Shuffle_draws P ["gzip", "deflate", "br"] r hr)
  unfold generateAcceptEncoding
  dsimp only
  split
  · exact h
  · exact h

theorem buildSecChUa_draws (P : Nat → Prop) (brand version : String) (isFull randomize : Bool)
    (r r1 : Rng) (v : String) (hr : ∀ i, P (r i))
    (h : buildSecChUa brand version isFull randomize r = some (v, r1)) : ∀ i, P (r1 i) := by
  cases randomize with
  | false =>
    rw [buildSecChUa_fixed] at h
    simp only [Option.some.injEq, Prod.mk.injEq] at h
    rw [← h.2]
    exact hr
  | true =>
    obtain ⟨gb, _, q, hq, hb⟩ := buildSecChUa_randomized brand version isFull r
    rw [hb] at h
    simp only [Option.some.injEq, Prod.mk.injEq] at h
    rw [← h.2]
    exact Shuffle_draws P _ q (Choice_draws P _ r q gb hr hq)

theorem negotiationAssignments_draws (P : Nat → Prop) (g : Generator) (vp : versionProfile)
    (r r1 : Rng) (neg : List (String × String)) (hr : ∀ i, P (r i))
    (h : negotiationAssignments g vp r = some (neg, r1)) : ∀ i, P (r1 i) := by
  unfold negotiationAssignments at h
  dsimp only at h
  generalize (if g.requestType = RequestTypeXHR then vp.AcceptHeaderPatternsXHR
    else vp.AcceptHeaderPatterns) = tpl at h
  split at h
  · simp at h
  · rename_i lang q1 hlang
    have h1 := Choice_draws P _ r q1 lang hr hlang
    split at h
    · simp at h
    · rename_i acc q3 hacc
      have h3 : ∀ i, P (q3 i) := by
        split at hacc
        · split at hacc
          · simp at hacc
          · rename_i tmpl q2 htmpl
            simp only [Option.some.injEq, Prod.mk.injEq] at hacc
            rw [← hacc.2]
            exact buildAcceptHeader_draws P _ _ (Choice_draws P _ q1 q2 tmpl h1 htmpl)
        · simp only [Option.some.injEq, Prod.mk.injEq] at hacc
          rw [← hacc.2]
          exact h1
      simp only [Option.some.injEq, Prod.mk.injEq] at h
      rw [← h.2]
      apply buildAcceptHeader_draws
      split
      · exact generateAcceptEncoding_draws P _ h3
      · exact h3

theorem hintAssignments_draws (P : Nat → Prop) (g : Generator) (browser : browserProfile)
    (os : osProfile) (platform : platformProfile) (version : Int) (fullVersion : String)
    (r r1 : Rng) (hints : List (String × String)) (hr : ∀ i, P (r i))
    (h : hintAssignments g browser os platform version fullVersion r = some (hints, r1)) :
    ∀ i, P (r1 i) := by
  unfold hintAssignments at h
  split at h
  · split at h
    · simp at h
    · rename_i ua q hua
      have hq := buildSecChUa_draws P _ _ _ _ r q ua hr hua
      split at h
      · split at h
        · simp at h
        · rename_i full q2 hfull
          simp only [Option.some.injEq, Prod.mk.injEq] at h
          rw [← h.2]
          exact buildSecChUa_draws P _ _ _ _ q q2 full hq hfull
      · simp only [Option.some.injEq, Prod.mk.injEq] at h
        rw [← h.2]
        exact hq
  · simp only [Option.some.injEq, Prod.mk.injEq] at h
    rw [← h.2]
    exact hr

theorem osToken_draws (P : Nat → Prop) (op : osProfile) (r r1 : Rng) (token : String)
    (hr : ∀ i, P (r i)) (h : osToken op r = some (token, r1)) : ∀ i, P (r1 i) := by
  rcases osToken_cases op r with ⟨_, device, _, htok⟩ | ⟨_, htok⟩
  · rw [htok] at h
    simp only [Option.some.injEq, Prod.mk.injEq] at h
    rw [← h.2]
    exact advance_draws P r hr
  · rw [htok] at h
    simp only [Option.some.injEq, Prod.mk.injEq] at h
    rw [← h.2]
    exact hr

/-- The stream the fragment loop leaves is the stream it got or the one the
platform token left. -/
theorem renderParts_rng (platform : Platform) (family : BrowserFamily) (bp : browserProfile)
    (op : osProfile) (vp : versionProfile) (fv : String) (r r1 : Rng) (parts : List String)
    (h : renderParts (mapGet (mapGet platformProfiles platform).ComponentGenerators family)
      bp op vp fv r = some (parts, r1)) :
    r1 = r ∨ ∃ token, osToken op r = some (token, r1) := by
  obtain ⟨token, q, htok⟩ := osToken_isSome op r
  have hnil : ∀ gens : List UAComponentGenerator, gens = [] →
      renderParts gens bp op vp fv r = some (parts, r1) → r1 = r := by
    intro gens hg hr
    rw [hg] at hr
    simp only [renderParts, Option.some.injEq, Prod.mk.injEq] at hr
    exact hr.2.symm
  have hfin : ∀ l : List String, some (l, q) = some (parts, r1) →
      ∃ token, osToken op r = some (token, r1) := by
    intro l hl
    simp only [Option.some.injEq, Prod.mk.injEq] at hl
    rw [← hl.2]
    exact ⟨token, htok⟩
  by_cases hd : platform = PlatformDesktop
  · subst hd
    by_cases hc : family = Chromium
    · subst hc
      rw [renderParts_chromium_desktop bp op vp fv r q token htok] at h
      exact Or.inr (hfin _ h)
    · by_cases hg : family = Gecko
      · subst hg
        rw [renderParts_gecko _ (Or.inl rfl) bp op vp fv r q token htok] at h
        exact Or.inr (hfin _ h)
      · by_cases hw : family = WebKit
        · subst hw
          rw [renderParts_webkit_desktop bp op vp fv r q token htok] at h
          exact Or.inr (hfin _ h)
        · have hempty : mapGet (mapGet platformProfiles PlatformDesktop).ComponentGenerators
              family = [] := by
            have h1 : ¬ Chromium = family := fun h => hc h.symm
            have h2 : ¬ Gecko = family := fun h => hg h.symm
            have h3 : ¬ WebKit = family := fun h => hw h.symm
            simp [mapGet, mapFind, platformProfiles, h1, h2, h3]
            rfl
          exact Or.inl (hnil _ hempty h)
  · by_cases hm : platform = PlatformMobile
    · subst hm
      by_cases hc : family = Chromium
      · subst hc
        rw [renderParts_chromium_mobile bp op vp fv r q token htok] at h
        exact Or.inr (hfin _ h)
      · by_cases hg : family = Gecko
        · subst hg
          rw [renderParts_gecko _ (Or.inr rfl) bp op vp fv r q token htok] at h
          exact Or.inr (hfin _ h)
        · by_cases hw : family = WebKit
          · subst hw
            rw [renderParts_webkit_mobile bp op vp fv r q token htok] at h
            exact Or.inr (hfin _ h)
          · have hempty : mapGet (mapGet platformProfiles PlatformMobile).ComponentGenerators
                family = [] := by
              have h1 : ¬ Chromium = family := fun h => hc h.symm
              have h2 : ¬ Gecko = family := fun h => hg h.symm
              have h3 : ¬ WebKit = family := fun h => hw h.symm
              simp [mapGet, mapFind, platformProfiles, h1, h2, h3]
              rfl
            exact Or.inl (hnil _ hempty h)
    · rw [renderParts_unknown_platform platform hd hm family bp op vp fv r] at h
      simp only [Option.some.injEq, Prod.mk.injEq] at h
      exact Or.inl h.2.symm

theorem renderParts_draws (P : Nat → Prop) (platform : Platform) (family : BrowserFamily)
    (bp : browserProfile) (op : osProfile) (vp : versionProfile) (fv : String) (r r1 : Rng)
    (parts : List String) (hr : ∀ i, P (r i))
    (h : renderParts (mapGet (mapGet platformProfiles platform).ComponentGenerators family)
      bp op vp fv r = some (parts, r1)) : ∀ i, P (r1 i) := by
  rcases renderParts_rng platform family bp op vp fv r r1 parts h with e | ⟨token, htok⟩
  · rw [e]
    exact hr
  · exact osToken_draws P op r r1 token hr htok

theorem fullVersionOf_draws (P : Nat → Prop) (profile : browserProfile) (version : Int)
    (r : Rng) (hr : ∀ i, P (r i)) : ∀ i, P ((fullVersionOf profile version r).2 i) := by
  unfold fullVersionOf
  split
  · exact advance_draws P r hr
  · exact hr

/-- The stream a resolved run hands to `generateFor` keeps a property all draws of
the run have. -/
theorem ResolvedRun_draws (P : Nat → Prop) (g : Generator) (r : Rng) (browser : Browser)
    (platform : Platform) (os : OperatingSystem) (version : Int) (r3 : Rng) (a : Agent)
    (hr : ∀ i, P (r i)) (h : ResolvedRun g r browser platform os version r3 a) :
    ∀ i, P (r3 i) := by
  obtain ⟨r1, r2, hb, hp, hv, _⟩ := h
  have h1 : ∀ i, P (r1 i) := by
    unfold resolveBrowser at hb
    dsimp only at hb
    generalize (if g.browsers.contains BrowserRandom then allRealBrowsers else g.browsers) = pot
      at hb
    split at hb
    · simp at hb
    · split at hb
      · simp at hb
      · rename_i res hres
        simp only [Except.ok.injEq] at hb
        rw [hb] at hres
        exact Choice_draws P _ r r1 browser hr hres
  have h2 : ∀ i, P (r2 i) := by
    rcases resolvePlatformAndOS_cases g browser r1 with ⟨_, he⟩ | ⟨c, _, hok⟩
    · rw [he] at hp
      simp at hp
    · rw [hok] at hp
      simp only [Except.ok.injEq, Prod.mk.injEq] at hp
      rw [← hp.2]
      exact advance_draws P r1 h1
  exact Choice_draws P _ _ r3 version (rangeKeys_draws P _ r2 h2) hv

/-! ## The drop of the extreme profile -/

/-- A deleted key has no entry. -/
theorem mapFind_mapDelete_self (m : List (String × String)) (k : String) :
    mapFind (mapDelete m k) k = none := by
  rw [mapFind_eq_none]
  unfold mapDelete mapKeys
  intro hmem
  obtain ⟨e, he, hek⟩ := List.mem_map.1 hmem
  have := (List.mem_filter.1 he).2
  simp [hek] at this

/-- The loop of the extreme profile adds no entry. -/
theorem mapFind_dropLoop_none (ks : List String) (m : List (String × String)) (r : Rng)
    (k : String) (h : mapFind m k = none) : mapFind (dropLoop ks m r).1 k = none := by
  cases hf : mapFind (dropLoop ks m r).1 k with
  | none => rfl
  | some v =>
    rw [mapFind_dropLoop_sub ks m r k v hf] at h
    simp at h

/-- When every draw is odd, the loop of the extreme profile deletes every visited
name that starts with `sec-`. -/
theorem dropLoop_all_odd (ks : List String) (m : List (String × String)) (r : Rng)
    (hr : ∀ i, r i % 2 = 1) (k : String) (hk : HasPrefix k "sec-" = true) (hmem : k ∈ ks) :
    mapFind (dropLoop ks m r).1 k = none := by
  induction ks generalizing m r with
  | nil => exact absurd hmem (List.not_mem_nil _)
  | cons k0 ks ih =>
    have hbool : (RandBool r).1 = true := by simp [RandBool, hr 0]
    have hadv : ∀ i, (RandBool r).2 i % 2 = 1 := fun i => hr (i + 1)
    simp only [dropLoop]
    by_cases he : k = k0
    · subst he
      rw [if_pos hk, if_pos hbool]
      exact mapFind_dropLoop_none _ _ _ _ (mapFind_mapDelete_self m k)
    · have hin : k ∈ ks := (List.mem_cons.1 hmem).resolve_left he
      split
      · exact ih _ _ hadv hin
      · exact ih _ _ hr hin

/-- When every draw is even, the loop of the extreme profile deletes nothing. -/
theorem dropLoop_all_even (ks : List String) (m : List (String × String)) (r : Rng)
    (hr : ∀ i, r i % 2 = 0) : (dropLoop ks m r).1 = m := by
  induction ks generalizing r with
  | nil => rfl
  | cons k0 ks ih =>
    have hbool : (RandBool r).1 = false := by simp [RandBool, hr 0]
    have hadv : ∀ i, (RandBool r).2 i % 2 = 0 := fun i => hr (i + 1)
    simp only [dropLoop, hbool, Bool.false_eq_true, if_false]
    split
    · exact ih _ hadv
    · exact ih _ hr

/-- The block of the extreme profile with draws all odd: no name that starts with
`sec-` is left. -/
theorem extremeDrop_all_odd (m : List (String × String)) (r : Rng) (hr : ∀ i, r i % 2 = 1)
    (k : String) (hk : HasPrefix k "sec-" = true) : mapFind (extremeDrop m r).1 k = none := by
  unfold extremeDrop
  by_cases hmem : k ∈ mapKeys m
  · exact dropLoop_all_odd _ _ _ (rangeKeys_draws (fun n => n % 2 = 1) m r hr) k hk
      ((rangeKeys_perm m r).symm.subset hmem)
  · exact mapFind_dropLoop_none _ _ _ _ ((mapFind_eq_none m k).2 hmem)

/-- The block of the extreme profile with draws all even: the map is unchanged. -/
theorem extremeDrop_all_even (m : List (String × String)) (r : Rng) (hr : ∀ i, r i % 2 = 0) :
    (extremeDrop m r).1 = m :=
  dropLoop_all_even _ _ _ (rangeKeys_draws (fun n => n % 2 = 0) m r hr)

/-- The headers of `generateFor` with the zero-header switch off, under a sorter
that only rearranges the keys, together with the stream the header builder starts
from: the one the fragment loop leaves. -/
theorem generateFor_headers_from (g : Generator) (profile : browserProfile)
    (platformProf : platformProfile) (osProf : osProfile) (version : Int) (r : Rng) (a : Agent)
    (hz : g.zeroHeader = false) (hs : ∀ ks r0, (g.headerSorter ks r0).1.Perm ks)
    (h : generateFor g profile platformProf osProf version r = .ok a) :
    ∃ m parts q q',
      renderParts (mapGet platformProf.ComponentGenerators profile.Family) profile osProf
        (mapGet profile.Versions version) (fullVersionOf profile version r).1
        (fullVersionOf profile version r).2 = some (parts, q) ∧
      generatedHeaderMap g profile osProf platformProf version
        (fullVersionOf profile version r).1 (mapGet profile.Versions version) q = some (m, q') ∧
      ∀ name ∈ emittedHeaderNames,
        Header.Lookup a.Headers name = mapFind m name ∧
        Header.Get a.Headers name = mapGet m name := by
  obtain ⟨parts, q1, q2, q3, hparts, _, hheaders, _⟩ := generateFor_inv _ _ _ _ _ _ _ h
  simp only [hz, Bool.not_false, if_true] at hheaders
  unfold buildHeaders at hheaders
  split at hheaders
  · simp at hheaders
  · rename_i m qm hm
    simp only [Option.some.injEq, Prod.mk.injEq] at hheaders
    have hfin := hheaders.1
    have hH : (finishHeaders m ((if g.fingerprintProfile = .Maximum then
        ShuffledPriorityHeaderSorter else g.headerSorter) (rangeKeys m qm).1
        (rangeKeys m qm).2).1).1 = a.Headers := by rw [hfin]
    have hw := generatedHeaderMap_keysWithin _ _ _ _ _ _ _ _ m qm hm
    have hsort : ∀ ks r0, ((if g.fingerprintProfile = .Maximum then ShuffledPriorityHeaderSorter
        else g.headerSorter) ks r0).1.Perm ks := by
      intro ks r0
      split
      · exact (provided_sorters_perm ks r0).2.2
      · exact hs ks r0
    have hp := (hsort (rangeKeys m qm).1 (rangeKeys m qm).2).trans (rangeKeys_perm m qm)
    refine ⟨m, parts, q1, qm, hparts, hm, ?_⟩
    intro name hname
    rw [← hH]
    exact finishHeaders_lookup m _ name hw hp hname

/-- The header map of `buildHeaders` under the extreme profile: the deletions are
made on the negotiation and client-hint assignments, with the stream these leave,
and the fetch assignments are made afterwards. -/
theorem generatedHeaderMap_extreme (g : Generator) (browser : browserProfile) (os : osProfile)
    (platform : platformProfile) (version : Int) (fullVersion : String)
    (vp : versionProfile) (r r' : Rng) (m : List (String × String))
    (hx : g.fingerprintProfile = .Extreme)
    (h : generatedHeaderMap g browser os platform version fullVersion vp r = some (m, r')) :
    ∃ neg q1 hints q2 fetch,
      negotiationAssignments g vp r = some (neg, q1) ∧
      hintAssignments g browser os platform version fullVersion q1 = some (hints, q2) ∧
      fetchAssignments g browser (extremeDrop (assignAll [] (neg ++ hints)) q2).2 =
        some (fetch, r') ∧
      m = assignAll (extremeDrop (assignAll [] (neg ++ hints)) q2).1 fetch := by
  unfold generatedHeaderMap at h
  split at h
  · simp at h
  · rename_i neg q1 hneg
    split at h
    · simp at h
    · rename_i hints q2 hhints
      simp only [hx, if_true] at h
      split at h
      · simp at h
      · rename_i fetch q3 hfetch
        simp only [Option.some.injEq, Prod.mk.injEq] at h
        obtain ⟨hm, hr⟩ := h
        subst hr
        exact ⟨neg, q1, hints, q2, fetch, hneg, hhints, hfetch, hm.symm⟩

/-- Under the extreme profile with draws all odd no client hint is left in the
header map. -/
theorem generatedHeaderMap_extreme_odd (g : Generator) (browser : browserProfile)
    (os : osProfile) (platform : platformProfile) (version : Int) (fullVersion : String)
    (vp : versionProfile) (r r' : Rng) (m : List (String × String))
    (hx : g.fingerprintProfile = .Extreme) (hr : ∀ i, r i % 2 = 1)
    (h : generatedHeaderMap g browser os platform version fullVersion vp r = some (m, r')) :
    ∀ k ∈ [ "sec-ch-ua", "sec-ch-ua-mobile", "sec-ch-ua-platform",
        "sec-ch-ua-full-version-list", "sec-ch-ua-platform-version", "sec-ch-ua-arch",
        "sec-ch-ua-bitness" ], mapFind m k = none := by
  obtain ⟨neg, q1, hints, q2, fetch, hneg, hhints, hfetch, hm⟩ :=
    generatedHeaderMap_extreme _ _ _ _ _ _ _ _ _ _ hx h
  have h1 := negotiationAssignments_draws (fun n => n % 2 = 1) _ _ _ _ _ hr hneg
  have h2 := hintAssignments_draws (fun n => n % 2 = 1) _ _ _ _ _ _ _ _ _ h1 hhints
  obtain ⟨dest, _, hfetcheq⟩ := fetchAssignments_inv _ _ _ _ _ hfetch
  obtain ⟨_, _, _, _, _, _, hf7⟩ := fetch_block (g.requestType = RequestTypeNavigate)
    (g.requestType = RequestTypeSubresource) (g.requestType = RequestTypeXHR)
    (browser.Brand = "Brave") dest
  rw [← hfetcheq] at hf7
  intro k hk
  have hsec : HasPrefix k "sec-" = true := by
    revert k
    decide
  rw [hm, mapFind_assignAll, hf7 k (by
    simp only [List.mem_cons, List.mem_singleton, List.not_mem_nil, or_false] at hk ⊢
    tauto), extremeDrop_all_odd _ _ h2 k hsec]
  rfl

/-- Under the extreme profile with draws all even the three basic client hints of
a Chromium-derived browser are left in the header map. -/
theorem generatedHeaderMap_extreme_even (g : Generator) (browser : browserProfile)
    (os : osProfile) (platform : platformProfile) (version : Int) (fullVersion : String)
    (vp : versionProfile) (r r' : Rng) (m : List (String × String))
    (hx : g.fingerprintProfile = .Extreme) (hr : ∀ i, r i % 2 = 0)
    (hcb : browser.ChromiumBased = true)
    (h : generatedHeaderMap g browser os platform version fullVersion vp r = some (m, r')) :
    (∃ ua, mapFind m "sec-ch-ua" = some ua) ∧
    mapFind m "sec-ch-ua-mobile" = some platform.MobileHint ∧
    mapFind m "sec-ch-ua-platform" = some ("\"" ++ os.Name ++ "\"") := by
  obtain ⟨neg, q1, hints, q2, fetch, hneg, hhints, hfetch, hm⟩ :=
    generatedHeaderMap_extreme _ _ _ _ _ _ _ _ _ _ hx h
  have h1 := negotiationAssignments_draws (fun n => n % 2 = 0) _ _ _ _ _ hr hneg
  have h2 := hintAssignments_draws (fun n => n % 2 = 0) _ _ _ _ _ _ _ _ _ h1 hhints
  rw [extremeDrop_all_even _ _ h2] at hm
  obtain ⟨dest, _, hfetcheq⟩ := fetchAssignments_inv _ _ _ _ _ hfetch
  obtain ⟨_, _, _, _, _, _, hf7⟩ := fetch_block (g.requestType = RequestTypeNavigate)
    (g.requestType = RequestTypeSubresource) (g.requestType = RequestTypeXHR)
    (browser.Brand = "Brave") dest
  rw [← hfetcheq] at hf7
  have hfind : ∀ k ∈ ["sec-ch-ua", "sec-ch-ua-mobile", "sec-ch-ua-platform"],
      mapFind m k = (mapFind hints.reverse k).or (mapFind neg.reverse k) := by
    intro k hk
    rw [hm, mapFind_assignAll, hf7 k (by
      simp only [List.mem_cons, List.mem_singleton, List.not_mem_nil, or_false] at hk ⊢
      tauto), mapFind_assignAll, List.reverse_append, mapFind_append]
    simp [mapFind]
  rcases hintAssignments_inv _ _ _ _ _ _ _ _ _ hhints with
    ⟨hn, _⟩ | ⟨_, ua, q, full, q2', hua, hfull, hhinteq⟩
  · rw [hcb] at hn
    exact absurd hn (by decide)
  · obtain ⟨hh1, hh2, hh3, _⟩ := hints_block g.fullFingerprint ua platform.MobileHint
      ("\"" ++ os.Name ++ "\"") full os
    rw [← hhinteq] at hh1 hh2 hh3
    refine ⟨⟨ua, ?_⟩, ?_, ?_⟩
    · rw [hfind _ (by decide), hh1]
      rfl
    · rw [hfind _ (by decide), hh2]
      rfl
    · rw [hfind _ (by decide), hh3]
      rfl

/-- The headers of a run with the zero-header switch off, under a sorter that only
rearranges the keys: they are read from the header map of `buildHeaders`, built
from a stream that keeps every property all draws of the run have. -/
theorem ResolvedRun_headers_from (g : Generator) (r : Rng) (browser : Browser)
    (platform : Platform) (os : OperatingSystem) (version : Int) (r3 : Rng) (a : Agent)
    (hz : g.zeroHeader = false) (hs : ∀ ks r0, (g.headerSorter ks r0).1.Perm ks)
    (h : ResolvedRun g r browser platform os version r3 a) :
    ∃ m q q',
      generatedHeaderMap g (mapGet browserProfiles browser) (mapGet osProfiles os)
        (mapGet platformProfiles platform) version
        (fullVersionOf (mapGet browserProfiles browser) version r3).1
        (mapGet (mapGet browserProfiles browser).Versions version) q = some (m, q') ∧
      (∀ P : Nat → Prop, (∀ i, P (r i)) → ∀ i, P (q i)) ∧
      ∀ name ∈ emittedHeaderNames,
        Header.Lookup a.Headers name = mapFind m name ∧
        Header.Get a.Headers name = mapGet m name := by
  have hrun := h
  obtain ⟨_, _, _, _, _, hgen⟩ := h
  obtain ⟨m, parts, q, q', hparts, hm, hread⟩ := generateFor_headers_from g _ _ _ _ _ a hz hs hgen
  refine ⟨m, q, q', hm, ?_, hread⟩
  intro P hr
  have h3 := ResolvedRun_draws P g r browser platform os version r3 a hr hrun
  exact renderParts_draws P _ _ _ _ _ _ _ _ _ (fullVersionOf_draws P _ _ r3 h3) hparts

set_option maxRecDepth 100000 in
/-- C31 (counterexample): the default generator under the extreme profile makes
navigation requests, and for every outcome of the draws the Agent it returns has
the header `sec-fetch-dest: document`; it returns one for draws all zero. -/
theorem fetch_metadata_never_dropped :
    extremeGenerator.useBotAgents = false ∧
    extremeGenerator.fingerprintProfile = .Extreme ∧
    extremeGenerator.requestType = RequestTypeNavigate ∧
    (∃ a, Generate extremeGenerator zeroRng = .ok a) ∧
    (∀ (r : Rng) (a : Agent), Generate extremeGenerator r = .ok a →
      Header.Lookup a.Headers "sec-fetch-dest" = some "document") := by
  refine ⟨rfl, rfl, rfl, ?_, ?_⟩
  · exact ⟨agentOf (Generate extremeGenerator zeroRng), by decide⟩
  · intro r a h
    obtain ⟨browser, platform, os, version, r3, hrun⟩ := Generate_browser_inv _ r a rfl h
    obtain ⟨m, q, q', hm, _, hread⟩ := ResolvedRun_headers_from _ r browser platform os version
      r3 a rfl (fun ks r0 => (provided_sorters_perm ks r0).1) hrun
    obtain ⟨va, ve, vl, ua, full, dest, _, _, _, _, _, _, _, _, _, hdest, _⟩ :=
      generatedHeaderMap_entries _ _ _ _ _ _ _ _ _ _ hm
    rw [(hread "sec-fetch-dest" (by decide)).1, hdest]
    rfl

/-- C31 (amended): under the extreme fingerprint profile the drop is made on the
header map as it stands before the `sec-gpc` and fetch-metadata assignments, so it
reaches the client hints only. For every Agent generated in browser mode under this
profile with the zero-header switch off and a sorter that only rearranges the keys:
`accept-language` is present, `accept` and `accept-encoding` are present when their
toggle is on, and the fetch-metadata headers and `sec-gpc` are those of the request
type, for every outcome of the draws; when every draw is odd none of the seven
client hints is present; when every draw is even a Chromium-derived browser has
`sec-ch-ua`, `sec-ch-ua-mobile` and `sec-ch-ua-platform`. The loop never deletes a
name that does not start with `sec-`; each visited name that starts with it has a
draw of its own. -/
theorem extreme_drop_client_hints :
    (∀ (g : Generator) (r : Rng) (a : Agent), g.useBotAgents = false → g.zeroHeader = false →
      (∀ ks r0, (g.headerSorter ks r0).1.Perm ks) → g.fingerprintProfile = .Extreme →
      Generate g r = .ok a →
      ∃ browser platform os version r3, ResolvedRun g r browser platform os version r3 a ∧
        (∃ v, Header.Lookup a.Headers "accept-language" = some v) ∧
        (g.acceptEnabled = true → ∃ v, Header.Lookup a.Headers "accept" = some v) ∧
        (g.acceptEncodingEnabled = true →
          ∃ v, Header.Lookup a.Headers "accept-encoding" = some v) ∧
        (g.requestType = RequestTypeNavigate →
          Header.Lookup a.Headers "sec-fetch-dest" = some "document" ∧
          Header.Lookup a.Headers "sec-fetch-mode" = some "navigate" ∧
          Header.Lookup a.Headers "sec-fetch-site" = some "none" ∧
          Header.Lookup a.Headers "sec-fetch-user" = some "?1" ∧
          Header.Lookup a.Headers "upgrade-insecure-requests" = some "1" ∧
          ((mapGet browserProfiles browser).Brand = "Brave" →
            Header.Lookup a.Headers "sec-gpc" = some "1")) ∧
        (g.requestType = RequestTypeSubresource →
          (∃ dest ∈ subresourceDests, Header.Lookup a.Headers "sec-fetch-dest" = some dest) ∧
          Header.Lookup a.Headers "sec-fetch-mode" = some "no-cors" ∧
          Header.Lookup a.Headers "sec-fetch-site" = some "same-origin") ∧
        (g.requestType = RequestTypeXHR →
          Header.Lookup a.Headers "sec-fetch-dest" = some "empty" ∧
          Header.Lookup a.Headers "sec-fetch-mode" = some "cors" ∧
          Header.Lookup a.Headers "sec-fetch-site" = some "same-origin") ∧
        ((∀ i, r i % 2 = 1) →
          ∀ name ∈ [ "sec-ch-ua", "sec-ch-ua-mobile", "sec-ch-ua-platform",
            "sec-ch-ua-full-version-list", "sec-ch-ua-platform-version", "sec-ch-ua-arch",
            "sec-ch-ua-bitness" ], Header.Lookup a.Headers name = none) ∧
        ((∀ i, r i % 2 = 0) → (mapGet browserProfiles browser).ChromiumBased = true →
          (∃ ua, Header.Lookup a.Headers "sec-ch-ua" = some ua) ∧
          Header.Lookup a.Headers "sec-ch-ua-mobile" =
            some (mapGet platformProfiles platform).MobileHint ∧
          Header.Lookup a.Headers "sec-ch-ua-platform" =
            some ("\"" ++ (mapGet osProfiles os).Name ++ "\""))) ∧
    (∀ (ks : List String) (m : List (String × String)) (r : Rng) (k : String),
      HasPrefix k "sec-" = false → mapFind (dropLoop ks m r).1 k = mapFind m k) ∧
    (∀ (k : String) (ks : List String) (m : List (String × String)) (r : Rng),
      HasPrefix k "sec-" = true →
      dropLoop (k :: ks) m r =
        dropLoop ks (if r 0 % 2 = 1 then mapDelete m k else m) r.advance) := by
  refine ⟨?_, mapFind_dropLoop_keep, ?_⟩
  · intro g r a hbot hz hs hx h
    obtain ⟨browser, platform, os, version, r3, hrun⟩ := Generate_browser_inv g r a hbot h
    obtain ⟨m, q, q', hm, hq, hread⟩ :=
      ResolvedRun_headers_from g r browser platform os version r3 a hz hs hrun
    obtain ⟨va, ve, vl, ua, full, dest, _, _, _, _, _, hdest, hacc, henc, hlang, hfd, hfm, hfs,
      hfu, hup, hgpc, _⟩ := generatedHeaderMap_entries _ _ _ _ _ _ _ _ _ _ hm
    rw [← (hread "accept" (by decide)).1] at hacc
    rw [← (hread "accept-encoding" (by decide)).1] at henc
    rw [← (hread "accept-language" (by decide)).1] at hlang
    rw [← (hread "sec-fetch-dest" (by decide)).1] at hfd
    rw [← (hread "sec-fetch-mode" (by decide)).1] at hfm
    rw [← (hread "sec-fetch-site" (by decide)).1] at hfs
    rw [← (hread "sec-fetch-user" (by decide)).1] at hfu
    rw [← (hread "upgrade-insecure-requests" (by decide)).1] at hup
    rw [← (hread "sec-gpc" (by decide)).1] at hgpc
    refine ⟨browser, platform, os, version, r3, hrun, ⟨vl, hlang⟩, ?_, ?_, ?_, ?_, ?_, ?_, ?_⟩
    · intro ha
      exact ⟨va, by rw [hacc, if_pos ha]⟩
    · intro he
      exact ⟨ve, by rw [henc, if_pos he]⟩
    · intro hnav
      rw [if_pos hnav] at hfd hfm hfs hfu hup
      refine ⟨hfd, hfm, hfs, hfu, hup, fun hb => ?_⟩
      rw [hgpc, if_pos ⟨hnav, hb⟩]
    · intro hsub
      have hn : ¬ g.requestType = RequestTypeNavigate := by
        rw [hsub]
        decide
      rw [if_neg hn, if_pos hsub] at hfd hfm hfs
      exact ⟨⟨dest, hdest, hfd⟩, hfm, hfs⟩
    · intro hxhr
      have hn : ¬ g.requestType = RequestTypeNavigate := by
        rw [hxhr]
        decide
      have hn2 : ¬ g.requestType = RequestTypeSubresource := by
        rw [hxhr]
        decide
      rw [if_neg hn, if_neg hn2, if_pos hxhr] at hfd hfm hfs
      exact ⟨hfd, hfm, hfs⟩
    · intro hodd name hname
      have hn : name ∈ emittedHeaderNames := by
        revert name
        decide
      rw [(hread name hn).1]
      exact generatedHeaderMap_extreme_odd _ _ _ _ _ _ _ _ _ _ hx
        (hq (fun n => n % 2 = 1) hodd) hm name hname
    · intro heven hcb
      obtain ⟨⟨u, hu⟩, h2, h3⟩ := generatedHeaderMap_extreme_even _ _ _ _ _ _ _ _ _ _ hx
        (hq (fun n => n % 2 = 0) heven) hcb hm
      rw [← (hread "sec-ch-ua" (by decide)).1] at hu
      rw [← (hread "sec-ch-ua-mobile" (by decide)).1] at h2
      rw [← (hread "sec-ch-ua-platform" (by decide)).1] at h3
      exact ⟨⟨u, hu⟩, h2, h3⟩
  · intro k ks m r hk
    simp only [dropLoop, hk, if_true, RandBool]
    by_cases hodd : r 0 % 2 = 1
    · simp [hodd]
    · simp [hodd]

set_option maxRecDepth 100000 in
/-- C31 (witness): Chrome under the extreme profile. With draws all one the Agent has
no `sec-ch-ua` header; with draws all zero it has one. -/
theorem extreme_drop_client_hints_witness :
    Header.Lookup (agentOf (Generate extremeChromeGenerator oneRng)).Headers "sec-ch-ua" =
      none ∧
    ∃ ua, Header.Lookup (agentOf (Generate extremeChromeGenerator zeroRng)).Headers
      "sec-ch-ua" = some ua := by
  constructor
  · obtain ⟨browser, platform, os, version, r3, hrun, _, _, _, _, _, _, hodd, _⟩ :=
      extreme_drop_client_hints.1 extremeChromeGenerator oneRng
        (agentOf (Generate extremeChromeGenerator oneRng)) rfl rfl
        (fun ks r0 => (provided_sorters_perm ks r0).1) rfl (by decide)
    exact hodd (fun _ => rfl) "sec-ch-ua" (by decide)
  · obtain ⟨browser, platform, os, version, r3, hrun, _, _, _, _, _, _, _, heven⟩ :=
      extreme_drop_client_hints.1 extremeChromeGenerator zeroRng
        (agentOf (Generate extremeChromeGenerator zeroRng)) rfl rfl
        (fun ks r0 => (provided_sorters_perm ks r0).1) rfl (by decide)
    have hb := ResolvedRun_browser_single _ _ _ _ _ _ _ _ BrowserChrome rfl (by decide) hrun
    subst hb
    exact (heven (fun _ => rfl) rfl).1

/-! ## The quality values of `buildAcceptHeader` -/

/-- The text `FormatFloat1` writes for a value that is not negative. -/
theorem FormatFloat1_eq (x : Float64) (h : 0 ≤ x.mant) :
    FormatFloat1 x = qualityText x.tenths := by
  have hneg : ¬ x.mant < 0 := by omega
  unfold FormatFloat1 qualityText Float64.tenths
  simp only [hneg, if_false]
  apply String.ext
  simp [String.data_append]

/-- The tenths of two values of the same scale follow the mantissas. -/
theorem tenths_mono (a b : Float64) (hs : a.scale = b.scale) (ha : 0 ≤ a.mant)
    (hab : a.mant ≤ b.mant) : a.tenths ≤ b.tenths := by
  unfold Float64.tenths
  rw [hs]
  exact round_mono _ _ _ (Nat.pos_pow_of_pos _ (by decide)) (by omega)

/-- A draw of `fastrand.Float64` has 53 decimal places and lies in `[0, 1)`. -/
theorem RandFloat64_range (r : Rng) :
    (RandFloat64 r).1.scale = 53 ∧ 0 ≤ (RandFloat64 r).1.mant ∧
      (RandFloat64 r).1.mant < 10 ^ 53 := by
  refine ⟨rfl, ?_, ?_⟩
  · simp only [RandFloat64]
    exact Int.natCast_nonneg _
  · simp only [RandFloat64]
    have h := Nat.mod_lt (r 0) (show 0 < 2 ^ 53 by decide)
    have h2 : r 0 % 2 ^ 53 * 5 ^ 53 < 2 ^ 53 * 5 ^ 53 :=
      Nat.mul_lt_mul_of_pos_right h (by decide)
    have h3 : (2 : Nat) ^ 53 * 5 ^ 53 = 10 ^ 53 := by norm_num
    rw [h3] at h2
    exact_mod_cast h2

set_option maxRecDepth 100000 in
/-- The `float64` of 0.1. -/
theorem tenth_eq : tenth = dyadic 7205759403792794 56 := by
  decide

/-- A draw of `fastrand.Float64` is `j / 2 ^ 53` for a `j` below `2 ^ 53`. -/
theorem RandFloat64_dyadic (r : Rng) : (RandFloat64 r).1 = dyadic (r 0 % 2 ^ 53) 53 := by
  unfold RandFloat64 dyadic
  simp only [Float64.mk.injEq, and_true]
  push_cast
  rfl

/-- A tenth of a draw: a dyadic number between 0 and the `float64` of 0.1. -/
theorem mul_tenth (j : Nat) (hj : j < 2 ^ 53) :
    ∃ kt ta, Float64.mul (dyadic j 53) tenth = dyadic kt ta ∧
      kt * 2 ^ 56 ≤ 7205759403792794 * 2 ^ ta := by
  have hprod : Float64.mul (dyadic j 53) tenth =
      Float64.round (dyadic (j * 7205759403792794) 109) := by
    rw [tenth_eq]
    exact mul_dyadic j 53 7205759403792794 56
  rw [hprod]
  rcases Nat.eq_zero_or_pos j with h0 | hpos
  · subst h0
    refine ⟨0, 0, ?_, by decide⟩
    rw [Nat.zero_mul, round_dyadic_zero]
    rfl
  · obtain ⟨q, a, hr, _, _, hb⟩ := round_dyadic_bounds (j * 7205759403792794) 109
      (Nat.mul_pos hpos (by decide)) (by
        have : j * 7205759403792794 < 2 ^ 53 * 2 ^ 53 :=
          Nat.mul_lt_mul'' hj (by decide)
        omega)
    refine ⟨q, a, hr, ?_⟩
    apply (hb 7205759403792794 56 (by decide) (by decide)).1
    have : j * 7205759403792794 * 2 ^ 56 ≤ 2 ^ 53 * 7205759403792794 * 2 ^ 56 :=
      Nat.mul_le_mul_right _ (Nat.mul_le_mul_right _ (Nat.le_of_lt hj))
    omega

/-- The difference of two dyadic numbers, the second not above the first: the
rounding of the exact difference `n / 2 ^ s`. -/
theorem sub_dyadic (kc ac kt ta d1 d2 n : Nat) (hs : ac + d1 = ta + d2)
    (hn : n + kt * 2 ^ d2 = kc * 2 ^ d1) (hmax : d1 = 0 ∨ d2 = 0) :
    Float64.sub (dyadic kc ac) (dyadic kt ta) = Float64.round (dyadic n (ac + d1)) := by
  have hmaxeq : max ac ta = ac + d1 := by
    rcases hmax with h | h
    · subst h
      have : ta ≤ ac := by omega
      rw [Nat.max_eq_left this]
      rfl
    · subst h
      have : ac ≤ ta := by omega
      rw [Nat.max_eq_right this]
      omega
  unfold Float64.sub dyadic
  simp only [hmaxeq]
  have e1 : ac + d1 - ac = d1 := by omega
  have e2 : ac + d1 - ta = d2 := by omega
  rw [e1, e2]
  congr 1
  simp only [Float64.mk.injEq, and_true]
  have hs5 : (5 : Int) ^ (ac + d1) = 5 ^ ta * 5 ^ d2 := by
    rw [hs, pow_add]
  have hn' : (n : Int) = kc * 2 ^ d1 - kt * 2 ^ d2 := by
    have : ((n + kt * 2 ^ d2 : Nat) : Int) = ((kc * 2 ^ d1 : Nat) : Int) := by rw [hn]
    push_cast at this
    linarith
  push_cast
  rw [hn']
  have h10a : (10 : Int) ^ d1 = 2 ^ d1 * 5 ^ d1 := by rw [← mul_pow]; norm_num
  have h10b : (10 : Int) ^ d2 = 2 ^ d2 * 5 ^ d2 := by rw [← mul_pow]; norm_num
  rw [h10a, h10b, sub_mul]
  have t1 : (kc : Int) * 5 ^ ac * (2 ^ d1 * 5 ^ d1) = kc * 2 ^ d1 * 5 ^ (ac + d1) := by
    rw [pow_add]
    ring
  have t2 : (kt : Int) * 5 ^ ta * (2 ^ d2 * 5 ^ d2) = kt * 2 ^ d2 * 5 ^ (ac + d1) := by
    rw [hs5]
    ring
  rw [t1, t2]

/-- The comparison of two dyadic numbers. -/
theorem lt_dyadic (q a k b : Nat) :
    Float64.lt (dyadic q a) (dyadic k b) = decide (q * 2 ^ b < k * 2 ^ a) := by
  have h5 : 0 < (5 : Nat) ^ a * 5 ^ b :=
    Nat.mul_pos (Nat.pos_pow_of_pos _ (by decide)) (Nat.pos_pow_of_pos _ (by decide))
  have hiff : ((q * 5 ^ a : Nat) : Int) * 10 ^ b < ((k * 5 ^ b : Nat) : Int) * 10 ^ a ↔
      q * 2 ^ b < k * 2 ^ a := by
    have h1 : ((q * 5 ^ a : Nat) : Int) * 10 ^ b = ((q * 2 ^ b * (5 ^ a * 5 ^ b) : Nat) : Int) := by
      rw [show (10 : Int) ^ b = ((10 ^ b : Nat) : Int) by push_cast; rfl, pow10_split b]
      push_cast
      ring
    have h2 : ((k * 5 ^ b : Nat) : Int) * 10 ^ a = ((k * 2 ^ a * (5 ^ a * 5 ^ b) : Nat) : Int) := by
      rw [show (10 : Int) ^ a = ((10 ^ a : Nat) : Int) by push_cast; rfl, pow10_split a]
      push_cast
      ring
    rw [h1, h2, Int.ofNat_lt]
    exact Nat.mul_lt_mul_right h5
  unfold Float64.lt dyadic
  simp only [hiff]

/-- The tenths of a dyadic number. -/
theorem tenths_dyadic (k a : Nat) :
    Float64.tenths (dyadic k a) = roundHalfEven (k * 5 ^ a * 10) (10 ^ a) := by
  unfold Float64.tenths dyadic roundHalfEven
  simp only [Int.natAbs_ofNat]

/-- The tenths follow the order of the dyadic numbers. -/
theorem tenths_dyadic_mono (k1 a1 k2 a2 : Nat) (h : k1 * 2 ^ a2 ≤ k2 * 2 ^ a1) :
    Float64.tenths (dyadic k1 a1) ≤ Float64.tenths (dyadic k2 a2) := by
  rw [tenths_dyadic, tenths_dyadic]
  apply roundHalfEven_mono _ _ _ _ (Nat.pos_pow_of_pos _ (by decide))
    (Nat.pos_pow_of_pos _ (by decide))
  rw [pow10_split a1, pow10_split a2]
  calc k1 * 5 ^ a1 * 10 * (2 ^ a2 * 5 ^ a2) = k1 * 2 ^ a2 * (10 * 5 ^ a1 * 5 ^ a2) := by ring
    _ ≤ k2 * 2 ^ a1 * (10 * 5 ^ a1 * 5 ^ a2) := Nat.mul_le_mul_right _ h
    _ = k2 * 5 ^ a2 * 10 * (2 ^ a1 * 5 ^ a1) := by ring

/-- The difference `c - t` of a dyadic number `c ≤ 1` and a dyadic number
`t ≤ c`: zero, or a number of 53 binary digits that does not exceed 1, does not
exceed any number of 53 binary digits that `c` does not exceed, and is not below
any number of 53 binary digits that the exact difference is not below. -/
theorem sub_facts (kc ac kt ta : Nat) (hle : kt * 2 ^ ac ≤ kc * 2 ^ ta) (hhi : kc ≤ 2 ^ ac) :
    (Float64.sub (dyadic kc ac) (dyadic kt ta) = ⟨0, 0⟩ ∧ kc * 2 ^ ta ≤ kt * 2 ^ ac) ∨
    ∃ q a, Float64.sub (dyadic kc ac) (dyadic kt ta) = dyadic q a ∧ 2 ^ 52 ≤ q ∧ q ≤ 2 ^ 53 ∧
      q ≤ 2 ^ a ∧
      ∀ k b, 2 ^ 52 ≤ k → k ≤ 2 ^ 53 →
        (kc * 2 ^ b ≤ k * 2 ^ ac → q * 2 ^ b ≤ k * 2 ^ a) ∧
        (k * 2 ^ ac * 2 ^ ta + kt * 2 ^ ac * 2 ^ b ≤ kc * 2 ^ b * 2 ^ ta →
          k * 2 ^ a ≤ q * 2 ^ b) := by
  have hpa : 0 < (2 : Nat) ^ ac := Nat.pos_pow_of_pos _ (by decide)
  have hpt : 0 < (2 : Nat) ^ ta := Nat.pos_pow_of_pos _ (by decide)
  obtain ⟨d1, d2, hs, hmax⟩ : ∃ d1 d2, ac + d1 = ta + d2 ∧ (d1 = 0 ∨ d2 = 0) := by
    rcases Nat.le_total ac ta with h | h
    · exact ⟨ta - ac, 0, by omega, Or.inr rfl⟩
    · exact ⟨0, ac - ta, by omega, Or.inl rfl⟩
  have hpow1 : (2 : Nat) ^ (ac + d1) = 2 ^ ac * 2 ^ d1 := Nat.pow_add 2 ac d1
  have hpow2 : (2 : Nat) ^ (ac + d1) = 2 ^ ta * 2 ^ d2 := by rw [hs, Nat.pow_add]
  have hsub : kt * 2 ^ d2 ≤ kc * 2 ^ d1 := by
    apply Nat.le_of_mul_le_mul_right _ (Nat.mul_pos hpa hpt)
    calc kt * 2 ^ d2 * (2 ^ ac * 2 ^ ta) = kt * 2 ^ ac * (2 ^ ta * 2 ^ d2) := by ring
      _ = kt * 2 ^ ac * 2 ^ (ac + d1) := by rw [hpow2]
      _ ≤ kc * 2 ^ ta * 2 ^ (ac + d1) := Nat.mul_le_mul_right _ hle
      _ = kc * 2 ^ ta * (2 ^ ac * 2 ^ d1) := by rw [hpow1]
      _ = kc * 2 ^ d1 * (2 ^ ac * 2 ^ ta) := by ring
  obtain ⟨n, hn⟩ : ∃ n, n + kt * 2 ^ d2 = kc * 2 ^ d1 :=
    ⟨kc * 2 ^ d1 - kt * 2 ^ d2, Nat.sub_add_cancel hsub⟩
  rw [sub_dyadic kc ac kt ta d1 d2 n hs hn hmax]
  rcases Nat.eq_zero_or_pos n with h0 | hpos
  · left
    refine ⟨by rw [h0, round_dyadic_zero], ?_⟩
    rw [h0, Nat.zero_add] at hn
    have hd : 0 < (2 : Nat) ^ d1 * 2 ^ d2 :=
      Nat.mul_pos (Nat.pos_pow_of_pos _ (by decide)) (Nat.pos_pow_of_pos _ (by decide))
    apply Nat.le_of_mul_le_mul_right _ hd
    apply Nat.le_of_eq
    calc kc * 2 ^ ta * (2 ^ d1 * 2 ^ d2) = kc * 2 ^ d1 * (2 ^ ta * 2 ^ d2) := by ring
      _ = kt * 2 ^ d2 * (2 ^ ac * 2 ^ d1) := by rw [← hn, ← hpow2, hpow1]
      _ = kt * 2 ^ ac * (2 ^ d1 * 2 ^ d2) := by ring
  · right
    have hn1 : n ≤ 2 ^ (ac + d1) := by
      calc n ≤ kc * 2 ^ d1 := by omega
        _ ≤ 2 ^ ac * 2 ^ d1 := Nat.mul_le_mul_right _ hhi
        _ = 2 ^ (ac + d1) := hpow1.symm
    obtain ⟨q, a, hr, hq1, hq2, hb⟩ := round_dyadic_bounds n (ac + d1) hpos (by
      have : (2 : Nat) ^ (ac + d1) * 1 < 2 ^ (ac + d1) * 2 ^ 53 :=
        Nat.mul_lt_mul_of_pos_left (by decide) (Nat.pos_pow_of_pos _ (by decide))
      omega)
    refine ⟨q, a, hr, hq1, hq2, ?_, ?_⟩
    · have h1 := (hb (2 ^ 52) 52 (Nat.le_refl _) (by decide)).1 (by
        rw [Nat.mul_comm]
        exact Nat.mul_le_mul_left _ hn1)
      rw [Nat.mul_comm (2 ^ 52)] at h1
      exact Nat.le_of_mul_le_mul_right h1 (by decide)
    · intro k b hk1 hk2
      obtain ⟨hup, hdown⟩ := hb k b hk1 hk2
      constructor
      · intro h
        apply hup
        calc n * 2 ^ b ≤ kc * 2 ^ d1 * 2 ^ b := Nat.mul_le_mul_right _ (by omega)
          _ = kc * 2 ^ b * 2 ^ d1 := by ring
          _ ≤ k * 2 ^ ac * 2 ^ d1 := Nat.mul_le_mul_right _ h
          _ = k * 2 ^ (ac + d1) := by rw [hpow1]; ring
      · intro h
        apply hdown
        have hkey : (k * 2 ^ (ac + d1) + kt * 2 ^ d2 * 2 ^ b) * (2 ^ ac * 2 ^ ta) ≤
            kc * 2 ^ d1 * 2 ^ b * (2 ^ ac * 2 ^ ta) := by
          calc (k * 2 ^ (ac + d1) + kt * 2 ^ d2 * 2 ^ b) * (2 ^ ac * 2 ^ ta)
              = k * 2 ^ ac * 2 ^ ta * 2 ^ (ac + d1) +
                kt * 2 ^ ac * 2 ^ b * (2 ^ ta * 2 ^ d2) := by ring
            _ = (k * 2 ^ ac * 2 ^ ta + kt * 2 ^ ac * 2 ^ b) * 2 ^ (ac + d1) := by
                rw [← hpow2]
                ring
            _ ≤ kc * 2 ^ b * 2 ^ ta * 2 ^ (ac + d1) := Nat.mul_le_mul_right _ h
            _ = kc * 2 ^ b * 2 ^ ta * (2 ^ ac * 2 ^ d1) := by rw [hpow1]
            _ = kc * 2 ^ d1 * 2 ^ b * (2 ^ ac * 2 ^ ta) := by ring
        have hkey2 := Nat.le_of_mul_le_mul_right hkey (Nat.mul_pos hpa hpt)
        have hn2 : n * 2 ^ b + kt * 2 ^ d2 * 2 ^ b = kc * 2 ^ d1 * 2 ^ b := by
          rw [← Nat.add_mul, hn]
        omega

/-- The start value 1 of `buildAcceptHeader` is in the range. -/
theorem qualityRange_start : qualityRange ⟨1, 0⟩ :=
  ⟨1, 0, 2 ^ 52, 52, rfl, Nat.le_refl _, by decide, by decide, by decide, by decide⟩

/-- The floor value, the `float64` of 0.1, is in the range. -/
theorem qualityRange_tenth : qualityRange tenth :=
  ⟨7205759403792794, 56, 7205759403792794, 56, tenth_eq, by decide, by decide, rfl,
    Nat.le_refl _, by decide⟩

set_option maxRecDepth 100000 in
/-- The tenths written for 0.1, for seven eighths and for 1. -/
theorem tenths_marks :
    Float64.tenths (dyadic 7205759403792794 56) = 1 ∧
    Float64.tenths (dyadic (7 * 2 ^ 50) 53) = 9 ∧ Float64.tenths (dyadic 1 0) = 10 := by
  decide

/-- The tenths of a value in the range lie between 1 and 10. -/
theorem qualityRange_tenths (c : Float64) (h : qualityRange c) :
    1 ≤ Float64.tenths c ∧ Float64.tenths c ≤ 10 ∧ 0 ≤ c.mant := by
  obtain ⟨kc, ac, k, a, rfl, _, _, _, hlo, hhi⟩ := h
  refine ⟨?_, ?_, Int.ofNat_nonneg _⟩
  · rw [← tenths_marks.1]
    exact tenths_dyadic_mono _ _ _ _ hlo
  · rw [← tenths_marks.2.2]
    apply tenths_dyadic_mono
    rw [Nat.pow_zero, Nat.mul_one, Nat.one_mul]
    exact hhi

set_option maxRecDepth 100000 in
theorem zero_lt_tenth : Float64.lt ⟨0, 0⟩ tenth = true := by
  decide

/-- One step of the quality value from a value in the range: the result is in
the range and its tenths do not exceed those of the value before. -/
theorem nextQ_step (c : Float64) (r : Rng) (hc : qualityRange c) :
    qualityRange (nextQ c (RandFloat64 r).1) ∧
      Float64.tenths (nextQ c (RandFloat64 r).1) ≤ Float64.tenths c := by
  have hct := qualityRange_tenths c hc
  have hfloor : qualityRange tenth ∧ Float64.tenths tenth ≤ Float64.tenths c := by
    refine ⟨qualityRange_tenth, ?_⟩
    rw [tenth_eq, tenths_marks.1]
    exact hct.1
  obtain ⟨kc, ac, k, a, rfl, hk1, hk2, hrep, hlo, hhi⟩ := hc
  obtain ⟨kt, ta, ht, htle⟩ := mul_tenth (r 0 % 2 ^ 53) (Nat.mod_lt _ (by decide))
  have hle : kt * 2 ^ ac ≤ kc * 2 ^ ta := by
    apply Nat.le_of_mul_le_mul_right _ (show 0 < 2 ^ 56 by decide)
    calc kt * 2 ^ ac * 2 ^ 56 = kt * 2 ^ 56 * 2 ^ ac := by ring
      _ ≤ 7205759403792794 * 2 ^ ta * 2 ^ ac := Nat.mul_le_mul_right _ htle
      _ = 7205759403792794 * 2 ^ ac * 2 ^ ta := by ring
      _ ≤ kc * 2 ^ 56 * 2 ^ ta := Nat.mul_le_mul_right _ hlo
      _ = kc * 2 ^ ta * 2 ^ 56 := by ring
  rw [RandFloat64_dyadic]
  unfold nextQ
  simp only [ht]
  rcases sub_facts kc ac kt ta hle hhi with ⟨hz, _⟩ | ⟨q, b, hq, hq1, hq2, hqb, hbounds⟩
  · rw [hz, zero_lt_tenth, if_pos rfl]
    exact hfloor
  · rw [hq]
    by_cases hlt : Float64.lt (dyadic q b) tenth = true
    · rw [if_pos hlt]
      exact hfloor
    · rw [if_neg hlt]
      rw [tenth_eq, lt_dyadic, decide_eq_true_eq, Nat.not_lt] at hlt
      refine ⟨⟨q, b, q, b, rfl, hq1, hq2, rfl, hlt, hqb⟩, ?_⟩
      apply tenths_dyadic_mono
      have h1 := (hbounds k a hk1 hk2).1 (Nat.le_of_eq hrep.symm)
      apply Nat.le_of_mul_le_mul_right _ (show 0 < 2 ^ a from Nat.pos_pow_of_pos _ (by decide))
      calc q * 2 ^ ac * 2 ^ a = q * 2 ^ a * 2 ^ ac := by ring
        _ ≤ k * 2 ^ b * 2 ^ ac := Nat.mul_le_mul_right _ h1
        _ = k * 2 ^ ac * 2 ^ b := by ring
        _ = kc * 2 ^ a * 2 ^ b := by rw [hrep]
        _ = kc * 2 ^ b * 2 ^ a := by ring

/-- The first quality value, from the start value 1, is written as 1.0 or 0.9. -/
theorem nextQ_head (r : Rng) :
    9 ≤ Float64.tenths (nextQ ⟨1, 0⟩ (RandFloat64 r).1) := by
  have hstart : (⟨1, 0⟩ : Float64) = dyadic 1 0 := rfl
  obtain ⟨kt, ta, ht, htle⟩ := mul_tenth (r 0 % 2 ^ 53) (Nat.mod_lt _ (by decide))
  have hP : 0 < (2 : Nat) ^ ta := Nat.pos_pow_of_pos _ (by decide)
  rw [RandFloat64_dyadic, hstart]
  unfold nextQ
  simp only [ht]
  generalize hPdef : (2 : Nat) ^ ta = P at htle hP
  have hle : kt * 2 ^ 0 ≤ 1 * 2 ^ ta := by
    rw [hPdef]
    omega
  rcases sub_facts 1 0 kt ta hle (by decide) with ⟨_, hz⟩ | ⟨q, b, hq, hq1, hq2, hqb, hbounds⟩
  · exfalso
    rw [hPdef] at hz
    omega
  · have hlow := (hbounds (7 * 2 ^ 50) 53 (by decide) (by decide)).2 (by
      rw [hPdef]
      omega)
    have hB : 0 < (2 : Nat) ^ b := Nat.pos_pow_of_pos _ (by decide)
    rw [hq]
    have hnot : ¬ Float64.lt (dyadic q b) tenth = true := by
      rw [tenth_eq, lt_dyadic, decide_eq_true_eq, Nat.not_lt]
      generalize (2 : Nat) ^ b = B at hlow hB
      omega
    rw [if_neg hnot, ← tenths_marks.2.1]
    exact tenths_dyadic_mono _ _ _ _ hlow

/-- The parts `buildAcceptHeader` writes are the parts of the template with the
tenths of the quality values. -/
theorem acceptParts_eq_with (parts : List AcceptHeaderPart) :
    ∀ (c : Float64) (r : Rng), qualityRange c →
      (acceptParts parts c r).1 =
        acceptPartsWith parts ((acceptQualities parts c r).map Float64.tenths) := by
  induction parts with
  | nil =>
    intro c r _
    rfl
  | cons part rest ih =>
    intro c r hc
    by_cases hq : part.Q.isPos = true
    · obtain ⟨hr, _⟩ := nextQ_step c r hc
      simp only [acceptParts, acceptQualities, acceptPartsWith, hq, if_true, List.map_cons]
      rw [ih _ _ hr, FormatFloat1_eq _ (qualityRange_tenths _ hr).2.2]
    · simp only [acceptParts, acceptQualities, acceptPartsWith, hq, if_false,
        Bool.false_eq_true]
      rw [ih _ _ hc]

/-- The tenths of the quality values: each from 1 up to the value before the loop,
never increasing, one for each weighted part. -/
theorem acceptQualities_tenths (parts : List AcceptHeaderPart) :
    ∀ (c : Float64) (r : Rng), qualityRange c →
      (∀ t ∈ (acceptQualities parts c r).map Float64.tenths, 1 ≤ t ∧ t ≤ c.tenths) ∧
      ((acceptQualities parts c r).map Float64.tenths).Pairwise (fun a b => b ≤ a) ∧
      ((acceptQualities parts c r).map Float64.tenths).length =
        (parts.filter fun p => p.Q.isPos).length := by
  induction parts with
  | nil =>
    intro c r _
    simp [acceptQualities]
  | cons part rest ih =>
    intro c r hc
    by_cases hq : part.Q.isPos = true
    · obtain ⟨hr, hle⟩ := nextQ_step c r hc
      obtain ⟨h1, h2, h3⟩ := ih (nextQ c (RandFloat64 r).1) (RandFloat64 r).2 hr
      simp only [acceptQualities, hq, if_true, List.map_cons, List.mem_cons, List.pairwise_cons,
        List.length_cons, List.filter_cons]
      refine ⟨?_, ⟨fun t ht => (h1 t ht).2, h2⟩, by rw [h3]⟩
      rintro t (rfl | ht)
      · exact ⟨(qualityRange_tenths _ hr).1, hle⟩
      · exact ⟨(h1 t ht).1, Nat.le_trans (h1 t ht).2 hle⟩
    · simp only [acceptQualities, hq, if_false, Bool.false_eq_true, List.filter_cons]
      exact ih c r hc

/-- The first quality value written is 1.0 or 0.9. -/
theorem acceptQualities_head (parts : List AcceptHeaderPart) :
    ∀ (r : Rng) (t : Nat),
      ((acceptQualities parts ⟨1, 0⟩ r).map Float64.tenths).head? = some t → 9 ≤ t := by
  induction parts with
  | nil =>
    intro r t h
    simp [acceptQualities] at h
  | cons part rest ih =>
    intro r t h
    by_cases hq : part.Q.isPos = true
    · simp only [acceptQualities, hq, if_true, List.map_cons, List.head?_cons,
        Option.some.injEq] at h
      rw [← h]
      exact nextQ_head r
    · simp only [acceptQualities, hq, if_false, Bool.false_eq_true] at h
      exact ih r t h

/-- The exact product of two dyadic numbers. -/
theorem dyadic_times (k1 a1 k2 a2 : Nat) :
    (⟨(dyadic k1 a1).mant * (dyadic k2 a2).mant, (dyadic k1 a1).scale + (dyadic k2 a2).scale⟩ :
      Float64) = dyadic (k1 * k2) (a1 + a2) := by
  unfold dyadic
  simp only [Float64.mk.injEq, and_true]
  push_cast
  rw [pow_add]
  ring

/-- The exact product of a draw and the `float64` of 0.1. -/
theorem draw_times_tenth (j : Nat) :
    (⟨(dyadic j 53).mant * tenth.mant, (dyadic j 53).scale + tenth.scale⟩ : Float64) =
      dyadic (j * 7205759403792794) 109 := by
  rw [tenth_eq]
  exact dyadic_times j 53 7205759403792794 56

/-- One step of the quality value with the fused update, from a value in the
range: the result is in the range and its tenths do not exceed those of the value
before. -/
theorem nextQFused_step (c : Float64) (r : Rng) (hc : qualityRange c) :
    qualityRange (nextQFused c (RandFloat64 r).1) ∧
      Float64.tenths (nextQFused c (RandFloat64 r).1) ≤ Float64.tenths c := by
  have hct := qualityRange_tenths c hc
  have hfloor : qualityRange tenth ∧ Float64.tenths tenth ≤ Float64.tenths c := by
    refine ⟨qualityRange_tenth, ?_⟩
    rw [tenth_eq, tenths_marks.1]
    exact hct.1
  obtain ⟨kc, ac, k, a, rfl, hk1, hk2, hrep, hlo, hhi⟩ := hc
  have hj : r 0 % 2 ^ 53 < 2 ^ 53 := Nat.mod_lt _ (by decide)
  rw [RandFloat64_dyadic]
  generalize r 0 % 2 ^ 53 = j at hj
  have hle : j * 7205759403792794 * 2 ^ ac ≤ kc * 2 ^ 109 := by
    calc j * 7205759403792794 * 2 ^ ac = j * (7205759403792794 * 2 ^ ac) := by ring
      _ ≤ 2 ^ 53 * (kc * 2 ^ 56) := Nat.mul_le_mul (Nat.le_of_lt hj) hlo
      _ = kc * 2 ^ 109 := by
        rw [show (109 : Nat) = 53 + 56 from rfl, pow_add]
        ring
  unfold nextQFused
  simp only [draw_times_tenth]
  rcases sub_facts kc ac (j * 7205759403792794) 109 hle hhi with
    ⟨hz, _⟩ | ⟨q, b, hq, hq1, hq2, hqb, hbounds⟩
  · rw [hz, zero_lt_tenth, if_pos rfl]
    exact hfloor
  · rw [hq]
    by_cases hlt : Float64.lt (dyadic q b) tenth = true
    · rw [if_pos hlt]
      exact hfloor
    · rw [if_neg hlt]
      rw [tenth_eq, lt_dyadic, decide_eq_true_eq, Nat.not_lt] at hlt
      refine ⟨⟨q, b, q, b, rfl, hq1, hq2, rfl, hlt, hqb⟩, ?_⟩
      apply tenths_dyadic_mono
      have h1 := (hbounds k a hk1 hk2).1 (Nat.le_of_eq hrep.symm)
      apply Nat.le_of_mul_le_mul_right _ (show 0 < 2 ^ a from Nat.pos_pow_of_pos _ (by decide))
      calc q * 2 ^ ac * 2 ^ a = q * 2 ^ a * 2 ^ ac := by ring
        _ ≤ k * 2 ^ b * 2 ^ ac := Nat.mul_le_mul_right _ h1
        _ = k * 2 ^ ac * 2 ^ b := by ring
        _ = kc * 2 ^ a * 2 ^ b := by rw [hrep]
        _ = kc * 2 ^ b * 2 ^ a := by ring

/-- The first quality value with the fused update, from the start value 1, is
written as 1.0 or 0.9. -/
theorem nextQFused_head (r : Rng) :
    9 ≤ Float64.tenths (nextQFused ⟨1, 0⟩ (RandFloat64 r).1) := by
  have hstart : (⟨1, 0⟩ : Float64) = dyadic 1 0 := rfl
  have hj : r 0 % 2 ^ 53 < 2 ^ 53 := Nat.mod_lt _ (by decide)
  rw [RandFloat64_dyadic, hstart]
  generalize r 0 % 2 ^ 53 = j at hj
  unfold nextQFused
  simp only [draw_times_tenth]
  have hn : j * 7205759403792794 ≤ 2 ^ 53 * 7205759403792794 :=
    Nat.mul_le_mul_right _ (Nat.le_of_lt hj)
  generalize j * 7205759403792794 = n at hn
  have hle : n * 2 ^ 0 ≤ 1 * 2 ^ 109 := by
    norm_num at hn ⊢
    omega
  rcases sub_facts 1 0 n 109 hle (by decide) with ⟨_, hz⟩ | ⟨q, b, hq, hq1, hq2, hqb, hbounds⟩
  · exfalso
    norm_num at hn hz
    omega
  · have hlow := (hbounds (7 * 2 ^ 50) 53 (by decide) (by decide)).2 (by
      norm_num at hn ⊢
      omega)
    have hB : 0 < (2 : Nat) ^ b := Nat.pos_pow_of_pos _ (by decide)
    rw [hq]
    have hnot : ¬ Float64.lt (dyadic q b) tenth = true := by
      rw [tenth_eq, lt_dyadic, decide_eq_true_eq, Nat.not_lt]
      generalize (2 : Nat) ^ b = B at hlow hB
      norm_num at hlow ⊢
      omega
    rw [if_neg hnot, ← tenths_marks.2.1]
    exact tenths_dyadic_mono _ _ _ _ hlow

/-- The parts written with the fused update are the parts of the template with
the tenths of the quality values. -/
theorem acceptPartsFused_eq_with (parts : List AcceptHeaderPart) :
    ∀ (c : Float64) (r : Rng), qualityRange c →
      (acceptPartsFused parts c r).1 =
        acceptPartsWith parts ((acceptQualitiesFused parts c r).map Float64.tenths) := by
  induction parts with
  | nil =>
    intro c r _
    rfl
  | cons part rest ih =>
    intro c r hc
    by_cases hq : part.Q.isPos = true
    · obtain ⟨hr, _⟩ := nextQFused_step c r hc
      simp only [acceptPartsFused, acceptQualitiesFused, acceptPartsWith, hq, if_true,
        List.map_cons]
      rw [ih _ _ hr, FormatFloat1_eq _ (qualityRange_tenths _ hr).2.2]
    · simp only [acceptPartsFused, acceptQualitiesFused, acceptPartsWith, hq, if_false,
        Bool.false_eq_true]
      rw [ih _ _ hc]

/-- The tenths of the quality values with the fused update: each from 1 up to the
value before the loop, never increasing, one for each weighted part. -/
theorem acceptQualitiesFused_tenths (parts : List AcceptHeaderPart) :
    ∀ (c : Float64) (r : Rng), qualityRange c →
      (∀ t ∈ (acceptQualitiesFused parts c r).map Float64.tenths, 1 ≤ t ∧ t ≤ c.tenths) ∧
      ((acceptQualitiesFused parts c r).map Float64.tenths).Pairwise (fun a b => b ≤ a) ∧
      ((acceptQualitiesFused parts c r).map Float64.tenths).length =
        (parts.filter fun p => p.Q.isPos).length := by
  induction parts with
  | nil =>
    intro c r _
    simp [acceptQualitiesFused]
  | cons part rest ih =>
    intro c r hc
    by_cases hq : part.Q.isPos = true
    · obtain ⟨hr, hle⟩ := nextQFused_step c r hc
      obtain ⟨h1, h2, h3⟩ := ih (nextQFused c (RandFloat64 r).1) (RandFloat64 r).2 hr
      simp only [acceptQualitiesFused, hq, if_true, List.map_cons, List.mem_cons,
        List.pairwise_cons, List.length_cons, List.filter_cons]
      refine ⟨?_, ⟨fun t ht => (h1 t ht).2, h2⟩, by rw [h3]⟩
      rintro t (rfl | ht)
      · exact ⟨(qualityRange_tenths _ hr).1, hle⟩
      · exact ⟨(h1 t ht).1, Nat.le_trans (h1 t ht).2 hle⟩
    · simp only [acceptQualitiesFused, hq, if_false, Bool.false_eq_true, List.filter_cons]
      exact ih c r hc

/-- The first quality value written with the fused update is 1.0 or 0.9. -/
theorem acceptQualitiesFused_head (parts : List AcceptHeaderPart) :
    ∀ (r : Rng) (t : Nat),
      ((acceptQualitiesFused parts ⟨1, 0⟩ r).map Float64.tenths).head? = some t → 9 ≤ t := by
  induction parts with
  | nil =>
    intro r t h
    simp [acceptQualitiesFused] at h
  | cons part rest ih =>
    intro r t h
    by_cases hq : part.Q.isPos = true
    · simp only [acceptQualitiesFused, hq, if_true, List.map_cons, List.head?_cons,
        Option.some.injEq] at h
      rw [← h]
      exact nextQFused_head r
    · simp only [acceptQualitiesFused, hq, if_false, Bool.false_eq_true] at h
      exact ih r t h

set_option maxRecDepth 100000 in
/-- C32 (counterexample): for the accept template of Safari and draws all one (each
draw of `fastrand.Float64` is then 2^-53), and also for draws all zero,
`buildAcceptHeader` writes the quality value 1.0 for both weighted parts; for
draws of one half it writes 0.9 for both, so the first value is not 1.0 either.
With the fused update the values written are the same. -/
theorem accept_qualities_repeat :
    (buildAcceptHeader (acceptHeaderPatternsSafari.headD []) oneRng).1 =
      "text/html,application/xhtml+xml,application/xml;q=1.0,*/*;q=1.0" ∧
    (buildAcceptHeader (acceptHeaderPatternsSafari.headD []) zeroRng).1 =
      "text/html,application/xhtml+xml,application/xml;q=1.0,*/*;q=1.0" ∧
    (buildAcceptHeader (acceptHeaderPatternsSafari.headD []) halfRng).1 =
      "text/html,application/xhtml+xml,application/xml;q=0.9,*/*;q=0.9" ∧
    (RandFloat64 halfRng).1 = Float64.round ⟨5, 1⟩ ∧
    (buildAcceptHeaderFused (acceptHeaderPatternsSafari.headD []) oneRng).1 =
      "text/html,application/xhtml+xml,application/xml;q=1.0,*/*;q=1.0" ∧
    (buildAcceptHeaderFused (acceptHeaderPatternsSafari.headD []) halfRng).1 =
      "text/html,application/xhtml+xml,application/xml;q=0.9,*/*;q=0.9" := by
  refine ⟨by decide, by decide, by decide, by decide, by decide, by decide⟩

/-- C32 (amended): for every template and every outcome of the draws, the value of
`buildAcceptHeader` is the parts of the template in template order, separated by
commas, each with its extras behind `;`, a part without a weight without `q`
parameter and the weighted parts with quality values that, read left to right,
never increase (two parts can carry the same value), lie between 0.1 and 1.0, are
written with one decimal place and start with 1.0 or 0.9. The same holds when the
product and the difference of the update are fused into one operation. -/
theorem accept_header_qualities :
    (∀ (parts : List AcceptHeaderPart) (r : Rng),
      ∃ ts : List Nat,
        ts.length = (parts.filter fun p => p.Q.isPos).length ∧
        (∀ t ∈ ts, 1 ≤ t ∧ t ≤ 10) ∧
        ts.Pairwise (fun a b => b ≤ a) ∧
        (∀ t, ts.head? = some t → 9 ≤ t) ∧
        (buildAcceptHeader parts r).1 = Join (acceptPartsWith parts ts) ",") ∧
    (∀ t, 1 ≤ t → t ≤ 10 →
      qualityText t ∈ ["0.1", "0.2", "0.3", "0.4", "0.5", "0.6", "0.7", "0.8", "0.9", "1.0"]) ∧
    qualityText 10 = "1.0" ∧ qualityText 9 = "0.9" ∧ qualityText 1 = "0.1" ∧
    (∀ (parts : List AcceptHeaderPart) (r : Rng),
      ∃ ts : List Nat,
        ts.length = (parts.filter fun p => p.Q.isPos).length ∧
        (∀ t ∈ ts, 1 ≤ t ∧ t ≤ 10) ∧
        ts.Pairwise (fun a b => b ≤ a) ∧
        (∀ t, ts.head? = some t → 9 ≤ t) ∧
        (buildAcceptHeaderFused parts r).1 = Join (acceptPartsWith parts ts) ",") := by
  have hten : (⟨1, 0⟩ : Float64).tenths = 10 := by decide
  refine ⟨?_, ?_, by decide, by decide, by decide, ?_⟩
  · intro parts r
    obtain ⟨h1, h2, h3⟩ := acceptQualities_tenths parts ⟨1, 0⟩ r qualityRange_start
    refine ⟨_, h3, ?_, h2, acceptQualities_head parts r, ?_⟩
    · intro t ht
      have := h1 t ht
      rw [hten] at this
      exact this
    · unfold buildAcceptHeader
      simp only
      rw [acceptParts_eq_with parts _ r qualityRange_start]
  · intro t h1 h2
    have hcases : t = 1 ∨ t = 2 ∨ t = 3 ∨ t = 4 ∨ t = 5 ∨ t = 6 ∨ t = 7 ∨ t = 8 ∨ t = 9 ∨
        t = 10 := by omega
    rcases hcases with rfl | rfl | rfl | rfl | rfl | rfl | rfl | rfl | rfl | rfl <;> decide
  · intro parts r
    obtain ⟨h1, h2, h3⟩ := acceptQualitiesFused_tenths parts ⟨1, 0⟩ r qualityRange_start
    refine ⟨_, h3, ?_, h2, acceptQualitiesFused_head parts r, ?_⟩
    · intro t ht
      have := h1 t ht
      rw [hten] at this
      exact this
    · unfold buildAcceptHeaderFused
      simp only
      rw [acceptPartsFused_eq_with parts _ r qualityRange_start]

set_option maxRecDepth 100000 in
/-- C32 (witness): the accept template of Chrome with draws all one. -/
theorem accept_header_qualities_witness :
    ∃ ts : List Nat, ts.length = 3 ∧ ts.Pairwise (fun a b => b ≤ a) ∧
      (buildAcceptHeader (acceptHeaderPatternsChrome.headD []) oneRng).1 =
        Join (acceptPartsWith (acceptHeaderPatternsChrome.headD []) ts) "," := by
  obtain ⟨ts, hlen, _, hp, _, hv⟩ :=
    accept_header_qualities.1 (acceptHeaderPatternsChrome.headD []) oneRng
  refine ⟨ts, ?_, hp, hv⟩
  rw [hlen]
  decide

/-! ## Lemmas on the search of the patterns -/

theorem dropPrefix_clash (lit s rest : List Char) (h : clash lit s = true) :
    dropPrefix lit (s ++ rest) = none := by
  induction lit generalizing s with
  | nil => cases s <;> simp [clash] at h
  | cons p ps ih =>
    cases s with
    | nil => simp [clash] at h
    | cons c cs =>
      simp only [clash, Bool.or_eq_true, bne_iff_ne, ne_eq] at h
      simp only [List.cons_append, dropPrefix]
      by_cases hpc : p = c
      · rw [if_pos hpc]
        rcases h with h | h
        · exact absurd hpc h
        · exact ih cs h
      · rw [if_neg hpc]

theorem dropPrefix_self (lit rest : List Char) : dropPrefix lit (lit ++ rest) = some rest := by
  induction lit with
  | nil => cases rest <;> rfl
  | cons p ps ih =>
    rw [List.cons_append]
    simp only [dropPrefix, if_true]
    exact ih

/-- A start position at which the pattern fails is passed over. -/
theorem Find_cons_none (re : List ReTok) (c : Char) (cs : List Char)
    (h : matchHere re [] (c :: cs) = none) :
    FindStringSubmatch re (c :: cs) = FindStringSubmatch re cs := by
  simp only [FindStringSubmatch, h]

/-- A match at the first position is the match returned. -/
theorem Find_of_matchHere (re : List ReTok) (s cap : List Char)
    (h : matchHere re [] s = some cap) : FindStringSubmatch re s = some cap := by
  cases s with
  | nil => simpa only [FindStringSubmatch] using h
  | cons c cs => simp only [FindStringSubmatch, h]

/-- A pattern that begins with a literal finds nothing in the empty text. -/
theorem Find_lit_nil (lit : String) (re : List ReTok) (h : lit.data ≠ []) :
    FindStringSubmatch (.lit lit :: re) [] = none := by
  simp only [FindStringSubmatch, matchHere]
  cases hd : lit.data with
  | nil => exact absurd hd h
  | cons p ps => rfl

/-- A known text inside which the first literal of the pattern cannot start is
passed over. -/
theorem Find_skip_known (lit pre : String) (re : List ReTok) (rest : List Char)
    (h : noStart lit.data pre.data = true) :
    FindStringSubmatch (.lit lit :: re) (pre.data ++ rest) =
      FindStringSubmatch (.lit lit :: re) rest := by
  generalize pre.data = p at h
  induction p with
  | nil => rfl
  | cons c cs ih =>
    simp only [noStart, Bool.and_eq_true] at h
    have hd := dropPrefix_clash lit.data (c :: cs) rest h.1
    rw [List.cons_append] at hd
    rw [List.cons_append, Find_cons_none _ _ _ (by simp only [matchHere, hd]), ih h.2]

/-- A literal that ends with a character the segment does not hold is no prefix
of the segment followed by a text whose first character the literal does not
hold, nor of the segment alone. -/
theorem dropPrefix_free (w : List Char) (x : Char) (seg nxt : List Char)
    (hx : x ∉ seg) (hn : headOutside (w ++ [x]) nxt = true ∨ nxt = []) :
    dropPrefix (w ++ [x]) (seg ++ nxt) = none := by
  induction w generalizing seg with
  | nil =>
    cases seg with
    | nil =>
      rcases hn with hn | hn
      · cases nxt with
        | nil => simp [headOutside] at hn
        | cons y n =>
          simp only [headOutside, List.nil_append, List.contains_cons, List.contains_nil,
            Bool.or_false, Bool.not_eq_true', beq_eq_false_iff_ne, ne_eq] at hn
          simp only [List.nil_append, dropPrefix]
          rw [if_neg (fun e => hn e.symm)]
      · subst hn
        rfl
    | cons c cs =>
      have hc : ¬ x = c := fun e => hx (by rw [e]; exact List.mem_cons_self _ _)
      simp only [List.nil_append, List.cons_append, dropPrefix]
      rw [if_neg hc]
  | cons a w ih =>
    cases seg with
    | nil =>
      rcases hn with hn | hn
      · cases nxt with
        | nil => simp [headOutside] at hn
        | cons y n =>
          simp only [headOutside, List.cons_append, List.contains_cons, Bool.not_eq_true',
            Bool.or_eq_false_iff, beq_eq_false_iff_ne, ne_eq] at hn
          simp only [List.nil_append, List.cons_append, dropPrefix]
          rw [if_neg (fun e => hn.1 e.symm)]
      · subst hn
        rfl
    | cons c cs =>
      simp only [List.cons_append, dropPrefix]
      by_cases hac : a = c
      · rw [if_pos hac]
        apply ih cs (fun e => hx (List.mem_cons_of_mem _ e))
        rcases hn with hn | hn
        · left
          cases nxt with
          | nil => simp [headOutside] at hn
          | cons y n =>
            simp only [headOutside, List.cons_append, List.contains_cons, Bool.not_eq_true',
              Bool.or_eq_false_iff] at hn
            simp only [headOutside, Bool.not_eq_true']
            exact hn.2
        · exact Or.inr hn
      · rw [if_neg hac]

theorem headOutside_append (lit a b : List Char) (h : headOutside lit a = true) :
    headOutside lit (a ++ b) = true := by
  cases a with
  | nil => simp [headOutside] at h
  | cons c cs => simpa [headOutside] using h

/-- A segment without the last character of the literal is passed over when the
text behind it begins with a character the literal does not hold. -/
theorem Find_skip_free (lit seg nxt : String) (re : List ReTok) (rest : List Char) (x : Char)
    (hlit : lit.data = lit.data.dropLast ++ [x]) (hseg : x ∉ seg.data)
    (hn : headOutside lit.data nxt.data = true) :
    FindStringSubmatch (.lit lit :: re) (seg.data ++ (nxt.data ++ rest)) =
      FindStringSubmatch (.lit lit :: re) (nxt.data ++ rest) := by
  have hn1 := headOutside_append _ _ rest hn
  generalize nxt.data ++ rest = tail at hn1
  generalize seg.data = s at hseg
  induction s with
  | nil => rfl
  | cons c cs ih =>
    have hd := dropPrefix_free lit.data.dropLast x (c :: cs) tail hseg
      (Or.inl (by rw [← hlit]; exact hn1))
    rw [← hlit, List.cons_append] at hd
    rw [List.cons_append, Find_cons_none _ _ _ (by simp only [matchHere, hd]),
      ih (fun e => hseg (List.mem_cons_of_mem _ e))]

/-- In a segment without the last character of its first literal, at the end of
the text, the pattern finds nothing. -/
theorem Find_free_end (lit seg : String) (re : List ReTok) (x : Char)
    (hlit : lit.data = lit.data.dropLast ++ [x]) (hseg : x ∉ seg.data) :
    FindStringSubmatch (.lit lit :: re) seg.data = none := by
  have hne : lit.data ≠ [] := by
    rw [hlit]
    simp
  generalize seg.data = s at hseg
  induction s with
  | nil => exact Find_lit_nil lit re hne
  | cons c cs ih =>
    have hd := dropPrefix_free lit.data.dropLast x (c :: cs) [] hseg (Or.inr rfl)
    rw [← hlit, List.append_nil] at hd
    rw [Find_cons_none _ _ _ (by simp only [matchHere, hd]),
      ih (fun e => hseg (List.mem_cons_of_mem _ e))]

/-- A greedy repetition over a run of the class that ends at a character outside
the class, or at the end of the text, takes the whole run when the rest of the
pattern then matches. -/
theorem starGreedy_run {ρ : Type} (cls : Char → Bool) (k : List Char → List Char → Option ρ)
    (ds acc stop : List Char) (res : ρ) (hds : ∀ d ∈ ds, cls d = true)
    (hstop : ∀ c, stop.head? = some c → cls c = false)
    (hk : k (ds.reverse ++ acc) stop = some res) :
    starGreedy cls k acc (ds ++ stop) = some res := by
  induction ds generalizing acc with
  | nil =>
    simp only [List.reverse_nil, List.nil_append] at hk ⊢
    cases stop with
    | nil => simpa only [starGreedy] using hk
    | cons c cs =>
      have hc : cls c = false := hstop c rfl
      simp only [starGreedy, hc]
      simpa using hk
  | cons d ds ih =>
    have hd := hds d (List.mem_cons_self _ _)
    rw [List.cons_append]
    simp only [starGreedy, hd, if_true]
    rw [ih (d :: acc) (fun x hx => hds x (List.mem_cons_of_mem _ hx)) (by simpa using hk)]

theorem plusGreedy_run {ρ : Type} (cls : Char → Bool) (k : List Char → List Char → Option ρ)
    (ds stop : List Char) (res : ρ) (hne : ds ≠ []) (hds : ∀ d ∈ ds, cls d = true)
    (hstop : ∀ c, stop.head? = some c → cls c = false)
    (hk : k ds.reverse stop = some res) :
    plusGreedy cls k (ds ++ stop) = some res := by
  cases ds with
  | nil => exact absurd rfl hne
  | cons d ds =>
    have hd := hds d (List.mem_cons_self _ _)
    rw [List.cons_append]
    simp only [plusGreedy, hd, if_true]
    exact starGreedy_run cls k ds [d] stop res (fun x hx => hds x (List.mem_cons_of_mem _ hx))
      hstop (by simpa using hk)

theorem digit_ne_dot (d : Char) (h : isDigit d = true) : ¬ '.' = d := by
  intro e
  subst e
  exact absurd h (by decide)

/-- The four version patterns `lit(\d+)\.\d+` match where the text reads the
literal, a numeral, a dot and a second numeral that ends the text or is followed
by a character that is no digit; the capture is the first numeral. -/
theorem matchHere_version (lit : String) (dv dm stop : List Char)
    (hdv : dv ≠ [] ∧ dv.all isDigit = true) (hdm : dm ≠ [] ∧ dm.all isDigit = true)
    (hstop : ∀ c, stop.head? = some c → isDigit c = false) :
    matchHere [.lit lit, .digitsCap, .lit ".", .digits] []
      (lit.data ++ (dv ++ ('.' :: (dm ++ stop)))) = some dv := by
  have hdot : ".".data = ['.'] := rfl
  simp only [matchHere, dropPrefix_self]
  apply plusGreedy_run isDigit _ dv _ dv hdv.1 (fun d hd => List.all_eq_true.1 hdv.2 d hd)
  · intro c hc
    simp only [List.head?_cons, Option.some.injEq] at hc
    subst hc
    decide
  · simp only [List.reverse_reverse, matchHere, hdot, dropPrefix, if_true]
    apply plusGreedy_run isDigit _ dm _ dv hdm.1 (fun d hd => List.all_eq_true.1 hdm.2 d hd) hstop
    rfl

/-- A greedy run of digits after which the pattern continues with a dot fails on
a text of digits only. -/
theorem starGreedy_no_dot (re : List ReTok) (f : List Char → List Char) (ds acc : List Char)
    (hds : ∀ d ∈ ds, isDigit d = true) :
    starGreedy isDigit (fun acc s => matchHere (.lit "." :: re) (f acc) s) acc ds = none := by
  have hdot : ".".data = ['.'] := rfl
  induction ds generalizing acc with
  | nil => simp only [starGreedy, matchHere, hdot, dropPrefix]
  | cons d ds ih =>
    have hd := hds d (List.mem_cons_self _ _)
    simp only [starGreedy, hd, if_true, ih (d :: acc) (fun x hx => hds x (List.mem_cons_of_mem _ hx))]
    simp only [matchHere, hdot, dropPrefix, if_neg (digit_ne_dot d hd)]

/-- The version patterns fail where the literal is followed by a numeral that
ends the text: the dot and the second numeral are missing. -/
theorem matchHere_no_minor (lit : String) (dv : List Char) (hdv : dv.all isDigit = true) :
    matchHere [.lit lit, .digitsCap, .lit ".", .digits] [] (lit.data ++ dv) = none := by
  simp only [matchHere, dropPrefix_self]
  cases dv with
  | nil => rfl
  | cons d ds =>
    have hall := List.all_eq_true.1 hdv
    simp only [plusGreedy, hall d (List.mem_cons_self _ _), if_true]
    exact starGreedy_no_dot [.digits] List.reverse ds [d]
      (fun x hx => hall x (List.mem_cons_of_mem _ hx))

/-! ## The texts of the rendered user-agents -/

/-- When one of the OS keywords of `parseUserAgentString` occurs in a part of a
text, the switch on the whole text selects an OS. -/
theorem parseOS_of_infix (t ua : String) (h : (parseOS t).isSome = true)
    (hin : t.data <:+: ua.data) : (parseOS ua).isSome = true := by
  have hmono : ∀ kw : String, Contains t kw = true → Contains ua kw = true := by
    intro kw hkw
    rw [Contains_iff] at hkw ⊢
    exact hkw.trans hin
  have hkey : Contains t "Windows NT 10.0" = true ∨ Contains t "iPhone" = true ∨
      Contains t "iPad" = true ∨ Contains t "Macintosh" = true ∨ Contains t "Linux" = true ∨
      Contains t "Android" = true ∨ Contains t "CrOS" = true := by
    unfold parseOS at h
    by_cases h1 : Contains t "Windows NT 10.0" = true
    · exact Or.inl h1
    by_cases h2 : Contains t "iPhone" = true
    · exact Or.inr (Or.inl h2)
    by_cases h3 : Contains t "iPad" = true
    · exact Or.inr (Or.inr (Or.inl h3))
    by_cases h4 : Contains t "Macintosh" = true
    · exact Or.inr (Or.inr (Or.inr (Or.inl h4)))
    by_cases h5 : Contains t "Linux" = true
    · exact Or.inr (Or.inr (Or.inr (Or.inr (Or.inl h5))))
    by_cases h6 : Contains t "Android" = true
    · exact Or.inr (Or.inr (Or.inr (Or.inr (Or.inr (Or.inl h6)))))
    by_cases h7 : Contains t "CrOS" = true
    · exact Or.inr (Or.inr (Or.inr (Or.inr (Or.inr (Or.inr h7)))))
    simp [h1, h2, h3, h4, h5, h6, h7] at h
  unfold parseOS
  rcases hkey with h | h | h | h | h | h | h <;> have h' := hmono _ h <;>
    split_ifs <;> simp_all

set_option maxRecDepth 100000 in
/-- The platform tokens of the OS profiles hold no slash and name an OS the
reverse parser knows. -/
theorem parsable_os_tokens :
    ∀ e ∈ osProfiles, '/' ∉ e.2.PlatformToken.data ∧ (parseOS e.2.PlatformToken).isSome = true := by
  decide

set_option maxRecDepth 100000 in
/-- The Android platform token holds no slash and names an OS the reverse parser
knows, with every device model. -/
theorem parsable_devices :
    ∀ d ∈ androidDevices, '/' ∉ ("Linux; Android 14; " ++ d ++ "").data ∧
      (parseOS ("Linux; Android 14; " ++ d ++ "")).isSome = true := by
  decide

/-- The platform token that `osToken` renders for an OS profile of the table. -/
theorem osToken_parsable (e : OperatingSystem × osProfile) (he : e ∈ osProfiles) (r q : Rng)
    (token : String) (h : osToken e.2 r = some (token, q)) :
    '/' ∉ token.data ∧ (parseOS token).isSome = true := by
  rcases osToken_cases e.2 r with ⟨hname, device, hdev, htok⟩ | ⟨hname, htok⟩
  · rw [htok] at h
    simp only [Option.some.injEq, Prod.mk.injEq] at h
    rw [← h.1, (brace_os_tokens e he).1 hname, android_token]
    exact parsable_devices device hdev
  · rw [htok] at h
    simp only [Option.some.injEq, Prod.mk.injEq] at h
    rw [← h.1]
    exact parsable_os_tokens e he

/-- The characters of the user-agent of a run for a Chromium-derived browser, on
either platform: known texts around the platform token and the three numerals of
the full version, then `Safari/537.36` (desktop) or `Mobile Safari/537.36`
(mobile), then nothing (no suffix format) or a space, `OPR/` or `Edg/` and the
numeral of the version. -/
theorem ResolvedRun_chromium_data (g : Generator) (r : Rng) (browser : Browser)
    (platform : Platform) (os : OperatingSystem) (version : Int) (r3 : Rng) (a : Agent)
    (hrun : ResolvedRun g r browser platform os version r3 a)
    (hp : platform = PlatformDesktop ∨ platform = PlatformMobile)
    (hcb : (mapGet browserProfiles browser).ChromiumBased = true) :
    ∃ (token mid : String) (sfx : List Char),
      ('/' ∉ token.data ∧ (parseOS token).isSome = true) ∧
      (mid = "Safari/537.36" ∨ mid = "Mobile Safari/537.36") ∧
      (((mapGet browserProfiles browser).UASuffix = "" ∧ sfx = []) ∨
        ((mapGet browserProfiles browser).UASuffix = "OPR/" ++ "%s" ∧
          sfx = " ".data ++ ("OPR/".data ++ (Itoa version).data)) ∨
        ((mapGet browserProfiles browser).UASuffix = "Edg/" ++ "%s" ∧
          sfx = " ".data ++ ("Edg/".data ++ (Itoa version).data))) ∧
      a.UserAgent.data =
        "Mozilla/5.0 (".data ++ (token.data ++
          (") AppleWebKit/537.36 (KHTML, like Gecko) ".data ++ ("Chrome/".data ++
            ((Itoa version).data ++ (".0.".data ++
              ((Itoa (mapGet (mapGet browserProfiles browser).Versions version).BuildNumber).data
                ++ (".".data ++ ((Itoa (IntN 999 r3).1).data ++
                  (" ".data ++ (mid.data ++ sfx)))))))))) := by
  have hfacts := ResolvedRun_facts g r browser platform os version r3 a hrun
  have hfam := chromium_family _ hfacts.2.1 hcb
  have hos := validCombos_os_known g browser (platform, os) hfacts.2.2.1
  obtain ⟨parts, r1, hparts, hua⟩ :=
    ResolvedRun_userAgent g r browser platform os version r3 a hrun
  have hfv : (fullVersionOf (mapGet browserProfiles browser) version r3).1 =
      Itoa version ++ ".0." ++
        Itoa (mapGet (mapGet browserProfiles browser).Versions version).BuildNumber ++ "." ++
        Itoa (IntN 999 r3).1 := by
    unfold fullVersionOf
    rw [if_pos hcb]
  obtain ⟨token, q, htok⟩ := osToken_isSome (mapGet osProfiles os)
    (fullVersionOf (mapGet browserProfiles browser) version r3).2
  have hprops := osToken_parsable (os, mapGet osProfiles os) hos _ _ token htok
  dsimp only at hfam
  have hparts2 : ∃ mid : String, (mid = "Safari/537.36" ∨ mid = "Mobile Safari/537.36") ∧
      parts = ["Mozilla/5.0", "(" ++ token ++ ")", "AppleWebKit/537.36", "(KHTML, like Gecko)",
          "Chrome/" ++ (Itoa version ++ ".0." ++
            Itoa (mapGet (mapGet browserProfiles browser).Versions version).BuildNumber ++ "." ++
            Itoa (IntN 999 r3).1), mid] ++
        (if (mapGet browserProfiles browser).UASuffix = "" then []
          else if replaceFirst (mapGet browserProfiles browser).UASuffix "%s" (Itoa version) ≠ ""
            then [replaceFirst (mapGet browserProfiles browser).UASuffix "%s" (Itoa version)]
            else []) := by
    rcases hp with hp | hp
    · subst hp
      rw [hfam, renderParts_chromium_desktop _ _ _ _ _ _ _ htok, hfv,
        major_of_fullVersion] at hparts
      simp only [Option.some.injEq, Prod.mk.injEq] at hparts
      exact ⟨_, Or.inl rfl, hparts.1.symm⟩
    · subst hp
      rw [hfam, renderParts_chromium_mobile _ _ _ _ _ _ _ htok, hfv,
        major_of_fullVersion] at hparts
      simp only [Option.some.injEq, Prod.mk.injEq] at hparts
      exact ⟨_, Or.inr rfl, hparts.1.symm⟩
  obtain ⟨mid, hmid, hparts3⟩ := hparts2
  rcases chromium_suffixes _ hfacts.2.1 hcb with hs | hs | hs
  · dsimp only at hs
    refine ⟨token, mid, [], hprops, hmid, Or.inl ⟨hs, rfl⟩, ?_⟩
    rw [if_pos hs, List.append_nil] at hparts3
    rw [hua, hparts3, Join_cons_data]
    simp [String.data_append]
  · dsimp only at hs
    have hne : (mapGet browserProfiles browser).UASuffix ≠ "" := by
      rw [hs]
      decide
    refine ⟨token, mid, _, hprops, hmid, Or.inr (Or.inl ⟨hs, rfl⟩), ?_⟩
    rw [if_neg hne, hs, suffix_rendered "OPR/" _ (by decide),
      if_pos (append_ne_empty_left _ _ (append_ne_empty_left _ _ (by decide)))] at hparts3
    rw [hua, hparts3, List.cons_append, Join_cons_data]
    simp [String.data_append]
  · dsimp only at hs
    have hne : (mapGet browserProfiles browser).UASuffix ≠ "" := by
      rw [hs]
      decide
    refine ⟨token, mid, _, hprops, hmid, Or.inr (Or.inr ⟨hs, rfl⟩), ?_⟩
    rw [if_neg hne, hs, suffix_rendered "Edg/" _ (by decide),
      if_pos (append_ne_empty_left _ _ (append_ne_empty_left _ _ (by decide)))] at hparts3
    rw [hua, hparts3, List.cons_append, Join_cons_data]
    simp [String.data_append]

theorem Itoa_no_slash (z : Int) : '/' ∉ (Itoa z).data := by
  intro h
  exact absurd (Itoa_chars z _ h) (by decide)

/-- The version keys of the tables are written as numerals that `Atoi` reads back,
and the version lookup of the reverse parser finds each of them. -/
theorem version_numerals :
    ∀ e ∈ browserProfiles, ∀ v ∈ mapKeys e.2.Versions,
      ((Itoa v).data ≠ [] ∧ (Itoa v).data.all isDigit = true) ∧
      Atoi (Itoa v).data = some v ∧
      findClosestVersionProfile e.2.Versions v = .ok (mapGet e.2.Versions v, v) := by
  decide

/-- In the user-agent of a Chromium-derived browser the literals `Version/`,
`Edg/`, `OPR/` and `Brave/` do not occur before the suffix: the search of a
pattern that begins with one of them goes on in the suffix. -/
theorem chromium_skip (lit : String) (hlit : lit ∈ ["Version/", "Edg/", "OPR/", "Brave/"])
    (re : List ReTok) (token dv db dp mid : String) (sfx : List Char)
    (htok : '/' ∉ token.data) (hdv : '/' ∉ dv.data) (hdb : '/' ∉ db.data)
    (hdp : '/' ∉ dp.data) (hmid : mid = "Safari/537.36" ∨ mid = "Mobile Safari/537.36") :
    FindStringSubmatch (.lit lit :: re)
      ("Mozilla/5.0 (".data ++ (token.data ++
        (") AppleWebKit/537.36 (KHTML, like Gecko) ".data ++ ("Chrome/".data ++
          (dv.data ++ (".0.".data ++ (db.data ++ (".".data ++ (dp.data ++
            (" ".data ++ (mid.data ++ sfx))))))))))) =
      FindStringSubmatch (.lit lit :: re) sfx := by
  simp only [List.mem_cons, List.mem_singleton, List.not_mem_nil, or_false] at hlit
  rcases hlit with rfl | rfl | rfl | rfl <;> rcases hmid with rfl | rfl <;>
    rw [Find_skip_known _ "Mozilla/5.0 (" _ _ (by decide),
      Find_skip_free _ token ") AppleWebKit/537.36 (KHTML, like Gecko) " _ _ '/' (by decide) htok
        (by decide),
      Find_skip_known _ ") AppleWebKit/537.36 (KHTML, like Gecko) " _ _ (by decide),
      Find_skip_known _ "Chrome/" _ _ (by decide),
      Find_skip_free _ dv ".0." _ _ '/' (by decide) hdv (by decide),
      Find_skip_known _ ".0." _ _ (by decide),
      Find_skip_free _ db "." _ _ '/' (by decide) hdb (by decide),
      Find_skip_known _ "." _ _ (by decide),
      Find_skip_free _ dp " " _ _ '/' (by decide) hdp (by decide),
      Find_skip_known _ " " _ _ (by decide),
      Find_skip_known _ _ _ _ (by decide)]

/-- The patterns of Safari, Edge, Opera and Brave find nothing in the suffix of a
Chromium user-agent: it is empty, or the literal of another browser, or the
browser's own literal followed by the major version only, where the dot and the
minor version the pattern asks for are missing. -/
theorem suffix_none (e : Browser × List ReTok) (he : e ∈ uaRegexes.take 4) (dv : String)
    (hdv : dv.data.all isDigit = true) (sfx : List Char)
    (hsfx : sfx = [] ∨ sfx = " ".data ++ ("OPR/".data ++ dv.data) ∨
      sfx = " ".data ++ ("Edg/".data ++ dv.data)) :
    FindStringSubmatch e.2 sfx = none := by
  have hslash : '/' ∉ dv.data := by
    intro h
    exact absurd (List.all_eq_true.1 hdv _ h) (by decide)
  have hedge : "Edg/".data ++ dv.data = 'E' :: ("dg/".data ++ dv.data) := rfl
  have hopera : "OPR/".data ++ dv.data = 'O' :: ("PR/".data ++ dv.data) := rfl
  have he' : e = (BrowserSafari, [.lit "Version/", .digitsCap, .lit ".", .anyStar,
        .lit "Safari/"]) ∨
      e = (BrowserEdge, [.lit "Edg/", .digitsCap, .lit ".", .digits]) ∨
      e = (BrowserOpera, [.lit "OPR/", .digitsCap, .lit ".", .digits]) ∨
      e = (BrowserBrave, [.lit "Brave/", .digitsCap, .lit ".", .digits]) := by
    simpa [uaRegexes] using he
  rcases he' with rfl | rfl | rfl | rfl <;> rcases hsfx with rfl | rfl | rfl
  · exact Find_lit_nil _ _ (by decide)
  · rw [Find_skip_known _ " " _ _ (by decide), Find_skip_known _ "OPR/" _ _ (by decide)]
    exact Find_free_end _ dv _ '/' (by decide) hslash
  · rw [Find_skip_known _ " " _ _ (by decide), Find_skip_known _ "Edg/" _ _ (by decide)]
    exact Find_free_end _ dv _ '/' (by decide) hslash
  · exact Find_lit_nil _ _ (by decide)
  · rw [Find_skip_known _ " " _ _ (by decide), Find_skip_known _ "OPR/" _ _ (by decide)]
    exact Find_free_end _ dv _ '/' (by decide) hslash
  · rw [Find_skip_known _ " " _ _ (by decide), hedge,
      Find_cons_none _ _ _ (by rw [← hedge]; exact matchHere_no_minor "Edg/" dv.data hdv),
      Find_skip_known _ "dg/" _ _ (by decide)]
    exact Find_free_end _ dv _ '/' (by decide) hslash
  · exact Find_lit_nil _ _ (by decide)
  · rw [Find_skip_known _ " " _ _ (by decide), hopera,
      Find_cons_none _ _ _ (by rw [← hopera]; exact matchHere_no_minor "OPR/" dv.data hdv),
      Find_skip_known _ "PR/" _ _ (by decide)]
    exact Find_free_end _ dv _ '/' (by decide) hslash
  · rw [Find_skip_known _ " " _ _ (by decide), Find_skip_known _ "Edg/" _ _ (by decide)]
    exact Find_free_end _ dv _ '/' (by decide) hslash
  · exact Find_lit_nil _ _ (by decide)
  · rw [Find_skip_known _ " " _ _ (by decide), Find_skip_known _ "OPR/" _ _ (by decide)]
    exact Find_free_end _ dv _ '/' (by decide) hslash
  · rw [Find_skip_known _ " " _ _ (by decide), Find_skip_known _ "Edg/" _ _ (by decide)]
    exact Find_free_end _ dv _ '/' (by decide) hslash

/-- The Chrome pattern matches the `Chrome/` token of a Chromium user-agent and
captures the numeral of the major version. -/
theorem chromium_find_chrome (token dv : String) (rest : List Char)
    (htok : '/' ∉ token.data) (hdv : dv.data ≠ [] ∧ dv.data.all isDigit = true) :
    FindStringSubmatch [.lit "Chrome/", .digitsCap, .lit ".", .digits]
      ("Mozilla/5.0 (".data ++ (token.data ++
        (") AppleWebKit/537.36 (KHTML, like Gecko) ".data ++ ("Chrome/".data ++
          (dv.data ++ (".0.".data ++ rest)))))) = some dv.data := by
  have hshape : ".0.".data ++ rest = '.' :: (['0'] ++ ('.' :: rest)) := rfl
  rw [Find_skip_known _ "Mozilla/5.0 (" _ _ (by decide),
    Find_skip_free _ token ") AppleWebKit/537.36 (KHTML, like Gecko) " _ _ '/' (by decide) htok
      (by decide),
    Find_skip_known _ ") AppleWebKit/537.36 (KHTML, like Gecko) " _ _ (by decide), hshape]
  apply Find_of_matchHere
  apply matchHere_version "Chrome/" dv.data ['0'] ('.' :: rest) hdv (by decide)
  intro c hc
  simp only [List.head?_cons, Option.some.injEq] at hc
  subst hc
  decide

/-- The classification follows from the outcome of the loop over the patterns and
an OS keyword. -/
theorem parse_of_loop (ua : String) (b : Browser) (v : Int)
    (hloop : parseBrowserLoop ua.data uaRegexes = .ok (b, v)) (hb : b ≠ "")
    (hos : (parseOS ua).isSome = true) :
    ∃ os, parseUserAgentString ua = .ok { Browser := b, Version := v, OS := os } := by
  obtain ⟨os, hos2⟩ := Option.isSome_iff_exists.1 hos
  refine ⟨os, ?_⟩
  unfold parseUserAgentString
  rw [hloop]
  simp only [if_neg hb, hos2]

/-- The user-agent of every run for a Chromium-derived browser (Chrome, Opera,
Edge, Brave) is classified as Chrome with the major version of its `Chrome/`
token: the patterns of Safari, Edge, Opera and Brave find nothing in it. -/
theorem chromium_parse (g : Generator) (r : Rng) (browser : Browser)
    (platform : Platform) (os : OperatingSystem) (version : Int) (r3 : Rng) (a : Agent)
    (hrun : ResolvedRun g r browser platform os version r3 a)
    (hp : platform = PlatformDesktop ∨ platform = PlatformMobile)
    (hcb : (mapGet browserProfiles browser).ChromiumBased = true) :
    (∀ e ∈ uaRegexes.take 4, FindStringSubmatch e.2 a.UserAgent.data = none) ∧
    FindStringSubmatch [.lit "Chrome/", .digitsCap, .lit ".", .digits] a.UserAgent.data =
      some (Itoa version).data ∧
    ∃ os2, parseUserAgentString a.UserAgent =
      .ok { Browser := BrowserChrome, Version := version, OS := os2 } := by
  have hfacts := ResolvedRun_facts g r browser platform os version r3 a hrun
  obtain ⟨hdig, hatoi, _⟩ := version_numerals _ hfacts.2.1 version hfacts.2.2.2.1
  obtain ⟨token, mid, sfx, ⟨hslash, hkey⟩, hmid, hsfx, hdata⟩ :=
    ResolvedRun_chromium_data g r browser platform os version r3 a hrun hp hcb
  have hsfx2 : sfx = [] ∨ sfx = " ".data ++ ("OPR/".data ++ (Itoa version).data) ∨
      sfx = " ".data ++ ("Edg/".data ++ (Itoa version).data) := by
    rcases hsfx with ⟨_, h⟩ | ⟨_, h⟩ | ⟨_, h⟩
    · exact Or.inl h
    · exact Or.inr (Or.inl h)
    · exact Or.inr (Or.inr h)
  have hnone : ∀ e ∈ uaRegexes.take 4, FindStringSubmatch e.2 a.UserAgent.data = none := by
    intro e he
    have hsuf := suffix_none e he (Itoa version) hdig.2 sfx hsfx2
    have he' : e = (BrowserSafari, [.lit "Version/", .digitsCap, .lit ".", .anyStar,
          .lit "Safari/"]) ∨
        e = (BrowserEdge, [.lit "Edg/", .digitsCap, .lit ".", .digits]) ∨
        e = (BrowserOpera, [.lit "OPR/", .digitsCap, .lit ".", .digits]) ∨
        e = (BrowserBrave, [.lit "Brave/", .digitsCap, .lit ".", .digits]) := by
      simpa [uaRegexes] using he
    rcases he' with rfl | rfl | rfl | rfl <;>
      rw [hdata, chromium_skip _ (by decide) _ token (Itoa version) _ _ mid sfx hslash
        (Itoa_no_slash _) (Itoa_no_slash _) (Itoa_no_slash _) hmid] <;>
      exact hsuf
  have hchrome : FindStringSubmatch [.lit "Chrome/", .digitsCap, .lit ".", .digits]
      a.UserAgent.data = some (Itoa version).data := by
    rw [hdata]
    exact chromium_find_chrome token (Itoa version) _ hslash hdig
  refine ⟨hnone, hchrome, ?_⟩
  apply parse_of_loop
  · have h1 := hnone (uaRegexes.get ⟨0, by decide⟩) (by decide)
    have h2 := hnone (uaRegexes.get ⟨1, by decide⟩) (by decide)
    have h3 := hnone (uaRegexes.get ⟨2, by decide⟩) (by decide)
    have h4 := hnone (uaRegexes.get ⟨3, by decide⟩) (by decide)
    simp only [uaRegexes, List.get] at h1 h2 h3 h4
    simp only [parseBrowserLoop, uaRegexes, h1, h2, h3, h4, hchrome, hatoi]
  · decide
  · apply parseOS_of_infix token _ hkey
    rw [hdata]
    exact ⟨_, _, List.append_assoc _ _ _⟩

/-- The characters of the user-agent of a run for Firefox, on either platform. -/
theorem ResolvedRun_firefox_data (g : Generator) (r : Rng)
    (platform : Platform) (os : OperatingSystem) (version : Int) (r3 : Rng) (a : Agent)
    (hrun : ResolvedRun g r BrowserFirefox platform os version r3 a)
    (hp : platform = PlatformDesktop ∨ platform = PlatformMobile) :
    ∃ token : String,
      ('/' ∉ token.data ∧ (parseOS token).isSome = true) ∧
      a.UserAgent.data =
        "Mozilla/5.0 (".data ++ (token.data ++ ("; rv:".data ++ ((Itoa version).data ++
          (".0) Gecko/20100101 ".data ++ ("Firefox/".data ++ ((Itoa version).data ++
            (".0".data ++ []))))))) := by
  have hfacts := ResolvedRun_facts g r BrowserFirefox platform os version r3 a hrun
  have hos := validCombos_os_known g BrowserFirefox (platform, os) hfacts.2.2.1
  obtain ⟨parts, r1, hparts, hua⟩ :=
    ResolvedRun_userAgent g r BrowserFirefox platform os version r3 a hrun
  obtain ⟨token, q, htok⟩ := osToken_isSome (mapGet osProfiles os)
    (fullVersionOf (mapGet browserProfiles BrowserFirefox) version r3).2
  have hprops := osToken_parsable (os, mapGet osProfiles os) hos _ _ token htok
  have hfam : (mapGet browserProfiles BrowserFirefox).Family = Gecko := rfl
  rw [hfam, renderParts_gecko platform hp _ _ _ _ _ _ _ htok,
    firefox_revision version hfacts.2.2.2.1] at hparts
  simp only [Option.some.injEq, Prod.mk.injEq] at hparts
  refine ⟨token, hprops, ?_⟩
  rw [hua, ← hparts.1, Join_cons_data]
  simp [String.data_append]

/-- In the user-agent of Firefox the literals of the five patterns that come
before the Firefox pattern do not occur. -/
theorem firefox_none (lit : String)
    (hlit : lit ∈ ["Version/", "Edg/", "OPR/", "Brave/", "Chrome/"])
    (re : List ReTok) (token dv : String)
    (htok : '/' ∉ token.data) (hdv : '/' ∉ dv.data) :
    FindStringSubmatch (.lit lit :: re)
      ("Mozilla/5.0 (".data ++ (token.data ++ ("; rv:".data ++ (dv.data ++
        (".0) Gecko/20100101 ".data ++ ("Firefox/".data ++ (dv.data ++
          (".0".data ++ []))))))))  = none := by
  simp only [List.mem_cons, List.mem_singleton, List.not_mem_nil, or_false] at hlit
  rcases hlit with rfl | rfl | rfl | rfl | rfl <;>
    rw [Find_skip_known _ "Mozilla/5.0 (" _ _ (by decide),
      Find_skip_free _ token "; rv:" _ _ '/' (by decide) htok (by decide),
      Find_skip_known _ "; rv:" _ _ (by decide),
      Find_skip_free _ dv ".0) Gecko/20100101 " _ _ '/' (by decide) hdv (by decide),
      Find_skip_known _ ".0) Gecko/20100101 " _ _ (by decide),
      Find_skip_known _ "Firefox/" _ _ (by decide),
      Find_skip_free _ dv ".0" _ _ '/' (by decide) hdv (by decide),
      Find_skip_known _ ".0" _ _ (by decide)] <;>
    exact Find_lit_nil _ _ (by decide)

/-- The Firefox pattern matches the `Firefox/` token of a Firefox user-agent and
captures the numeral of the version. -/
theorem firefox_find (token dv : String)
    (htok : '/' ∉ token.data) (hdv : dv.data ≠ [] ∧ dv.data.all isDigit = true) :
    FindStringSubmatch [.lit "Firefox/", .digitsCap, .lit ".", .digits]
      ("Mozilla/5.0 (".data ++ (token.data ++ ("; rv:".data ++ (dv.data ++
        (".0) Gecko/20100101 ".data ++ ("Firefox/".data ++ (dv.data ++
          (".0".data ++ [])))))))) = some dv.data := by
  have hslash : '/' ∉ dv.data := by
    intro h
    exact absurd (List.all_eq_true.1 hdv.2 _ h) (by decide)
  have hshape : ".0".data ++ ([] : List Char) = '.' :: (['0'] ++ []) := rfl
  rw [Find_skip_known _ "Mozilla/5.0 (" _ _ (by decide),
    Find_skip_free _ token "; rv:" _ _ '/' (by decide) htok (by decide),
    Find_skip_known _ "; rv:" _ _ (by decide),
    Find_skip_free _ dv ".0) Gecko/20100101 " _ _ '/' (by decide) hslash (by decide),
    Find_skip_known _ ".0) Gecko/20100101 " _ _ (by decide), hshape]
  apply Find_of_matchHere
  apply matchHere_version "Firefox/" dv.data ['0'] [] hdv (by decide)
  intro c hc
  simp at hc

/-- The user-agent of every run for Firefox is classified as Firefox with the
version of the run. -/
theorem firefox_parse (g : Generator) (r : Rng)
    (platform : Platform) (os : OperatingSystem) (version : Int) (r3 : Rng) (a : Agent)
    (hrun : ResolvedRun g r BrowserFirefox platform os version r3 a)
    (hp : platform = PlatformDesktop ∨ platform = PlatformMobile) :
    ∃ os2, parseUserAgentString a.UserAgent =
      .ok { Browser := BrowserFirefox, Version := version, OS := os2 } := by
  have hfacts := ResolvedRun_facts g r BrowserFirefox platform os version r3 a hrun
  obtain ⟨hdig, hatoi, _⟩ := version_numerals _ hfacts.2.1 version hfacts.2.2.2.1
  obtain ⟨token, ⟨hslash, hkey⟩, hdata⟩ :=
    ResolvedRun_firefox_data g r platform os version r3 a hrun hp
  have hnone : ∀ (lit : String) (re : List ReTok),
      lit ∈ ["Version/", "Edg/", "OPR/", "Brave/", "Chrome/"] →
      FindStringSubmatch (.lit lit :: re) a.UserAgent.data = none := by
    intro lit re hlit
    rw [hdata]
    exact firefox_none lit hlit re token (Itoa version) hslash (Itoa_no_slash _)
  have hfire : FindStringSubmatch [.lit "Firefox/", .digitsCap, .lit ".", .digits]
      a.UserAgent.data = some (Itoa version).data := by
    rw [hdata]
    exact firefox_find token (Itoa version) hslash hdig
  apply parse_of_loop
  · simp only [parseBrowserLoop, uaRegexes, hnone "Version/" _ (by decide),
      hnone "Edg/" _ (by decide), hnone "OPR/" _ (by decide), hnone "Brave/" _ (by decide),
      hnone "Chrome/" _ (by decide), hfire, hatoi]
  · decide
  · apply parseOS_of_infix token _ hkey
    rw [hdata]
    exact ⟨_, _, List.append_assoc _ _ _⟩

set_option maxRecDepth 100000 in
/-- The six user-agents of Safari, two versions on the two macOS profiles and on
iOS, are classified as Safari with the version they were rendered for. -/
theorem safari_texts_parse :
    (∀ os ∈ [osMacIntel, osMacAppleSilicon],
      ∀ v ∈ mapKeys (mapGet browserProfiles BrowserSafari).Versions,
        parseUserAgentString
          (Join ["Mozilla/5.0", "(" ++ (mapGet osProfiles os).PlatformToken ++ ")",
            "AppleWebKit/" ++
              (mapGet (mapGet browserProfiles BrowserSafari).Versions v).WebKitVersion,
            "(KHTML, like Gecko)",
            "Version/" ++ (mapGet (mapGet browserProfiles BrowserSafari).Versions v).SafariVersion,
            if (mapGet osProfiles os).IsMobile then "Safari/604.1"
            else "Safari/" ++
              (mapGet (mapGet browserProfiles BrowserSafari).Versions v).WebKitVersion] " ") =
          .ok { Browser := BrowserSafari, Version := v, OS := osMacIntel }) ∧
    (∀ v ∈ mapKeys (mapGet browserProfiles BrowserSafari).Versions,
      parseUserAgentString
        (Join ["Mozilla/5.0", "(" ++ (mapGet osProfiles OSiOS).PlatformToken ++ ")",
          "AppleWebKit/" ++
            (mapGet (mapGet browserProfiles BrowserSafari).Versions v).WebKitVersion,
          "(KHTML, like Gecko)",
          "Version/" ++ (mapGet (mapGet browserProfiles BrowserSafari).Versions v).SafariVersion,
          "Mobile/" ++ (mapGet (mapGet browserProfiles BrowserSafari).Versions v).MobileVersion,
          if (mapGet osProfiles OSiOS).IsMobile then "Safari/604.1"
          else "Safari/" ++
            (mapGet (mapGet browserProfiles BrowserSafari).Versions v).WebKitVersion] " ") =
        .ok { Browser := BrowserSafari, Version := v, OS := OSiOS }) := by
  decide

/-- The user-agent of every run for Safari is classified as Safari with the
version of the run. -/
theorem safari_parse (g : Generator) (r : Rng)
    (platform : Platform) (os : OperatingSystem) (version : Int) (r3 : Rng) (a : Agent)
    (hrun : ResolvedRun g r BrowserSafari platform os version r3 a) :
    ∃ os2, parseUserAgentString a.UserAgent =
      .ok { Browser := BrowserSafari, Version := version, OS := os2 } := by
  have hfacts := ResolvedRun_facts g r BrowserSafari platform os version r3 a hrun
  obtain ⟨parts, r1, hparts, hua⟩ :=
    ResolvedRun_userAgent g r BrowserSafari platform os version r3 a hrun
  have hfam : (mapGet browserProfiles BrowserSafari).Family = WebKit := rfl
  have htok : ∀ o ∈ [OSiOS, osMacIntel, osMacAppleSilicon], ∀ q,
      osToken (mapGet osProfiles o) q = some ((mapGet osProfiles o).PlatformToken, q) := by
    intro o ho q
    rcases osToken_cases (mapGet osProfiles o) q with ⟨hn, _⟩ | ⟨_, h⟩
    · exfalso
      revert hn
      simp only [List.mem_cons, List.mem_singleton, List.not_mem_nil, or_false] at ho
      rcases ho with rfl | rfl | rfl <;> decide
    · exact h
  rw [hfam] at hparts
  rcases safari_combo g _ hfacts.2.2.1 with hc | hc | hc
  · obtain ⟨rfl, rfl⟩ := Prod.mk.inj hc
    rw [renderParts_webkit_mobile _ _ _ _ _ _ _ (htok OSiOS (by decide) _)] at hparts
    simp only [Option.some.injEq, Prod.mk.injEq] at hparts
    rw [hua, ← hparts.1]
    exact ⟨_, safari_texts_parse.2 version hfacts.2.2.2.1⟩
  · obtain ⟨rfl, rfl⟩ := Prod.mk.inj hc
    rw [renderParts_webkit_desktop _ _ _ _ _ _ _ (htok osMacIntel (by decide) _)] at hparts
    simp only [Option.some.injEq, Prod.mk.injEq] at hparts
    rw [hua, ← hparts.1]
    exact ⟨_, safari_texts_parse.1 osMacIntel (by decide) version hfacts.2.2.2.1⟩
  · obtain ⟨rfl, rfl⟩ := Prod.mk.inj hc
    rw [renderParts_webkit_desktop _ _ _ _ _ _ _ (htok osMacAppleSilicon (by decide) _)] at hparts
    simp only [Option.some.injEq, Prod.mk.injEq] at hparts
    rw [hua, ← hparts.1]
    exact ⟨_, safari_texts_parse.1 osMacAppleSilicon (by decide) version hfacts.2.2.2.1⟩

/-- A text classified with a version that is a key of the browser's table is
accepted by `FromUserAgentString`. -/
theorem FromUserAgentString_of_key (s : String) (rt : RequestType) (q : Rng) (p : parsedUA)
    (hparse : parseUserAgentString s = .ok p)
    (hmem : (p.Browser, mapGet browserProfiles p.Browser) ∈ browserProfiles)
    (hkey : p.Version ∈ mapKeys (mapGet browserProfiles p.Browser).Versions) :
    ∃ a2, FromUserAgentString s rt q = .ok a2 ∧ a2.UserAgent = s ∧
      a2.ClientHelloID = findClosestChromeProfileForParser p.Version := by
  obtain ⟨_, _, hfind⟩ := version_numerals _ hmem p.Version hkey
  dsimp only at hfind
  rw [FromUserAgentString_of_parse s rt q p hparse, hfind]
  obtain ⟨m, _, hbuild⟩ := buildStaticHeaders_isSome (mapGet browserProfiles p.Browser)
    (mapGet osProfiles p.OS)
    (mapGet platformProfiles
      (if p.OS = OSAndroid ∨ p.OS = OSiOS then PlatformMobile else PlatformDesktop))
    p.Version
    (if (mapGet browserProfiles p.Browser).ChromiumBased then
      Itoa p.Version ++ ".0." ++
        Itoa (mapGet (mapGet browserProfiles p.Browser).Versions p.Version).BuildNumber ++ ".0"
    else "")
    (mapGet (mapGet browserProfiles p.Browser).Versions p.Version) rt q
  simp only [hbuild]
  exact ⟨_, rfl, rfl, rfl⟩

/-- C39: round trip for Chrome, Firefox and Safari. Every Agent `Generate` returns
in browser mode comes from a resolved browser, platform, OS and version (a key of
the browser's version table). When the browser is Chrome, Firefox or Safari and
the platform is one of the two that have a profile, desktop or mobile (for Firefox
and Safari it always is), `parseUserAgentString` succeeds on the user-agent and
returns that browser and that version, and `FromUserAgentString` returns an Agent
for it, with every request type and every visiting order of the header map. -/
theorem parser_round_trip (g : Generator) (r : Rng) (a : Agent)
    (hbot : g.useBotAgents = false) (hgen : Generate g r = .ok a) :
    ∃ browser platform os version r3,
      ResolvedRun g r browser platform os version r3 a ∧
      version ∈ mapKeys (mapGet browserProfiles browser).Versions ∧
      (browser = BrowserFirefox ∨ browser = BrowserSafari →
        platform = PlatformDesktop ∨ platform = PlatformMobile) ∧
      (browser = BrowserChrome ∨ browser = BrowserFirefox ∨ browser = BrowserSafari →
        platform = PlatformDesktop ∨ platform = PlatformMobile →
        (∃ os2, parseUserAgentString a.UserAgent =
          .ok { Browser := browser, Version := version, OS := os2 }) ∧
        ∀ (rt : RequestType) (q : Rng),
          ∃ a2, FromUserAgentString a.UserAgent rt q = .ok a2 ∧ a2.UserAgent = a.UserAgent) := by
  obtain ⟨browser, platform, os, version, r3, hrun⟩ := Generate_browser_inv g r a hbot hgen
  have hfacts := ResolvedRun_facts g r browser platform os version r3 a hrun
  refine ⟨browser, platform, os, version, r3, hrun, hfacts.2.2.2.1, ?_, ?_⟩
  · intro hb
    rcases hb with rfl | rfl
    · rcases firefox_combo g _ hfacts.2.2.1 with hc | ⟨o, _, hc⟩
      · exact Or.inr (Prod.mk.inj hc).1
      · exact Or.inl (Prod.mk.inj hc).1
    · rcases safari_combo g _ hfacts.2.2.1 with hc | hc | hc
      · exact Or.inr (Prod.mk.inj hc).1
      · exact Or.inl (Prod.mk.inj hc).1
      · exact Or.inl (Prod.mk.inj hc).1
  · intro hb hp
    have hparse : ∃ os2, parseUserAgentString a.UserAgent =
        .ok { Browser := browser, Version := version, OS := os2 } := by
      rcases hb with rfl | rfl | rfl
      · exact (chromium_parse g r _ platform os version r3 a hrun hp rfl).2.2
      · exact firefox_parse g r platform os version r3 a hrun hp
      · exact safari_parse g r platform os version r3 a hrun
    refine ⟨hparse, ?_⟩
    intro rt q
    obtain ⟨os2, hos2⟩ := hparse
    obtain ⟨a2, h1, h2, _⟩ := FromUserAgentString_of_key a.UserAgent rt q _ hos2 hfacts.2.1
      hfacts.2.2.2.1
    exact ⟨a2, h1, h2⟩

set_option maxRecDepth 100000 in
/-- C39 (witness): the generator of the test `FirefoxMobile` with draws all zero:
the user-agent is classified as Firefox 127. -/
theorem parser_round_trip_witness :
    ∃ os2, parseUserAgentString (agentOf (Generate firefoxMobileGenerator zeroRng)).UserAgent =
      .ok { Browser := BrowserFirefox, Version := 127, OS := os2 } := by
  obtain ⟨browser, platform, os, version, r3, hrun, _, hconc, htrip⟩ :=
    parser_round_trip firefoxMobileGenerator zeroRng
      (agentOf (Generate firefoxMobileGenerator zeroRng)) rfl (by decide)
  have hb : browser = BrowserFirefox :=
    ResolvedRun_browser_single _ _ browser platform os version r3 _ BrowserFirefox rfl
      (by decide) hrun
  have hv : version = 127 :=
    ResolvedRun_version_pinned _ _ browser platform os version r3 _ 127 rfl rfl hrun
  subst hb
  subst hv
  exact (htrip (Or.inr (Or.inl rfl)) (hconc (Or.inl rfl))).1

/-- C40: every Agent `Generate` returns in browser mode comes from a resolved
browser, platform, OS and version. When the browser is Edge, Opera or Brave and the
platform is desktop or mobile, the user-agent is the Chromium text with the
`Chrome/` token of the version, followed for Edge by ` Edg/` and for Opera by
` OPR/` and the major version alone, and for Brave by nothing; the patterns of
Edge, Opera and Brave (and of Safari) find nothing in it, the Chrome pattern
captures the major version, and `parseUserAgentString` returns the browser Chrome
with that version. The Edge and Opera patterns fail on their own token because the
dot and the minor version are missing; the suffix formats are `Edg/%s` and
`OPR/%s`, and Brave has none. -/
theorem derived_browsers_parse_as_chrome (g : Generator) (r : Rng) (a : Agent)
    (hbot : g.useBotAgents = false) (hgen : Generate g r = .ok a) :
    ∃ browser platform os version r3,
      ResolvedRun g r browser platform os version r3 a ∧
      (browser = BrowserEdge ∨ browser = BrowserOpera ∨ browser = BrowserBrave →
        platform = PlatformDesktop ∨ platform = PlatformMobile →
        (∃ os2, parseUserAgentString a.UserAgent =
          .ok { Browser := BrowserChrome, Version := version, OS := os2 }) ∧
        (∀ p, parseUserAgentString a.UserAgent = .ok p →
          p.Browser ≠ BrowserEdge ∧ p.Browser ≠ BrowserOpera ∧ p.Browser ≠ BrowserBrave) ∧
        (∀ e ∈ uaRegexes,
          e.1 = BrowserSafari ∨ e.1 = BrowserEdge ∨ e.1 = BrowserOpera ∨ e.1 = BrowserBrave →
          FindStringSubmatch e.2 a.UserAgent.data = none) ∧
        FindStringSubmatch [.lit "Chrome/", .digitsCap, .lit ".", .digits] a.UserAgent.data =
          some (Itoa version).data ∧
        (∃ token mid : String, (mid = "Safari/537.36" ∨ mid = "Mobile Safari/537.36") ∧
          a.UserAgent =
            "Mozilla/5.0 (" ++ token ++ ") AppleWebKit/537.36 (KHTML, like Gecko) Chrome/" ++
              Itoa version ++ ".0." ++
              Itoa (mapGet (mapGet browserProfiles browser).Versions version).BuildNumber ++
              "." ++ Itoa (IntN 999 r3).1 ++ " " ++ mid ++
              (if browser = BrowserEdge then " Edg/" ++ Itoa version
                else if browser = BrowserOpera then " OPR/" ++ Itoa version else "")) ∧
        matchHere [.lit "Edg/", .digitsCap, .lit ".", .digits] []
          ("Edg/".data ++ (Itoa version).data) = none ∧
        matchHere [.lit "OPR/", .digitsCap, .lit ".", .digits] []
          ("OPR/".data ++ (Itoa version).data) = none) ∧
      (mapGet browserProfiles BrowserEdge).UASuffix = "Edg/%s" ∧
      (mapGet browserProfiles BrowserOpera).UASuffix = "OPR/%s" ∧
      (mapGet browserProfiles BrowserBrave).UASuffix = "" := by
  obtain ⟨browser, platform, os, version, r3, hrun⟩ := Generate_browser_inv g r a hbot hgen
  have hfacts := ResolvedRun_facts g r browser platform os version r3 a hrun
  refine ⟨browser, platform, os, version, r3, hrun, ?_, rfl, rfl, rfl⟩
  intro hb hp
  have hcb : (mapGet browserProfiles browser).ChromiumBased = true := by
    rcases hb with rfl | rfl | rfl <;> rfl
  obtain ⟨hdig, _, _⟩ := version_numerals _ hfacts.2.1 version hfacts.2.2.2.1
  obtain ⟨hnone, hchrome, os2, hparse⟩ :=
    chromium_parse g r browser platform os version r3 a hrun hp hcb
  obtain ⟨token, mid, sfx, _, hmid, hsfx, hdata⟩ :=
    ResolvedRun_chromium_data g r browser platform os version r3 a hrun hp hcb
  refine ⟨⟨os2, hparse⟩, ?_, ?_, hchrome, ⟨token, mid, hmid, ?_⟩,
    matchHere_no_minor "Edg/" _ hdig.2, matchHere_no_minor "OPR/" _ hdig.2⟩
  · intro p hp2
    rw [hparse] at hp2
    simp only [Except.ok.injEq] at hp2
    rw [← hp2]
    refine ⟨?_, ?_, ?_⟩ <;> dsimp only <;> decide
  · intro e he hfirst
    apply hnone e
    simp only [uaRegexes, List.mem_cons, List.mem_singleton, List.not_mem_nil, or_false] at he
    rcases he with rfl | rfl | rfl | rfl | rfl | rfl
    · decide
    · decide
    · decide
    · decide
    · exact absurd hfirst (by decide)
    · exact absurd hfirst (by decide)
  · apply String.ext
    rw [hdata]
    rcases hb with rfl | rfl | rfl
    · have hs : sfx = " ".data ++ ("Edg/".data ++ (Itoa version).data) := by
        rcases hsfx with ⟨h, _⟩ | ⟨h, _⟩ | ⟨_, h⟩
        · exact absurd h (by decide)
        · exact absurd h (by decide)
        · exact h
      rw [hs, if_pos rfl]
      simp [String.data_append]
    · have hs : sfx = " ".data ++ ("OPR/".data ++ (Itoa version).data) := by
        rcases hsfx with ⟨h, _⟩ | ⟨_, h⟩ | ⟨h, _⟩
        · exact absurd h (by decide)
        · exact h
        · exact absurd h (by decide)
      rw [hs, if_neg (by decide), if_pos rfl]
      simp [String.data_append]
    · have hs : sfx = [] := by
        rcases hsfx with ⟨_, h⟩ | ⟨h, _⟩ | ⟨h, _⟩
        · exact h
        · exact absurd h (by decide)
        · exact absurd h (by decide)
      rw [hs, if_neg (by decide), if_neg (by decide)]
      simp [String.data_append]

set_option maxRecDepth 100000 in
/-- C40 (witness): the generator of the test `Opera` with draws all zero: the
user-agent ends with `OPR/128` and is classified as Chrome 128. -/
theorem derived_browsers_parse_as_chrome_witness :
    ∃ os2, parseUserAgentString (agentOf (Generate opera128Generator zeroRng)).UserAgent =
      .ok { Browser := BrowserChrome, Version := 128, OS := os2 } := by
  obtain ⟨browser, platform, os, version, r3, hrun, hmain, _⟩ :=
    derived_browsers_parse_as_chrome opera128Generator zeroRng
      (agentOf (Generate opera128Generator zeroRng)) rfl (by decide)
  have hb : browser = BrowserOpera :=
    ResolvedRun_browser_single _ _ browser platform os version r3 _ BrowserOpera rfl
      (by decide) hrun
  have hv : version = 128 :=
    ResolvedRun_version_pinned _ _ browser platform os version r3 _ 128 rfl rfl hrun
  have hfacts := ResolvedRun_facts _ _ browser platform os version r3 _ hrun
  have hp : platform = PlatformDesktop :=
    validCombos_platform_single opera128Generator browser PlatformDesktop (platform, os) rfl
      (by decide) hfacts.2.2.1
  subst hb
  subst hv
  exact (hmain (Or.inr (Or.inl rfl)) (Or.inl hp)).1

end Legitagent
